import Mathlib

/-! # Halo-exchange stencil of Grid (`Grid/stencil/Stencil.h`)

A shallow embedding of `CartesianStencil` and of the routines that build its
neighbour table and drive one halo exchange, followed by theorems about them.

Conventions of the embedding

* C `int` values are `Int` (or `Nat` where the source only ever holds a loop
  index, an extent or a count); `/` and `%` on `int` are the truncating
  `Int.tdiv` and `Int.tmod`.  Signed overflow is undefined in the source and is
  not modelled.  Stores into the `uint64_t` / `uint8_t` fields of a
  `StencilEntry` reduce modulo `2^64` / `2^8`.
* `GridBase`, the compressor and the decompressor are not part of this
  translation unit: the members the stencil reads are fields of a structure
  that the theorems take as a parameter.
* Memory that the source leaves uninitialised (`resize` of the entry table and
  of the flag vectors, freshly allocated buffers) is a parameter
  (`Indeterminate`), so that a statement proved for every value of it does not
  depend on what was there.
* Data-parallel loops (`accelerator_forNB`, `thread_for`) run their iterations
  in index order.
* Calls that leave the class (barriers, transport, compressor hooks) are
  recorded, in order, in the `trace` field of the state.
-/

namespace Grid

/-! ## Integer helpers -/

/-- C remainder on `int`. -/
def cmod (a b : Int) : Int := Int.tmod a b

/-- C quotient on `int`. -/
def cdiv (a b : Int) : Int := Int.tdiv a b

/-- Conversion of an `int` to `uint64_t`: a non-negative `int` is kept, a
negative one wraps around `2^64`. -/
def toU64 (v : Int) : Nat := if 0 ≤ v then v.toNat else (v + 18446744073709551616).toNat

/-- Conversion of an `int` to `uint8_t`. -/
def toU8 (v : Int) : Nat := (v % 256).toNat

/-- Truth value of an `int` used as a condition. -/
def truthy (v : Int) : Bool := v != 0

/-- The `int` produced by a C comparison or logical operator. -/
def ofBool (b : Bool) : Int := if b then 1 else 0

/-- Parity tag `Even` of Grid. -/
def Even : Nat := 0

/-- Parity tag `Odd` of Grid. -/
def Odd : Nat := 1

/-- A counted loop `for(int i=0;i<n;i++) body`. -/
def forLoop {σ : Type} : Nat → (Nat → σ → σ) → σ → σ
  | 0, _, s => s
  | n + 1, body, s => body n (forLoop n body s)

/-- A counted loop whose body may fail an assertion. -/
def forLoopM {σ ε : Type} : Nat → (Nat → σ → Except ε σ) → σ → Except ε σ
  | 0, _, s => .ok s
  | n + 1, body, s => forLoopM n body s >>= body n

/-! ## The grid, as far as the stencil reads it -/

/-- Communication policy of `CartesianCommunicator`. -/
inductive CommunicatorPolicy_t
  | CommunicatorPolicyConcurrent
  | CommunicatorPolicySequential
  deriving DecidableEq, Repr

/-- Members of `GridBase` (and of its base `CartesianCommunicator`) used by the
stencil.  Per-axis vectors are functions of the axis. -/
structure GridBase where
  /-- Number of SIMD lanes of a vector object. -/
  Nsimd : Nat
  _fdimensions : Nat → Nat
  _gdimensions : Nat → Nat
  _ldimensions : Nat → Nat
  _rdimensions : Nat → Nat
  _processors : Nat → Nat
  _processor_coor : Nat → Nat
  _simd_layout : Nat → Nat
  _ostride : Nat → Nat
  _slice_nblock : Nat → Nat
  _slice_block : Nat → Nat
  _slice_stride : Nat → Nat
  /-- Result of `oSites()`. -/
  oSites : Nat
  /-- Result of `CheckerBoarded(dim)`. -/
  CheckerBoarded : Nat → Bool
  /-- Result of `CheckerBoardFromOindex(oindex)`. -/
  CheckerBoardFromOindex : Nat → Nat
  /-- Result of `CheckerBoardShiftForCB(source_cb,dim,shift,ocb)`. -/
  CheckerBoardShiftForCB : Nat → Nat → Int → Nat → Int
  /-- Result of `PermuteType(dim)`. -/
  PermuteType : Nat → Nat
  /-- Result of `PermuteDim(dim)`. -/
  PermuteDim : Nat → Int
  /-- The two ranks that `ShiftedRanks(dim,shift,a,b)` stores in `a` and `b`. -/
  ShiftedRanks : Nat → Int → Nat × Nat
  /-- Result of `ThisRank()`. -/
  ThisRank : Nat
  /-- Static `CartesianCommunicator::CommunicatorPolicy`. -/
  CommunicatorPolicy : CommunicatorPolicy_t
  /-- Static `CartesianCommunicator::nCommThreads`. -/
  nCommThreads : Int

/-! ## Records of the stencil -/

/-- Record `StencilEntry`. -/
structure StencilEntry where
  _byte_offset : Nat
  _offset : Nat
  _is_local : Nat
  _permute : Nat
  _around_the_world : Nat
  deriving DecidableEq, Repr

/-- The buffers a pointer of the stencil can point into; `indeterminate` is the
value of a pointer variable that was declared and never assigned. -/
inductive Buffer
  | u_send_buf
  | u_recv_buf
  | u_simd_send_buf (l : Nat)
  | u_simd_recv_buf (l : Nat)
  | indeterminate
  deriving DecidableEq, Repr

/-- An address `&buf[index]`, in units of `cobj`. -/
structure Pointer where
  base : Buffer
  index : Nat
  deriving DecidableEq, Repr

/-- Record `Packet`. -/
structure Packet where
  send_buf : Pointer
  recv_buf : Pointer
  to_rank : Nat
  from_rank : Nat
  do_send : Int
  do_recv : Int
  bytes : Int
  deriving DecidableEq, Repr

/-- Record `Merge`; `vpointers` holds the `maxl = 2` half-buffer pointers. -/
structure Merge where
  mpointer : Pointer
  vpointers : List Pointer
  buffer_size : Int
  type : Int
  deriving DecidableEq, Repr

/-- Record `Decompress`. -/
structure Decompress where
  kernel_p : Pointer
  mpi_p : Pointer
  buffer_size : Int
  deriving DecidableEq, Repr

/-- Record `CopyReceiveBuffer`. -/
structure CopyReceiveBuffer where
  from_p : Pointer
  to_p : Pointer
  bytes : Int
  deriving DecidableEq, Repr

/-- Record `CachedTransfer`. -/
structure CachedTransfer where
  direction : Int
  OrthogPlane : Int
  DestProc : Int
  bytes : Int
  lane : Int
  cb : Int
  recv_buf : Pointer
  deriving DecidableEq, Repr

/-- The five member functions called by `HaloExchange`. -/
inductive Step
  | Prepare
  | HaloGather
  | Communicate
  | CommsMergeSHM
  | CommsMerge
  deriving DecidableEq, Repr

/-- What the stencil does that is visible outside its own tables: entry into
one of the five steps, and every call that leaves the class. -/
inductive Event
  | call (s : Step)
  | StencilBarrier
  | accelerator_barrier
  | Point (point : Nat)
  | Gather_plane_table_compute (dimension : Nat) (plane : Int) (cbmask : Nat) (off : Nat)
  | Gather_plane_simple_table (face : Nat) (buffer : Buffer) (off : Nat) (so : Int)
  | Gather_plane_exchange_table (face : Nat) (p0 p1 : Pointer) (dimension : Nat) (plane : Int)
      (cbmask : Nat) (type : Nat)
  | StencilSendToRecvFrom (p : Packet) (dir : Nat)
  | StencilSendToRecvFromBegin (p : Packet) (dir : Nat)
  | StencilSendToRecvFromComplete (dir : Nat)
  | coalescedWrite (to_p from_p : Pointer) (j : Nat)
  | Exchange (mp vp0 vp1 : Pointer) (type : Int) (o : Nat)
  | Decompress (kp mp : Pointer) (o : Nat)
  deriving DecidableEq, Repr

/-- The assertions of the source, named by the condition they test. -/
inductive Assertion
  | rotate_and_comm
  | comm_dim
  | simd_layout_is_1
  | simd_layout_is_maxl
  | shift_nonneg
  | shift_lt_fd
  | dirichlet_displacement
  | checkerboard
  | unified_buffer_size
  | xmit_to_rank
  | recv_from_rank
  | send_buf_null
  | cbmask_is_3
  | bytes_simd_layout
  | sx_is_nbr_ox
  | table_size_even
  deriving DecidableEq, Repr

/-- The run continues when the condition holds and stops at the assertion otherwise. -/
def assert (c : Bool) (a : Assertion) : Except Assertion Unit :=
  if c then .ok () else .error a

/-- Template parameter `Parameters`: the Dirichlet block list. -/
structure Parameters where
  dirichlet : List Int
  deriving DecidableEq, Repr

/-- State of a `CartesianStencil<vobj,cobj,Parameters>`; `C` is `cobj`. -/
structure CartesianStencil (C : Type) where
  _grid : GridBase
  parameters : Parameters
  _checkerboard : Nat
  _npoints : Nat
  _osites : Nat
  _directions : List Nat
  _distances : List Int
  _comms_send : Nat → Int
  _comms_recv : Nat → Int
  _comm_buf_size : Nat → Nat
  _permute_type : Nat → Nat
  same_node : Nat → Int
  _entries : Nat → StencilEntry
  /-- Result of `_entries.size()`. -/
  _entries_size : Nat
  face_table_computed : Int
  face_table : List (List (Nat × Nat))
  surface_list : List Nat
  Packets : List Packet
  Mergers : List Merge
  MergersSHM : List Merge
  Decompressions : List Decompress
  DecompressionsSHM : List Decompress
  CopyReceiveBuffers : List CopyReceiveBuffer
  CachedTransfers : List CachedTransfer
  u_comm_offset : Nat
  _unified_buffer_size : Nat
  u_send_buf : Nat → C
  u_recv_buf : Nat → C
  u_simd_send_buf : Nat → Nat → C
  u_simd_recv_buf : Nat → Nat → C
  sizeof_vobj : Nat
  sizeof_cobj : Nat
  trace : List Event

/-- Contents of the storage that the constructor obtains and does not initialise. -/
structure Indeterminate (C : Type) where
  _checkerboard : Nat
  _comms_send : Nat → Int
  _comms_recv : Nat → Int
  _comm_buf_size : Nat → Nat
  _permute_type : Nat → Nat
  same_node : Nat → Int
  _entries : Nat → StencilEntry
  u_comm_offset : Nat
  u_send_buf : Nat → C
  u_recv_buf : Nat → C
  u_simd_send_buf : Nat → Nat → C
  u_simd_recv_buf : Nat → Nat → C

/-- Overwrite one slot of a vector. -/
def setAt {α : Type} (f : Nat → α) (i : Nat) (v : α) : Nat → α :=
  fun j => if j = i then v else f j

/-! ## Construction of the neighbour table -/

/-- The four fields that `CopyPlane` stores into a record. -/
def localEntry (e : StencilEntry) (offset permute wrap : Int) : StencilEntry :=
  { e with _offset := toU64 offset, _permute := toU8 permute, _is_local := 1,
           _around_the_world := toU8 wrap }

/-- The four fields that `ScatterPlane` stores into a record. -/
def remoteEntry (e : StencilEntry) (offset : Int) (wrap : Int) : StencilEntry :=
  { e with _offset := toU64 offset, _is_local := 0, _permute := 0,
           _around_the_world := toU8 wrap }

/-- Loops of `CopyPlane` over the table `_entries`; `o` is `n*_slice_stride` in
iteration `n` of the outer loop. -/
def CopyPlaneEntries (g : GridBase) (npoints : Nat) (entries : Nat → StencilEntry)
    (point dimension lplane : Nat) (rplane : Int) (cbmask : Nat) (permute wrap : Int) :
    Nat → StencilEntry :=
  let ro : Int := rplane * (g._ostride dimension : Int)
  let lo : Nat := lplane * g._ostride dimension
  if !g.CheckerBoarded dimension then
    forLoop (g._slice_nblock dimension) (fun n entries =>
      let o := n * g._slice_stride dimension
      forLoop (g._slice_block dimension) (fun b entries =>
        let idx := point + (lo + o + b) * npoints
        setAt entries idx (localEntry (entries idx) (ro + (o : Int) + (b : Int)) permute wrap))
        entries) entries
  else
    forLoop (g._slice_nblock dimension) (fun n entries =>
      let o := n * g._slice_stride dimension
      forLoop (g._slice_block dimension) (fun b entries =>
        let ocb := 1 <<< g.CheckerBoardFromOindex (o + b)
        if ocb &&& cbmask ≠ 0 then
          let idx := point + (lo + o + b) * npoints
          setAt entries idx (localEntry (entries idx) (ro + (o : Int) + (b : Int)) permute wrap)
        else entries)
        entries) entries

/-- Member `CopyPlane`. -/
def CopyPlane {C : Type} (st : CartesianStencil C) (point dimension lplane : Nat) (rplane : Int)
    (cbmask : Nat) (permute wrap : Int) : CartesianStencil C :=
  { st with _entries := CopyPlaneEntries st._grid st._npoints st._entries point dimension lplane
                          rplane cbmask permute wrap }

/-- Loops of `ScatterPlane` over the table `_entries` and the counter `bo`. -/
def ScatterPlaneEntries (g : GridBase) (npoints : Nat) (entries : Nat → StencilEntry)
    (point dimension plane cbmask : Nat) (offset : Nat) (wrap : Int) :
    (Nat → StencilEntry) × Nat :=
  let so : Nat := plane * g._ostride dimension
  if !g.CheckerBoarded dimension then
    forLoop (g._slice_nblock dimension) (fun n s =>
      let o := n * g._slice_stride dimension
      forLoop (g._slice_block dimension) (fun b s =>
        let idx := point + (so + o + b) * npoints
        (setAt s.1 idx (remoteEntry (s.1 idx) ((offset : Int) + (s.2 : Int)) wrap), s.2 + 1))
        s) (entries, 0)
  else
    forLoop (g._slice_nblock dimension) (fun n s =>
      let o := n * g._slice_stride dimension
      forLoop (g._slice_block dimension) (fun b s =>
        let ocb := 1 <<< g.CheckerBoardFromOindex (o + b)
        if ocb &&& cbmask ≠ 0 then
          let idx := point + (so + o + b) * npoints
          (setAt s.1 idx (remoteEntry (s.1 idx) ((offset : Int) + (s.2 : Int)) wrap), s.2 + 1)
        else s)
        s) (entries, 0)

/-- Member `ScatterPlane`. -/
def ScatterPlane {C : Type} (st : CartesianStencil C) (point dimension plane cbmask : Nat)
    (offset : Nat) (wrap : Int) : CartesianStencil C :=
  { st with _entries := (ScatterPlaneEntries st._grid st._npoints st._entries point dimension
                          plane cbmask offset wrap).1 }

/-- The wraparound flag computed in the plane loop of `Local`. -/
def localWraparound (shiftpm : Int) (sx : Int) (x : Nat) : Int :=
  if (shiftpm = -1 ∧ sx > (x : Int)) ∨ (shiftpm = 1 ∧ sx < (x : Int)) then 1 else 0

/-- The value of `permute_slice` computed in the plane loop of `Local`. -/
def localPermuteSlice (g : GridBase) (dimension : Nat) (sshift : Int) (x : Nat) : Int :=
  let rd : Int := g._rdimensions dimension
  let ly : Int := g._simd_layout dimension
  if truthy (g.PermuteDim dimension) then
    let wrap := cmod (cdiv sshift rd) ly
    let num := cmod sshift rd
    if (x : Int) < rd - num then wrap else cmod (wrap + 1) ly
  else 0

/-- Body of the plane loop of `Local`, for plane `x`. -/
def LocalPlane {C : Type} (point dimension : Nat) (shiftpm : Int) (cbmask : Nat) (x : Nat)
    (st : CartesianStencil C) : CartesianStencil C :=
  let g := st._grid
  let fd : Int := g._fdimensions dimension
  let rd : Int := g._rdimensions dimension
  let shift := cmod (shiftpm + fd) fd
  let cb := if cbmask = 2 then Odd else Even
  let sshift := g.CheckerBoardShiftForCB st._checkerboard dimension shift cb
  let sx := cmod ((x : Int) + sshift) rd
  CopyPlane st point dimension x sx cbmask (localPermuteSlice g dimension sshift x)
    (localWraparound shiftpm sx x)

/-- Member `Local`. -/
def Local {C : Type} (st : CartesianStencil C) (point dimension : Nat) (shiftpm : Int)
    (cbmask : Nat) : CartesianStencil C :=
  forLoop (st._grid._rdimensions dimension) (LocalPlane point dimension shiftpm cbmask) st

/-- The test of `Comms` whether plane `x` has a neighbour on another process. -/
def offnodePlane (g : GridBase) (dimension : Nat) (sshift : Int) (x : Nat) : Int :=
  let Nsimd := g.Nsimd
  let ld : Int := g._ldimensions dimension
  let rd : Int := g._rdimensions dimension
  let pd : Int := g._processors dimension
  let permute_type := g.PermuteType dimension
  if g._simd_layout dimension > 1 then
    forLoop Nsimd (fun i offnode =>
      let inner_bit := Nsimd >>> (permute_type + 1)
      let ic : Int := if i &&& inner_bit ≠ 0 then 1 else 0
      let my_coor := rd * ic + (x : Int)
      let nbr_coor := my_coor + sshift
      let nbr_proc := cmod (cdiv nbr_coor ld) pd
      if truthy nbr_proc then 1 else offnode) 0
  else
    let comm_proc := cmod (cdiv ((x : Int) + sshift) rd) pd
    ofBool (comm_proc != 0)

/-- The number of words one off-node plane takes in the unified buffer:
`buffer_size`, halved for a single-parity pass. -/
def planeWords (g : GridBase) (dimension cbmask : Nat) : Nat :=
  let buffer_size := g._slice_nblock dimension * g._slice_block dimension
  let words := buffer_size
  if cbmask ≠ 3 then words >>> 1 else words

/-- The wraparound flag computed in the plane loop of `Comms`. -/
def commsWraparound (g : GridBase) (dimension : Nat) (shiftpm : Int) (sx : Int) (x : Nat) : Int :=
  if (shiftpm = -1 ∧ sx > (x : Int) ∧ g._processor_coor dimension = 0)
      ∨ (shiftpm = 1 ∧ sx < (x : Int)
          ∧ (g._processor_coor dimension : Int) = (g._processors dimension : Int) - 1)
  then 1 else 0

/-- Statement `_unified_buffer_size += words`. -/
def addUnified {C : Type} (st : CartesianStencil C) (words : Nat) : CartesianStencil C :=
  { st with _unified_buffer_size := st._unified_buffer_size + words }

/-- Body of the plane loop of `Comms`, for plane `x`. -/
def CommsPlane {C : Type} (point dimension : Nat) (shiftpm : Int) (cbmask : Nat)
    (comms_recv : Int) (sshift : Int) (x : Nat) (st : CartesianStencil C) : CartesianStencil C :=
  let g := st._grid
  let rd : Int := g._rdimensions dimension
  let sx := cmod ((x : Int) + sshift) rd
  let offnode := offnodePlane g dimension sshift x
  let wraparound := commsWraparound g dimension shiftpm sx x
  let st :=
    if offnode = 0 then
      CopyPlane st point dimension x sx cbmask 0 wraparound
    else if comms_recv = 0 then
      CopyPlane st point dimension x sx cbmask 1 wraparound
    else
      ScatterPlane st point dimension x cbmask st._unified_buffer_size wraparound
  if truthy offnode then addUnified st (planeWords g dimension cbmask) else st

/-- Statement `this->_comm_buf_size[point] = buffer_size`. -/
def setCommBufSize {C : Type} (st : CartesianStencil C) (point buffer_size : Nat) :
    CartesianStencil C :=
  { st with _comm_buf_size := setAt st._comm_buf_size point buffer_size }

/-- Member `Comms`. -/
def Comms {C : Type} (st : CartesianStencil C) (point dimension : Nat) (shiftpm : Int)
    (cbmask : Nat) : Except Assertion (CartesianStencil C) := do
  let g := st._grid
  let comms_recv := st._comms_recv point
  let fd : Int := g._fdimensions dimension
  let comm_dim := ofBool (g._processors dimension > 1)
  assert (comm_dim == 1) Assertion.comm_dim
  let shift := cmod (shiftpm + fd) fd
  assert (shift ≥ 0) Assertion.shift_nonneg
  assert (shift < fd) Assertion.shift_lt_fd
  let buffer_size := g._slice_nblock dimension * g._slice_block dimension
  let st := setCommBufSize st point buffer_size
  let cb := if cbmask = 2 then Odd else Even
  let sshift := g.CheckerBoardShiftForCB st._checkerboard dimension shift cb
  pure (forLoop (g._rdimensions dimension)
    (CommsPlane point dimension shiftpm cbmask comms_recv sshift) st)

/-- Statement `this->_comms_send[ii] = v`. -/
def setCommsSend {C : Type} (st : CartesianStencil C) (ii : Nat) (v : Int) : CartesianStencil C :=
  { st with _comms_send := setAt st._comms_send ii v }

/-- Statement `this->_comms_recv[ii] = v`. -/
def setCommsRecv {C : Type} (st : CartesianStencil C) (ii : Nat) (v : Int) : CartesianStencil C :=
  { st with _comms_recv := setAt st._comms_recv ii v }

/-- Body of the loop of `DirichletBlock`, for stencil point `ii`. -/
def DirichletPoint {C : Type} (dirichlet_block : List Int) (ii : Nat) (st : CartesianStencil C) :
    Except Assertion (CartesianStencil C) := do
  let g := st._grid
  let dimension := st._directions.getD ii 0
  let displacement := st._distances.getD ii 0
  let fd : Int := g._fdimensions dimension
  let pd : Int := g._processors dimension
  let pc : Int := g._processor_coor dimension
  let ld := cdiv fd pd
  let comm_dim := ofBool (g._processors dimension > 1)
  let block := dirichlet_block.getD dimension 0
  let st := setCommsSend st ii comm_dim
  let st := setCommsRecv st ii comm_dim
  if truthy block && truthy comm_dim then do
    assert ((displacement.natAbs : Int) < ld) Assertion.dirichlet_displacement
    if displacement > 0 then
      let st := if cmod (ld * (pc + 1)) block = 0 then setCommsRecv st ii 0 else st
      let st := if cmod (ld * pc) block = 0 then setCommsSend st ii 0 else st
      pure st
    else
      let st := if cmod (ld * (pc + 1)) block = 0 then setCommsSend st ii 0 else st
      let st := if cmod (ld * pc) block = 0 then setCommsRecv st ii 0 else st
      pure st
  else pure st

/-- The pair `(_comms_send[ii], _comms_recv[ii])` that the loop body of
`DirichletBlock` leaves for a point on axis `dimension` with the given
displacement and block size. -/
def dirichletFlags (g : GridBase) (dimension : Nat) (displacement block : Int) : Int × Int :=
  let fd : Int := g._fdimensions dimension
  let pd : Int := g._processors dimension
  let pc : Int := g._processor_coor dimension
  let ld := cdiv fd pd
  let comm_dim := ofBool (g._processors dimension > 1)
  if truthy block && truthy comm_dim then
    let hi : Int := if cmod (ld * (pc + 1)) block = 0 then 0 else comm_dim
    let lo : Int := if cmod (ld * pc) block = 0 then 0 else comm_dim
    if displacement > 0 then (lo, hi) else (hi, lo)
  else (comm_dim, comm_dim)

/-- The condition under which the loop body of `DirichletBlock` reaches its assertion. -/
def dirichletActive (g : GridBase) (dimension : Nat) (block : Int) : Bool :=
  truthy block && truthy (ofBool (g._processors dimension > 1))

/-- Both flag stores of one point. -/
def setFlags {C : Type} (st : CartesianStencil C) (ii : Nat) (f : Int × Int) :
    CartesianStencil C :=
  setCommsRecv (setCommsSend st ii f.1) ii f.2

/-- The point `ii` makes the loop body of `DirichletBlock` fail its assertion. -/
def dirichletAborts {C : Type} (st : CartesianStencil C) (blk : List Int) (ii : Nat) : Bool :=
  dirichletActive st._grid (st._directions.getD ii 0) (blk.getD (st._directions.getD ii 0) 0)
    && !decide (((st._distances.getD ii 0).natAbs : Int)
          < cdiv (st._grid._fdimensions (st._directions.getD ii 0))
              (st._grid._processors (st._directions.getD ii 0)))

/-- The state in which the flags of the points below `k` hold the values of
`dirichletFlags` and nothing else differs from `st`. -/
def dirichletResult {C : Type} (st : CartesianStencil C) (blk : List Int) (k : Nat) :
    CartesianStencil C :=
  { st with
    _comms_send := fun ii =>
      if ii < k then
        (dirichletFlags st._grid (st._directions.getD ii 0) (st._distances.getD ii 0)
          (blk.getD (st._directions.getD ii 0) 0)).1
      else st._comms_send ii,
    _comms_recv := fun ii =>
      if ii < k then
        (dirichletFlags st._grid (st._directions.getD ii 0) (st._distances.getD ii 0)
          (blk.getD (st._directions.getD ii 0) 0)).2
      else st._comms_recv ii }

/-- Member `DirichletBlock`. -/
def DirichletBlock {C : Type} (st : CartesianStencil C) (dirichlet_block : List Int) :
    Except Assertion (CartesianStencil C) :=
  forLoopM st._npoints (DirichletPoint dirichlet_block) st

/-- Member `PrecomputeByteOffsets`; the table has `_npoints*_osites` records. -/
def PrecomputeByteOffsets {C : Type} (st : CartesianStencil C) : CartesianStencil C :=
  let entries :=
    forLoop (st._npoints * st._osites) (fun i entries =>
      let e := entries i
      if e._is_local ≠ 0 then
        setAt entries i
          { e with _byte_offset := (e._offset * st.sizeof_vobj) % 18446744073709551616 }
      else
        setAt entries i
          { e with _byte_offset := (e._offset * st.sizeof_cobj) % 18446744073709551616 })
      st._entries
  { st with _entries := entries }

/-- Statements `_permute_type[point]=PermuteType(dimension)` and
`_checkerboard = checkerboard` of the constructor loop. -/
def setPointInfo {C : Type} (st : CartesianStencil C) (point dimension checkerboard : Nat) :
    CartesianStencil C :=
  { st with _permute_type := setAt st._permute_type point (st._grid.PermuteType dimension),
            _checkerboard := checkerboard }

/-- Body of the constructor loop for stencil point `ii`. -/
def constructPoint {C : Type} (checkerboard : Nat) (directions : List Nat) (distances : List Int)
    (ii : Nat) (st : CartesianStencil C) : Except Assertion (CartesianStencil C) := do
  let g := st._grid
  let point := ii
  let dimension := directions.getD ii 0
  let displacement := distances.getD ii 0
  let shift := displacement
  let st := setPointInfo st point dimension checkerboard
  let comm_dim := g._processors dimension > 1
  let rotate_dim := g._simd_layout dimension > 2
  assert (!(decide rotate_dim && decide comm_dim)) Assertion.rotate_and_comm
  let sshift0 := g.CheckerBoardShiftForCB checkerboard dimension shift Even
  let sshift1 := g.CheckerBoardShiftForCB checkerboard dimension shift Odd
  if !decide comm_dim then
    if sshift0 = sshift1 then
      pure (Local st point dimension shift 3)
    else
      pure (Local (Local st point dimension shift 1) point dimension shift 2)
  else
    if sshift0 = sshift1 then
      Comms st point dimension shift 3
    else do
      let st ← Comms st point dimension shift 1
      Comms st point dimension shift 2

/-- The object before the body of the constructor runs. -/
def CartesianStencil.initial {C : Type} (grid : GridBase) (npoints : Nat)
    (directions : List Nat) (distances : List Int) (p : Parameters)
    (sizeof_vobj sizeof_cobj : Nat) (u : Indeterminate C) : CartesianStencil C :=
  { _grid := grid, parameters := p, _checkerboard := u._checkerboard, _npoints := npoints,
    _osites := 0, _directions := directions, _distances := distances,
    _comms_send := u._comms_send, _comms_recv := u._comms_recv,
    _comm_buf_size := u._comm_buf_size, _permute_type := u._permute_type,
    same_node := u.same_node, _entries := u._entries, _entries_size := 0,
    face_table_computed := 0,
    face_table := [], surface_list := [], Packets := [], Mergers := [], MergersSHM := [],
    Decompressions := [], DecompressionsSHM := [], CopyReceiveBuffers := [],
    CachedTransfers := [], u_comm_offset := u.u_comm_offset, _unified_buffer_size := 0,
    u_send_buf := u.u_send_buf, u_recv_buf := u.u_recv_buf,
    u_simd_send_buf := u.u_simd_send_buf, u_simd_recv_buf := u.u_simd_recv_buf,
    sizeof_vobj := sizeof_vobj, sizeof_cobj := sizeof_cobj, trace := [] }

/-- Statements `_unified_buffer_size=0`, `surface_list.resize(0)`,
`_osites = _grid->oSites()` and `_entries.resize(_npoints*_osites)` of the
constructor. -/
def resetSizes {C : Type} (st : CartesianStencil C) : CartesianStencil C :=
  { st with _unified_buffer_size := 0, surface_list := [], _osites := st._grid.oSites,
            _entries_size := st._npoints * st._grid.oSites }

/-- The constructor `CartesianStencil::CartesianStencil`.  `sizeof_vobj` and
`sizeof_cobj` are the sizes of the two template types; `u` is what the
uninitialised storage holds. -/
def CartesianStencil.construct {C : Type} (grid : GridBase) (npoints checkerboard : Nat)
    (directions : List Nat) (distances : List Int) (p : Parameters)
    (sizeof_vobj sizeof_cobj : Nat) (u : Indeterminate C) :
    Except Assertion (CartesianStencil C) := do
  let st := CartesianStencil.initial grid npoints directions distances p sizeof_vobj
              sizeof_cobj u
  let st ← if p.dirichlet.length ≠ 0 then DirichletBlock st p.dirichlet else pure st
  let st := resetSizes st
  let st ← forLoopM npoints (constructPoint checkerboard directions distances) st
  pure (PrecomputeByteOffsets st)

/-! ## One halo exchange -/

/-- A `Lattice<vobj>` as the stencil reads it: its parity and its outer sites. -/
structure Lattice (V : Type) where
  Checkerboard : Nat
  rhs_v : Nat → V

/-- The compressor capability, supplied by the caller.  The stencil announces
each point with `Point(point)` before gathering it, so the hooks take the point. -/
structure Compressor (V C : Type) where
  CommDatumSize : Int
  DecompressionStep : Bool
  Compress : Nat → V → C
  CompressExchange : Nat → V → V → Nat → C × C

/-- Append an event to the trace. -/
def emit {C : Type} (st : CartesianStencil C) (e : Event) : CartesianStencil C :=
  { st with trace := st.trace ++ [e] }

/-- Read `p[j]`; a pointer that was never assigned has no defined target. -/
def readBuf {C : Type} (st : CartesianStencil C) (p : Pointer) (j : Nat) : Option C :=
  match p.base with
  | Buffer.u_send_buf => some (st.u_send_buf (p.index + j))
  | Buffer.u_recv_buf => some (st.u_recv_buf (p.index + j))
  | Buffer.u_simd_send_buf l => some (st.u_simd_send_buf l (p.index + j))
  | Buffer.u_simd_recv_buf l => some (st.u_simd_recv_buf l (p.index + j))
  | Buffer.indeterminate => none

/-- Store `v` into `p[j]`. -/
def writeBuf {C : Type} (st : CartesianStencil C) (p : Pointer) (j : Nat) (v : C) :
    CartesianStencil C :=
  match p.base with
  | Buffer.u_send_buf => { st with u_send_buf := setAt st.u_send_buf (p.index + j) v }
  | Buffer.u_recv_buf => { st with u_recv_buf := setAt st.u_recv_buf (p.index + j) v }
  | Buffer.u_simd_send_buf l =>
      { st with u_simd_send_buf := setAt st.u_simd_send_buf l
                  (setAt (st.u_simd_send_buf l) (p.index + j) v) }
  | Buffer.u_simd_recv_buf l =>
      { st with u_simd_recv_buf := setAt st.u_simd_recv_buf l
                  (setAt (st.u_simd_recv_buf l) (p.index + j) v) }
  | Buffer.indeterminate => st

/-- Member `Prepare`. -/
def Prepare {C : Type} (st : CartesianStencil C) : CartesianStencil C :=
  let st := emit st (Event.call Step.Prepare)
  { st with Decompressions := [], DecompressionsSHM := [], Mergers := [], MergersSHM := [],
            Packets := [], CopyReceiveBuffers := [], CachedTransfers := [] }

/-- Member `AddCopy`. -/
def AddCopy {C : Type} (st : CartesianStencil C) (from_p to_p : Pointer) (bytes : Int) :
    CartesianStencil C :=
  { st with CopyReceiveBuffers :=
      st.CopyReceiveBuffers ++ [{ from_p := from_p, to_p := to_p, bytes := bytes }] }

/-- Member `CommsCopy`. -/
def CommsCopy {C : Type} (st : CartesianStencil C) : CartesianStencil C :=
  forLoop st.CopyReceiveBuffers.length (fun i st =>
    match st.CopyReceiveBuffers.get? i with
    | none => st
    | some r =>
      let words := cdiv r.bytes (st.sizeof_cobj : Int)
      forLoop words.toNat (fun j st =>
        let st := emit st (Event.coalescedWrite r.to_p r.from_p j)
        match readBuf st r.from_p j with
        | some v => writeBuf st r.to_p j v
        | none => st) st) st

/-- The test of `CheckForDuplicate` on one cached record. -/
def sameTransfer (c : CachedTransfer) (direction OrthogPlane DestProc bytes lane cb : Int) :
    Bool :=
  c.direction == direction && c.OrthogPlane == OrthogPlane && c.DestProc == DestProc
    && c.bytes == bytes && c.lane == lane && c.cb == cb

/-- The search loop of `CheckForDuplicate`: the first cached record with the key. -/
def findTransfer (direction OrthogPlane DestProc bytes lane cb : Int) :
    List CachedTransfer → Option CachedTransfer
  | [] => none
  | c :: cs =>
    if sameTransfer c direction OrthogPlane DestProc bytes lane cb then some c
    else findTransfer direction OrthogPlane DestProc bytes lane cb cs

/-- Member `CheckForDuplicate`; the result is the state and the returned flag. -/
def CheckForDuplicate {C : Type} (st : CartesianStencil C) (direction OrthogPlane DestProc : Int)
    (recv_buf : Pointer) (lane bytes cb : Int) : CartesianStencil C × Int :=
  let obj : CachedTransfer :=
    { direction := direction, OrthogPlane := OrthogPlane, DestProc := DestProc,
      recv_buf := recv_buf, lane := lane, bytes := bytes, cb := cb }
  match findTransfer direction OrthogPlane DestProc bytes lane cb st.CachedTransfers with
  | some c => (AddCopy st c.recv_buf recv_buf bytes, 1)
  | none => ({ st with CachedTransfers := st.CachedTransfers ++ [obj] }, 0)

/-- Member `AddPacket`. -/
def AddPacket {C : Type} (st : CartesianStencil C) (xmit rcv : Pointer) (to_rank : Nat)
    (do_send : Int) (from_rank : Nat) (do_recv : Int) (bytes : Int) : CartesianStencil C :=
  { st with Packets := st.Packets ++
      [{ send_buf := xmit, recv_buf := rcv, to_rank := to_rank, from_rank := from_rank,
         do_send := do_send, do_recv := do_recv, bytes := bytes }] }

/-- Member `AddDecompress` applied to the list `Decompressions`. -/
def AddDecompress {C : Type} (st : CartesianStencil C) (k_p m_p : Pointer) (buffer_size : Int) :
    CartesianStencil C :=
  { st with Decompressions := st.Decompressions ++
      [{ kernel_p := k_p, mpi_p := m_p, buffer_size := buffer_size }] }

/-- Member `AddMerge` applied to the list `Mergers`. -/
def AddMerge {C : Type} (st : CartesianStencil C) (merge_p : Pointer) (rpointers : List Pointer)
    (buffer_size type : Int) : CartesianStencil C :=
  { st with Mergers := st.Mergers ++
      [{ type := type, mpointer := merge_p, vpointers := rpointers, buffer_size := buffer_size }] }

/-- The three-argument `CommsMerge(decompress,mm,dd)`: the `Exchange` calls of
every merge record, then the `Decompress` calls of every decompress record. -/
def CommsMergeLists {C : Type} (st : CartesianStencil C) (mm : List Merge) (dd : List Decompress) :
    CartesianStencil C :=
  let st := forLoop mm.length (fun i st =>
    match mm.get? i with
    | none => st
    | some m =>
      let vp0 := m.vpointers.getD 0 ⟨Buffer.indeterminate, 0⟩
      let vp1 := m.vpointers.getD 1 ⟨Buffer.indeterminate, 0⟩
      forLoop (cdiv m.buffer_size 2).toNat (fun o st =>
        emit st (Event.Exchange m.mpointer vp0 vp1 m.type o)) st) st
  forLoop dd.length (fun i st =>
    match dd.get? i with
    | none => st
    | some d =>
      forLoop d.buffer_size.toNat (fun o st =>
        emit st (Event.Decompress d.kernel_p d.mpi_p o)) st) st

/-- The one-argument `CommsMerge(decompress)`. -/
def CommsMerge {C : Type} (st : CartesianStencil C) : CartesianStencil C :=
  let st := emit st (Event.call Step.CommsMerge)
  let st := CommsCopy st
  CommsMergeLists st st.Mergers st.Decompressions

/-- Member `CommsMergeSHM`. -/
def CommsMergeSHM {C : Type} (st : CartesianStencil C) : CartesianStencil C :=
  let st := emit st (Event.call Step.CommsMergeSHM)
  let st := emit st Event.StencilBarrier
  CommsMergeLists st st.MergersSHM st.DecompressionsSHM

/-- Modelled from the spec: the transport behind `StencilSendToRecvFrom`,
`StencilSendToRecvFromBegin` and `StencilSendToRecvFromComplete` is a member of
the grid and not part of this file.  A transport says what is delivered into
the receive range of a packet: `net p dir j` is the `j`-th `cobj` that arrives
for the packet `p` issued with tag `dir`, or `none` when nothing arrives. -/
abbrev Transport (C : Type) := Packet → Nat → Nat → Option C

/-- Modelled from the spec: completion of the receive half of packet `p` with
tag `dir`.  When the receive is enabled, the `bytes/sizeof(cobj)` objects that
the transport delivers are stored from the packet's receive address on. -/
def receivePacket {C : Type} (st : CartesianStencil C) (net : Transport C) (p : Packet)
    (dir : Nat) : CartesianStencil C :=
  if truthy p.do_recv then
    forLoop (cdiv p.bytes (st.sizeof_cobj : Int)).toNat (fun j st =>
      match net p dir j with
      | some v => writeBuf st p.recv_buf j v
      | none => st) st
  else st

/-- Member `CommunicateBegin`. -/
def CommunicateBegin {C : Type} (st : CartesianStencil C) : CartesianStencil C :=
  forLoop st.Packets.length (fun i st =>
    match st.Packets.get? i with
    | none => st
    | some p => emit st (Event.StencilSendToRecvFromBegin p i)) st

/-- Member `CommunicateComplete`. -/
def CommunicateComplete {C : Type} (st : CartesianStencil C) (net : Transport C) :
    CartesianStencil C :=
  forLoop st.Packets.length (fun i st =>
    match st.Packets.get? i with
    | none => st
    | some p => receivePacket (emit st (Event.StencilSendToRecvFromComplete i)) net p i) st

/-- Member `Communicate`. -/
def Communicate {C : Type} (st : CartesianStencil C) (net : Transport C) : CartesianStencil C :=
  let st := emit st (Event.call Step.Communicate)
  if st._grid.CommunicatorPolicy = CommunicatorPolicy_t.CommunicatorPolicySequential then
    forLoop st.Packets.length (fun i st =>
      match st.Packets.get? i with
      | none => st
      | some p => receivePacket (emit st (Event.StencilSendToRecvFrom p i)) net p i) st
  else
    CommunicateComplete (CommunicateBegin st) net

/-- Modelled from the spec: `Gather_plane_table_compute` is declared at the top
of `Stencil.h` and defined elsewhere.  It precomputes the `(destination-index,
source-index)` pairs of one plane: the sites of the plane, in the `(n,b)` order
of `ScatterPlane` and restricted to the parity mask on a checkerboarded axis,
are numbered consecutively, and each is paired with its offset `n*stride+b`
within the plane.  The pairs are relative to the plane and to the buffer
offset, which the callers add. -/
def Gather_plane_table_compute (g : GridBase) (dimension : Nat) (cbmask : Nat) :
    List (Nat × Nat) :=
  let cbmask := if !g.CheckerBoarded dimension then 3 else cbmask
  forLoop (g._slice_nblock dimension) (fun n table =>
    forLoop (g._slice_block dimension) (fun b table =>
      let o := n * g._slice_stride dimension
      let ocb := 1 <<< g.CheckerBoardFromOindex (o + b)
      if cbmask = 3 ∨ ocb &&& cbmask ≠ 0 then table ++ [(table.length, o + b)] else table)
      table) []

/-- Function `Gather_plane_simple_table`. -/
def Gather_plane_simple_table {V C : Type} (st : CartesianStencil C) (table : List (Nat × Nat))
    (rhs : Lattice V) (buffer : Buffer) (compress : Compressor V C) (point : Nat)
    (off : Nat) (so : Int) : CartesianStencil C :=
  forLoop table.length (fun i st =>
    match table.get? i with
    | none => st
    | some t =>
      writeBuf st ⟨buffer, 0⟩ (off + t.1)
        (compress.Compress point (rhs.rhs_v (so + (t.2 : Int)).toNat))) st

/-- Function `Gather_plane_exchange_table`. -/
def Gather_plane_exchange_table {V C : Type} (st : CartesianStencil C)
    (table : List (Nat × Nat)) (rhs : Lattice V) (p0 p1 : Pointer) (dimension : Nat)
    (plane : Int) (compress : Compressor V C) (point : Nat) (type : Nat) :
    Except Assertion (CartesianStencil C) := do
  assert (table.length &&& 1 == 0) Assertion.table_size_even
  let num := table.length / 2
  let so : Int := plane * (st._grid._ostride dimension : Int)
  pure (forLoop num (fun j st =>
    let s0 := (so + (((table.getD (2 * j) (0, 0)).2 : Nat) : Int)).toNat
    let s1 := (so + (((table.getD (2 * j + 1) (0, 0)).2 : Nat) : Int)).toNat
    let r := compress.CompressExchange point (rhs.rhs_v s0) (rhs.rhs_v s1) type
    writeBuf (writeBuf st p0 j r.1) p1 j r.2) st)

/-- Statement `face_table[face_idx] = table` after `face_table.resize(face_idx+1)`. -/
def storeFaceTable {C : Type} (st : CartesianStencil C) (face_idx : Nat)
    (table : List (Nat × Nat)) : CartesianStencil C :=
  let resized := st.face_table.take (face_idx + 1)
    ++ List.replicate (face_idx + 1 - st.face_table.length) []
  { st with face_table := resized.set face_idx table }

/-- The `if ( !face_table_computed )` block shared by `Gather` and `GatherSimd`. -/
def computeFaceTable {C : Type} (st : CartesianStencil C) (dimension : Nat) (sx : Int)
    (cbmask comm_off face_idx : Nat) : CartesianStencil C :=
  if st.face_table_computed = 0 then
    storeFaceTable (emit st (Event.Gather_plane_table_compute dimension sx cbmask comm_off))
      face_idx (Gather_plane_table_compute st._grid dimension cbmask)
  else st

/-- The `if( comms_send )` block of `Gather`: face table, choice of the buffers
and the local gather.  The result carries the values of `recv_buf` and
`send_buf` after the block; both variables are declared without a value. -/
def gatherSendBlock {V C : Type} (st : CartesianStencil C) (rhs : Lattice V)
    (dimension cbmask : Nat) (compress : Compressor V C) (point : Nat) (sx so : Int)
    (comm_off face_idx : Nat) : CartesianStencil C × Buffer × Buffer :=
  if truthy (st._comms_send point) then
    let st := computeFaceTable st dimension sx cbmask comm_off face_idx
    let recv_buf := if compress.DecompressionStep then Buffer.u_simd_recv_buf 0
                    else Buffer.u_recv_buf
    let send_buf := Buffer.u_send_buf
    let st := emit st (Event.Gather_plane_simple_table face_idx send_buf comm_off so)
    (Gather_plane_simple_table st (st.face_table.getD face_idx []) rhs send_buf compress
      point comm_off so, recv_buf, send_buf)
  else (st, Buffer.indeterminate, Buffer.indeterminate)

/-- The call of `CheckForDuplicate` and, when it returns 0, of `AddPacket`, as
written in `Gather` and in `GatherSimd`. -/
def queueTransfer {C : Type} (st : CartesianStencil C) (direction OrthogPlane DestProc : Int)
    (send recv : Pointer) (lane bytes cb : Int) (xmit_to_rank : Nat) (comms_send : Int)
    (recv_from_rank : Nat) (comms_recv : Int) : CartesianStencil C :=
  let d := CheckForDuplicate st direction OrthogPlane DestProc recv lane bytes cb
  if d.2 = 0 then
    AddPacket d.1 send recv xmit_to_rank comms_send recv_from_rank comms_recv bytes
  else d.1

/-- The conditional `AddDecompress` at the end of the plane body of `Gather`. -/
def queueDecompress {V C : Type} (st : CartesianStencil C) (compress : Compressor V C)
    (comms_recv : Int) (recv_buf : Buffer) (comm_off words : Nat) : CartesianStencil C :=
  if compress.DecompressionStep && truthy comms_recv then
    AddDecompress st ⟨Buffer.u_recv_buf, comm_off⟩ ⟨recv_buf, comm_off⟩ words
  else st

/-- Statement `u_comm_offset += words`. -/
def advanceOffset {C : Type} (st : CartesianStencil C) (words : Nat) : CartesianStencil C :=
  { st with u_comm_offset := st.u_comm_offset + words }

/-- The plane body of `Gather` for an off-node plane, after its two assertions. -/
def gatherOffnodePlane {V C : Type} (rhs : Lattice V) (dimension : Nat) (cbmask : Nat)
    (compress : Compressor V C) (point : Nat) (sx comm_proc : Int)
    (s : CartesianStencil C × Nat) : CartesianStencil C × Nat :=
  let st := s.1
  let face_idx := s.2
  let g := st._grid
  let comms_send := st._comms_send point
  let comms_recv := st._comms_recv point
  let words := planeWords g dimension cbmask
  let bytes : Int := (words : Int) * compress.CommDatumSize
  let so : Int := sx * (g._ostride dimension : Int)
  let comm_off := st.u_comm_offset
  let xmit_to_rank := (g.ShiftedRanks dimension comm_proc).1
  let recv_from_rank := (g.ShiftedRanks dimension comm_proc).2
  let r := gatherSendBlock st rhs dimension cbmask compress point sx so comm_off face_idx
  let recv_buf := r.2.1
  let send_buf := r.2.2
  let st := queueTransfer r.1 dimension sx comm_proc ⟨send_buf, comm_off⟩ ⟨recv_buf, comm_off⟩
              0 bytes cbmask xmit_to_rank comms_send recv_from_rank comms_recv
  let st := queueDecompress st compress comms_recv recv_buf comm_off words
  (advanceOffset st words, face_idx + 1)

/-- Body of the plane loop of `Gather`, for plane `x`; the loop carries the
stencil and `face_idx`. -/
def GatherPlane {V C : Type} (rhs : Lattice V) (dimension : Nat) (cbmask : Nat)
    (compress : Compressor V C) (point : Nat) (sshift : Int) (x : Nat)
    (s : CartesianStencil C × Nat) : Except Assertion (CartesianStencil C × Nat) := do
  let g := s.1._grid
  let rd : Int := g._rdimensions dimension
  let pd : Int := g._processors dimension
  let sx := cmod ((x : Int) + sshift) rd
  let comm_proc := cmod (cdiv ((x : Int) + sshift) rd) pd
  if truthy comm_proc then do
    assert ((g.ShiftedRanks dimension comm_proc).1 != g.ThisRank) Assertion.xmit_to_rank
    assert ((g.ShiftedRanks dimension comm_proc).2 != g.ThisRank) Assertion.recv_from_rank
    pure (gatherOffnodePlane rhs dimension cbmask compress point sx comm_proc s)
  else pure s

/-- Member `Gather`; the result is the state, `face_idx` and the returned flag. -/
def Gather {V C : Type} (st : CartesianStencil C) (rhs : Lattice V) (dimension : Nat)
    (shift : Int) (cbmask : Nat) (compress : Compressor V C) (face_idx : Nat) (point : Nat) :
    Except Assertion (CartesianStencil C × Nat × Int) := do
  let g := st._grid
  let fd : Int := g._fdimensions dimension
  assert (g._simd_layout dimension == 1) Assertion.simd_layout_is_1
  assert (decide (g._processors dimension > 1)) Assertion.comm_dim
  assert (shift ≥ 0) Assertion.shift_nonneg
  assert (shift < fd) Assertion.shift_lt_fd
  let cb := if cbmask = 2 then Odd else Even
  let sshift := g.CheckerBoardShiftForCB rhs.Checkerboard dimension shift cb
  let s ← forLoopM (g._rdimensions dimension)
            (GatherPlane rhs dimension cbmask compress point sshift) (st, face_idx)
  pure (s.1, s.2, 0)

/-- The lane body of `GatherSimd` after its assertion, for lane `i` of plane
`x`; the loop carries the stencil and the vector `rpointers`. -/
def gatherSimdLaneBody {C : Type} (dimension : Nat) (cbmask : Nat) (point : Nat)
    (sx nbr_proc : Int) (nbr_plane : Int) (comm_off : Nat) (bytes : Int) (i : Nat)
    (s : CartesianStencil C × List Pointer) : CartesianStencil C × List Pointer :=
  let st := s.1
  let rpointers := s.2
  let g := st._grid
  let comms_send := st._comms_send point
  let comms_recv := st._comms_recv point
  let rp : Pointer := ⟨Buffer.u_simd_recv_buf i, comm_off⟩
  let sp : Pointer := ⟨Buffer.u_simd_send_buf nbr_plane.toNat, comm_off⟩
  if truthy nbr_proc then
    let xmit_to_rank := (g.ShiftedRanks dimension nbr_proc).1
    let recv_from_rank := (g.ShiftedRanks dimension nbr_proc).2
    (queueTransfer st dimension sx nbr_proc sp rp i bytes cbmask xmit_to_rank comms_send
      recv_from_rank comms_recv, rpointers.set i rp)
  else
    (st, rpointers.set i sp)

/-- Body of the lane loop of `GatherSimd`. -/
def GatherSimdLane {C : Type} (dimension : Nat) (cbmask : Nat) (point : Nat) (sshift : Int)
    (x : Nat) (sx : Int) (comm_off : Nat) (bytes : Int) (i : Nat)
    (s : CartesianStencil C × List Pointer) :
    Except Assertion (CartesianStencil C × List Pointer) := do
  let g := s.1._grid
  let rd : Int := g._rdimensions dimension
  let ld : Int := g._ldimensions dimension
  let pd : Int := g._processors dimension
  let my_coor := rd * (i : Int) + (x : Int)
  let nbr_coor := my_coor + sshift
  let nbr_proc := cmod (cdiv nbr_coor ld) pd
  let nbr_lcoor := cmod nbr_coor ld
  let nbr_ic := cdiv nbr_lcoor rd
  let nbr_ox := cmod nbr_lcoor rd
  let nbr_plane := nbr_ic
  assert (sx == nbr_ox) Assertion.sx_is_nbr_ox
  pure (gatherSimdLaneBody dimension cbmask point sx nbr_proc nbr_plane comm_off bytes i s)

/-- The gather of an off-node plane in `GatherSimd`: face table and, when the
send is enabled, `Gather_plane_exchange_table`. -/
def gatherSimdSendBlock {V C : Type} (st : CartesianStencil C) (rhs : Lattice V)
    (dimension cbmask : Nat) (compress : Compressor V C) (point : Nat) (sx : Int)
    (comm_off face_idx : Nat) : Except Assertion (CartesianStencil C) :=
  let sp0 : Pointer := ⟨Buffer.u_simd_send_buf 0, comm_off⟩
  let sp1 : Pointer := ⟨Buffer.u_simd_send_buf 1, comm_off⟩
  let permute_type := st._grid.PermuteType dimension
  let st := computeFaceTable st dimension sx cbmask comm_off face_idx
  if truthy (st._comms_send point) then
    let st := emit st (Event.Gather_plane_exchange_table face_idx sp0 sp1 dimension sx
                        cbmask permute_type)
    Gather_plane_exchange_table st (st.face_table.getD face_idx []) rhs sp0 sp1 dimension
      sx compress point permute_type
  else pure st

/-- Body of the plane loop of `GatherSimd`, for plane `x`; the loop carries the
stencil, `face_idx` and the vector `rpointers`. -/
def GatherSimdPlane {V C : Type} (rhs : Lattice V) (dimension : Nat) (cbmask : Nat)
    (compress : Compressor V C) (point : Nat) (sshift : Int) (bytes : Int)
    (reduced_buffer_size : Nat) (x : Nat) (s : CartesianStencil C × Nat × List Pointer) :
    Except Assertion (CartesianStencil C × Nat × List Pointer) := do
  let g := s.1._grid
  let maxl := 2
  let fd : Int := g._fdimensions dimension
  let rd : Int := g._rdimensions dimension
  let buffer_size := g._slice_nblock dimension * g._slice_block dimension
  let any_offnode := decide (cmod ((x : Int) + sshift) fd ≥ rd)
  if any_offnode then do
    let comm_off := s.1.u_comm_offset
    let sx := cmod ((x : Int) + sshift) rd
    let st ← gatherSimdSendBlock s.1 rhs dimension cbmask compress point sx comm_off s.2.1
    let r ← forLoopM maxl (GatherSimdLane dimension cbmask point sshift x sx comm_off bytes)
              (st, s.2.2)
    let st := AddMerge r.1 ⟨Buffer.u_recv_buf, comm_off⟩ r.2 reduced_buffer_size
                (g.PermuteType dimension)
    pure (advanceOffset st buffer_size, s.2.1 + 1, r.2)
  else pure s

/-- Member `GatherSimd`; the result is the state, `face_idx` and the returned flag. -/
def GatherSimd {V C : Type} (st : CartesianStencil C) (rhs : Lattice V) (dimension : Nat)
    (shift : Int) (cbmask : Nat) (compress : Compressor V C) (face_idx : Nat) (point : Nat) :
    Except Assertion (CartesianStencil C × Nat × Int) := do
  let g := st._grid
  let maxl := 2
  let fd : Int := g._fdimensions dimension
  let simd_layout : Int := g._simd_layout dimension
  assert (decide (g._processors dimension > 1)) Assertion.comm_dim
  assert (g._simd_layout dimension == maxl) Assertion.simd_layout_is_maxl
  assert (shift ≥ 0) Assertion.shift_nonneg
  assert (shift < fd) Assertion.shift_lt_fd
  let buffer_size := g._slice_nblock dimension * g._slice_block dimension
  assert (cbmask == 3) Assertion.cbmask_is_3
  let reduced_buffer_size := if cbmask ≠ 3 then buffer_size >>> 1 else buffer_size
  let datum_bytes := compress.CommDatumSize
  let bytes := cdiv ((reduced_buffer_size : Int) * datum_bytes) simd_layout
  assert (bytes * simd_layout == (reduced_buffer_size : Int) * datum_bytes)
    Assertion.bytes_simd_layout
  let rpointers : List Pointer := List.replicate maxl ⟨Buffer.indeterminate, 0⟩
  let cb := if cbmask = 2 then Odd else Even
  let sshift := g.CheckerBoardShiftForCB rhs.Checkerboard dimension shift cb
  let s ← forLoopM (g._rdimensions dimension)
            (GatherSimdPlane rhs dimension cbmask compress point sshift bytes
              reduced_buffer_size) (st, face_idx, rpointers)
  pure (s.1, s.2.1, 0)

/-- The dispatch of `HaloGatherDir` on an axis that is split across processes. -/
def HaloGatherComm {V C : Type} (st : CartesianStencil C) (source : Lattice V)
    (compress : Compressor V C) (point : Nat) (face_idx : Nat) (dimension : Nat) (shift : Int) :
    Except Assertion (CartesianStencil C × Nat × Int) :=
  let g := st._grid
  let comm_dim := decide (g._processors dimension > 1)
  let splice_dim := decide (g._simd_layout dimension > 1) && comm_dim
  let is_same_node : Int := 1
  let sshift0 := g.CheckerBoardShiftForCB st._checkerboard dimension shift Even
  let sshift1 := g.CheckerBoardShiftForCB st._checkerboard dimension shift Odd
  if sshift0 = sshift1 then
    if splice_dim then do
      let r ← GatherSimd st source dimension shift 3 compress face_idx point
      pure (r.1, r.2.1, ofBool (truthy is_same_node && truthy r.2.2))
    else do
      let r ← Gather st source dimension shift 3 compress face_idx point
      pure (r.1, r.2.1, ofBool (truthy is_same_node && truthy r.2.2))
  else
    if splice_dim then do
      let r1 ← GatherSimd st source dimension shift 1 compress face_idx point
      let r2 ← GatherSimd r1.1 source dimension shift 2 compress r1.2.1 point
      pure (r2.1, r2.2.1, ofBool (truthy is_same_node && truthy r1.2.2 && truthy r2.2.2))
    else do
      let r1 ← Gather st source dimension shift 1 compress face_idx point
      let r2 ← Gather r1.1 source dimension shift 2 compress r1.2.1 point
      pure (r2.1, r2.2.1, ofBool (truthy is_same_node && truthy r1.2.2 && truthy r2.2.2))

/-- Member `HaloGatherDir`; the result is the state, `face_idx` and `is_same_node`. -/
def HaloGatherDir {V C : Type} (st : CartesianStencil C) (source : Lattice V)
    (compress : Compressor V C) (point : Nat) (face_idx : Nat) :
    Except Assertion (CartesianStencil C × Nat × Int) := do
  let g := st._grid
  let dimension := st._directions.getD point 0
  let displacement := st._distances.getD point 0
  let fd : Int := g._fdimensions dimension
  let shift := cmod (displacement + fd) fd
  assert (source.Checkerboard == st._checkerboard) Assertion.checkerboard
  if decide (g._processors dimension > 1) then
    HaloGatherComm st source compress point face_idx dimension shift
  else pure (st, face_idx, 1)

/-- Body of the point loop of `HaloGather`; the loop carries the stencil and
`face_idx`. -/
def HaloGatherPoint {V C : Type} (source : Lattice V) (compress : Compressor V C) (point : Nat)
    (s : CartesianStencil C × Nat) : Except Assertion (CartesianStencil C × Nat) := do
  let r ← HaloGatherDir (emit s.1 (Event.Point point)) source compress point s.2
  pure (r.1, r.2.1)

/-- Statement `u_comm_offset=0`. -/
def resetOffset {C : Type} (st : CartesianStencil C) : CartesianStencil C :=
  { st with u_comm_offset := 0 }

/-- Statement `face_table_computed=1`. -/
def setFaceTableComputed {C : Type} (st : CartesianStencil C) : CartesianStencil C :=
  { st with face_table_computed := 1 }

/-- Member `HaloGather`.  The source field lives on the grid of the stencil
(`assert(source.Grid()==_grid)`): a `Lattice` of the embedding has no other grid. -/
def HaloGather {V C : Type} (st : CartesianStencil C) (source : Lattice V)
    (compress : Compressor V C) : Except Assertion (CartesianStencil C) := do
  let st := emit st (Event.call Step.HaloGather)
  let st := emit st Event.StencilBarrier
  let st := resetOffset st
  let s ← forLoopM st._npoints (HaloGatherPoint source compress) (st, 0)
  let st := setFaceTableComputed s.1
  assert (st.u_comm_offset == st._unified_buffer_size) Assertion.unified_buffer_size
  pure (emit st Event.accelerator_barrier)

/-- Member `HaloExchange`; `net` is the transport that serves the packets. -/
def HaloExchange {V C : Type} (st : CartesianStencil C) (source : Lattice V)
    (compress : Compressor V C) (net : Transport C) : Except Assertion (CartesianStencil C) := do
  let st := Prepare st
  let st ← HaloGather st source compress
  let st := Communicate st net
  let st := CommsMergeSHM st
  pure (CommsMerge st)

/-! ## Concrete grids -/

/-- Rank `r` of a one-dimensional lattice of 8 sites on 2 processes, 4 local
sites each, no SIMD split and no checkerboard.  `ShiftedRanks` follows the
periodic process ring: a shift `s` sends to rank `r-s` and receives from `r+s`. -/
def lineGrid (r : Nat) : GridBase :=
  { Nsimd := 1, _fdimensions := fun _ => 8, _gdimensions := fun _ => 8,
    _ldimensions := fun _ => 4, _rdimensions := fun _ => 4, _processors := fun _ => 2,
    _processor_coor := fun _ => r, _simd_layout := fun _ => 1, _ostride := fun _ => 1,
    _slice_nblock := fun _ => 1, _slice_block := fun _ => 1, _slice_stride := fun _ => 4,
    oSites := 4, CheckerBoarded := fun _ => false, CheckerBoardFromOindex := fun _ => 0,
    CheckerBoardShiftForCB := fun _ _ shift _ => shift, PermuteType := fun _ => 0,
    PermuteDim := fun _ => 0,
    ShiftedRanks := fun _ s => ((((r : Int) - s) % 2).toNat, (((r : Int) + s) % 2).toNat),
    ThisRank := r,
    CommunicatorPolicy := CommunicatorPolicy_t.CommunicatorPolicyConcurrent,
    nCommThreads := 1 }

/-- Rank `r` of a red-black (checkerboarded) grid for the lattice 16 x 2 with
the parity taken along axis 0, 2 processes and 2 SIMD lanes along axis 0.
Axis 0 has full extent 16, checkerboarded extent 8, local extent 4 and reduced
extent 2; axis 1 has extent 2 throughout.  The checkerboard shift of a shift
`s` along axis 0 is `s/2` or `(s+1)/2` of the shift normalised into `[0,16)`,
depending on the parities. -/
def redBlackGrid (r : Nat) : GridBase :=
  { Nsimd := 2,
    _fdimensions := fun d => if d = 0 then 16 else 2,
    _gdimensions := fun d => if d = 0 then 8 else 2,
    _ldimensions := fun d => if d = 0 then 4 else 2,
    _rdimensions := fun _ => 2,
    _processors := fun d => if d = 0 then 2 else 1,
    _processor_coor := fun d => if d = 0 then r else 0,
    _simd_layout := fun d => if d = 0 then 2 else 1,
    _ostride := fun d => if d = 0 then 1 else 2,
    _slice_nblock := fun d => if d = 0 then 2 else 1,
    _slice_block := fun d => if d = 0 then 1 else 2,
    _slice_stride := fun d => if d = 0 then 2 else 4,
    oSites := 4,
    CheckerBoarded := fun d => d == 0,
    CheckerBoardFromOindex := fun o => (o % 2 + o / 2 % 2) % 2,
    CheckerBoardShiftForCB := fun source_cb dim shift ocb =>
      if dim ≠ 0 then shift
      else
        let s := cmod (shift + 16) 16
        if (source_cb + ocb) % 2 = 1 then cdiv s 2 else cdiv (s + 1) 2,
    PermuteType := fun _ => 0,
    PermuteDim := fun d => if d = 0 then 1 else 0,
    ShiftedRanks := fun d s =>
      if d = 0 then ((((r : Int) - s) % 2).toNat, (((r : Int) + s) % 2).toNat) else (r, r),
    ThisRank := r,
    CommunicatorPolicy := CommunicatorPolicy_t.CommunicatorPolicyConcurrent,
    nCommThreads := 1 }

/-- Some contents for the storage the constructor leaves uninitialised. -/
def someStorage {C : Type} (junk : C) : Indeterminate C :=
  { _checkerboard := 7, _comms_send := fun _ => 5, _comms_recv := fun _ => 5,
    _comm_buf_size := fun _ => 9, _permute_type := fun _ => 9, same_node := fun _ => 9,
    _entries := fun _ => ⟨99, 99, 99, 99, 99⟩, u_comm_offset := 5,
    u_send_buf := fun _ => junk, u_recv_buf := fun _ => junk,
    u_simd_send_buf := fun _ _ => junk, u_simd_recv_buf := fun _ _ => junk }

/-- The state of a successful construction, and the object before the
constructor body otherwise. -/
def constructed {C : Type} (grid : GridBase) (npoints checkerboard : Nat)
    (directions : List Nat) (distances : List Int) (p : Parameters)
    (sizeof_vobj sizeof_cobj : Nat) (u : Indeterminate C) : CartesianStencil C :=
  match CartesianStencil.construct grid npoints checkerboard directions distances p
          sizeof_vobj sizeof_cobj u with
  | .ok st => st
  | .error _ =>
    CartesianStencil.initial grid npoints directions distances p sizeof_vobj sizeof_cobj u

/-! ## Several ranks -/

/-- The compressor that sends every site unchanged, `datum` bytes per site. -/
def plainCompressor (C : Type) (datum : Int) : Compressor C C :=
  { CommDatumSize := datum, DecompressionStep := false, Compress := fun _ v => v,
    CompressExchange := fun _ a b _ => (a, b) }

/-- The state of rank `q` when its gather has finished (the state after
`Prepare` when the gather stopped at an assertion). -/
def gatheredRank {V C : Type} (st : Nat → CartesianStencil C) (source : Nat → Lattice V)
    (compress : Compressor V C) (q : Nat) : CartesianStencil C :=
  match HaloGather (Prepare (st q)) (source q) compress with
  | .ok g => g
  | .error _ => Prepare (st q)

/-- Modelled from the spec: the mocked transport of the test harness, which
"delivers each packet's send range on the sender to the packet's receive range
on the rank it names".  Rank `r` receives for its packet `p`, issued with tag
`dir`, the send range of the packet with the same tag on rank `p.from_rank`,
provided that packet names `r` as its destination and its send is enabled. -/
def rankTransport {C : Type} (gathered : Nat → CartesianStencil C) (r : Nat) : Transport C :=
  fun p dir j =>
    match (gathered p.from_rank).Packets.get? dir with
    | some q =>
      if q.to_rank = r ∧ truthy q.do_send = true then readBuf (gathered p.from_rank) q.send_buf j
      else none
    | none => none

/-- One halo exchange on rank `r` of a set of ranks that all exchange. -/
def exchangeRank {V C : Type} (st : Nat → CartesianStencil C) (source : Nat → Lattice V)
    (compress : Compressor V C) (r : Nat) : Except Assertion (CartesianStencil C) :=
  HaloExchange (st r) (source r) compress (rankTransport (gatheredRank st source compress) r)

/-- The stencil of rank `r` on `lineGrid`: one point of displacement `+1` along
axis 0, with the Dirichlet block list `blk`.  A site value is a pair; the
uninitialised buffers hold `(9, 9)`. -/
def lineStencil (blk : List Int) (r : Nat) : CartesianStencil (Nat × Nat) :=
  constructed (lineGrid r) 1 0 [0] [1] ⟨blk⟩ 8 8 (someStorage (9, 9))

/-- The source field of rank `r` on `lineGrid`: local site `i`, which is the
global site `4*r+i`, holds the pair `(r, i)`. -/
def lineField (r : Nat) : Lattice (Nat × Nat) :=
  { Checkerboard := 0, rhs_v := fun i => (r, i) }

/-- The state of rank `r` after one halo exchange of both ranks of `lineGrid`
without Dirichlet blocking (block size 0). -/
def lineExchanged (r : Nat) : CartesianStencil (Nat × Nat) :=
  match exchangeRank (lineStencil [0]) lineField (plainCompressor (Nat × Nat) 8) r with
  | .ok st => st
  | .error _ => lineStencil [0] r

/-- The assertion at which a run stopped, if it stopped at one. -/
def failedAssertion {α : Type} (r : Except Assertion α) : Option Assertion :=
  match r with
  | .ok _ => none
  | .error a => some a

/-- The stencil of rank `r` on `redBlackGrid`: parity 0, one point of
displacement `-2` along axis 0, no Dirichlet blocking (block size 0 on both
axes). -/
def redBlackStencil (r : Nat) : CartesianStencil Nat :=
  constructed (redBlackGrid r) 1 0 [0] [-2] ⟨[0, 0]⟩ 8 8 (someStorage 0)

/-- A source field of parity 0 on `redBlackGrid`. -/
def redBlackField : Lattice Nat :=
  { Checkerboard := 0, rhs_v := fun i => 100 + i }

/-- The value of `u_comm_offset` when the point loop of `HaloGather` has
finished on `redBlackStencil r`. -/
def redBlackGatheredOffset (r : Nat) : Option Nat :=
  match forLoopM (redBlackStencil r)._npoints
      (HaloGatherPoint redBlackField (plainCompressor Nat 8))
      (resetOffset (emit (emit (Prepare (redBlackStencil r)) (Event.call Step.HaloGather))
        Event.StencilBarrier), 0) with
  | .ok s => some s.1.u_comm_offset
  | .error _ => none

/-! ## Sequences of transfer requests -/

/-- The arguments of one call of `CheckForDuplicate`. -/
structure DuplicateQuery where
  direction : Int
  OrthogPlane : Int
  DestProc : Int
  recv_buf : Pointer
  lane : Int
  bytes : Int
  cb : Int
  deriving DecidableEq, Repr

/-- A sequence of calls of `CheckForDuplicate`, in order. -/
def runQueries {C : Type} (qs : List DuplicateQuery) (st : CartesianStencil C) :
    CartesianStencil C :=
  qs.foldl (fun s q =>
    (CheckForDuplicate s q.direction q.OrthogPlane q.DestProc q.recv_buf q.lane q.bytes q.cb).1) st

/-- One transfer request of `Gather` or `GatherSimd`: the query of the
duplicate cache and the packet that is queued when the query returns 0. -/
structure TransferRequest where
  query : DuplicateQuery
  send_buf : Pointer
  xmit_to_rank : Nat
  comms_send : Int
  recv_from_rank : Nat
  comms_recv : Int
  deriving DecidableEq, Repr

/-- The request as `Gather` and `GatherSimd` issue it. -/
def TransferRequest.issue {C : Type} (q : TransferRequest) (st : CartesianStencil C) :
    CartesianStencil C :=
  queueTransfer st q.query.direction q.query.OrthogPlane q.query.DestProc q.send_buf
    q.query.recv_buf q.query.lane q.query.bytes q.query.cb q.xmit_to_rank q.comms_send
    q.recv_from_rank q.comms_recv

/-- The packet that `AddPacket` queues for a request. -/
def TransferRequest.packet (q : TransferRequest) : Packet :=
  { send_buf := q.send_buf, recv_buf := q.query.recv_buf, to_rank := q.xmit_to_rank,
    from_rank := q.recv_from_rank, do_send := q.comms_send, do_recv := q.comms_recv,
    bytes := q.query.bytes }

/-- A sequence of transfer requests, in order. -/
def runRequests {C : Type} (qs : List TransferRequest) (st : CartesianStencil C) :
    CartesianStencil C :=
  qs.foldl (fun s q => q.issue s) st

/-- Two queries carry the same key `(direction, OrthogPlane, DestProc, bytes, lane, cb)`. -/
def DuplicateQuery.sameKey (a b : DuplicateQuery) : Prop :=
  a.direction = b.direction ∧ a.OrthogPlane = b.OrthogPlane ∧ a.DestProc = b.DestProc
    ∧ a.bytes = b.bytes ∧ a.lane = b.lane ∧ a.cb = b.cb

/-- A cached record carries the key of a query. -/
def CachedTransfer.hasKey (c : CachedTransfer) (q : DuplicateQuery) : Prop :=
  c.direction = q.direction ∧ c.OrthogPlane = q.OrthogPlane ∧ c.DestProc = q.DestProc
    ∧ c.bytes = q.bytes ∧ c.lane = q.lane ∧ c.cb = q.cb

/-- Two cached records agree on all six key fields. -/
def CachedTransfer.sameKey (a b : CachedTransfer) : Prop :=
  a.direction = b.direction ∧ a.OrthogPlane = b.OrthogPlane ∧ a.DestProc = b.DestProc
    ∧ a.bytes = b.bytes ∧ a.lane = b.lane ∧ a.cb = b.cb

/-- Two transfer requests with the same key and different receive addresses. -/
def firstRequest : TransferRequest :=
  { query := { direction := 0, OrthogPlane := 0, DestProc := 1,
               recv_buf := ⟨Buffer.u_recv_buf, 0⟩, lane := 0, bytes := 8, cb := 3 },
    send_buf := ⟨Buffer.u_send_buf, 0⟩, xmit_to_rank := 1, comms_send := 1,
    recv_from_rank := 1, comms_recv := 1 }

/-- The second request of the pair. -/
def secondRequest : TransferRequest :=
  { query := { direction := 0, OrthogPlane := 0, DestProc := 1,
               recv_buf := ⟨Buffer.u_recv_buf, 1⟩, lane := 0, bytes := 8, cb := 3 },
    send_buf := ⟨Buffer.u_send_buf, 1⟩, xmit_to_rank := 1, comms_send := 1,
    recv_from_rank := 1, comms_recv := 1 }

/-! ## Planes as lists of sites -/

/-- The offsets `n*_slice_stride+b` of the sites of one plane orthogonal to
`dimension`, relative to the start of the plane, in the order in which the
plane loops visit them. -/
def planeOffsets (g : GridBase) (dimension : Nat) : List Nat :=
  (List.range (g._slice_nblock dimension)).flatMap (fun n =>
    (List.range (g._slice_block dimension)).map (fun b => n * g._slice_stride dimension + b))

/-- The test `ocb & cbmask` of the plane loops at the in-plane offset `k`. -/
def inMask (g : GridBase) (cbmask k : Nat) : Bool :=
  (1 <<< g.CheckerBoardFromOindex k) &&& cbmask != 0

/-- The sites of a plane that `CopyPlane` and `ScatterPlane` visit for a parity
mask: all of them on an axis that is not checkerboarded, those that pass
`ocb & cbmask` otherwise. -/
def planeSelected (g : GridBase) (dimension cbmask : Nat) : List Nat :=
  (planeOffsets g dimension).filter (fun k => !g.CheckerBoarded dimension || inMask g cbmask k)

/-- The index of the record of `(point, site)` in the table `_entries`. -/
def entryIndex (npoints point site : Nat) : Nat := point + site * npoints

/-- The record holds what `CopyPlane` stores for a local neighbour. -/
def StencilEntry.isLocalAt (e : StencilEntry) (offset permute wrap : Int) : Prop :=
  e._offset = toU64 offset ∧ e._is_local = 1 ∧ e._permute = toU8 permute
    ∧ e._around_the_world = toU8 wrap

/-- The record holds what `ScatterPlane` stores for a neighbour in the buffer. -/
def StencilEntry.isRemoteAt (e : StencilEntry) (offset wrap : Int) : Prop :=
  e._offset = toU64 offset ∧ e._is_local = 0 ∧ e._permute = 0
    ∧ e._around_the_world = toU8 wrap

/-- The slice tables of `GridBase` along axis `d`, as the grid computes them
from its reduced extents: a plane orthogonal to `d` consists of `_slice_nblock`
blocks of `_slice_block = _ostride` consecutive sites, `_slice_stride =
_ostride * _rdimensions` apart, and the `_rdimensions` planes make up the
`oSites()` outer sites. -/
structure AxisLayout (g : GridBase) (d : Nat) : Prop where
  rd_pos : 0 < g._rdimensions d
  ostride_pos : 0 < g._ostride d
  block : g._slice_block d = g._ostride d
  stride : g._slice_stride d = g._ostride d * g._rdimensions d
  sites : g.oSites = g._slice_nblock d * g._slice_stride d

/-- The sum `f 0 + ... + f (n-1)`. -/
def sumTo (n : Nat) (f : Nat → Nat) : Nat :=
  forLoop n (fun i acc => acc + f i) 0

/-! ## The table passes on the table alone -/

/-- The plane `(x + sshift) % rd` that plane `x` reads from. -/
def shiftedPlane (g : GridBase) (dimension : Nat) (sshift : Int) (x : Nat) : Int :=
  cmod ((x : Int) + sshift) (g._rdimensions dimension : Int)

/-- The checkerboard shift that `Local`, `Comms`, `Gather` and `GatherSimd` use
in a pass with parity mask `cbmask` for the displacement `shiftpm`. -/
def passShift (g : GridBase) (checkerboard dimension : Nat) (shiftpm : Int) (cbmask : Nat) :
    Int :=
  g.CheckerBoardShiftForCB checkerboard dimension
    (cmod (shiftpm + (g._fdimensions dimension : Int)) (g._fdimensions dimension : Int))
    (if cbmask = 2 then Odd else Even)

/-- What `Local` does to the table. -/
def LocalEntries (g : GridBase) (npoints checkerboard point dimension : Nat) (shiftpm : Int)
    (cbmask : Nat) (entries : Nat → StencilEntry) : Nat → StencilEntry :=
  forLoop (g._rdimensions dimension) (fun x entries =>
    CopyPlaneEntries g npoints entries point dimension x
      (shiftedPlane g dimension (passShift g checkerboard dimension shiftpm cbmask) x) cbmask
      (localPermuteSlice g dimension (passShift g checkerboard dimension shiftpm cbmask) x)
      (localWraparound shiftpm
        (shiftedPlane g dimension (passShift g checkerboard dimension shiftpm cbmask) x) x))
    entries

/-- What the plane body of `Comms` does to the table and to
`_unified_buffer_size`. -/
def CommsPlaneEntries (g : GridBase) (npoints point dimension : Nat) (shiftpm : Int)
    (cbmask : Nat) (comms_recv sshift : Int) (x : Nat) (s : (Nat → StencilEntry) × Nat) :
    (Nat → StencilEntry) × Nat :=
  let sx := shiftedPlane g dimension sshift x
  let offnode := offnodePlane g dimension sshift x
  let wraparound := commsWraparound g dimension shiftpm sx x
  let entries :=
    if offnode = 0 then
      CopyPlaneEntries g npoints s.1 point dimension x sx cbmask 0 wraparound
    else if comms_recv = 0 then
      CopyPlaneEntries g npoints s.1 point dimension x sx cbmask 1 wraparound
    else
      (ScatterPlaneEntries g npoints s.1 point dimension x cbmask s.2 wraparound).1
  (entries, if truthy offnode then s.2 + planeWords g dimension cbmask else s.2)

/-- What the plane loop of `Comms` does to the table and to
`_unified_buffer_size`. -/
def CommsEntries (g : GridBase) (npoints checkerboard point dimension : Nat) (shiftpm : Int)
    (cbmask : Nat) (comms_recv : Int) (s : (Nat → StencilEntry) × Nat) :
    (Nat → StencilEntry) × Nat :=
  forLoop (g._rdimensions dimension)
    (CommsPlaneEntries g npoints point dimension shiftpm cbmask comms_recv
      (passShift g checkerboard dimension shiftpm cbmask)) s

/-- The condition of the three assertions of `Comms`. -/
def commsAsserts (g : GridBase) (dimension : Nat) (shiftpm : Int) : Bool :=
  (ofBool (g._processors dimension > 1) == 1)
    && decide (cmod (shiftpm + (g._fdimensions dimension : Int)) (g._fdimensions dimension : Int) ≥ 0)
    && decide (cmod (shiftpm + (g._fdimensions dimension : Int)) (g._fdimensions dimension : Int)
          < (g._fdimensions dimension : Int))

/-- The words that `Comms` adds to `_unified_buffer_size` for plane `x`. -/
def commsPlaneWords (g : GridBase) (dimension cbmask : Nat) (sshift : Int) (x : Nat) : Nat :=
  if truthy (offnodePlane g dimension sshift x) then planeWords g dimension cbmask else 0

/-- What the plane body of `Comms` stores for the site at in-plane offset `k`
of plane `x`, when the pass started with `_unified_buffer_size = U`: a local
record for a plane that stays on the node or whose receive is switched off, a
record in the buffer otherwise, at the slot of the site within the words
reserved for the plane. -/
def commsEntryAt (g : GridBase) (dimension : Nat) (shiftpm : Int) (cbmask : Nat)
    (comms_recv sshift : Int) (U x k : Nat) (e : StencilEntry) : Prop :=
  let sx := shiftedPlane g dimension sshift x
  let wrap := commsWraparound g dimension shiftpm sx x
  if offnodePlane g dimension sshift x = 0 then
    e.isLocalAt (sx * (g._ostride dimension : Int) + (k : Int)) 0 wrap
  else if comms_recv = 0 then
    e.isLocalAt (sx * (g._ostride dimension : Int) + (k : Int)) 1 wrap
  else
    ∃ i, (planeSelected g dimension cbmask).get? i = some k
      ∧ e.isRemoteAt (((U + sumTo x (commsPlaneWords g dimension cbmask sshift) + i : Nat) : Int))
          wrap

/-- The parity masks of the passes that the constructor makes for a point:
one pass with mask `0x3` when both parities have the same checkerboard shift of
the displacement, the passes `0x1` and `0x2` otherwise. -/
def pointPasses (g : GridBase) (checkerboard dimension : Nat) (displacement : Int) : List Nat :=
  if g.CheckerBoardShiftForCB checkerboard dimension displacement Even
      = g.CheckerBoardShiftForCB checkerboard dimension displacement Odd
  then [3] else [1, 2]

/-- What the constructor loop does for one point to the table and to
`_unified_buffer_size`. -/
def constructPointEntries (g : GridBase) (npoints checkerboard : Nat) (comms_recv : Int)
    (point dimension : Nat) (displacement : Int) (s : (Nat → StencilEntry) × Nat) :
    (Nat → StencilEntry) × Nat :=
  if g._processors dimension > 1 then
    (pointPasses g checkerboard dimension displacement).foldl
      (fun s cbmask =>
        CommsEntries g npoints checkerboard point dimension displacement cbmask comms_recv s) s
  else
    ((pointPasses g checkerboard dimension displacement).foldl
      (fun e cbmask =>
        LocalEntries g npoints checkerboard point dimension displacement cbmask e) s.1, s.2)

/-- The point passes the assertions of the constructor loop and of `Comms`. -/
def constructPointOk (g : GridBase) (dimension : Nat) (displacement : Int) : Bool :=
  !(decide (g._simd_layout dimension > 2) && decide (g._processors dimension > 1))
    && (!decide (g._processors dimension > 1) || commsAsserts g dimension displacement)

/-- The state after the constructor loop body for a point: the table, the
buffer size and the three per-point stores. -/
def afterPoint {C : Type} (st : CartesianStencil C) (checkerboard point dimension : Nat)
    (displacement : Int) : CartesianStencil C :=
  { st with
    _permute_type := setAt st._permute_type point (st._grid.PermuteType dimension),
    _checkerboard := checkerboard,
    _comm_buf_size :=
      if st._grid._processors dimension > 1 then
        setAt st._comm_buf_size point
          (st._grid._slice_nblock dimension * st._grid._slice_block dimension)
      else st._comm_buf_size,
    _entries := (constructPointEntries st._grid st._npoints checkerboard (st._comms_recv point)
                  point dimension displacement (st._entries, st._unified_buffer_size)).1,
    _unified_buffer_size :=
      (constructPointEntries st._grid st._npoints checkerboard (st._comms_recv point)
                  point dimension displacement (st._entries, st._unified_buffer_size)).2 }

/-- What the constructor loop does for the points below `n` to the table and
to `_unified_buffer_size`. -/
def constructLoopEntries (g : GridBase) (npoints checkerboard : Nat) (comms_recv : Nat → Int)
    (directions : List Nat) (distances : List Int) (n : Nat) (s : (Nat → StencilEntry) × Nat) :
    (Nat → StencilEntry) × Nat :=
  forLoop n (fun i s =>
    constructPointEntries g npoints checkerboard (comms_recv i) i (directions.getD i 0)
      (distances.getD i 0) s) s

/-- The state after the constructor loop has run for the points below `n`. -/
def afterPoints {C : Type} (st : CartesianStencil C) (checkerboard : Nat) (directions : List Nat)
    (distances : List Int) (n : Nat) : CartesianStencil C :=
  { st with
    _permute_type := fun j =>
      if j < n then st._grid.PermuteType (directions.getD j 0) else st._permute_type j,
    _checkerboard := if n = 0 then st._checkerboard else checkerboard,
    _comm_buf_size := fun j =>
      if j < n ∧ st._grid._processors (directions.getD j 0) > 1 then
        st._grid._slice_nblock (directions.getD j 0) * st._grid._slice_block (directions.getD j 0)
      else st._comm_buf_size j,
    _entries := (constructLoopEntries st._grid st._npoints checkerboard st._comms_recv directions
                  distances n (st._entries, st._unified_buffer_size)).1,
    _unified_buffer_size :=
      (constructLoopEntries st._grid st._npoints checkerboard st._comms_recv directions
                  distances n (st._entries, st._unified_buffer_size)).2 }

/-- The state on which the constructor loop starts: the initial object, after
`DirichletBlock` when a block list is given, with the sizes reset. -/
def beforePoints {C : Type} (grid : GridBase) (npoints : Nat) (directions : List Nat)
    (distances : List Int) (p : Parameters) (sizeof_vobj sizeof_cobj : Nat)
    (u : Indeterminate C) : CartesianStencil C :=
  resetSizes
    (if p.dirichlet.length ≠ 0 then
      dirichletResult (CartesianStencil.initial grid npoints directions distances p sizeof_vobj
        sizeof_cobj u) p.dirichlet npoints
     else CartesianStencil.initial grid npoints directions distances p sizeof_vobj sizeof_cobj u)

/-- No assertion of the constructor fails: `DirichletBlock`, when it is called,
passes `abs(displacement) < ld` at every point, and every point passes the
assertions of the constructor loop and of `Comms`. -/
def constructOk {C : Type} (grid : GridBase) (npoints : Nat) (directions : List Nat)
    (distances : List Int) (p : Parameters) (sizeof_vobj sizeof_cobj : Nat)
    (u : Indeterminate C) : Prop :=
  (p.dirichlet.length ≠ 0 → ∀ ii, ii < npoints →
      dirichletAborts (CartesianStencil.initial grid npoints directions distances p sizeof_vobj
        sizeof_cobj u) p.dirichlet ii = false)
  ∧ ∀ ii, ii < npoints →
      constructPointOk grid (directions.getD ii 0) (distances.getD ii 0) = true

/-- The record with the byte offset that `PrecomputeByteOffsets` stores in it. -/
def withByteOffset (sizeof_vobj sizeof_cobj : Nat) (e : StencilEntry) : StencilEntry :=
  if e._is_local ≠ 0 then
    { e with _byte_offset := (e._offset * sizeof_vobj) % 18446744073709551616 }
  else
    { e with _byte_offset := (e._offset * sizeof_cobj) % 18446744073709551616 }

/-- The table and `_unified_buffer_size` when the constructor loop has run for
all points, before `PrecomputeByteOffsets`. -/
def constructTable {C : Type} (grid : GridBase) (npoints checkerboard : Nat)
    (directions : List Nat) (distances : List Int) (p : Parameters)
    (sizeof_vobj sizeof_cobj : Nat) (u : Indeterminate C) : (Nat → StencilEntry) × Nat :=
  constructLoopEntries grid npoints checkerboard
    (beforePoints grid npoints directions distances p sizeof_vobj sizeof_cobj u)._comms_recv
    directions distances npoints
    ((beforePoints grid npoints directions distances p sizeof_vobj sizeof_cobj u)._entries, 0)

/-- The parity mask of the constructor pass that writes the site at the
in-plane offset `k`: `0x3` when the constructor makes one pass, `0x1` or `0x2`
after the parity of the site when it makes two. -/
def siteMask (g : GridBase) (checkerboard dimension : Nat) (displacement : Int) (k : Nat) :
    Nat :=
  if g.CheckerBoardShiftForCB checkerboard dimension displacement Even
      = g.CheckerBoardShiftForCB checkerboard dimension displacement Odd
  then 3
  else if g.CheckerBoardFromOindex k = 0 then 1 else 2

/-- A ring of 8 sites on one process: one axis, no SIMD split, no
checkerboarding; the checkerboard shift of a shift is the shift itself, as in
`GridCartesian`. -/
def ringGrid : GridBase :=
  { Nsimd := 1, _fdimensions := fun _ => 8, _gdimensions := fun _ => 8,
    _ldimensions := fun _ => 8, _rdimensions := fun _ => 8, _processors := fun _ => 1,
    _processor_coor := fun _ => 0, _simd_layout := fun _ => 1, _ostride := fun _ => 1,
    _slice_nblock := fun _ => 1, _slice_block := fun _ => 1, _slice_stride := fun _ => 8,
    oSites := 8, CheckerBoarded := fun _ => false, CheckerBoardFromOindex := fun _ => 0,
    CheckerBoardShiftForCB := fun _ _ shift _ => shift, PermuteType := fun _ => 0,
    PermuteDim := fun _ => 0, ShiftedRanks := fun _ _ => (0, 0), ThisRank := 0,
    CommunicatorPolicy := CommunicatorPolicy_t.CommunicatorPolicyConcurrent,
    nCommThreads := 1 }

/-- The stencil on `ringGrid` with one point of displacement `d` along axis 0
and no Dirichlet blocking. -/
def ringStencil (d : Int) : CartesianStencil Nat :=
  constructed ringGrid 1 0 [0] [d] ⟨[0]⟩ 8 8 (someStorage 0)

/-- A red-black (checkerboarded) grid for the lattice 8 x 2 on one process
without SIMD split, the parity taken along axis 0: axis 0 has full extent 8 and
checkerboarded extent 4, axis 1 has extent 2.  The outer site `o` has the
reduced coordinates `(o % 4, o / 4)` and the parity of their sum. -/
def redBlackRing : GridBase :=
  { Nsimd := 1,
    _fdimensions := fun d => if d = 0 then 8 else 2,
    _gdimensions := fun d => if d = 0 then 4 else 2,
    _ldimensions := fun d => if d = 0 then 4 else 2,
    _rdimensions := fun d => if d = 0 then 4 else 2,
    _processors := fun _ => 1,
    _processor_coor := fun _ => 0,
    _simd_layout := fun _ => 1,
    _ostride := fun d => if d = 0 then 1 else 4,
    _slice_nblock := fun d => if d = 0 then 2 else 1,
    _slice_block := fun d => if d = 0 then 1 else 4,
    _slice_stride := fun d => if d = 0 then 4 else 8,
    oSites := 8,
    CheckerBoarded := fun d => d == 0,
    CheckerBoardFromOindex := fun o => (o % 4 + o / 4 % 2) % 2,
    CheckerBoardShiftForCB := fun source_cb dim shift ocb =>
      if dim ≠ 0 then shift
      else if (source_cb + ocb) % 2 = 1 then cdiv (cmod (shift + 8) 8) 2
      else cdiv (cmod (shift + 8) 8 + 1) 2,
    PermuteType := fun _ => 0,
    PermuteDim := fun _ => 0,
    ShiftedRanks := fun _ _ => (0, 0),
    ThisRank := 0,
    CommunicatorPolicy := CommunicatorPolicy_t.CommunicatorPolicyConcurrent,
    nCommThreads := 1 }

/-- The record is a local one whose `_offset` is a site below `osites`, or a
remote one whose `_offset` is a slot below `U`. -/
def StencilEntry.inRange (e : StencilEntry) (osites U : Nat) : Prop :=
  (e._is_local = 1 ∧ e._offset < osites) ∨ (e._is_local = 0 ∧ e._offset < U)

/-- A property of the stencil and of `face_idx` that survives the three steps
of `HaloGather` that change the stencil: the announcement of a point, the body
of `Gather` for an off-node plane, and a pass of `GatherSimd`. -/
structure GatherInvariant {V C : Type} (source : Lattice V) (compress : Compressor V C)
    (Inv : CartesianStencil C → Nat → Prop) : Prop where
  point : ∀ st fi p, Inv st fi → Inv (emit st (Event.Point p)) fi
  face : ∀ st fi dimension cbmask point sx comm_proc, Inv st fi →
    Inv (gatherOffnodePlane source dimension cbmask compress point sx comm_proc (st, fi)).1
      (fi + 1)
  simdPass : ∀ st dimension shift cbmask fi point (r : CartesianStencil C × Nat × Int),
    Inv st fi → GatherSimd st source dimension shift cbmask compress fi point = .ok r →
    Inv r.1 r.2.1

/-- What a stretch of `HaloGather` that starts with `face_idx = fi` leaves
alone: the flag `face_table_computed`, the face tables when the flag is set and
the tables below `fi` in any case, and the receive buffers. -/
def FaceStep {C : Type} (st : CartesianStencil C) (fi : Nat) (r : CartesianStencil C) : Prop :=
  r.face_table_computed = st.face_table_computed
    ∧ (st.face_table_computed ≠ 0 → r.face_table = st.face_table)
    ∧ (∀ idx, idx < fi → r.face_table.getD idx [] = st.face_table.getD idx [])
    ∧ r.u_recv_buf = st.u_recv_buf ∧ r.u_simd_recv_buf = st.u_simd_recv_buf

/-- The pointer points into one of the send buffers. -/
def Pointer.isSend (p : Pointer) : Prop :=
  p.base = Buffer.u_send_buf ∨ ∃ l, p.base = Buffer.u_simd_send_buf l

/-- The parts of the object that an exchange writes and never consults when
it builds its lists: the trace, the face tables with their flag, and the
contents of the four buffers. -/
structure Scratch (C : Type) where
  trace : List Event
  face_table_computed : Int
  face_table : List (List (Nat × Nat))
  u_send_buf : Nat → C
  u_recv_buf : Nat → C
  u_simd_send_buf : Nat → Nat → C
  u_simd_recv_buf : Nat → Nat → C

/-- The scratch parts of a stencil. -/
def CartesianStencil.scratch {C : Type} (st : CartesianStencil C) : Scratch C :=
  { trace := st.trace, face_table_computed := st.face_table_computed,
    face_table := st.face_table, u_send_buf := st.u_send_buf, u_recv_buf := st.u_recv_buf,
    u_simd_send_buf := st.u_simd_send_buf, u_simd_recv_buf := st.u_simd_recv_buf }

/-- The stencil with its scratch parts replaced. -/
def CartesianStencil.withScratch {C : Type} (st : CartesianStencil C) (x : Scratch C) :
    CartesianStencil C :=
  { st with trace := x.trace, face_table_computed := x.face_table_computed,
            face_table := x.face_table, u_send_buf := x.u_send_buf,
            u_recv_buf := x.u_recv_buf, u_simd_send_buf := x.u_simd_send_buf,
            u_simd_recv_buf := x.u_simd_recv_buf }

/-- Two stencils that agree in everything but their scratch parts. -/
def SamePlan {C : Type} (a b : CartesianStencil C) : Prop := b = a.withScratch b.scratch

/-- A step of the gather, from the stencil and the values `τ` it is given to
the stencil and the values `ρ` it returns (among both `face_idx`, read by `fin`
and `fout`), that a second run follows: the step leaves alone what `FaceStep`
names, and when it succeeds from `s`, it succeeds with the same returned values
from every stencil `b` on the same plan whose face tables are marked computed
and hold, at the indices the step passes, the tables that the step leaves
behind. -/
def SimStep {C τ ρ : Type} (fin : τ → Nat) (fout : ρ → Nat)
    (f : CartesianStencil C × τ → Except Assertion (CartesianStencil C × ρ)) : Prop :=
  (∀ s r, f s = .ok r → fin s.2 ≤ fout r.2 ∧ FaceStep s.1 (fin s.2) r.1)
  ∧ (∀ s r b, f s = .ok r → SamePlan s.1 b → b.face_table_computed ≠ 0 →
      (∀ idx, fin s.2 ≤ idx → idx < fout r.2 →
        b.face_table.getD idx [] = r.1.face_table.getD idx []) →
      ∃ b', f (b, s.2) = .ok (b', r.2) ∧ SamePlan r.1 b')

/-- The stencil with the lists of an exchange emptied and the running offset
at zero: what every exchange starts from. -/
def CartesianStencil.cleared {C : Type} (st : CartesianStencil C) : CartesianStencil C :=
  { st with Decompressions := [], DecompressionsSHM := [], Mergers := [], MergersSHM := [],
            Packets := [], CopyReceiveBuffers := [], CachedTransfers := [], u_comm_offset := 0 }

/-- Two stencils that differ at most in the lists of an exchange, the running
offset and the scratch parts. -/
def SameStatic {C : Type} (a b : CartesianStencil C) : Prop := SamePlan a.cleared b.cleared

/-- The second stencil differs from the first at most in the trace and in the
contents of the buffers. -/
def OnlyBuffers {C : Type} (a b : CartesianStencil C) : Prop :=
  SamePlan a b ∧ b.face_table = a.face_table
    ∧ b.face_table_computed = a.face_table_computed

/-- The contents of the receive buffers: `u_recv_buf` and the lanes of
`u_simd_recv_buf`. -/
structure RecvBufs (C : Type) where
  plain : Nat → C
  simd : Nat → Nat → C

/-- The receive buffers of a stencil. -/
def CartesianStencil.recvBufs {C : Type} (st : CartesianStencil C) : RecvBufs C :=
  { plain := st.u_recv_buf, simd := st.u_simd_recv_buf }

/-- What `readBuf` reads when the pointer points into a receive buffer. -/
def RecvBufs.read {C : Type} (R : RecvBufs C) (p : Pointer) (j : Nat) : Option C :=
  match p.base with
  | Buffer.u_recv_buf => some (R.plain (p.index + j))
  | Buffer.u_simd_recv_buf l => some (R.simd l (p.index + j))
  | Buffer.u_send_buf => none
  | Buffer.u_simd_send_buf _ => none
  | Buffer.indeterminate => none

/-- What `writeBuf` does to the receive buffers. -/
def RecvBufs.write {C : Type} (R : RecvBufs C) (p : Pointer) (j : Nat) (v : C) : RecvBufs C :=
  match p.base with
  | Buffer.u_recv_buf => { R with plain := setAt R.plain (p.index + j) v }
  | Buffer.u_simd_recv_buf l =>
      { R with simd := setAt R.simd l (setAt (R.simd l) (p.index + j) v) }
  | Buffer.u_send_buf => R
  | Buffer.u_simd_send_buf _ => R
  | Buffer.indeterminate => R

/-- The number `bytes/sizeof(cobj)` of objects of a transfer. -/
def objects (sizeof_cobj : Nat) (bytes : Int) : Nat := (cdiv bytes (sizeof_cobj : Int)).toNat

/-- What `receivePacket` does to the receive buffers. -/
def RecvBufs.receive {C : Type} (R : RecvBufs C) (sizeof_cobj : Nat) (net : Transport C)
    (p : Packet) (dir : Nat) : RecvBufs C :=
  if truthy p.do_recv then
    forLoop (objects sizeof_cobj p.bytes) (fun j R =>
      match net p dir j with
      | some v => R.write p.recv_buf j v
      | none => R) R
  else R

/-- What the receive loop of `Communicate` does to the receive buffers. -/
def RecvBufs.receiveAll {C : Type} (R : RecvBufs C) (sizeof_cobj : Nat) (net : Transport C)
    (packets : List Packet) : RecvBufs C :=
  forLoop packets.length (fun i R =>
    match packets.get? i with
    | none => R
    | some p => R.receive sizeof_cobj net p i) R

/-- What the copy of one record of `CopyReceiveBuffers` does to the receive
buffers when it reads from a receive buffer. -/
def RecvBufs.copy {C : Type} (R : RecvBufs C) (sizeof_cobj : Nat) (c : CopyReceiveBuffer) :
    RecvBufs C :=
  forLoop (objects sizeof_cobj c.bytes) (fun j R =>
    match R.read c.from_p j with
    | some v => R.write c.to_p j v
    | none => R) R

/-- What `CommsCopy` does to the receive buffers. -/
def RecvBufs.copyAll {C : Type} (R : RecvBufs C) (sizeof_cobj : Nat)
    (copies : List CopyReceiveBuffer) : RecvBufs C :=
  forLoop copies.length (fun i R =>
    match copies.get? i with
    | none => R
    | some c => R.copy sizeof_cobj c) R

/-- The ranges `p[0..n)` and `q[0..m)` have no object in common. -/
def Apart (p : Pointer) (n : Nat) (q : Pointer) (m : Nat) : Prop :=
  ∀ j, j < n → ∀ k, k < m → p.base ≠ q.base ∨ p.index + j ≠ q.index + k

/-- The receive ranges of the packets and the ranges of the copies keep out of
each other's way: no two packets and no two copies write the same object, no
copy writes into the range of a packet, and no copy writes what a copy reads. -/
structure Slots (sizeof_cobj : Nat) (packets : List Packet)
    (copies : List CopyReceiveBuffer) : Prop where
  packets_apart : ∀ i i' p p', packets.get? i = some p → packets.get? i' = some p' → i ≠ i' →
    Apart p.recv_buf (objects sizeof_cobj p.bytes) p'.recv_buf (objects sizeof_cobj p'.bytes)
  copies_apart : ∀ i i' c c', copies.get? i = some c → copies.get? i' = some c' → i ≠ i' →
    Apart c.to_p (objects sizeof_cobj c.bytes) c'.to_p (objects sizeof_cobj c'.bytes)
  packet_copy : ∀ p c, p ∈ packets → c ∈ copies →
    Apart p.recv_buf (objects sizeof_cobj p.bytes) c.to_p (objects sizeof_cobj c.bytes)
  read_write : ∀ c c', c ∈ copies → c' ∈ copies →
    Apart c.from_p (objects sizeof_cobj c.bytes) c'.to_p (objects sizeof_cobj c'.bytes)

/-- The buffers already hold what the first `n` packets receive. -/
def Received {C : Type} (sizeof_cobj : Nat) (net : Transport C) (packets : List Packet)
    (n : Nat) (R : RecvBufs C) : Prop :=
  ∀ i p, i < n → packets.get? i = some p → truthy p.do_recv = true →
    ∀ j, j < objects sizeof_cobj p.bytes → ∀ v, net p i j = some v →
      R.write p.recv_buf j v = R

/-- The buffers already hold what the first `n` copies store. -/
def Copied {C : Type} (sizeof_cobj : Nat) (copies : List CopyReceiveBuffer) (n : Nat)
    (R : RecvBufs C) : Prop :=
  ∀ i c, i < n → copies.get? i = some c →
    ∀ j, j < objects sizeof_cobj c.bytes → ∀ v, R.read c.from_p j = some v →
      R.write c.to_p j v = R

/-! ## Stencil queries -/

/-- Member `SameNode`. -/
def SameNode {C : Type} (st : CartesianStencil C) (point : Nat) : Int :=
  let dimension := st._directions.getD point 0
  let displacement := st._distances.getD point 0
  let comm_dim := ofBool (st._grid._processors dimension > 1)
  if !truthy comm_dim then 1
  else if displacement = 0 then 1
  else 0

/-- Member `GetNodeLocal` of `CartesianStencilAccelerator`. -/
def GetNodeLocal {C : Type} (st : CartesianStencil C) (osite point : Nat) : Int :=
  ((st._entries (point + st._npoints * osite))._is_local : Int)

/-- Member `GetEntry`: the value it stores in `ptype`, and the index in
`_entries` of the record whose address it returns. -/
def GetEntry {C : Type} (st : CartesianStencil C) (point osite : Nat) : Int × Nat :=
  ((st._permute_type point : Int), point + st._npoints * osite)

/-- What `GetInfo` leaves in its three reference arguments, and the address it
returns. -/
structure Info where
  ptype : Int
  local_ : Int
  perm : Int
  address : Nat
  deriving DecidableEq, Repr

/-- Member `GetInfo`.  `u_recv_buf_p` is the address held in the member of that
name, and `ptype` the value of the caller's variable on entry; the sums are
taken in `uint64_t`. -/
def GetInfo {C : Type} (st : CartesianStencil C) (u_recv_buf_p : Nat) (ptype : Int)
    (point ent : Nat) (base : Nat) : Info :=
  let cbase := u_recv_buf_p
  let local_ : Int := (st._entries ent)._is_local
  let perm : Int := (st._entries ent)._permute
  let ptype := if truthy perm then (st._permute_type point : Int) else ptype
  if truthy local_ then
    { ptype := ptype, local_ := local_, perm := perm,
      address := (base + (st._entries ent)._byte_offset) % 18446744073709551616 }
  else
    { ptype := ptype, local_ := local_, perm := perm,
      address := (cbase + (st._entries ent)._byte_offset) % 18446744073709551616 }

/-- Member `GetPFInfo`. -/
def GetPFInfo {C : Type} (st : CartesianStencil C) (u_recv_buf_p : Nat) (ent : Nat)
    (base : Nat) : Nat :=
  let cbase := u_recv_buf_p
  let local_ : Int := (st._entries ent)._is_local
  if truthy local_ then (base + (st._entries ent)._byte_offset) % 18446744073709551616
  else (cbase + (st._entries ent)._byte_offset) % 18446744073709551616

/-- Member `BuildSurfaceList`. -/
def BuildSurfaceList {C : Type} (st : CartesianStencil C) (Ls vol4 : Nat) : CartesianStencil C :=
  let st := forLoop st._npoints (fun point st =>
    { st with same_node := setAt st.same_node point (SameNode st point) }) st
  forLoop vol4 (fun site st =>
    let local_ := forLoop st._npoints (fun point local_ =>
      if !truthy (GetNodeLocal st (site * Ls) point) && !truthy (st.same_node point) then 0
      else local_) (1 : Int)
    if local_ = 0 then { st with surface_list := st.surface_list ++ [site] } else st) st

/-- Modelled from the spec: `Exchange` is a member of the decompressor, which the
consumer supplies.  A merge takes "two half-buffers (representing the two
split SIMD lanes)" and must "interleave them back into full-width lane values
at the destination", "elementwise over `buffer_size/2` items": the call with
index `o` interleaves item `o` of the two half-buffers into the elements `2*o`
and `2*o+1` of the destination `mp`.  The function gives the elements of the
destination, as pairs of the destination and the element index, that the call
recorded by an event fills. -/
def exchangeTargets : Event → List (Pointer × Nat)
  | Event.Exchange mp _ _ _ o => [(mp, 2 * o), (mp, 2 * o + 1)]
  | _ => []

/-! ## The kinds of events of an exchange -/

/-- The event belongs to the gather: the announcement of a point to the
compressor, the computation of a face table, the gather of a plane into a send
buffer, or the `accelerator_barrier` with which `HaloGather` ends. -/
def Event.isGather : Event → Bool
  | Event.accelerator_barrier => true
  | Event.Point _ => true
  | Event.Gather_plane_table_compute _ _ _ _ => true
  | Event.Gather_plane_simple_table _ _ _ _ => true
  | Event.Gather_plane_exchange_table _ _ _ _ _ _ _ => true
  | _ => false

/-- The event issues or completes a packet. -/
def Event.isPacket : Event → Bool
  | Event.StencilSendToRecvFrom _ _ => true
  | Event.StencilSendToRecvFromBegin _ _ => true
  | Event.StencilSendToRecvFromComplete _ => true
  | _ => false

/-- The event is a copy of one object by `CommsCopy`. -/
def Event.isCopy : Event → Bool
  | Event.coalescedWrite _ _ _ => true
  | _ => false

/-- The event is a call of `Exchange` or of `Decompress` by `CommsMerge`. -/
def Event.isMerge : Event → Bool
  | Event.Exchange _ _ _ _ _ => true
  | Event.Decompress _ _ _ => true
  | _ => false

/-- The stage of an exchange that an event belongs to: gather 0, packets 1,
copies 2, merge and decompress 3; the entries into the five steps and the
barriers belong to no stage. -/
def Event.stage (e : Event) : Option Nat :=
  if e.isGather then some 0
  else if e.isPacket then some 1
  else if e.isCopy then some 2
  else if e.isMerge then some 3
  else none

/-- In the list `T`, every event of kind `P` comes before every event of kind
`Q`. -/
def Precede (T : List Event) (P Q : Event → Bool) : Prop :=
  ∀ i j e f, T.get? i = some e → T.get? j = some f → P e = true → Q f = true → i < j

/-- From `a` to `b` the trace grew by events of the gather only, and the two
lists `MergersSHM` and `DecompressionsSHM` are what they were. -/
def GatherStep {C : Type} (a b : CartesianStencil C) : Prop :=
  (∃ es, b.trace = a.trace ++ es ∧ es.all Event.isGather = true)
    ∧ b.MergersSHM = a.MergersSHM ∧ b.DecompressionsSHM = a.DecompressionsSHM

/-- From `a` to `b` the trace grew by events of kind `P` only. -/
def Grows {C : Type} (P : Event → Bool) (a b : CartesianStencil C) : Prop :=
  ∃ es, b.trace = a.trace ++ es ∧ es.all P = true

/-- The stages of the events of `T` never decrease along the list. -/
def StageOrdered (T : List Event) : Prop :=
  List.Pairwise (fun e f => ∀ m n, e.stage = some m → f.stage = some n → m ≤ n) T

/-- The events of `l` that belong to a stage belong to a stage from `lo` to `hi`. -/
def Staged (lo hi : Nat) (l : List Event) : Prop :=
  ∀ e, e ∈ l → ∀ m, e.stage = some m → lo ≤ m ∧ m ≤ hi

/-- A ring of 8 sites on one process with 2 SIMD lanes along its axis: local
extent 8, reduced extent 4, and the axis is a permute dimension. -/
def simdRing : GridBase :=
  { ringGrid with Nsimd := 2, _rdimensions := fun _ => 4, _simd_layout := fun _ => 2,
                  _slice_stride := fun _ => 4, oSites := 4, PermuteDim := fun _ => 1 }

/-- The stencil on `simdRing` with one point of displacement `d` along axis 0
and no Dirichlet blocking. -/
def simdRingStencil (d : Int) : CartesianStencil Nat :=
  constructed simdRing 1 0 [0] [d] ⟨[0]⟩ 8 8 (someStorage 0)

/-- The stencil without points on `lineGrid`: its `_checkerboard` is never
assigned and holds what the storage held. -/
def emptyStencil : CartesianStencil Nat :=
  constructed (lineGrid 0) 0 0 [] [] ⟨[0]⟩ 8 8 (someStorage 0)

/-- The value of `_unified_buffer_size` with which `Comms` reaches plane `x` in
the pass with parity mask `cbmask` of a point, when the passes of the point
started with `_unified_buffer_size = U`: it is the offset passed to
`ScatterPlane` for that plane.  The pass `0x2` follows the whole pass `0x1`. -/
def slotBase (g : GridBase) (checkerboard dimension : Nat) (displacement : Int)
    (U cbmask x : Nat) : Nat :=
  (if cbmask = 2 then
      U + sumTo (g._rdimensions dimension)
            (commsPlaneWords g dimension 1 (passShift g checkerboard dimension displacement 1))
    else U)
    + sumTo x (commsPlaneWords g dimension cbmask
                (passShift g checkerboard dimension displacement cbmask))

/-- The value of `_unified_buffer_size` when the constructor loop reaches the
point `point`. -/
def pointBase {C : Type} (grid : GridBase) (npoints checkerboard : Nat)
    (directions : List Nat) (distances : List Int) (p : Parameters)
    (sizeof_vobj sizeof_cobj : Nat) (u : Indeterminate C) (point : Nat) : Nat :=
  (constructLoopEntries grid npoints checkerboard
    (beforePoints grid npoints directions distances p sizeof_vobj sizeof_cobj u)._comms_recv
    directions distances point
    ((beforePoints grid npoints directions distances p sizeof_vobj sizeof_cobj u)._entries, 0)).2

/-- The grid hypotheses under which the slots of the table are counted: the
slice tables of every stencil axis describe the reduced layout, parities are 0
or 1, only a checkerboarded axis has a parity-dependent shift, and on a
checkerboarded axis each parity holds exactly half of the sites of a plane. -/
structure SlotLayout (grid : GridBase) (npoints checkerboard : Nat) (directions : List Nat)
    (distances : List Int) : Prop where
  layout : ∀ q, q < npoints → AxisLayout grid (directions.getD q 0)
  parity : ∀ k, grid.CheckerBoardFromOindex k ≤ 1
  dependent : ∀ q, q < npoints →
    grid.CheckerBoardShiftForCB checkerboard (directions.getD q 0) (distances.getD q 0) Even
      ≠ grid.CheckerBoardShiftForCB checkerboard (directions.getD q 0) (distances.getD q 0) Odd →
    grid.CheckerBoarded (directions.getD q 0) = true
  half : ∀ q, q < npoints → grid.CheckerBoarded (directions.getD q 0) = true → ∀ par, par ≤ 1 →
    2 * ((planeOffsets grid (directions.getD q 0)).filter
          (fun k => grid.CheckerBoardFromOindex k == par)).length
      = (planeOffsets grid (directions.getD q 0)).length

/-- The state when the point loop of `HaloGather`, started after `Prepare`, has
run for the points below `n` (before the assertion on `u_comm_offset`). -/
def gatheredPoints {V C : Type} (st : CartesianStencil C) (source : Lattice V)
    (compress : Compressor V C) (n : Nat) : Option (CartesianStencil C) :=
  match forLoopM n (HaloGatherPoint source compress)
      (resetOffset (emit (emit (Prepare st) (Event.call Step.HaloGather))
        Event.StencilBarrier), 0) with
  | .ok s => some s.1
  | .error _ => none

/-- The stencil of rank `r` on `redBlackGrid` with two points, both of
displacement `-2` along axis 0, parity 0, no Dirichlet blocking. -/
def redBlackPair (r : Nat) : CartesianStencil Nat :=
  constructed (redBlackGrid r) 2 0 [0, 0] [-2, -2] ⟨[0, 0]⟩ 8 8 (someStorage 0)

/-- What a stretch of the gather appends to `Packets`: it leaves the static
parts of the stencil alone, and every packet it queues satisfies `P`. -/
def Queues {C : Type} (P : Packet → Prop) (a b : CartesianStencil C) : Prop :=
  SameStatic a b ∧ ∃ new, b.Packets = a.Packets ++ new ∧ ∀ pk, pk ∈ new → P pk

/-- The process grid is periodic along every axis: a non-zero shift by fewer
processes than the axis has leads to another rank, in both directions (a
property of `ShiftedRanks` of the Cartesian communicator, which the stencil
takes from the grid). -/
def RanksShift (g : GridBase) : Prop :=
  ∀ (d : Nat) (s : Int), s ≠ 0 → -(g._processors d : Int) < s → s < (g._processors d : Int) →
    (g.ShiftedRanks d s).1 ≠ g.ThisRank ∧ (g.ShiftedRanks d s).2 ≠ g.ThisRank

/-- The packet that `Gather` queues for an off-node plane of a pass with parity
mask `cbmask` and checkerboard shift `sshift`: the flags of the point, the
ranks that `ShiftedRanks` returns for the process shift `comm_proc` of some
plane `x`, both asserted to differ from this rank, and `words*CommDatumSize`
bytes. -/
def Packet.ofGather (pk : Packet) (g : GridBase) (dimension cbmask : Nat) (sshift : Int)
    (comms_send comms_recv datum : Int) : Prop :=
  pk.do_send = comms_send ∧ pk.do_recv = comms_recv
  ∧ pk.bytes = (planeWords g dimension cbmask : Int) * datum
  ∧ pk.to_rank ≠ g.ThisRank ∧ pk.from_rank ≠ g.ThisRank
  ∧ ∃ x, x < g._rdimensions dimension
      ∧ cmod (cdiv ((x : Int) + sshift) (g._rdimensions dimension : Int))
          (g._processors dimension : Int) ≠ 0
      ∧ pk.to_rank
          = (g.ShiftedRanks dimension
              (cmod (cdiv ((x : Int) + sshift) (g._rdimensions dimension : Int))
                (g._processors dimension : Int))).1
      ∧ pk.from_rank
          = (g.ShiftedRanks dimension
              (cmod (cdiv ((x : Int) + sshift) (g._rdimensions dimension : Int))
                (g._processors dimension : Int))).2

/-- The packet that `GatherSimd` queues for a lane of an off-node plane: the
flags of the point, the ranks that `ShiftedRanks` returns for the process shift
`nbr_proc` of lane `i` of some plane `x`, and half of `words*CommDatumSize`
bytes, the division being exact. -/
def Packet.ofGatherSimd (pk : Packet) (g : GridBase) (dimension cbmask : Nat) (sshift : Int)
    (comms_send comms_recv datum : Int) : Prop :=
  pk.do_send = comms_send ∧ pk.do_recv = comms_recv
  ∧ pk.bytes = cdiv ((planeWords g dimension cbmask : Int) * datum) 2
  ∧ pk.bytes * 2 = (planeWords g dimension cbmask : Int) * datum
  ∧ ∃ x i : Nat, x < g._rdimensions dimension ∧ i < 2
      ∧ cmod (cdiv ((g._rdimensions dimension : Int) * (i : Int) + (x : Int) + sshift)
            (g._ldimensions dimension : Int)) (g._processors dimension : Int) ≠ 0
      ∧ pk.to_rank
          = (g.ShiftedRanks dimension
              (cmod (cdiv ((g._rdimensions dimension : Int) * (i : Int) + (x : Int) + sshift)
                (g._ldimensions dimension : Int)) (g._processors dimension : Int))).1
      ∧ pk.from_rank
          = (g.ShiftedRanks dimension
              (cmod (cdiv ((g._rdimensions dimension : Int) * (i : Int) + (x : Int) + sshift)
                (g._ldimensions dimension : Int)) (g._processors dimension : Int))).2

/-- The packet is one that `HaloGather` queues for the stencil point `point`:
a packet of `Gather` on an axis without SIMD split, of `GatherSimd` on an axis
with two SIMD lanes, in a pass with one of the parity masks; on a periodic
process grid the ranks of a packet of `GatherSimd` differ from this rank
too. -/
def Packet.ofPoint {C : Type} (pk : Packet) (st : CartesianStencil C) (datum : Int)
    (point : Nat) : Prop :=
  ∃ cbmask, (cbmask = 3 ∨ cbmask = 1 ∨ cbmask = 2)
    ∧ ((st._grid._simd_layout (st._directions.getD point 0) = 1
        ∧ pk.ofGather st._grid (st._directions.getD point 0) cbmask
            (passShift st._grid st._checkerboard (st._directions.getD point 0)
              (st._distances.getD point 0) cbmask)
            (st._comms_send point) (st._comms_recv point) datum)
      ∨ (st._grid._simd_layout (st._directions.getD point 0) = 2
        ∧ pk.ofGatherSimd st._grid (st._directions.getD point 0) cbmask
            (passShift st._grid st._checkerboard (st._directions.getD point 0)
              (st._distances.getD point 0) cbmask)
            (st._comms_send point) (st._comms_recv point) datum
        ∧ (RanksShift st._grid →
            pk.to_rank ≠ st._grid.ThisRank ∧ pk.from_rank ≠ st._grid.ThisRank)))

/-- The event is a call of `Gather_plane_table_compute`. -/
def Event.isTableCompute : Event → Bool
  | Event.Gather_plane_table_compute _ _ _ _ => true
  | _ => false

/-- A stretch of the trace without the calls of `Gather_plane_table_compute`:
the announcements of the points and the calls of `Gather_plane_simple_table`
and `Gather_plane_exchange_table`, each with the `face_idx` at which it reads
`face_table`, the plane and the buffer position. -/
def tableUses (es : List Event) : List Event :=
  es.filter (fun e => !e.isTableCompute)

/-- A step of the gather that changes neither the static parts, nor
`u_comm_offset`, nor the flag `face_table_computed`, nor the trace. -/
def Still {C : Type} (a r : CartesianStencil C) : Prop :=
  SameStatic a r ∧ r.u_comm_offset = a.u_comm_offset
    ∧ r.face_table_computed = a.face_table_computed ∧ r.trace = a.trace

/-- The stencil `b` is a later state of the stencil `a` in which the face
tables are marked computed: both have the same static parts and stand at the
same `u_comm_offset`. -/
def Follows {C : Type} (a b : CartesianStencil C) : Prop :=
  SameStatic a b ∧ b.u_comm_offset = a.u_comm_offset ∧ b.face_table_computed ≠ 0

/-- Two runs in step: the first leads from `a` to `r`, the later one from `b`
to `t`; `t` follows `r`, and the later run appends to its trace what the first
appends to its own, less the calls of `Gather_plane_table_compute`. -/
def Replay {C : Type} (a b r t : CartesianStencil C) : Prop :=
  Follows r t ∧ ∃ es, r.trace = a.trace ++ es ∧ t.trace = b.trace ++ tableUses es

/-- The stencil of rank `r` on `redBlackGrid`: parity 0, one point of
displacement `+1` along axis 0, whose checkerboard shift differs between the
parities, no Dirichlet blocking. -/
def redBlackStep (r : Nat) : CartesianStencil Nat :=
  constructed (redBlackGrid r) 1 0 [0] [1] ⟨[0, 0]⟩ 8 8 (someStorage 0)

/-- The stencil of rank `r` on `lineGrid` with two points, both of displacement
`+1` along axis 0, no Dirichlet blocking: the transfer of the second point
repeats the transfer of the first. -/
def linePair (r : Nat) : CartesianStencil (Nat × Nat) :=
  constructed (lineGrid r) 2 0 [0, 0] [1, 1] ⟨[0]⟩ 8 8 (someStorage (9, 9))

/-- The byte count of a transfer that `Gather` queues for a plane of `words`
objects (`words*CommDatumSize`) or that `GatherSimd` queues for one lane of it
(half of that, the division being exact). -/
def gatherBytes (datum bytes : Int) : Prop :=
  ∃ words : Nat, bytes = (words : Int) * datum ∨ bytes * 2 = (words : Int) * datum

/-- The duplicate cache and the copy records hold no address of a send buffer,
and every copy record has a byte count of `Q`. -/
def Duplicates {C : Type} (Q : Int → Prop) (st : CartesianStencil C) : Prop :=
  (∀ t, t ∈ st.CachedTransfers → ¬ t.recv_buf.isSend)
    ∧ ∀ c, c ∈ st.CopyReceiveBuffers → ¬ c.from_p.isSend ∧ ¬ c.to_p.isSend ∧ Q c.bytes

/-- The assertion is one of the layout preconditions at the head of `Gather`
and `GatherSimd`: `simd_layout==1`, `simd_layout==maxl`, `comm_dim==1`,
`shift>=0`, `shift<fd`. -/
def Assertion.isLayout : Assertion → Bool
  | .comm_dim => true
  | .simd_layout_is_1 => true
  | .simd_layout_is_maxl => true
  | .shift_nonneg => true
  | .shift_lt_fd => true
  | _ => false

/-- The run does not stop at a layout precondition of the gather routines. -/
def LayoutSafe {α : Type} (r : Except Assertion α) : Prop :=
  ∀ e, r = .error e → e.isLayout = false

/-- The words that the constructor reserves in the unified buffer for a point:
on an axis split across processes, the words of every off-node plane of every
parity pass of `Comms`; none on an axis that is not split. -/
def pointWords (g : GridBase) (checkerboard dimension : Nat) (displacement : Int) : Nat :=
  if g._processors dimension > 1 then
    ((pointPasses g checkerboard dimension displacement).map (fun cbmask =>
      sumTo (g._rdimensions dimension)
        (commsPlaneWords g dimension cbmask
          (passShift g checkerboard dimension displacement cbmask)))).sum
  else 0

/-- The stencil of rank `r` on `lineGrid` with default parameters: one point of
displacement `+1` along axis 0 and an empty Dirichlet block list, built in
storage whose flag vectors hold 0. -/
def lineDefault (r : Nat) : CartesianStencil (Nat × Nat) :=
  constructed (lineGrid r) 1 0 [0] [1] ⟨[]⟩ 8 8
    { someStorage ((9 : Nat), (9 : Nat)) with _comms_send := fun _ => 0,
                                              _comms_recv := fun _ => 0 }

/-- The steps entered during a stretch of the trace, in order. -/
def calls : List Event → List Step
  | [] => []
  | Event.call s :: es => s :: calls es
  | _ :: es => calls es

/-- Between `a` and `b` the trace grew by events that enter the steps `l`, in order. -/
def TraceExt {C : Type} (l : List Step) (a b : CartesianStencil C) : Prop :=
  ∃ evs, b.trace = a.trace ++ evs ∧ calls evs = l

/-! # Theorems -/

/-! ## Counted loops -/

theorem forLoop_invariant {σ : Type} (P : Nat → σ → Prop) (n : Nat) (body : Nat → σ → σ)
    (s : σ) (h0 : P 0 s) (hstep : ∀ i a, i < n → P i a → P (i + 1) (body i a)) :
    P n (forLoop n body s) := by
  induction n with
  | zero => exact h0
  | succ k ih =>
    exact hstep k _ (Nat.lt_succ_self k)
      (ih (fun i a hi ha => hstep i a (Nat.lt_succ_of_lt hi) ha))

theorem forLoopM_invariant {σ ε : Type} (P : Nat → σ → Prop) (n : Nat)
    (body : Nat → σ → Except ε σ) (s r : σ) (hr : forLoopM n body s = .ok r) (h0 : P 0 s)
    (hstep : ∀ i a b, i < n → P i a → body i a = .ok b → P (i + 1) b) : P n r := by
  induction n generalizing r with
  | zero =>
    simp only [forLoopM] at hr
    cases hr
    exact h0
  | succ k ih =>
    simp only [forLoopM] at hr
    cases hk : forLoopM k body s with
    | error e => rw [hk] at hr; cases hr
    | ok m =>
      rw [hk] at hr
      exact hstep k m r (Nat.lt_succ_self k)
        (ih m hk (fun i a b hi ha hb => hstep i a b (Nat.lt_succ_of_lt hi) ha hb)) hr

/-! ## The trace of one exchange -/

theorem calls_append (a b : List Event) : calls (a ++ b) = calls a ++ calls b := by
  induction a with
  | nil => rfl
  | cons e es ih => cases e <;> simp [calls, ih]

theorem TraceExt.refl {C : Type} (a : CartesianStencil C) : TraceExt [] a a :=
  ⟨[], by simp, rfl⟩

theorem TraceExt.of_eq {C : Type} {a b : CartesianStencil C} (h : b.trace = a.trace) :
    TraceExt [] a b := ⟨[], by simp [h], rfl⟩

theorem TraceExt.trans {C : Type} {l₁ l₂ : List Step} {a b c : CartesianStencil C}
    (h₁ : TraceExt l₁ a b) (h₂ : TraceExt l₂ b c) : TraceExt (l₁ ++ l₂) a c := by
  obtain ⟨e₁, t₁, c₁⟩ := h₁
  obtain ⟨e₂, t₂, c₂⟩ := h₂
  exact ⟨e₁ ++ e₂, by rw [t₂, t₁, List.append_assoc], by rw [calls_append, c₁, c₂]⟩

theorem TraceExt.quiet_trans {C : Type} {a b c : CartesianStencil C}
    (h₁ : TraceExt [] a b) (h₂ : TraceExt [] b c) : TraceExt [] a c := by
  simpa using h₁.trans h₂

theorem TraceExt.step_quiet {C : Type} {s : Step} {a b c : CartesianStencil C}
    (h₁ : TraceExt [s] a b) (h₂ : TraceExt [] b c) : TraceExt [s] a c := by
  simpa using h₁.trans h₂

theorem emit_quiet {C : Type} (a : CartesianStencil C) (e : Event) (h : calls [e] = []) :
    TraceExt [] a (emit a e) := ⟨[e], rfl, h⟩

theorem emit_call {C : Type} (a : CartesianStencil C) (s : Step) :
    TraceExt [s] a (emit a (Event.call s)) := ⟨[Event.call s], rfl, rfl⟩

@[simp] theorem writeBuf_trace {C : Type} (st : CartesianStencil C) (p : Pointer) (j : Nat)
    (v : C) : (writeBuf st p j v).trace = st.trace := by
  unfold writeBuf; split <;> rfl

theorem forLoop_quiet {C : Type} (n : Nat) (body : Nat → CartesianStencil C → CartesianStencil C)
    (st : CartesianStencil C) (h : ∀ i a, TraceExt [] a (body i a)) :
    TraceExt [] st (forLoop n body st) :=
  forLoop_invariant (fun _ b => TraceExt [] st b) n body st (TraceExt.refl st)
    (fun i a _ ha => ha.quiet_trans (h i a))

theorem CheckForDuplicate_trace {C : Type} (st : CartesianStencil C) (a b c : Int) (r : Pointer)
    (l y m : Int) : (CheckForDuplicate st a b c r l y m).1.trace = st.trace := by
  unfold CheckForDuplicate; split <;> rfl

theorem receivePacket_quiet {C : Type} (st : CartesianStencil C) (net : Transport C)
    (p : Packet) (dir : Nat) : TraceExt [] st (receivePacket st net p dir) := by
  unfold receivePacket
  split
  · apply forLoop_quiet
    intro i a
    split
    · exact TraceExt.of_eq (by simp)
    · exact TraceExt.refl a
  · exact TraceExt.refl st

theorem CommsCopy_quiet {C : Type} (st : CartesianStencil C) : TraceExt [] st (CommsCopy st) := by
  unfold CommsCopy
  apply forLoop_quiet
  intro i a
  split
  · exact TraceExt.refl a
  · rename_i r hr
    apply forLoop_quiet
    intro j b
    dsimp only
    refine (emit_quiet b (Event.coalescedWrite r.to_p r.from_p j) rfl).quiet_trans ?_
    split
    · exact TraceExt.of_eq (by simp)
    · exact TraceExt.refl _

theorem CommsMergeLists_quiet {C : Type} (st : CartesianStencil C) (mm : List Merge)
    (dd : List Decompress) : TraceExt [] st (CommsMergeLists st mm dd) := by
  unfold CommsMergeLists
  refine TraceExt.quiet_trans ?_ (forLoop_quiet _ _ _ ?_)
  · apply forLoop_quiet
    intro i a
    split
    · exact TraceExt.refl a
    · exact forLoop_quiet _ _ _ (fun o b => ⟨[_], rfl, rfl⟩)
  · intro i a
    split
    · exact TraceExt.refl a
    · exact forLoop_quiet _ _ _ (fun o b => ⟨[_], rfl, rfl⟩)

theorem Prepare_traceExt {C : Type} (st : CartesianStencil C) :
    TraceExt [Step.Prepare] st (Prepare st) := ⟨[Event.call Step.Prepare], rfl, rfl⟩

theorem Communicate_traceExt {C : Type} (st : CartesianStencil C) (net : Transport C) :
    TraceExt [Step.Communicate] st (Communicate st net) := by
  unfold Communicate
  dsimp only
  refine (emit_call st Step.Communicate).step_quiet ?_
  split
  · apply forLoop_quiet
    intro i a
    split
    · exact TraceExt.refl a
    · rename_i p hp
      exact (emit_quiet a (Event.StencilSendToRecvFrom p i) rfl).quiet_trans
        (receivePacket_quiet _ _ _ _)
  · unfold CommunicateComplete CommunicateBegin
    refine TraceExt.quiet_trans (forLoop_quiet _ _ _ ?_) (forLoop_quiet _ _ _ ?_)
    · intro i a
      split
      · exact TraceExt.refl a
      · exact ⟨[_], rfl, rfl⟩
    · intro i a
      split
      · exact TraceExt.refl a
      · exact (emit_quiet a (Event.StencilSendToRecvFromComplete i) rfl).quiet_trans
          (receivePacket_quiet _ _ _ _)

theorem CommsMergeSHM_traceExt {C : Type} (st : CartesianStencil C) :
    TraceExt [Step.CommsMergeSHM] st (CommsMergeSHM st) := by
  unfold CommsMergeSHM
  dsimp only
  refine (emit_call st Step.CommsMergeSHM).step_quiet ?_
  exact (emit_quiet _ Event.StencilBarrier rfl).quiet_trans (CommsMergeLists_quiet _ _ _)

theorem CommsMerge_traceExt {C : Type} (st : CartesianStencil C) :
    TraceExt [Step.CommsMerge] st (CommsMerge st) := by
  unfold CommsMerge
  dsimp only
  refine (emit_call st Step.CommsMerge).step_quiet ?_
  exact (CommsCopy_quiet _).quiet_trans (CommsMergeLists_quiet _ _ _)

theorem assert_bind_ok {α : Type} (c : Bool) (a : Assertion) (f : Unit → Except Assertion α)
    (r : α) : (assert c a >>= f) = .ok r ↔ c = true ∧ f () = .ok r := by
  cases c <;> simp [assert, bind, Except.bind]

theorem assert_ok (c : Bool) (a : Assertion) (u : Unit) : assert c a = .ok u ↔ c = true := by
  cases c <;> simp [assert]

theorem bind_ok {α β : Type} (m : Except Assertion α) (f : α → Except Assertion β) (r : β) :
    (m >>= f) = .ok r ↔ ∃ a, m = .ok a ∧ f a = .ok r := by
  cases m <;> simp [bind, Except.bind]

theorem pure_ok {α : Type} (a r : α) : (pure a : Except Assertion α) = .ok r ↔ a = r := by
  simp [pure, Except.pure]

theorem forLoopM_quiet {C σ : Type} (n : Nat)
    (body : Nat → CartesianStencil C × σ → Except Assertion (CartesianStencil C × σ))
    (s r : CartesianStencil C × σ) (hr : forLoopM n body s = .ok r)
    (h : ∀ i a b, body i a = .ok b → TraceExt [] a.1 b.1) : TraceExt [] s.1 r.1 :=
  forLoopM_invariant (fun _ b => TraceExt [] s.1 b.1) n body s r hr (TraceExt.refl s.1)
    (fun i a b _ ha hb => ha.quiet_trans (h i a b hb))

theorem computeFaceTable_quiet {C : Type} (st : CartesianStencil C) (dimension : Nat) (sx : Int)
    (cbmask comm_off face_idx : Nat) :
    TraceExt [] st (computeFaceTable st dimension sx cbmask comm_off face_idx) := by
  unfold computeFaceTable
  split
  · exact ⟨[_], rfl, rfl⟩
  · exact TraceExt.refl st

theorem Gather_plane_simple_table_quiet {V C : Type} (st : CartesianStencil C)
    (table : List (Nat × Nat)) (rhs : Lattice V) (buffer : Buffer) (compress : Compressor V C)
    (point off : Nat) (so : Int) :
    TraceExt [] st (Gather_plane_simple_table st table rhs buffer compress point off so) := by
  unfold Gather_plane_simple_table
  apply forLoop_quiet
  intro i a
  split
  · exact TraceExt.refl a
  · exact TraceExt.of_eq (by simp)

theorem Gather_plane_exchange_table_quiet {V C : Type} (st r : CartesianStencil C)
    (table : List (Nat × Nat)) (rhs : Lattice V) (p0 p1 : Pointer) (dimension : Nat)
    (plane : Int) (compress : Compressor V C) (point type : Nat)
    (h : Gather_plane_exchange_table st table rhs p0 p1 dimension plane compress point type
          = .ok r) : TraceExt [] st r := by
  unfold Gather_plane_exchange_table at h
  rw [assert_bind_ok] at h
  have h2 := h.2
  rw [pure_ok] at h2
  rw [← h2]
  apply forLoop_quiet
  intro i a
  exact TraceExt.of_eq (by simp)

theorem queueTransfer_quiet {C : Type} (st : CartesianStencil C) (a b c : Int)
    (send recv : Pointer) (l y m : Int) (x : Nat) (cs : Int) (f : Nat) (cr : Int) :
    TraceExt [] st (queueTransfer st a b c send recv l y m x cs f cr) := by
  unfold queueTransfer
  dsimp only
  split
  · exact TraceExt.of_eq (by rw [← CheckForDuplicate_trace st a b c recv l y m]; rfl)
  · exact TraceExt.of_eq (CheckForDuplicate_trace st a b c recv l y m)

theorem queueDecompress_quiet {V C : Type} (st : CartesianStencil C) (compress : Compressor V C)
    (cr : Int) (recv_buf : Buffer) (comm_off words : Nat) :
    TraceExt [] st (queueDecompress st compress cr recv_buf comm_off words) := by
  unfold queueDecompress
  split
  · exact TraceExt.of_eq rfl
  · exact TraceExt.refl st

theorem gatherSendBlock_quiet {V C : Type} (st : CartesianStencil C) (rhs : Lattice V)
    (dimension cbmask : Nat) (compress : Compressor V C) (point : Nat) (sx so : Int)
    (comm_off face_idx : Nat) :
    TraceExt [] st
      (gatherSendBlock st rhs dimension cbmask compress point sx so comm_off face_idx).1 := by
  unfold gatherSendBlock
  split
  · dsimp only
    exact ((computeFaceTable_quiet _ _ _ _ _ _).quiet_trans
      (emit_quiet _ (Event.Gather_plane_simple_table _ _ _ _) rfl)).quiet_trans
      (Gather_plane_simple_table_quiet _ _ _ _ _ _ _ _)
  · exact TraceExt.refl st

theorem gatherOffnodePlane_quiet {V C : Type} (rhs : Lattice V) (dimension cbmask : Nat)
    (compress : Compressor V C) (point : Nat) (sx comm_proc : Int)
    (s : CartesianStencil C × Nat) :
    TraceExt [] s.1 (gatherOffnodePlane rhs dimension cbmask compress point sx comm_proc s).1 := by
  unfold gatherOffnodePlane
  dsimp only
  exact (((gatherSendBlock_quiet _ _ _ _ _ _ _ _ _ _).quiet_trans
    (queueTransfer_quiet _ _ _ _ _ _ _ _ _ _ _ _ _)).quiet_trans
    (queueDecompress_quiet _ _ _ _ _ _)).quiet_trans (TraceExt.of_eq rfl)

theorem GatherPlane_quiet {V C : Type} (rhs : Lattice V) (dimension cbmask : Nat)
    (compress : Compressor V C) (point : Nat) (sshift : Int) (x : Nat)
    (s r : CartesianStencil C × Nat)
    (h : GatherPlane rhs dimension cbmask compress point sshift x s = .ok r) :
    TraceExt [] s.1 r.1 := by
  unfold GatherPlane at h
  dsimp only at h
  split at h
  · simp only [assert_bind_ok, pure_ok] at h
    rw [← h.2.2]
    exact gatherOffnodePlane_quiet _ _ _ _ _ _ _ _
  · rw [pure_ok] at h
    rw [← h]
    exact TraceExt.refl _

theorem Gather_quiet {V C : Type} (st : CartesianStencil C) (rhs : Lattice V) (dimension : Nat)
    (shift : Int) (cbmask : Nat) (compress : Compressor V C) (face_idx point : Nat)
    (r : CartesianStencil C × Nat × Int)
    (h : Gather st rhs dimension shift cbmask compress face_idx point = .ok r) :
    TraceExt [] st r.1 := by
  unfold Gather at h
  simp only [bind_ok, assert_ok, pure_ok, exists_and_left, exists_const] at h
  obtain ⟨_, _, _, _, a, ha, hr⟩ := h
  rw [← hr]
  exact forLoopM_quiet _ _ _ _ ha (fun i a b hb => GatherPlane_quiet _ _ _ _ _ _ _ _ _ hb)

theorem GatherSimdLane_quiet {C : Type} (dimension cbmask point : Nat) (sshift : Int) (x : Nat)
    (sx : Int) (comm_off : Nat) (bytes : Int) (i : Nat)
    (s r : CartesianStencil C × List Pointer)
    (h : GatherSimdLane dimension cbmask point sshift x sx comm_off bytes i s = .ok r) :
    TraceExt [] s.1 r.1 := by
  unfold GatherSimdLane at h
  simp only [bind_ok, assert_ok, pure_ok, exists_and_left, exists_const] at h
  rw [← h.2]
  unfold gatherSimdLaneBody
  dsimp only
  split
  · exact queueTransfer_quiet _ _ _ _ _ _ _ _ _ _ _ _ _
  · exact TraceExt.refl _

theorem gatherSimdSendBlock_quiet {V C : Type} (st r : CartesianStencil C) (rhs : Lattice V)
    (dimension cbmask : Nat) (compress : Compressor V C) (point : Nat) (sx : Int)
    (comm_off face_idx : Nat)
    (h : gatherSimdSendBlock st rhs dimension cbmask compress point sx comm_off face_idx = .ok r) :
    TraceExt [] st r := by
  unfold gatherSimdSendBlock at h
  dsimp only at h
  split at h
  · exact ((computeFaceTable_quiet _ _ _ _ _ _).quiet_trans
      (emit_quiet _ (Event.Gather_plane_exchange_table _ _ _ _ _ _ _) rfl)).quiet_trans
      (Gather_plane_exchange_table_quiet _ _ _ _ _ _ _ _ _ _ _ h)
  · rw [pure_ok] at h
    rw [← h]
    exact computeFaceTable_quiet _ _ _ _ _ _

theorem GatherSimdPlane_quiet {V C : Type} (rhs : Lattice V) (dimension cbmask : Nat)
    (compress : Compressor V C) (point : Nat) (sshift bytes : Int) (reduced_buffer_size x : Nat)
    (s r : CartesianStencil C × Nat × List Pointer)
    (h : GatherSimdPlane rhs dimension cbmask compress point sshift bytes reduced_buffer_size x s
          = .ok r) : TraceExt [] s.1 r.1 := by
  unfold GatherSimdPlane at h
  dsimp only at h
  split at h
  · simp only [bind_ok, pure_ok] at h
    obtain ⟨a, ha, b, hb, hr⟩ := h
    rw [← hr]
    have h1 := gatherSimdSendBlock_quiet _ _ _ _ _ _ _ _ _ _ ha
    have h2 : TraceExt [] a b.1 :=
      forLoopM_quiet _ _ (a, s.2.2) b hb (fun i p q hq => GatherSimdLane_quiet _ _ _ _ _ _ _ _ _ _ _ hq)
    exact (h1.quiet_trans h2).quiet_trans (TraceExt.of_eq rfl)
  · rw [pure_ok] at h
    rw [← h]
    exact TraceExt.refl _

theorem GatherSimd_quiet {V C : Type} (st : CartesianStencil C) (rhs : Lattice V)
    (dimension : Nat) (shift : Int) (cbmask : Nat) (compress : Compressor V C)
    (face_idx point : Nat) (r : CartesianStencil C × Nat × Int)
    (h : GatherSimd st rhs dimension shift cbmask compress face_idx point = .ok r) :
    TraceExt [] st r.1 := by
  unfold GatherSimd at h
  simp only [bind_ok, assert_ok, pure_ok, exists_and_left, exists_const] at h
  obtain ⟨_, _, _, _, _, _, a, ha, hr⟩ := h
  rw [← hr]
  exact forLoopM_quiet _ _ (st, face_idx, _) a ha
    (fun i p q hq => GatherSimdPlane_quiet _ _ _ _ _ _ _ _ _ _ _ hq)

theorem HaloGatherComm_quiet {V C : Type} (st : CartesianStencil C) (source : Lattice V)
    (compress : Compressor V C) (point face_idx dimension : Nat) (shift : Int)
    (r : CartesianStencil C × Nat × Int)
    (h : HaloGatherComm st source compress point face_idx dimension shift = .ok r) :
    TraceExt [] st r.1 := by
  unfold HaloGatherComm at h
  dsimp only at h
  split at h
  · split at h
    · simp only [bind_ok, pure_ok] at h
      obtain ⟨a, ha, hr⟩ := h
      rw [← hr]
      exact GatherSimd_quiet _ _ _ _ _ _ _ _ a ha
    · simp only [bind_ok, pure_ok] at h
      obtain ⟨a, ha, hr⟩ := h
      rw [← hr]
      exact Gather_quiet _ _ _ _ _ _ _ _ a ha
  · split at h
    · simp only [bind_ok, pure_ok] at h
      obtain ⟨a, ha, b, hb, hr⟩ := h
      rw [← hr]
      exact (GatherSimd_quiet _ _ _ _ _ _ _ _ a ha).quiet_trans
        (GatherSimd_quiet _ _ _ _ _ _ _ _ b hb)
    · simp only [bind_ok, pure_ok] at h
      obtain ⟨a, ha, b, hb, hr⟩ := h
      rw [← hr]
      exact (Gather_quiet _ _ _ _ _ _ _ _ a ha).quiet_trans (Gather_quiet _ _ _ _ _ _ _ _ b hb)

theorem HaloGatherDir_quiet {V C : Type} (st : CartesianStencil C) (source : Lattice V)
    (compress : Compressor V C) (point face_idx : Nat) (r : CartesianStencil C × Nat × Int)
    (h : HaloGatherDir st source compress point face_idx = .ok r) : TraceExt [] st r.1 := by
  unfold HaloGatherDir at h
  simp only [bind_ok, assert_ok, exists_and_left, exists_const] at h
  obtain ⟨_, h⟩ := h
  split at h
  · exact HaloGatherComm_quiet _ _ _ _ _ _ _ _ h
  · rw [pure_ok] at h
    rw [← h]
    exact TraceExt.refl _

theorem HaloGatherPoint_quiet {V C : Type} (source : Lattice V) (compress : Compressor V C)
    (point : Nat) (s r : CartesianStencil C × Nat)
    (h : HaloGatherPoint source compress point s = .ok r) : TraceExt [] s.1 r.1 := by
  unfold HaloGatherPoint at h
  simp only [bind_ok, pure_ok] at h
  obtain ⟨a, ha, hr⟩ := h
  rw [← hr]
  exact (emit_quiet s.1 (Event.Point point) rfl).quiet_trans (HaloGatherDir_quiet _ _ _ _ _ _ ha)

theorem HaloGather_traceExt {V C : Type} (st r : CartesianStencil C) (source : Lattice V)
    (compress : Compressor V C) (h : HaloGather st source compress = .ok r) :
    TraceExt [Step.HaloGather] st r := by
  unfold HaloGather at h
  simp only [bind_ok, assert_ok, pure_ok, exists_and_left, exists_const] at h
  obtain ⟨a, ha, _, hr⟩ := h
  rw [← hr]
  refine (emit_call st Step.HaloGather).step_quiet ?_
  refine (emit_quiet _ Event.StencilBarrier rfl).quiet_trans ?_
  have h1 : TraceExt [] (emit (emit st (Event.call Step.HaloGather)) Event.StencilBarrier)
      (resetOffset (emit (emit st (Event.call Step.HaloGather)) Event.StencilBarrier)) :=
    TraceExt.of_eq rfl
  have h2 := forLoopM_quiet _ _ _ a ha
    (fun i p q hq => HaloGatherPoint_quiet source compress i p q hq)
  have h3 : TraceExt [] a.1 (setFaceTableComputed a.1) := TraceExt.of_eq rfl
  exact ((h1.quiet_trans h2).quiet_trans h3).quiet_trans (emit_quiet _ Event.accelerator_barrier rfl)

/-- C1. `HaloExchange(source, compress)` is the sequence `Prepare`,
`HaloGather(source, compress)`, `Communicate`, `CommsMergeSHM(compress)`,
`CommsMerge(compress)`: its result is the composition of the five member
functions in that order (a step runs only if no assertion stopped the process
before it), and in every exchange that runs to its end the trace grows by
events among which exactly these five steps are entered, each once and in that
order. -/
theorem C1_HaloExchange_five_steps {V C : Type} (st : CartesianStencil C) (source : Lattice V)
    (compress : Compressor V C) (net : Transport C) :
    HaloExchange st source compress net
        = (HaloGather (Prepare st) source compress).map
            (fun s => CommsMerge (CommsMergeSHM (Communicate s net)))
      ∧ ∀ r, HaloExchange st source compress net = .ok r →
          ∃ evs, r.trace = st.trace ++ evs
            ∧ calls evs = [Step.Prepare, Step.HaloGather, Step.Communicate,
                            Step.CommsMergeSHM, Step.CommsMerge] := by
  have hcomp : HaloExchange st source compress net
        = (HaloGather (Prepare st) source compress).map
            (fun s => CommsMerge (CommsMergeSHM (Communicate s net))) := by
    unfold HaloExchange
    dsimp only
    cases HaloGather (Prepare st) source compress <;>
      simp [bind, Except.bind, Except.map, pure, Except.pure]
  refine ⟨hcomp, ?_⟩
  intro r hr
  rw [hcomp] at hr
  cases hg : HaloGather (Prepare st) source compress with
  | error e => rw [hg] at hr; cases hr
  | ok g =>
    rw [hg] at hr
    simp only [Except.map] at hr
    cases hr
    exact ((((Prepare_traceExt st).trans (HaloGather_traceExt _ _ _ _ hg)).trans
      (Communicate_traceExt g net)).trans (CommsMergeSHM_traceExt _)).trans
      (CommsMerge_traceExt _)

/-- Witness of C1: the exchange of rank 0 on the line of 8 sites runs to its
end and enters the five steps in order. -/
theorem C1_HaloExchange_five_steps_witness :
    (exchangeRank (lineStencil [0]) lineField (plainCompressor (Nat × Nat) 8) 0).toBool = true
      ∧ ∃ evs, (lineExchanged 0).trace = (lineStencil [0] 0).trace ++ evs
          ∧ calls evs = [Step.Prepare, Step.HaloGather, Step.Communicate,
                          Step.CommsMergeSHM, Step.CommsMerge] := by
  have hok : (exchangeRank (lineStencil [0]) lineField (plainCompressor (Nat × Nat) 8) 0).toBool
      = true := by decide
  refine ⟨hok, ?_⟩
  refine (C1_HaloExchange_five_steps (lineStencil [0] 0) (lineField 0)
    (plainCompressor (Nat × Nat) 8)
    (rankTransport (gatheredRank (lineStencil [0]) lineField (plainCompressor (Nat × Nat) 8)) 0)).2
    (lineExchanged 0) ?_
  unfold lineExchanged
  unfold exchangeRank at hok ⊢
  cases h : HaloExchange (lineStencil [0] 0) (lineField 0) (plainCompressor (Nat × Nat) 8)
      (rankTransport (gatheredRank (lineStencil [0]) lineField (plainCompressor (Nat × Nat) 8)) 0) with
  | ok s => rfl
  | error e => rw [h] at hok; cases hok

/-! ## The cache of transfers -/

theorem sameTransfer_iff (c : CachedTransfer) (q : DuplicateQuery) :
    sameTransfer c q.direction q.OrthogPlane q.DestProc q.bytes q.lane q.cb = true
      ↔ c.hasKey q := by
  simp [sameTransfer, CachedTransfer.hasKey, and_assoc]

theorem findTransfer_none (q : DuplicateQuery) (l : List CachedTransfer) :
    findTransfer q.direction q.OrthogPlane q.DestProc q.bytes q.lane q.cb l = none
      ↔ ∀ c ∈ l, ¬ c.hasKey q := by
  induction l with
  | nil => simp [findTransfer]
  | cons c cs ih =>
    unfold findTransfer
    by_cases h : sameTransfer c q.direction q.OrthogPlane q.DestProc q.bytes q.lane q.cb = true
    · simp only [h, if_true]
      simp only [List.mem_cons, forall_eq_or_imp]
      constructor
      · intro hc; cases hc
      · intro hc; exact absurd ((sameTransfer_iff c q).1 h) hc.1
    · have h' : sameTransfer c q.direction q.OrthogPlane q.DestProc q.bytes q.lane q.cb = false := by
        simpa using h
      rw [h']
      simp only [Bool.false_eq_true, if_false, List.mem_cons, forall_eq_or_imp, ih]
      constructor
      · intro hc; exact ⟨fun hk => h ((sameTransfer_iff c q).2 hk), hc⟩
      · intro hc; exact hc.2

theorem findTransfer_append_some (q : DuplicateQuery) (l m : List CachedTransfer)
    (c : CachedTransfer)
    (h : findTransfer q.direction q.OrthogPlane q.DestProc q.bytes q.lane q.cb l = some c) :
    findTransfer q.direction q.OrthogPlane q.DestProc q.bytes q.lane q.cb (l ++ m) = some c := by
  induction l with
  | nil => simp [findTransfer] at h
  | cons d ds ih =>
    simp only [List.cons_append]
    unfold findTransfer at h ⊢
    split
    · rename_i hd
      simpa [hd] using h
    · rename_i hd
      simp only [hd] at h
      exact ih h

theorem findTransfer_append_none (q : DuplicateQuery) (l : List CachedTransfer)
    (c : CachedTransfer)
    (h : findTransfer q.direction q.OrthogPlane q.DestProc q.bytes q.lane q.cb l = none)
    (hc : c.hasKey q) :
    findTransfer q.direction q.OrthogPlane q.DestProc q.bytes q.lane q.cb (l ++ [c]) = some c := by
  induction l with
  | nil =>
    simp only [List.nil_append]
    unfold findTransfer
    simp [(sameTransfer_iff c q).2 hc]
  | cons d ds ih =>
    simp only [List.cons_append]
    unfold findTransfer at h ⊢
    split
    · rename_i hd
      simp [hd] at h
    · rename_i hd
      simp only [hd] at h
      exact ih h

/-- The record that `CheckForDuplicate` caches for a query. -/
theorem CheckForDuplicate_miss {C : Type} (st : CartesianStencil C) (q : DuplicateQuery)
    (h : findTransfer q.direction q.OrthogPlane q.DestProc q.bytes q.lane q.cb
          st.CachedTransfers = none) :
    (CheckForDuplicate st q.direction q.OrthogPlane q.DestProc q.recv_buf q.lane q.bytes q.cb)
      = ({ st with CachedTransfers := st.CachedTransfers ++
            [{ direction := q.direction, OrthogPlane := q.OrthogPlane, DestProc := q.DestProc,
               recv_buf := q.recv_buf, lane := q.lane, bytes := q.bytes, cb := q.cb }] }, 0) := by
  unfold CheckForDuplicate
  rw [h]

theorem CheckForDuplicate_hit {C : Type} (st : CartesianStencil C) (q : DuplicateQuery)
    (c : CachedTransfer)
    (h : findTransfer q.direction q.OrthogPlane q.DestProc q.bytes q.lane q.cb
          st.CachedTransfers = some c) :
    (CheckForDuplicate st q.direction q.OrthogPlane q.DestProc q.recv_buf q.lane q.bytes q.cb)
      = (AddCopy st c.recv_buf q.recv_buf q.bytes, 1) := by
  unfold CheckForDuplicate
  rw [h]

theorem issue_miss {C : Type} (st : CartesianStencil C) (a : TransferRequest)
    (h : findTransfer a.query.direction a.query.OrthogPlane a.query.DestProc a.query.bytes
          a.query.lane a.query.cb st.CachedTransfers = none) :
    (a.issue st).Packets = st.Packets ++ [a.packet]
      ∧ (a.issue st).CopyReceiveBuffers = st.CopyReceiveBuffers
      ∧ (a.issue st).CachedTransfers = st.CachedTransfers ++
          [{ direction := a.query.direction, OrthogPlane := a.query.OrthogPlane,
             DestProc := a.query.DestProc, recv_buf := a.query.recv_buf, lane := a.query.lane,
             bytes := a.query.bytes, cb := a.query.cb }] := by
  unfold TransferRequest.issue queueTransfer
  rw [CheckForDuplicate_miss st a.query h]
  exact ⟨rfl, rfl, rfl⟩

theorem issue_hit {C : Type} (st : CartesianStencil C) (a : TransferRequest) (c : CachedTransfer)
    (h : findTransfer a.query.direction a.query.OrthogPlane a.query.DestProc a.query.bytes
          a.query.lane a.query.cb st.CachedTransfers = some c) :
    (a.issue st).Packets = st.Packets
      ∧ (a.issue st).CopyReceiveBuffers = st.CopyReceiveBuffers ++
          [{ from_p := c.recv_buf, to_p := a.query.recv_buf, bytes := a.query.bytes }]
      ∧ (a.issue st).CachedTransfers = st.CachedTransfers := by
  unfold TransferRequest.issue queueTransfer
  rw [CheckForDuplicate_hit st a.query c h]
  exact ⟨rfl, rfl, rfl⟩

theorem issue_keeps_found {C : Type} (st : CartesianStencil C) (a : TransferRequest)
    (q : DuplicateQuery) (c : CachedTransfer)
    (h : findTransfer q.direction q.OrthogPlane q.DestProc q.bytes q.lane q.cb
          st.CachedTransfers = some c) :
    findTransfer q.direction q.OrthogPlane q.DestProc q.bytes q.lane q.cb
      (a.issue st).CachedTransfers = some c := by
  cases ha : findTransfer a.query.direction a.query.OrthogPlane a.query.DestProc a.query.bytes
      a.query.lane a.query.cb st.CachedTransfers with
  | none =>
    rw [(issue_miss st a ha).2.2]
    exact findTransfer_append_some q _ _ c h
  | some d =>
    rw [(issue_hit st a d ha).2.2]
    exact h

theorem runRequests_keeps_found {C : Type} (qs : List TransferRequest) (st : CartesianStencil C)
    (q : DuplicateQuery) (c : CachedTransfer)
    (h : findTransfer q.direction q.OrthogPlane q.DestProc q.bytes q.lane q.cb
          st.CachedTransfers = some c) :
    findTransfer q.direction q.OrthogPlane q.DestProc q.bytes q.lane q.cb
      (runRequests qs st).CachedTransfers = some c := by
  induction qs generalizing st with
  | nil => exact h
  | cons a as ih =>
    simp only [runRequests, List.foldl_cons]
    exact ih (a.issue st) (issue_keeps_found st a q c h)

theorem findTransfer_congr (a b : DuplicateQuery) (h : a.sameKey b) (l : List CachedTransfer) :
    findTransfer a.direction a.OrthogPlane a.DestProc a.bytes a.lane a.cb l
      = findTransfer b.direction b.OrthogPlane b.DestProc b.bytes b.lane b.cb l := by
  obtain ⟨h1, h2, h3, h4, h5, h6⟩ := h
  rw [h1, h2, h3, h4, h5, h6]

/-- C6. Within one exchange the cache starts empty (`Prepare`).  A request `a`
whose key differs from every cached key returns 0 from `CheckForDuplicate`,
queues its packet and adds no copy.  A later request `b` with the same key
`(direction, OrthogPlane, DestProc, bytes, lane, cb)`, after any requests in
between, returns 1, queues no packet and adds exactly one `CopyReceiveBuffer`
record, from the receive address registered by `a` to the receive address of
`b`, of the shared byte count. -/
theorem C6_duplicate_transfer {C : Type} (st : CartesianStencil C) (a b : TransferRequest)
    (mid : List TransferRequest) (hkey : a.query.sameKey b.query)
    (hfresh : ∀ c ∈ st.CachedTransfers, ¬ c.hasKey a.query) :
    (Prepare st).CachedTransfers = []
      ∧ (CheckForDuplicate st a.query.direction a.query.OrthogPlane a.query.DestProc
          a.query.recv_buf a.query.lane a.query.bytes a.query.cb).2 = 0
      ∧ (a.issue st).Packets = st.Packets ++ [a.packet]
      ∧ (a.issue st).CopyReceiveBuffers = st.CopyReceiveBuffers
      ∧ (CheckForDuplicate (runRequests mid (a.issue st)) b.query.direction b.query.OrthogPlane
          b.query.DestProc b.query.recv_buf b.query.lane b.query.bytes b.query.cb).2 = 1
      ∧ (b.issue (runRequests mid (a.issue st))).Packets = (runRequests mid (a.issue st)).Packets
      ∧ (b.issue (runRequests mid (a.issue st))).CopyReceiveBuffers
          = (runRequests mid (a.issue st)).CopyReceiveBuffers ++
              [{ from_p := a.query.recv_buf, to_p := b.query.recv_buf, bytes := a.query.bytes }] := by
  have hnone := (findTransfer_none a.query st.CachedTransfers).2 hfresh
  have hmiss := issue_miss st a hnone
  have hfound : findTransfer b.query.direction b.query.OrthogPlane b.query.DestProc
      b.query.bytes b.query.lane b.query.cb (runRequests mid (a.issue st)).CachedTransfers
        = some { direction := a.query.direction, OrthogPlane := a.query.OrthogPlane,
                 DestProc := a.query.DestProc, recv_buf := a.query.recv_buf,
                 lane := a.query.lane, bytes := a.query.bytes, cb := a.query.cb } := by
    apply runRequests_keeps_found
    rw [hmiss.2.2, ← findTransfer_congr a.query b.query hkey]
    exact findTransfer_append_none a.query _ _ hnone ⟨rfl, rfl, rfl, rfl, rfl, rfl⟩
  have hhit := issue_hit _ b _ hfound
  refine ⟨rfl, ?_, hmiss.1, hmiss.2.1, ?_, hhit.1, ?_⟩
  · rw [CheckForDuplicate_miss st a.query hnone]
  · rw [CheckForDuplicate_hit _ b.query _ hfound]
  · rw [hhit.2.1, hkey.2.2.2.1]

theorem CheckForDuplicate_keeps_distinct {C : Type} (st : CartesianStencil C) (q : DuplicateQuery)
    (h : st.CachedTransfers.Pairwise (fun a b => ¬ a.sameKey b)) :
    (CheckForDuplicate st q.direction q.OrthogPlane q.DestProc q.recv_buf q.lane q.bytes
      q.cb).1.CachedTransfers.Pairwise (fun a b => ¬ a.sameKey b) := by
  cases hf : findTransfer q.direction q.OrthogPlane q.DestProc q.bytes q.lane q.cb
      st.CachedTransfers with
  | none =>
    rw [CheckForDuplicate_miss st q hf]
    show (st.CachedTransfers ++ [_]).Pairwise _
    rw [List.pairwise_append]
    refine ⟨h, List.pairwise_singleton _ _, ?_⟩
    intro a ha b hb
    rw [List.mem_singleton] at hb
    subst hb
    exact (findTransfer_none q _).1 hf a ha
  | some c =>
    rw [CheckForDuplicate_hit st q c hf]
    exact h

/-- C7. Uniqueness of the key is an invariant of the cache: `Prepare` leaves
the cache empty, and after any sequence of `CheckForDuplicate` calls no two
records of `CachedTransfers` agree on all of `(direction, OrthogPlane,
DestProc, bytes, lane, cb)`. -/
theorem C7_cached_keys_unique {C : Type} (st : CartesianStencil C) (qs : List DuplicateQuery) :
    (Prepare st).CachedTransfers = []
      ∧ (runQueries qs (Prepare st)).CachedTransfers.Pairwise (fun a b => ¬ a.sameKey b) := by
  refine ⟨rfl, ?_⟩
  have key : ∀ (l : List DuplicateQuery) (s : CartesianStencil C),
      s.CachedTransfers.Pairwise (fun a b => ¬ a.sameKey b) →
      (runQueries l s).CachedTransfers.Pairwise (fun a b => ¬ a.sameKey b) := by
    intro l
    induction l with
    | nil => intro s hs; exact hs
    | cons q l ih =>
      intro s hs
      simp only [runQueries, List.foldl_cons]
      exact ih _ (CheckForDuplicate_keeps_distinct s q hs)
  exact key qs (Prepare st) List.Pairwise.nil

/-! ## Dirichlet blocks -/

theorem setAt_setAt {α : Type} (f : Nat → α) (i : Nat) (a b : α) :
    setAt (setAt f i a) i b = setAt f i b := by
  funext j
  unfold setAt
  split <;> rfl

theorem setAt_same {α : Type} (f : Nat → α) (i : Nat) (a : α) : setAt f i a i = a := by
  simp [setAt]

theorem setAt_other {α : Type} (f : Nat → α) (i j : Nat) (a : α) (h : j ≠ i) :
    setAt f i a j = f j := by
  simp [setAt, h]

theorem DirichletPoint_eq {C : Type} (blk : List Int) (ii : Nat) (st : CartesianStencil C) :
    DirichletPoint blk ii st =
      if dirichletActive st._grid (st._directions.getD ii 0) (blk.getD (st._directions.getD ii 0) 0)
          && !decide (((st._distances.getD ii 0).natAbs : Int)
                < cdiv (st._grid._fdimensions (st._directions.getD ii 0))
                    (st._grid._processors (st._directions.getD ii 0)))
      then .error Assertion.dirichlet_displacement
      else .ok (setFlags st ii (dirichletFlags st._grid (st._directions.getD ii 0)
                  (st._distances.getD ii 0) (blk.getD (st._directions.getD ii 0) 0))) := by
  unfold DirichletPoint dirichletActive dirichletFlags setFlags
  dsimp only
  generalize st._directions.getD ii 0 = dim
  generalize ((st._distances.getD ii 0).natAbs : Int) = ad
  generalize st._distances.getD ii 0 = d
  generalize blk.getD dim 0 = b
  generalize cdiv (st._grid._fdimensions dim) (st._grid._processors dim) = ld
  generalize ofBool (decide (st._grid._processors dim > 1)) = cd
  generalize (st._grid._processor_coor dim : Int) = pc
  by_cases hact : (truthy b && truthy cd) = true
  · by_cases hd : ad < ld
    · by_cases hpos : d > 0 <;> by_cases h1 : cmod (ld * (pc + 1)) b = 0 <;>
        by_cases h2 : cmod (ld * pc) b = 0 <;>
        simp [hact, hd, hpos, h1, h2, assert, bind, Except.bind, pure, Except.pure,
          setCommsSend, setCommsRecv, setAt_setAt]
    · simp [hact, hd, assert, bind, Except.bind]
  · simp [hact, pure, Except.pure]

theorem DirichletPoint_step {C : Type} (st : CartesianStencil C) (blk : List Int) (k : Nat)
    (h : dirichletAborts st blk k = false) :
    DirichletPoint blk k (dirichletResult st blk k) = .ok (dirichletResult st blk (k + 1)) := by
  rw [DirichletPoint_eq]
  have hc : (dirichletActive (dirichletResult st blk k)._grid
      ((dirichletResult st blk k)._directions.getD k 0)
      (blk.getD ((dirichletResult st blk k)._directions.getD k 0) 0)
        && !decide ((((dirichletResult st blk k)._distances.getD k 0).natAbs : Int)
              < cdiv ((dirichletResult st blk k)._grid._fdimensions
                      ((dirichletResult st blk k)._directions.getD k 0))
                  ((dirichletResult st blk k)._grid._processors
                      ((dirichletResult st blk k)._directions.getD k 0)))) = false := h
  rw [hc]
  simp only [Bool.false_eq_true, if_false]
  congr 1
  unfold setFlags setCommsRecv setCommsSend dirichletResult
  simp only
  congr 1
  · funext j
    unfold setAt
    by_cases hj : j = k
    · subst hj; simp
    · have : (j < k + 1) = (j < k) := by
        apply propext; constructor <;> intro hh <;> omega
      simp [hj, this]
  · funext j
    unfold setAt
    by_cases hj : j = k
    · subst hj; simp
    · have : (j < k + 1) = (j < k) := by
        apply propext; constructor <;> intro hh <;> omega
      simp [hj, this]

theorem dirichletResult_zero {C : Type} (st : CartesianStencil C) (blk : List Int) :
    dirichletResult st blk 0 = st := by
  unfold dirichletResult
  simp

theorem DirichletBlock_loop_ok {C : Type} (st : CartesianStencil C) (blk : List Int) (n : Nat)
    (h : ∀ ii, ii < n → dirichletAborts st blk ii = false) :
    forLoopM n (DirichletPoint blk) st = .ok (dirichletResult st blk n) := by
  induction n with
  | zero => simp [forLoopM, dirichletResult_zero]
  | succ k ih =>
    simp only [forLoopM]
    rw [ih (fun ii hii => h ii (Nat.lt_succ_of_lt hii))]
    exact DirichletPoint_step st blk k (h k (Nat.lt_succ_self k))

theorem DirichletBlock_ok {C : Type} (st : CartesianStencil C) (blk : List Int)
    (h : ∀ ii, ii < st._npoints → dirichletAborts st blk ii = false) :
    DirichletBlock st blk = .ok (dirichletResult st blk st._npoints) :=
  DirichletBlock_loop_ok st blk st._npoints h

/-- Witness of C6: two requests with the same key issued right after `Prepare`. -/
theorem C6_duplicate_transfer_witness :
    firstRequest.query.sameKey secondRequest.query
      ∧ (secondRequest.issue (runRequests [] (firstRequest.issue
            (Prepare (lineStencil [0] 0))))).CopyReceiveBuffers
          = (runRequests [] (firstRequest.issue
              (Prepare (lineStencil [0] 0)))).CopyReceiveBuffers ++
              [{ from_p := ⟨Buffer.u_recv_buf, 0⟩, to_p := ⟨Buffer.u_recv_buf, 1⟩, bytes := 8 }] :=
  ⟨⟨rfl, rfl, rfl, rfl, rfl, rfl⟩,
   (C6_duplicate_transfer (Prepare (lineStencil [0] 0)) firstRequest secondRequest []
      ⟨rfl, rfl, rfl, rfl, rfl, rfl⟩ (fun c hc => by cases hc)).2.2.2.2.2.2⟩

theorem dirichletFlags_block_ld (g : GridBase) (dimension : Nat) (displacement : Int)
    (hpd : g._processors dimension > 1)
    (hld : cdiv (g._fdimensions dimension) (g._processors dimension) ≠ 0) :
    dirichletFlags g dimension displacement
      (cdiv (g._fdimensions dimension) (g._processors dimension)) = (0, 0) := by
  unfold dirichletFlags
  dsimp only
  have h1 : ∀ k : Int, cmod (cdiv (g._fdimensions dimension) (g._processors dimension) * k)
      (cdiv (g._fdimensions dimension) (g._processors dimension)) = 0 :=
    fun k => Int.mul_tmod_right _ _
  have ht : truthy (cdiv (g._fdimensions dimension) (g._processors dimension)) = true := by
    simp [truthy, hld]
  have hc : truthy (ofBool (decide (g._processors dimension > 1))) = true := by
    simp [truthy, ofBool, hpd]
  rw [ht, hc, h1, h1]
  simp

theorem dirichletFlags_block_zero (g : GridBase) (dimension : Nat) (displacement : Int)
    (hpd : g._processors dimension > 1) :
    dirichletFlags g dimension displacement 0 = (1, 1) := by
  unfold dirichletFlags
  simp [truthy, ofBool, hpd]

/-- C10 (as amended). With a Dirichlet block size equal to the local extent
`ld = fd/pd` of an axis that is split across processes, `DirichletBlock` stores
`_comms_send = _comms_recv = 0` for every point on that axis, whatever the
process coordinate: send and receive are always off.  The always-on flags
`_comms_send = _comms_recv = 1` of the non-blocked baseline are what a block
size of 0 yields.  `DirichletBlock` returns whenever no point fails its
assertion `abs(displacement) < ld`. -/
theorem C10_block_equal_local_extent {C : Type} (st : CartesianStencil C) (blk : List Int)
    (hok : ∀ ii, ii < st._npoints → dirichletAborts st blk ii = false) :
    ∃ r, DirichletBlock st blk = .ok r ∧
      ∀ ii, ii < st._npoints → st._grid._processors (st._directions.getD ii 0) > 1 →
        (blk.getD (st._directions.getD ii 0) 0
            = cdiv (st._grid._fdimensions (st._directions.getD ii 0))
                (st._grid._processors (st._directions.getD ii 0)) →
          blk.getD (st._directions.getD ii 0) 0 ≠ 0 →
          r._comms_send ii = 0 ∧ r._comms_recv ii = 0)
        ∧ (blk.getD (st._directions.getD ii 0) 0 = 0 →
          r._comms_send ii = 1 ∧ r._comms_recv ii = 1) := by
  refine ⟨_, DirichletBlock_ok st blk hok, ?_⟩
  intro ii hii hpd
  constructor
  · intro hb hne
    have hf := dirichletFlags_block_ld st._grid (st._directions.getD ii 0)
      (st._distances.getD ii 0) hpd (by rw [← hb]; exact hne)
    unfold dirichletResult
    simp only [hii, if_true, hb, hf, and_self]
  · intro hb
    have hf := dirichletFlags_block_zero st._grid (st._directions.getD ii 0)
      (st._distances.getD ii 0) hpd
    unfold dirichletResult
    simp only [hii, if_true, hb, hf, and_self]

/-- Counterexample to C10 as stated: on the line of 8 sites over 2 processes
(local extent 4) with block size 4, the point of displacement `+1` is
constructed with `_comms_send = _comms_recv = 0` on rank 0, not with the
always-on flags. -/
theorem C10_counterexample :
    ¬ ((lineStencil [4] 0)._comms_send 0 = 1 ∧ (lineStencil [4] 0)._comms_recv 0 = 1) := by
  decide

/-- Witness of C10 (as amended): block size 4 on the line of local extent 4. -/
theorem C10_block_equal_local_extent_witness :
    ∃ r, DirichletBlock
          (CartesianStencil.initial (lineGrid 0) 1 [0] [1] ⟨[4]⟩ 8 8 (someStorage 0)) [4]
          = .ok r ∧ r._comms_send 0 = 0 ∧ r._comms_recv 0 = 0 := by
  obtain ⟨r, hr, h⟩ := C10_block_equal_local_extent
    (CartesianStencil.initial (lineGrid 0) 1 [0] [1] ⟨[4]⟩ 8 8 (someStorage 0)) [4]
    (by intro ii hii; have : ii = 0 := by simpa [CartesianStencil.initial] using hii
        subst this; decide)
  exact ⟨r, hr, (h 0 (by decide) (by decide)).1 (by decide) (by decide)⟩

/-! ## The line of 8 sites on 2 ranks -/

/-- The scenario of the line of 8 sites with the flags set up.  On the
one-dimensional grid of 8 sites over 2 ranks with the single point of
displacement `+1` and the all-zero block list `[0]`, construction succeeds on
both ranks; local sites 0, 1, 2 have local entries with `_offset = site+1`,
local site 3 has a remote entry at buffer offset 0, and `_unified_buffer_size`
is 1.  One exchange of both ranks runs to its end and queues exactly one
packet per rank, of one datum (8 bytes), to and from the other rank; afterwards
the receive slot 0 of rank 0 holds the value of rank 1's local site 0 (global
site 4) and the receive slot 0 of rank 1 holds the value of rank 0's site 0.
The wraparound flag is set on local site 3 of rank 1 and on no other entry. -/
theorem line_of_8_sites_on_2_ranks :
    (∀ r, r < 2 →
      (CartesianStencil.construct (lineGrid r) 1 0 [0] [1] ⟨[0]⟩ 8 8
          (someStorage ((9 : Nat), (9 : Nat)))).toBool = true
      ∧ (∀ site, site < 3 → ((lineStencil [0] r)._entries site)._is_local = 1
            ∧ ((lineStencil [0] r)._entries site)._offset = site + 1)
      ∧ ((lineStencil [0] r)._entries 3)._is_local = 0
      ∧ ((lineStencil [0] r)._entries 3)._offset = 0
      ∧ (lineStencil [0] r)._unified_buffer_size = 1
      ∧ (exchangeRank (lineStencil [0]) lineField (plainCompressor (Nat × Nat) 8) r).toBool = true
      ∧ (lineExchanged r).Packets
          = [{ send_buf := ⟨Buffer.u_send_buf, 0⟩, recv_buf := ⟨Buffer.u_recv_buf, 0⟩,
               to_rank := 1 - r, from_rank := 1 - r, do_send := 1, do_recv := 1, bytes := 8 }]
      ∧ (∀ site, site < 4 →
          (((lineStencil [0] r)._entries site)._around_the_world = 1 ↔ (r = 1 ∧ site = 3))
          ∧ (((lineStencil [0] r)._entries site)._around_the_world = 0 ↔ ¬ (r = 1 ∧ site = 3))))
    ∧ (lineExchanged 0).u_recv_buf 0 = (lineField 1).rhs_v 0
    ∧ (lineExchanged 1).u_recv_buf 0 = (lineField 0).rhs_v 0 := by
  decide

/-! ## The capacity assertion of `HaloGather` -/

/-- C2 at a failing input. On the red-black grid for the lattice 16 x 2 (parity
along axis 0, which is also split over 2 processes and over 2 SIMD lanes) the
stencil with the single point of displacement `-2` along axis 0 is constructed
successfully with `_unified_buffer_size = 2`: `Comms` counts only plane 0 as
off-node.  `GatherSimd` tests `((x+sshift)%fd) >= rd` with the full extent
`fd = 16`, gathers plane 1 as well and leaves `u_comm_offset = 4`, so
`HaloGather` stops at `assert(u_comm_offset==_unified_buffer_size)`. -/
theorem C2_capacity_assertion_fails :
    (CartesianStencil.construct (redBlackGrid 0) 1 0 [0] [-2] ⟨[0, 0]⟩ 8 8
        (someStorage (0 : Nat))).toBool = true
      ∧ (redBlackStencil 0)._unified_buffer_size = 2
      ∧ redBlackField.Checkerboard = (redBlackStencil 0)._checkerboard
      ∧ redBlackGatheredOffset 0 = some 4
      ∧ failedAssertion (HaloGather (Prepare (redBlackStencil 0)) redBlackField
          (plainCompressor Nat 8)) = some Assertion.unified_buffer_size
      ∧ failedAssertion (HaloExchange (redBlackStencil 0) redBlackField
          (plainCompressor Nat 8) (fun _ _ _ => none)) = some Assertion.unified_buffer_size := by
  decide

/-! ## Plane loops as folds over the sites of a plane -/

theorem forLoop_eq_foldl {σ : Type} (n : Nat) (body : Nat → σ → σ) (s : σ) :
    forLoop n body s = (List.range n).foldl (fun s i => body i s) s := by
  induction n with
  | zero => rfl
  | succ k ih => rw [List.range_succ, List.foldl_append, ← ih]; rfl

theorem forLoop_plane {σ : Type} (g : GridBase) (dimension : Nat) (f : Nat → σ → σ) (s : σ) :
    forLoop (g._slice_nblock dimension) (fun n s =>
        forLoop (g._slice_block dimension)
          (fun b s => f (n * g._slice_stride dimension + b) s) s) s
      = (planeOffsets g dimension).foldl (fun s k => f k s) s := by
  unfold planeOffsets
  generalize g._slice_nblock dimension = nb
  induction nb with
  | zero => rfl
  | succ m ih =>
    rw [List.range_succ, List.flatMap_append, List.foldl_append, ← ih]
    simp only [forLoop, List.flatMap_cons, List.flatMap_nil, List.append_nil, List.foldl_map]
    rw [forLoop_eq_foldl]

theorem foldl_filter_step {σ α : Type} (p : α → Bool) (f : α → σ → σ) (l : List α) (s : σ) :
    l.foldl (fun s k => if p k = true then f k s else s) s
      = (l.filter p).foldl (fun s k => f k s) s := by
  induction l generalizing s with
  | nil => rfl
  | cons a l ih =>
    by_cases h : p a = true
    · simp only [List.foldl_cons, h, if_true, List.filter_cons_of_pos]
      exact ih _
    · have h' : p a = false := by simpa using h
      simp only [List.foldl_cons, h', Bool.false_eq_true, if_false]
      rw [List.filter_cons_of_neg (by simp [h'])]
      exact ih _

theorem foldl_counter {σ α : Type} (F : σ → Nat → α → σ) (l : List α) (s : σ) (c : Nat) :
    l.foldl (fun (p : σ × Nat) k => (F p.1 p.2 k, p.2 + 1)) (s, c)
      = ((l.enumFrom c).foldl (fun s q => F s q.1 q.2) s, c + l.length) := by
  induction l generalizing s c with
  | nil => rfl
  | cons a l ih =>
    simp only [List.foldl_cons, List.enumFrom_cons, List.length_cons]
    rw [ih]
    congr 1
    omega

theorem CopyPlaneEntries_eq (g : GridBase) (npoints : Nat) (entries : Nat → StencilEntry)
    (point dimension lplane : Nat) (rplane : Int) (cbmask : Nat) (permute wrap : Int) :
    CopyPlaneEntries g npoints entries point dimension lplane rplane cbmask permute wrap
      = (planeSelected g dimension cbmask).foldl (fun entries k =>
          setAt entries (entryIndex npoints point (lplane * g._ostride dimension + k))
            (localEntry (entries (entryIndex npoints point (lplane * g._ostride dimension + k)))
              (rplane * (g._ostride dimension : Int) + (k : Int)) permute wrap)) entries := by
  unfold CopyPlaneEntries planeSelected
  dsimp only
  by_cases hcb : g.CheckerBoarded dimension = true
  · simp only [hcb, Bool.not_true, Bool.false_eq_true, if_false, Bool.false_or]
    rw [← foldl_filter_step, ← forLoop_plane]
    congr 1
    funext n e
    congr 1
    funext b e
    unfold inMask entryIndex
    simp only [bne_iff_ne, ne_eq, ite_not]
    by_cases hm : 1 <<< g.CheckerBoardFromOindex (n * g._slice_stride dimension + b) &&& cbmask = 0
    · simp [hm]
    · simp only [hm, if_false]
      push_cast
      simp only [Nat.add_assoc, Int.add_assoc]
  · have hcb' : g.CheckerBoarded dimension = false := by simpa using hcb
    simp only [hcb', Bool.not_false, if_true, Bool.true_or, List.filter_true]
    rw [← forLoop_plane]
    congr 1
    funext n e
    congr 1
    funext b e
    unfold entryIndex
    push_cast
    simp only [Nat.add_assoc, Int.add_assoc]

theorem ScatterPlaneEntries_eq (g : GridBase) (npoints : Nat) (entries : Nat → StencilEntry)
    (point dimension plane cbmask offset : Nat) (wrap : Int) :
    ScatterPlaneEntries g npoints entries point dimension plane cbmask offset wrap
      = ((planeSelected g dimension cbmask).enum.foldl (fun entries q =>
          setAt entries (entryIndex npoints point (plane * g._ostride dimension + q.2))
            (remoteEntry (entries (entryIndex npoints point (plane * g._ostride dimension + q.2)))
              ((offset : Int) + (q.1 : Int)) wrap)) entries,
         (planeSelected g dimension cbmask).length) := by
  have key := foldl_counter (fun (e : Nat → StencilEntry) (c : Nat) (k : Nat) =>
      setAt e (entryIndex npoints point (plane * g._ostride dimension + k))
        (remoteEntry (e (entryIndex npoints point (plane * g._ostride dimension + k)))
          ((offset : Int) + (c : Int)) wrap)) (planeSelected g dimension cbmask) entries 0
  rw [Nat.zero_add] at key
  unfold List.enum
  rw [← key]
  unfold ScatterPlaneEntries planeSelected
  dsimp only
  by_cases hcb : g.CheckerBoarded dimension = true
  · simp only [hcb, Bool.not_true, Bool.false_eq_true, if_false, Bool.false_or]
    rw [← foldl_filter_step, ← forLoop_plane]
    congr 1
    funext n e
    congr 1
    funext b e
    unfold inMask entryIndex
    simp only [bne_iff_ne, ne_eq, ite_not]
    by_cases hm : 1 <<< g.CheckerBoardFromOindex (n * g._slice_stride dimension + b) &&& cbmask = 0
    · simp [hm]
    · simp only [hm, if_false]
      simp only [Nat.add_assoc]
  · have hcb' : g.CheckerBoarded dimension = false := by simpa using hcb
    simp only [hcb', Bool.not_false, if_true, Bool.true_or, List.filter_true]
    rw [← forLoop_plane]
    congr 1
    funext n e
    congr 1
    funext b e
    unfold entryIndex
    simp only [Nat.add_assoc]

/-! ## Folds that store into the table -/

theorem foldSet_miss {α : Type} (idx : α → Nat) (upd : α → StencilEntry → StencilEntry)
    (l : List α) (entries : Nat → StencilEntry) (j : Nat) (h : ∀ a ∈ l, idx a ≠ j) :
    l.foldl (fun e a => setAt e (idx a) (upd a (e (idx a)))) entries j = entries j := by
  induction l generalizing entries with
  | nil => rfl
  | cons a l ih =>
    simp only [List.foldl_cons]
    rw [ih _ (fun b hb => h b (List.mem_cons_of_mem _ hb))]
    exact setAt_other _ _ _ _ (fun hj => h a (List.mem_cons_self _ _) hj.symm)

theorem foldSet_keeps {α : Type} (idx : α → Nat) (upd : α → StencilEntry → StencilEntry)
    (Q : StencilEntry → Prop) (l : List α) (entries : Nat → StencilEntry) (j : Nat)
    (hw : ∀ a ∈ l, idx a = j → ∀ e, Q e → Q (upd a e)) (h0 : Q (entries j)) :
    Q (l.foldl (fun e a => setAt e (idx a) (upd a (e (idx a)))) entries j) := by
  induction l generalizing entries with
  | nil => exact h0
  | cons a l ih =>
    simp only [List.foldl_cons]
    apply ih _ (fun b hb => hw b (List.mem_cons_of_mem _ hb))
    by_cases hj : idx a = j
    · rw [← hj, setAt_same]
      exact hw a (List.mem_cons_self _ _) hj _ (by rw [hj]; exact h0)
    · rw [setAt_other _ _ _ _ (fun h => hj h.symm)]
      exact h0

theorem foldSet_hit {α : Type} (idx : α → Nat) (upd : α → StencilEntry → StencilEntry)
    (Q : StencilEntry → Prop) (l : List α) (entries : Nat → StencilEntry) (j : Nat)
    (hw : ∀ a ∈ l, idx a = j → ∀ e, Q (upd a e)) (h : ∃ a ∈ l, idx a = j) :
    Q (l.foldl (fun e a => setAt e (idx a) (upd a (e (idx a)))) entries j) := by
  induction l generalizing entries with
  | nil => obtain ⟨a, ha, _⟩ := h; cases ha
  | cons a l ih =>
    simp only [List.foldl_cons]
    by_cases hl : ∃ b ∈ l, idx b = j
    · exact ih _ (fun b hb => hw b (List.mem_cons_of_mem _ hb)) hl
    · have ha : idx a = j := by
        obtain ⟨b, hb, hbj⟩ := h
        rcases List.mem_cons.1 hb with rfl | hb'
        · exact hbj
        · exact absurd ⟨b, hb', hbj⟩ hl
      apply foldSet_keeps idx upd Q l _ j
        (fun b hb hbj e _ => hw b (List.mem_cons_of_mem _ hb) hbj e)
      rw [← ha, setAt_same]
      exact hw a (List.mem_cons_self _ _) ha _

theorem entryIndex_inj (npoints point s s' : Nat) (hp : point < npoints)
    (h : entryIndex npoints point s = entryIndex npoints point s') : s = s' := by
  unfold entryIndex at h
  have hn : 0 < npoints := by omega
  exact Nat.eq_of_mul_eq_mul_right hn (by omega)

theorem entryIndex_point (npoints point point' s s' : Nat) (hp : point < npoints)
    (hp' : point' < npoints)
    (h : entryIndex npoints point s = entryIndex npoints point' s') : point = point' := by
  unfold entryIndex at h
  have h1 : (point + s * npoints) % npoints = point := by
    rw [Nat.add_mul_mod_self_right, Nat.mod_eq_of_lt hp]
  have h2 : (point' + s' * npoints) % npoints = point' := by
    rw [Nat.add_mul_mod_self_right, Nat.mod_eq_of_lt hp']
  rw [← h1, ← h2, h]

/-! ## Sites of a plane -/

theorem mem_planeOffsets (g : GridBase) (d k : Nat) :
    k ∈ planeOffsets g d
      ↔ ∃ n, n < g._slice_nblock d ∧ ∃ b, b < g._slice_block d ∧ k = n * g._slice_stride d + b := by
  unfold planeOffsets
  simp only [List.mem_flatMap, List.mem_range, List.mem_map]
  constructor
  · rintro ⟨n, hn, b, hb, rfl⟩
    exact ⟨n, hn, b, hb, rfl⟩
  · rintro ⟨n, hn, b, hb, rfl⟩
    exact ⟨n, hn, b, hb, rfl⟩

theorem site_decomp (ost rd n x b : Nat) (hb : b < ost) (hx : x < rd) :
    (x * ost + (n * (ost * rd) + b)) % ost = b
      ∧ (x * ost + (n * (ost * rd) + b)) / ost % rd = x
      ∧ (x * ost + (n * (ost * rd) + b)) / ost / rd = n := by
  have host : 0 < ost := by omega
  have hrd : 0 < rd := by omega
  have e : x * ost + (n * (ost * rd) + b) = b + ost * (x + rd * n) := by ring
  rw [e]
  refine ⟨?_, ?_, ?_⟩
  · rw [Nat.add_mul_mod_self_left, Nat.mod_eq_of_lt hb]
  · rw [Nat.add_mul_div_left _ _ host, Nat.div_eq_of_lt hb, Nat.zero_add,
      Nat.add_mul_mod_self_left, Nat.mod_eq_of_lt hx]
  · rw [Nat.add_mul_div_left _ _ host, Nat.div_eq_of_lt hb, Nat.zero_add,
      Nat.add_mul_div_left _ _ hrd, Nat.div_eq_of_lt hx, Nat.zero_add]

theorem plane_site_inj (g : GridBase) (d : Nat) (hl : AxisLayout g d) (x x' k k' : Nat)
    (hx : x < g._rdimensions d) (hx' : x' < g._rdimensions d) (hk : k ∈ planeOffsets g d)
    (hk' : k' ∈ planeOffsets g d)
    (h : x * g._ostride d + k = x' * g._ostride d + k') : x = x' ∧ k = k' := by
  obtain ⟨n, _, b, hb, rfl⟩ := (mem_planeOffsets g d k).1 hk
  obtain ⟨n', _, b', hb', rfl⟩ := (mem_planeOffsets g d k').1 hk'
  rw [hl.block] at hb hb'
  rw [hl.stride] at h ⊢
  have h1 := site_decomp (g._ostride d) (g._rdimensions d) n x b hb hx
  have h2 := site_decomp (g._ostride d) (g._rdimensions d) n' x' b' hb' hx'
  rw [h] at h1
  obtain ⟨a1, a2, a3⟩ := h1
  obtain ⟨b1, b2, b3⟩ := h2
  have hbb : b = b' := a1.symm.trans b1
  have hxx : x = x' := a2.symm.trans b2
  have hnn : n = n' := a3.symm.trans b3
  subst hbb hxx hnn
  exact ⟨rfl, rfl⟩

theorem plane_site_lt (g : GridBase) (d : Nat) (hl : AxisLayout g d) (x k : Nat)
    (hx : x < g._rdimensions d) (hk : k ∈ planeOffsets g d) :
    x * g._ostride d + k < g.oSites := by
  obtain ⟨n, hn, b, hb, rfl⟩ := (mem_planeOffsets g d k).1 hk
  rw [hl.block] at hb
  rw [hl.sites, hl.stride]
  have h1 : x * g._ostride d + b < g._ostride d * g._rdimensions d := by
    have : x + 1 ≤ g._rdimensions d := hx
    calc x * g._ostride d + b < x * g._ostride d + g._ostride d := by omega
      _ = g._ostride d * (x + 1) := by ring
      _ ≤ g._ostride d * g._rdimensions d := Nat.mul_le_mul_left _ this
  have h2 : (n + 1) * (g._ostride d * g._rdimensions d)
      ≤ g._slice_nblock d * (g._ostride d * g._rdimensions d) :=
    Nat.mul_le_mul_right _ hn
  have h3 : (n + 1) * (g._ostride d * g._rdimensions d)
      = n * (g._ostride d * g._rdimensions d) + g._ostride d * g._rdimensions d := by ring
  omega

theorem plane_site_cover (g : GridBase) (d : Nat) (hl : AxisLayout g d) (s : Nat)
    (hs : s < g.oSites) :
    ∃ x, x < g._rdimensions d ∧ ∃ k, k ∈ planeOffsets g d ∧ s = x * g._ostride d + k := by
  have host := hl.ostride_pos
  have hrd := hl.rd_pos
  refine ⟨s / g._ostride d % g._rdimensions d, Nat.mod_lt _ hrd,
    s / g._ostride d / g._rdimensions d * g._slice_stride d + s % g._ostride d, ?_, ?_⟩
  · rw [mem_planeOffsets]
    refine ⟨s / g._ostride d / g._rdimensions d, ?_, s % g._ostride d, ?_, rfl⟩
    · rw [hl.sites, hl.stride] at hs
      rw [Nat.div_div_eq_div_mul]
      exact Nat.div_lt_of_lt_mul (by rw [Nat.mul_comm]; exact hs)
    · rw [hl.block]; exact Nat.mod_lt _ host
  · rw [hl.stride]
    have e1 := Nat.div_add_mod s (g._ostride d)
    have e2 := Nat.div_add_mod (s / g._ostride d) (g._rdimensions d)
    calc s = g._ostride d * (s / g._ostride d) + s % g._ostride d := e1.symm
      _ = g._ostride d * (g._rdimensions d * (s / g._ostride d / g._rdimensions d)
            + s / g._ostride d % g._rdimensions d) + s % g._ostride d := by rw [e2]
      _ = _ := by ring

/-! ## The table passes as functions of the table -/

theorem Local_eq {C : Type} (st : CartesianStencil C) (point dimension : Nat) (shiftpm : Int)
    (cbmask : Nat) :
    Local st point dimension shiftpm cbmask
      = { st with _entries := LocalEntries st._grid st._npoints st._checkerboard point dimension
                                shiftpm cbmask st._entries } := by
  unfold Local LocalEntries
  generalize st._grid._rdimensions dimension = n
  induction n with
  | zero => rfl
  | succ k ih =>
    simp only [forLoop]
    rw [ih]
    rfl

theorem Comms_loop_eq {C : Type} (st : CartesianStencil C) (point dimension : Nat)
    (shiftpm : Int) (cbmask : Nat) (comms_recv sshift : Int) (n : Nat) :
    forLoop n (CommsPlane point dimension shiftpm cbmask comms_recv sshift) st
      = { st with
          _entries := (forLoop n (CommsPlaneEntries st._grid st._npoints point dimension shiftpm
                        cbmask comms_recv sshift) (st._entries, st._unified_buffer_size)).1,
          _unified_buffer_size :=
            (forLoop n (CommsPlaneEntries st._grid st._npoints point dimension shiftpm
                        cbmask comms_recv sshift) (st._entries, st._unified_buffer_size)).2 } := by
  induction n with
  | zero => rfl
  | succ k ih =>
    simp only [forLoop]
    rw [ih]
    unfold CommsPlane CommsPlaneEntries
    dsimp only
    generalize forLoop k (CommsPlaneEntries st._grid st._npoints point dimension shiftpm cbmask
      comms_recv sshift) (st._entries, st._unified_buffer_size) = r
    unfold shiftedPlane
    by_cases h0 : offnodePlane st._grid dimension sshift k = 0
    · have ht : truthy (offnodePlane st._grid dimension sshift k) = false := by
        rw [h0]; rfl
      simp only [h0, if_true, ht, Bool.false_eq_true, if_false]
      rfl
    · have ht : truthy (offnodePlane st._grid dimension sshift k) = true := by
        simp [truthy, h0]
      by_cases hr : comms_recv = 0
      · simp only [h0, if_false, hr, if_true, ht]
        rfl
      · simp only [h0, if_false, hr, ht, if_true]
        rfl

theorem Comms_ok {C : Type} (st : CartesianStencil C) (point dimension : Nat) (shiftpm : Int)
    (cbmask : Nat) (h : commsAsserts st._grid dimension shiftpm = true) :
    Comms st point dimension shiftpm cbmask
      = .ok { st with
          _comm_buf_size := setAt st._comm_buf_size point
            (st._grid._slice_nblock dimension * st._grid._slice_block dimension),
          _entries := (CommsEntries st._grid st._npoints st._checkerboard point dimension shiftpm
                        cbmask (st._comms_recv point) (st._entries, st._unified_buffer_size)).1,
          _unified_buffer_size :=
            (CommsEntries st._grid st._npoints st._checkerboard point dimension shiftpm
                        cbmask (st._comms_recv point) (st._entries, st._unified_buffer_size)).2 } := by
  unfold commsAsserts at h
  simp only [Bool.and_eq_true] at h
  obtain ⟨⟨h1, h2⟩, h3⟩ := h
  unfold Comms
  dsimp only
  simp only [assert, h1, h2, h3, if_true, bind, Except.bind, pure, Except.pure]
  rw [Comms_loop_eq]
  rfl

theorem Comms_error {C : Type} (st : CartesianStencil C) (point dimension : Nat) (shiftpm : Int)
    (cbmask : Nat) (h : commsAsserts st._grid dimension shiftpm = false) :
    ∃ a, Comms st point dimension shiftpm cbmask = .error a := by
  unfold commsAsserts at h
  unfold Comms
  dsimp only
  by_cases h1 : (ofBool (decide (st._grid._processors dimension > 1)) == 1) = true
  · by_cases h2 : decide (cmod (shiftpm + (st._grid._fdimensions dimension : Int))
        (st._grid._fdimensions dimension : Int) ≥ 0) = true
    · have h3 : decide (cmod (shiftpm + (st._grid._fdimensions dimension : Int))
          (st._grid._fdimensions dimension : Int) < (st._grid._fdimensions dimension : Int))
          = false := by
        rw [h1, h2] at h
        simpa using h
      exact ⟨Assertion.shift_lt_fd, by
        simp only [assert, h1, h2, h3, if_true, bind, Except.bind, Bool.false_eq_true, if_false]⟩
    · exact ⟨Assertion.shift_nonneg, by
        simp only [assert, h1, h2, if_true, bind, Except.bind, if_false, Bool.false_eq_true]⟩
  · exact ⟨Assertion.comm_dim, by
      simp only [assert, h1, bind, Except.bind, if_false, Bool.false_eq_true]⟩

/-! ## What one pass stores -/

theorem localEntry_isLocalAt (e : StencilEntry) (offset permute wrap : Int) :
    (localEntry e offset permute wrap).isLocalAt offset permute wrap :=
  ⟨rfl, rfl, rfl, rfl⟩

theorem remoteEntry_isRemoteAt (e : StencilEntry) (offset wrap : Int) :
    (remoteEntry e offset wrap).isRemoteAt offset wrap :=
  ⟨rfl, rfl, rfl, rfl⟩

theorem mem_planeSelected (g : GridBase) (d cbmask k : Nat) (h : k ∈ planeSelected g d cbmask) :
    k ∈ planeOffsets g d :=
  (List.mem_filter.1 h).1

theorem CopyPlaneEntries_hit (g : GridBase) (npoints : Nat) (entries : Nat → StencilEntry)
    (point dimension lplane : Nat) (rplane : Int) (cbmask : Nat) (permute wrap : Int) (k : Nat)
    (hp : point < npoints) (hk : k ∈ planeSelected g dimension cbmask) :
    (CopyPlaneEntries g npoints entries point dimension lplane rplane cbmask permute wrap
        (entryIndex npoints point (lplane * g._ostride dimension + k))).isLocalAt
      (rplane * (g._ostride dimension : Int) + (k : Int)) permute wrap := by
  rw [CopyPlaneEntries_eq]
  apply foldSet_hit (fun a => entryIndex npoints point (lplane * g._ostride dimension + a))
    (fun a e => localEntry e (rplane * (g._ostride dimension : Int) + (a : Int)) permute wrap)
    (fun e => e.isLocalAt (rplane * (g._ostride dimension : Int) + (k : Int)) permute wrap)
  · intro a _ ha e
    have := entryIndex_inj _ _ _ _ hp ha
    have hak : a = k := by omega
    subst hak
    exact localEntry_isLocalAt _ _ _ _
  · exact ⟨k, hk, rfl⟩

theorem CopyPlaneEntries_miss (g : GridBase) (npoints : Nat) (entries : Nat → StencilEntry)
    (point dimension lplane : Nat) (rplane : Int) (cbmask : Nat) (permute wrap : Int) (j : Nat)
    (h : ∀ k ∈ planeSelected g dimension cbmask,
          j ≠ entryIndex npoints point (lplane * g._ostride dimension + k)) :
    CopyPlaneEntries g npoints entries point dimension lplane rplane cbmask permute wrap j
      = entries j := by
  rw [CopyPlaneEntries_eq]
  exact foldSet_miss (fun a => entryIndex npoints point (lplane * g._ostride dimension + a))
    (fun a e => localEntry e (rplane * (g._ostride dimension : Int) + (a : Int)) permute wrap)
    _ _ _ (fun a ha hj => h a ha hj.symm)

theorem ScatterPlaneEntries_hit (g : GridBase) (npoints : Nat) (entries : Nat → StencilEntry)
    (point dimension plane cbmask offset : Nat) (wrap : Int) (k : Nat)
    (hp : point < npoints) (hk : k ∈ planeSelected g dimension cbmask) :
    ∃ i, (planeSelected g dimension cbmask).get? i = some k ∧
      ((ScatterPlaneEntries g npoints entries point dimension plane cbmask offset wrap).1
        (entryIndex npoints point (plane * g._ostride dimension + k))).isRemoteAt
          (((offset + i : Nat) : Int)) wrap := by
  rw [ScatterPlaneEntries_eq]
  apply foldSet_hit
    (fun (q : Nat × Nat) => entryIndex npoints point (plane * g._ostride dimension + q.2))
    (fun q e => remoteEntry e ((offset : Int) + (q.1 : Int)) wrap)
    (fun e => ∃ i, (planeSelected g dimension cbmask).get? i = some k
      ∧ e.isRemoteAt (((offset + i : Nat) : Int)) wrap)
  · intro q hq hidx e
    have := entryIndex_inj _ _ _ _ hp hidx
    have hqk : q.2 = k := by omega
    have hm := List.mem_enum_iff_getElem?.1 hq
    refine ⟨q.1, ?_, ?_⟩
    · rw [List.get?_eq_getElem?, hm, hqk]
    · have := remoteEntry_isRemoteAt e ((offset : Int) + (q.1 : Int)) wrap
      simpa using this
  · obtain ⟨i, hi, hik⟩ := List.mem_iff_getElem.1 hk
    exact ⟨(i, k), List.mem_enum_iff_getElem?.2 (by
      simp only [List.getElem?_eq_getElem hi, hik]), rfl⟩

theorem ScatterPlaneEntries_miss (g : GridBase) (npoints : Nat) (entries : Nat → StencilEntry)
    (point dimension plane cbmask offset : Nat) (wrap : Int) (j : Nat)
    (h : ∀ k ∈ planeSelected g dimension cbmask,
          j ≠ entryIndex npoints point (plane * g._ostride dimension + k)) :
    (ScatterPlaneEntries g npoints entries point dimension plane cbmask offset wrap).1 j
      = entries j := by
  rw [ScatterPlaneEntries_eq]
  exact foldSet_miss
    (fun (q : Nat × Nat) => entryIndex npoints point (plane * g._ostride dimension + q.2))
    (fun q e => remoteEntry e ((offset : Int) + (q.1 : Int)) wrap) _ _ _
    (fun q hq hj => h q.2 (List.snd_mem_of_mem_enum hq) hj.symm)

theorem entryIndex_plane_ne (g : GridBase) (d : Nat) (hl : AxisLayout g d)
    (npoints point x x' k k' : Nat) (hp : point < npoints) (hx : x < g._rdimensions d)
    (hx' : x' < g._rdimensions d) (hk : k ∈ planeOffsets g d) (hk' : k' ∈ planeOffsets g d)
    (hne : x ≠ x') :
    entryIndex npoints point (x * g._ostride d + k)
      ≠ entryIndex npoints point (x' * g._ostride d + k') := by
  intro h
  exact hne (plane_site_inj g d hl x x' k k' hx hx' hk hk' (entryIndex_inj _ _ _ _ hp h)).1

theorem LocalEntries_spec (g : GridBase) (npoints checkerboard point dimension : Nat)
    (shiftpm : Int) (cbmask : Nat) (entries : Nat → StencilEntry)
    (hl : AxisLayout g dimension) (hp : point < npoints) :
    (∀ x k, x < g._rdimensions dimension → k ∈ planeSelected g dimension cbmask →
      (LocalEntries g npoints checkerboard point dimension shiftpm cbmask entries
        (entryIndex npoints point (x * g._ostride dimension + k))).isLocalAt
          (shiftedPlane g dimension (passShift g checkerboard dimension shiftpm cbmask) x
              * (g._ostride dimension : Int) + (k : Int))
          (localPermuteSlice g dimension (passShift g checkerboard dimension shiftpm cbmask) x)
          (localWraparound shiftpm
            (shiftedPlane g dimension (passShift g checkerboard dimension shiftpm cbmask) x) x))
    ∧ (∀ j, (∀ x k, x < g._rdimensions dimension → k ∈ planeSelected g dimension cbmask →
          j ≠ entryIndex npoints point (x * g._ostride dimension + k)) →
        LocalEntries g npoints checkerboard point dimension shiftpm cbmask entries j
          = entries j) := by
  unfold LocalEntries
  have key := forLoop_invariant
    (fun (n : Nat) (e : Nat → StencilEntry) =>
      n ≤ g._rdimensions dimension ∧
      (∀ x k, x < n → k ∈ planeSelected g dimension cbmask →
        (e (entryIndex npoints point (x * g._ostride dimension + k))).isLocalAt
          (shiftedPlane g dimension (passShift g checkerboard dimension shiftpm cbmask) x
              * (g._ostride dimension : Int) + (k : Int))
          (localPermuteSlice g dimension (passShift g checkerboard dimension shiftpm cbmask) x)
          (localWraparound shiftpm
            (shiftedPlane g dimension (passShift g checkerboard dimension shiftpm cbmask) x) x))
      ∧ (∀ j, (∀ x k, x < n → k ∈ planeSelected g dimension cbmask →
            j ≠ entryIndex npoints point (x * g._ostride dimension + k)) → e j = entries j))
    (g._rdimensions dimension)
    (fun x entries =>
      CopyPlaneEntries g npoints entries point dimension x
        (shiftedPlane g dimension (passShift g checkerboard dimension shiftpm cbmask) x) cbmask
        (localPermuteSlice g dimension (passShift g checkerboard dimension shiftpm cbmask) x)
        (localWraparound shiftpm
          (shiftedPlane g dimension (passShift g checkerboard dimension shiftpm cbmask) x) x))
    entries
    ⟨Nat.zero_le _, fun x k hx => absurd hx (Nat.not_lt_zero _), fun j _ => rfl⟩
    (by
      intro n e hn ⟨_, hhit, hmiss⟩
      refine ⟨hn, ?_, ?_⟩
      · intro x k hx hk
        by_cases hxn : x = n
        · subst hxn
          exact CopyPlaneEntries_hit _ _ _ _ _ _ _ _ _ _ _ hp hk
        · dsimp only
          rw [CopyPlaneEntries_miss]
          · exact hhit x k (by omega) hk
          · intro k' hk'
            exact entryIndex_plane_ne g dimension hl npoints point x n k k' hp (by omega) hn
              (mem_planeSelected _ _ _ _ hk) (mem_planeSelected _ _ _ _ hk') hxn
      · intro j hj
        dsimp only
        rw [CopyPlaneEntries_miss]
        · exact hmiss j (fun x k hx hk => hj x k (by omega) hk)
        · intro k hk
          exact hj n k (Nat.lt_succ_self n) hk)
  exact ⟨key.2.1, key.2.2⟩

theorem sumTo_succ (n : Nat) (f : Nat → Nat) : sumTo (n + 1) f = sumTo n f + f n := rfl

theorem CommsPlaneEntries_miss (g : GridBase) (npoints point dimension : Nat) (shiftpm : Int)
    (cbmask : Nat) (comms_recv sshift : Int) (x : Nat) (s : (Nat → StencilEntry) × Nat) (j : Nat)
    (h : ∀ k ∈ planeSelected g dimension cbmask,
          j ≠ entryIndex npoints point (x * g._ostride dimension + k)) :
    (CommsPlaneEntries g npoints point dimension shiftpm cbmask comms_recv sshift x s).1 j
      = s.1 j := by
  unfold CommsPlaneEntries
  dsimp only
  split
  · exact CopyPlaneEntries_miss _ _ _ _ _ _ _ _ _ _ _ h
  · split
    · exact CopyPlaneEntries_miss _ _ _ _ _ _ _ _ _ _ _ h
    · exact ScatterPlaneEntries_miss _ _ _ _ _ _ _ _ _ _ h

theorem CommsPlaneEntries_words (g : GridBase) (npoints point dimension : Nat) (shiftpm : Int)
    (cbmask : Nat) (comms_recv sshift : Int) (x : Nat) (s : (Nat → StencilEntry) × Nat) :
    (CommsPlaneEntries g npoints point dimension shiftpm cbmask comms_recv sshift x s).2
      = s.2 + commsPlaneWords g dimension cbmask sshift x := by
  unfold CommsPlaneEntries commsPlaneWords
  dsimp only
  split <;> rfl

theorem CommsPlaneEntries_hit (g : GridBase) (npoints point dimension : Nat) (shiftpm : Int)
    (cbmask : Nat) (comms_recv sshift : Int) (x U : Nat) (s : (Nat → StencilEntry) × Nat)
    (k : Nat) (hp : point < npoints) (hk : k ∈ planeSelected g dimension cbmask)
    (hs : s.2 = U + sumTo x (commsPlaneWords g dimension cbmask sshift)) :
    commsEntryAt g dimension shiftpm cbmask comms_recv sshift U x k
      ((CommsPlaneEntries g npoints point dimension shiftpm cbmask comms_recv sshift x s).1
        (entryIndex npoints point (x * g._ostride dimension + k))) := by
  unfold CommsPlaneEntries commsEntryAt
  dsimp only
  by_cases h0 : offnodePlane g dimension sshift x = 0
  · simp only [h0, if_true]
    exact CopyPlaneEntries_hit _ _ _ _ _ _ _ _ _ _ _ hp hk
  · by_cases hr : comms_recv = 0
    · simp only [h0, if_false, hr, if_true]
      exact CopyPlaneEntries_hit _ _ _ _ _ _ _ _ _ _ _ hp hk
    · simp only [h0, if_false, hr]
      rw [← hs]
      exact ScatterPlaneEntries_hit _ _ _ _ _ _ _ _ _ _ hp hk

theorem CommsEntries_spec (g : GridBase) (npoints checkerboard point dimension : Nat)
    (shiftpm : Int) (cbmask : Nat) (comms_recv : Int) (s : (Nat → StencilEntry) × Nat)
    (hl : AxisLayout g dimension) (hp : point < npoints) :
    (CommsEntries g npoints checkerboard point dimension shiftpm cbmask comms_recv s).2
        = s.2 + sumTo (g._rdimensions dimension)
            (commsPlaneWords g dimension cbmask (passShift g checkerboard dimension shiftpm cbmask))
    ∧ (∀ x k, x < g._rdimensions dimension → k ∈ planeSelected g dimension cbmask →
        commsEntryAt g dimension shiftpm cbmask comms_recv
          (passShift g checkerboard dimension shiftpm cbmask) s.2 x k
          ((CommsEntries g npoints checkerboard point dimension shiftpm cbmask comms_recv s).1
            (entryIndex npoints point (x * g._ostride dimension + k))))
    ∧ (∀ j, (∀ x k, x < g._rdimensions dimension → k ∈ planeSelected g dimension cbmask →
          j ≠ entryIndex npoints point (x * g._ostride dimension + k)) →
        (CommsEntries g npoints checkerboard point dimension shiftpm cbmask comms_recv s).1 j
          = s.1 j) := by
  unfold CommsEntries
  have key := forLoop_invariant
    (fun (n : Nat) (r : (Nat → StencilEntry) × Nat) =>
      r.2 = s.2 + sumTo n
        (commsPlaneWords g dimension cbmask (passShift g checkerboard dimension shiftpm cbmask))
      ∧ (∀ x k, x < n → k ∈ planeSelected g dimension cbmask →
          commsEntryAt g dimension shiftpm cbmask comms_recv
            (passShift g checkerboard dimension shiftpm cbmask) s.2 x k
            (r.1 (entryIndex npoints point (x * g._ostride dimension + k))))
      ∧ (∀ j, (∀ x k, x < n → k ∈ planeSelected g dimension cbmask →
            j ≠ entryIndex npoints point (x * g._ostride dimension + k)) → r.1 j = s.1 j))
    (g._rdimensions dimension)
    (CommsPlaneEntries g npoints point dimension shiftpm cbmask comms_recv
      (passShift g checkerboard dimension shiftpm cbmask))
    s
    ⟨rfl, fun x k hx => absurd hx (Nat.not_lt_zero _), fun j _ => rfl⟩
    (by
      intro n r hn ⟨hU, hhit, hmiss⟩
      refine ⟨?_, ?_, ?_⟩
      · rw [CommsPlaneEntries_words, hU, sumTo_succ, Nat.add_assoc]
      · intro x k hx hk
        by_cases hxn : x = n
        · subst hxn
          exact CommsPlaneEntries_hit _ _ _ _ _ _ _ _ _ _ _ _ hp hk hU
        · rw [CommsPlaneEntries_miss]
          · exact hhit x k (by omega) hk
          · intro k' hk'
            exact entryIndex_plane_ne g dimension hl npoints point x n k k' hp (by omega) hn
              (mem_planeSelected _ _ _ _ hk) (mem_planeSelected _ _ _ _ hk') hxn
      · intro j hj
        rw [CommsPlaneEntries_miss]
        · exact hmiss j (fun x k hx hk => hj x k (by omega) hk)
        · intro k hk
          exact hj n k (Nat.lt_succ_self n) hk)
  exact key

/-! ## The constructor loop -/

theorem constructPoint_ok {C : Type} (checkerboard : Nat) (directions : List Nat)
    (distances : List Int) (ii : Nat) (st : CartesianStencil C)
    (h : constructPointOk st._grid (directions.getD ii 0) (distances.getD ii 0) = true) :
    constructPoint checkerboard directions distances ii st
      = .ok (afterPoint st checkerboard ii (directions.getD ii 0) (distances.getD ii 0)) := by
  unfold constructPointOk at h
  simp only [Bool.and_eq_true, Bool.or_eq_true, Bool.not_eq_true'] at h
  obtain ⟨hrot, hcomm⟩ := h
  unfold constructPoint afterPoint constructPointEntries pointPasses
  dsimp only
  generalize directions.getD ii 0 = dimension at *
  generalize distances.getD ii 0 = displacement at *
  simp only [assert, hrot, Bool.not_false, if_true, bind, Except.bind]
  by_cases hpd : st._grid._processors dimension > 1
  · have hca : commsAsserts st._grid dimension displacement = true := by
      rcases hcomm with h1 | h1
      · simp [hpd] at h1
      · exact h1
    simp only [hpd, decide_True, Bool.not_true, Bool.false_eq_true, if_false, if_true]
    by_cases hs : st._grid.CheckerBoardShiftForCB checkerboard dimension displacement Even
        = st._grid.CheckerBoardShiftForCB checkerboard dimension displacement Odd
    · simp only [hs, if_true, List.foldl_cons, List.foldl_nil]
      rw [Comms_ok (setPointInfo st ii dimension checkerboard) _ _ _ _ hca]
      rfl
    · simp only [hs, if_false, List.foldl_cons, List.foldl_nil]
      rw [Comms_ok (setPointInfo st ii dimension checkerboard) _ _ _ _ hca]
      simp only
      rw [Comms_ok _ _ _ _ _ (by exact hca)]
      simp only [setPointInfo, setAt_setAt]
  · simp only [hpd, decide_False, Bool.not_false, if_true, if_false]
    by_cases hs : st._grid.CheckerBoardShiftForCB checkerboard dimension displacement Even
        = st._grid.CheckerBoardShiftForCB checkerboard dimension displacement Odd
    · simp only [hs, if_true, List.foldl_cons, List.foldl_nil, pure, Except.pure]
      rw [Local_eq]
      rfl
    · simp only [hs, if_false, List.foldl_cons, List.foldl_nil, pure, Except.pure]
      rw [Local_eq, Local_eq]
      rfl

theorem afterPoints_zero {C : Type} (st : CartesianStencil C) (checkerboard : Nat)
    (directions : List Nat) (distances : List Int) :
    afterPoints st checkerboard directions distances 0 = st := by
  unfold afterPoints constructLoopEntries
  simp [forLoop]

theorem afterPoints_succ {C : Type} (st : CartesianStencil C) (checkerboard : Nat)
    (directions : List Nat) (distances : List Int) (n : Nat) :
    afterPoint (afterPoints st checkerboard directions distances n) checkerboard n
        (directions.getD n 0) (distances.getD n 0)
      = afterPoints st checkerboard directions distances (n + 1) := by
  unfold afterPoint afterPoints constructLoopEntries
  simp only [forLoop]
  congr 1
  · funext j
    unfold setAt
    by_cases hpd : st._grid._processors (directions.getD n 0) > 1
    · rw [if_pos hpd]
      by_cases hj : j = n
      · subst hj
        rw [if_pos rfl, if_pos ⟨Nat.lt_succ_self _, hpd⟩]
      · rw [if_neg hj]
        by_cases hc : j < n ∧ st._grid._processors (directions.getD j 0) > 1
        · beta_reduce
          rw [if_pos hc, if_pos ⟨Nat.lt_succ_of_lt hc.1, hc.2⟩]
        · beta_reduce
          rw [if_neg hc, if_neg (fun hh => hc ⟨by omega, hh.2⟩)]
    · rw [if_neg hpd]
      by_cases hc : j < n ∧ st._grid._processors (directions.getD j 0) > 1
      · beta_reduce
        rw [if_pos hc, if_pos ⟨Nat.lt_succ_of_lt hc.1, hc.2⟩]
      · beta_reduce
        rw [if_neg hc, if_neg]
        intro hh
        by_cases hj : j = n
        · subst hj; exact hpd hh.2
        · exact hc ⟨by omega, hh.2⟩
  · funext j
    unfold setAt
    by_cases hj : j = n
    · subst hj; simp
    · have : (j < n + 1) = (j < n) := by
        apply propext; constructor <;> intro hh <;> omega
      simp [hj, this]

theorem constructPoint_error {C : Type} (checkerboard : Nat) (directions : List Nat)
    (distances : List Int) (ii : Nat) (st : CartesianStencil C)
    (h : constructPointOk st._grid (directions.getD ii 0) (distances.getD ii 0) = false) :
    ∃ a, constructPoint checkerboard directions distances ii st = .error a := by
  unfold constructPointOk at h
  unfold constructPoint
  dsimp only
  generalize directions.getD ii 0 = dimension at *
  generalize distances.getD ii 0 = displacement at *
  by_cases hrot : (decide (st._grid._simd_layout dimension > 2)
      && decide (st._grid._processors dimension > 1)) = true
  · exact ⟨Assertion.rotate_and_comm, by
      simp only [assert, hrot, Bool.not_true, Bool.false_eq_true, if_false, bind, Except.bind]⟩
  · have hrot' : (decide (st._grid._simd_layout dimension > 2)
        && decide (st._grid._processors dimension > 1)) = false := by simpa using hrot
    rw [hrot'] at h
    simp only [Bool.not_false, Bool.true_and, Bool.or_eq_false_iff, Bool.not_eq_false'] at h
    obtain ⟨hpd, hca⟩ := h
    obtain ⟨a, ha⟩ := Comms_error (setPointInfo st ii dimension checkerboard) ii dimension
      displacement 3 hca
    obtain ⟨b, hb⟩ := Comms_error (setPointInfo st ii dimension checkerboard) ii dimension
      displacement 1 hca
    simp only [assert, hrot', Bool.not_false, if_true, bind, Except.bind]
    simp only [hpd, Bool.not_true, Bool.false_eq_true, if_false]
    by_cases hs : st._grid.CheckerBoardShiftForCB checkerboard dimension displacement Even
        = st._grid.CheckerBoardShiftForCB checkerboard dimension displacement Odd
    · exact ⟨a, by rw [if_pos hs]; exact ha⟩
    · exact ⟨b, by rw [if_neg hs, hb]⟩

theorem constructLoop_ok {C : Type} (st : CartesianStencil C) (checkerboard : Nat)
    (directions : List Nat) (distances : List Int) (n : Nat)
    (h : ∀ ii, ii < n →
      constructPointOk st._grid (directions.getD ii 0) (distances.getD ii 0) = true) :
    forLoopM n (constructPoint checkerboard directions distances) st
      = .ok (afterPoints st checkerboard directions distances n) := by
  induction n with
  | zero => simp [forLoopM, afterPoints_zero]
  | succ k ih =>
    simp only [forLoopM]
    rw [ih (fun ii hii => h ii (Nat.lt_succ_of_lt hii))]
    show constructPoint checkerboard directions distances k
      (afterPoints st checkerboard directions distances k) = _
    rw [constructPoint_ok _ _ _ _ _ (by exact h k (Nat.lt_succ_self k)), afterPoints_succ]

theorem constructLoop_of_ok {C : Type} (st r : CartesianStencil C) (checkerboard : Nat)
    (directions : List Nat) (distances : List Int) (n : Nat)
    (h : forLoopM n (constructPoint checkerboard directions distances) st = .ok r) :
    ∀ ii, ii < n →
      constructPointOk st._grid (directions.getD ii 0) (distances.getD ii 0) = true := by
  induction n generalizing r with
  | zero => intro ii hii; exact absurd hii (Nat.not_lt_zero _)
  | succ k ih =>
    simp only [forLoopM] at h
    rw [bind_ok] at h
    obtain ⟨m, hm, hr⟩ := h
    have hk := ih m hm
    intro ii hii
    by_cases hik : ii = k
    · subst hik
      rw [constructLoop_ok st checkerboard directions distances ii hk] at hm
      cases hm
      by_cases hok : constructPointOk st._grid (directions.getD ii 0) (distances.getD ii 0) = true
      · exact hok
      · have hf : constructPointOk (afterPoints st checkerboard directions distances ii)._grid
            (directions.getD ii 0) (distances.getD ii 0) = false := by simpa using hok
        obtain ⟨a, ha⟩ := constructPoint_error checkerboard directions distances ii _ hf
        rw [ha] at hr
        cases hr
    · exact hk ii (by omega)

theorem DirichletBlock_of_ok {C : Type} (st r : CartesianStencil C) (blk : List Int) (n : Nat)
    (h : forLoopM n (DirichletPoint blk) st = .ok r) :
    ∀ ii, ii < n → dirichletAborts st blk ii = false := by
  induction n generalizing r with
  | zero => intro ii hii; exact absurd hii (Nat.not_lt_zero _)
  | succ k ih =>
    simp only [forLoopM] at h
    rw [bind_ok] at h
    obtain ⟨m, hm, hr⟩ := h
    have hk := ih m hm
    intro ii hii
    by_cases hik : ii = k
    · subst hik
      rw [DirichletBlock_loop_ok st blk ii hk] at hm
      cases hm
      rw [DirichletPoint_eq] at hr
      by_cases hab : dirichletAborts st blk ii = true
      · have : (dirichletActive (dirichletResult st blk ii)._grid
            ((dirichletResult st blk ii)._directions.getD ii 0)
            (blk.getD ((dirichletResult st blk ii)._directions.getD ii 0) 0)
              && !decide ((((dirichletResult st blk ii)._distances.getD ii 0).natAbs : Int)
                < cdiv ((dirichletResult st blk ii)._grid._fdimensions
                      ((dirichletResult st blk ii)._directions.getD ii 0))
                    ((dirichletResult st blk ii)._grid._processors
                      ((dirichletResult st blk ii)._directions.getD ii 0)))) = true := hab
        rw [this] at hr
        simp at hr
      · simpa using hab
    · exact hk ii (by omega)

theorem construct_of_constructOk {C : Type} (grid : GridBase) (npoints checkerboard : Nat)
    (directions : List Nat) (distances : List Int) (p : Parameters)
    (sizeof_vobj sizeof_cobj : Nat) (u : Indeterminate C)
    (h : constructOk grid npoints directions distances p sizeof_vobj sizeof_cobj u) :
    CartesianStencil.construct grid npoints checkerboard directions distances p sizeof_vobj
        sizeof_cobj u
      = .ok (PrecomputeByteOffsets
          (afterPoints (beforePoints grid npoints directions distances p sizeof_vobj sizeof_cobj u)
            checkerboard directions distances npoints)) := by
  obtain ⟨hD, hP⟩ := h
  unfold CartesianStencil.construct beforePoints
  dsimp only
  by_cases hlen : p.dirichlet.length ≠ 0
  · rw [if_pos hlen, if_pos hlen]
    have h1 := DirichletBlock_ok
      (CartesianStencil.initial grid npoints directions distances p sizeof_vobj sizeof_cobj u)
      p.dirichlet (hD hlen)
    rw [h1]
    simp only [bind, Except.bind]
    have h2 := constructLoop_ok
      (resetSizes (dirichletResult (CartesianStencil.initial grid npoints directions distances p
        sizeof_vobj sizeof_cobj u) p.dirichlet npoints)) checkerboard directions distances
      npoints hP
    rw [show (CartesianStencil.initial grid npoints directions distances p sizeof_vobj
      sizeof_cobj u)._npoints = npoints from rfl]
    rw [h2]
    rfl
  · rw [if_neg hlen, if_neg hlen]
    simp only [bind, Except.bind, pure, Except.pure]
    have h2 := constructLoop_ok
      (resetSizes (CartesianStencil.initial grid npoints directions distances p
        sizeof_vobj sizeof_cobj u)) checkerboard directions distances npoints hP
    rw [h2]

theorem constructOk_of_construct {C : Type} (grid : GridBase) (npoints checkerboard : Nat)
    (directions : List Nat) (distances : List Int) (p : Parameters)
    (sizeof_vobj sizeof_cobj : Nat) (u : Indeterminate C) (st : CartesianStencil C)
    (h : CartesianStencil.construct grid npoints checkerboard directions distances p sizeof_vobj
          sizeof_cobj u = .ok st) :
    constructOk grid npoints directions distances p sizeof_vobj sizeof_cobj u := by
  unfold CartesianStencil.construct at h
  dsimp only at h
  by_cases hlen : p.dirichlet.length ≠ 0
  · rw [if_pos hlen] at h
    simp only [bind_ok, pure_ok] at h
    obtain ⟨st1, h1, st3, h3, _⟩ := h
    have hD := DirichletBlock_of_ok _ _ _ _ h1
    refine ⟨fun _ => hD, ?_⟩
    have h1' := DirichletBlock_ok _ _ hD
    rw [h1] at h1'
    cases h1'
    exact constructLoop_of_ok _ _ _ _ _ _ h3
  · rw [if_neg hlen] at h
    simp only [bind_ok, pure_ok] at h
    obtain ⟨st1, h1, st3, h3, _⟩ := h
    subst h1
    exact ⟨fun hh => absurd hh hlen, constructLoop_of_ok _ _ _ _ _ _ h3⟩

theorem construct_ok_iff {C : Type} (grid : GridBase) (npoints checkerboard : Nat)
    (directions : List Nat) (distances : List Int) (p : Parameters)
    (sizeof_vobj sizeof_cobj : Nat) (u : Indeterminate C) (st : CartesianStencil C) :
    CartesianStencil.construct grid npoints checkerboard directions distances p sizeof_vobj
        sizeof_cobj u = .ok st
      ↔ constructOk grid npoints directions distances p sizeof_vobj sizeof_cobj u
        ∧ st = PrecomputeByteOffsets
            (afterPoints (beforePoints grid npoints directions distances p sizeof_vobj
              sizeof_cobj u) checkerboard directions distances npoints) := by
  constructor
  · intro h
    have hok := constructOk_of_construct _ _ _ _ _ _ _ _ _ _ h
    rw [construct_of_constructOk _ _ _ _ _ _ _ _ _ hok] at h
    cases h
    exact ⟨hok, rfl⟩
  · rintro ⟨hok, rfl⟩
    exact construct_of_constructOk _ _ _ _ _ _ _ _ _ hok

theorem PrecomputeByteOffsets_entries {C : Type} (st : CartesianStencil C) (i : Nat) :
    (PrecomputeByteOffsets st)._entries i
      = if i < st._npoints * st._osites then
          withByteOffset st.sizeof_vobj st.sizeof_cobj (st._entries i)
        else st._entries i := by
  unfold PrecomputeByteOffsets
  dsimp only
  have key := forLoop_invariant
    (fun (n : Nat) (e : Nat → StencilEntry) =>
      ∀ j, e j = if j < n then withByteOffset st.sizeof_vobj st.sizeof_cobj (st._entries j)
                 else st._entries j)
    (st._npoints * st._osites)
    (fun i entries =>
      if (entries i)._is_local ≠ 0 then
        setAt entries i
          { entries i with
            _byte_offset := ((entries i)._offset * st.sizeof_vobj) % 18446744073709551616 }
      else
        setAt entries i
          { entries i with
            _byte_offset := ((entries i)._offset * st.sizeof_cobj) % 18446744073709551616 })
    st._entries
    (fun j => by simp)
    (by
      intro n e _ he j
      have hn := he n
      rw [if_neg (Nat.lt_irrefl n)] at hn
      by_cases hj : j = n
      · subst hj
        rw [if_pos (Nat.lt_succ_self j)]
        unfold withByteOffset
        dsimp only
        rw [hn]
        split <;> rw [setAt_same]
      · have hee : (if (e n)._is_local ≠ 0 then
              setAt e n
                { e n with
                  _byte_offset := ((e n)._offset * st.sizeof_vobj) % 18446744073709551616 }
            else
              setAt e n
                { e n with
                  _byte_offset := ((e n)._offset * st.sizeof_cobj) % 18446744073709551616 }) j
            = e j := by
          split <;> exact setAt_other _ _ _ _ hj
        dsimp only
        rw [hee, he j]
        by_cases hjn : j < n
        · rw [if_pos hjn, if_pos (Nat.lt_succ_of_lt hjn)]
        · rw [if_neg hjn, if_neg (by omega)])
  exact key i

theorem beforePoints_fields {C : Type} (grid : GridBase) (npoints : Nat) (directions : List Nat)
    (distances : List Int) (p : Parameters) (sizeof_vobj sizeof_cobj : Nat)
    (u : Indeterminate C) :
    (beforePoints grid npoints directions distances p sizeof_vobj sizeof_cobj u)._grid = grid
    ∧ (beforePoints grid npoints directions distances p sizeof_vobj sizeof_cobj u)._npoints
        = npoints
    ∧ (beforePoints grid npoints directions distances p sizeof_vobj sizeof_cobj u)._osites
        = grid.oSites
    ∧ (beforePoints grid npoints directions distances p sizeof_vobj sizeof_cobj u).sizeof_vobj
        = sizeof_vobj
    ∧ (beforePoints grid npoints directions distances p sizeof_vobj sizeof_cobj u).sizeof_cobj
        = sizeof_cobj
    ∧ (beforePoints grid npoints directions distances p sizeof_vobj sizeof_cobj u)._unified_buffer_size
        = 0 := by
  unfold beforePoints
  by_cases h : p.dirichlet.length ≠ 0
  · rw [if_pos h]
    exact ⟨rfl, rfl, rfl, rfl, rfl, rfl⟩
  · rw [if_neg h]
    exact ⟨rfl, rfl, rfl, rfl, rfl, rfl⟩

theorem construct_table {C : Type} (grid : GridBase) (npoints checkerboard : Nat)
    (directions : List Nat) (distances : List Int) (p : Parameters)
    (sizeof_vobj sizeof_cobj : Nat) (u : Indeterminate C) (st : CartesianStencil C)
    (h : CartesianStencil.construct grid npoints checkerboard directions distances p sizeof_vobj
          sizeof_cobj u = .ok st) :
    (∀ i, i < npoints * grid.oSites →
        st._entries i = withByteOffset sizeof_vobj sizeof_cobj
          ((constructTable grid npoints checkerboard directions distances p sizeof_vobj
              sizeof_cobj u).1 i))
    ∧ st._unified_buffer_size
        = (constructTable grid npoints checkerboard directions distances p sizeof_vobj
              sizeof_cobj u).2
    ∧ st._grid = grid ∧ st._npoints = npoints ∧ st._osites = grid.oSites := by
  rw [construct_ok_iff] at h
  obtain ⟨_, rfl⟩ := h
  obtain ⟨hg, hn, ho, hv, hc, hu⟩ :=
    beforePoints_fields grid npoints directions distances p sizeof_vobj sizeof_cobj u
  have htab : (afterPoints (beforePoints grid npoints directions distances p sizeof_vobj
        sizeof_cobj u) checkerboard directions distances npoints)._entries
      = (constructTable grid npoints checkerboard directions distances p sizeof_vobj
              sizeof_cobj u).1 := by
    unfold afterPoints constructTable
    dsimp only
    rw [hg, hn, hu]
  have hsz : (afterPoints (beforePoints grid npoints directions distances p sizeof_vobj
        sizeof_cobj u) checkerboard directions distances npoints)._unified_buffer_size
      = (constructTable grid npoints checkerboard directions distances p sizeof_vobj
              sizeof_cobj u).2 := by
    unfold afterPoints constructTable
    dsimp only
    rw [hg, hn, hu]
  refine ⟨?_, hsz, hg, hn, ho⟩
  intro i hi
  rw [PrecomputeByteOffsets_entries]
  have h1 : (afterPoints (beforePoints grid npoints directions distances p sizeof_vobj
        sizeof_cobj u) checkerboard directions distances npoints)._npoints = npoints := hn
  have h2 : (afterPoints (beforePoints grid npoints directions distances p sizeof_vobj
        sizeof_cobj u) checkerboard directions distances npoints)._osites = grid.oSites := ho
  have h3 : (afterPoints (beforePoints grid npoints directions distances p sizeof_vobj
        sizeof_cobj u) checkerboard directions distances npoints).sizeof_vobj = sizeof_vobj := hv
  have h4 : (afterPoints (beforePoints grid npoints directions distances p sizeof_vobj
        sizeof_cobj u) checkerboard directions distances npoints).sizeof_cobj = sizeof_cobj := hc
  rw [h1, h2, h3, h4, if_pos hi, htab]

theorem LocalEntries_other (g : GridBase) (npoints checkerboard point dimension : Nat)
    (shiftpm : Int) (cbmask : Nat) (entries : Nat → StencilEntry) (j : Nat)
    (h : ∀ s, j ≠ entryIndex npoints point s) :
    LocalEntries g npoints checkerboard point dimension shiftpm cbmask entries j = entries j := by
  unfold LocalEntries
  exact forLoop_invariant (fun (_ : Nat) (e : Nat → StencilEntry) => e j = entries j)
    (g._rdimensions dimension) _ entries rfl
    (by
      intro n e _ he
      rw [CopyPlaneEntries_miss _ _ _ _ _ _ _ _ _ _ _ (fun k _ => h _)]
      exact he)

theorem CommsEntries_other (g : GridBase) (npoints checkerboard point dimension : Nat)
    (shiftpm : Int) (cbmask : Nat) (comms_recv : Int) (s : (Nat → StencilEntry) × Nat) (j : Nat)
    (h : ∀ t, j ≠ entryIndex npoints point t) :
    (CommsEntries g npoints checkerboard point dimension shiftpm cbmask comms_recv s).1 j
      = s.1 j := by
  unfold CommsEntries
  exact forLoop_invariant (fun (_ : Nat) (a : (Nat → StencilEntry) × Nat) => a.1 j = s.1 j)
    (g._rdimensions dimension) _ s rfl
    (by
      intro n a _ ha
      rw [CommsPlaneEntries_miss _ _ _ _ _ _ _ _ _ _ _ (fun k _ => h _)]
      exact ha)

theorem CommsEntries_size (g : GridBase) (npoints checkerboard point dimension : Nat)
    (shiftpm : Int) (cbmask : Nat) (comms_recv : Int) (s : (Nat → StencilEntry) × Nat) :
    (CommsEntries g npoints checkerboard point dimension shiftpm cbmask comms_recv s).2
      = s.2 + sumTo (g._rdimensions dimension)
          (commsPlaneWords g dimension cbmask
            (passShift g checkerboard dimension shiftpm cbmask)) := by
  unfold CommsEntries
  exact forLoop_invariant
    (fun (n : Nat) (a : (Nat → StencilEntry) × Nat) =>
      a.2 = s.2 + sumTo n (commsPlaneWords g dimension cbmask
            (passShift g checkerboard dimension shiftpm cbmask)))
    (g._rdimensions dimension) _ s rfl
    (by
      intro n a _ ha
      rw [CommsPlaneEntries_words, ha, sumTo_succ, Nat.add_assoc])

theorem constructPointEntries_other (g : GridBase) (npoints checkerboard : Nat)
    (comms_recv : Int) (point dimension : Nat) (displacement : Int)
    (s : (Nat → StencilEntry) × Nat) (j : Nat) (h : ∀ t, j ≠ entryIndex npoints point t) :
    (constructPointEntries g npoints checkerboard comms_recv point dimension displacement s).1 j
      = s.1 j := by
  unfold constructPointEntries pointPasses
  split <;> split <;>
    simp only [List.foldl_cons, List.foldl_nil, CommsEntries_other _ _ _ _ _ _ _ _ _ _ h,
      LocalEntries_other _ _ _ _ _ _ _ _ _ h]

theorem constructPointEntries_size_le (g : GridBase) (npoints checkerboard : Nat)
    (comms_recv : Int) (point dimension : Nat) (displacement : Int)
    (s : (Nat → StencilEntry) × Nat) :
    s.2 ≤ (constructPointEntries g npoints checkerboard comms_recv point dimension
            displacement s).2 := by
  unfold constructPointEntries pointPasses
  split <;> split <;>
    simp only [List.foldl_cons, List.foldl_nil, CommsEntries_size] <;> omega

theorem constructLoopEntries_size_mono (g : GridBase) (npoints checkerboard : Nat)
    (comms_recv : Nat → Int) (directions : List Nat) (distances : List Int) (m n : Nat)
    (s : (Nat → StencilEntry) × Nat) (hmn : m ≤ n) :
    (constructLoopEntries g npoints checkerboard comms_recv directions distances m s).2
      ≤ (constructLoopEntries g npoints checkerboard comms_recv directions distances n s).2 := by
  induction n with
  | zero =>
    have : m = 0 := by omega
    subst this
    exact Nat.le_refl _
  | succ k ih =>
    by_cases hk : m = k + 1
    · subst hk
      exact Nat.le_refl _
    · exact Nat.le_trans (ih (by omega)) (constructPointEntries_size_le _ _ _ _ _ _ _ _)

theorem constructLoopEntries_point (g : GridBase) (npoints checkerboard : Nat)
    (comms_recv : Nat → Int) (directions : List Nat) (distances : List Int) (i n : Nat)
    (s : (Nat → StencilEntry) × Nat) (hin : i < n) (hn : n ≤ npoints) (site : Nat) :
    (constructLoopEntries g npoints checkerboard comms_recv directions distances n s).1
        (entryIndex npoints i site)
      = (constructPointEntries g npoints checkerboard (comms_recv i) i (directions.getD i 0)
          (distances.getD i 0)
          (constructLoopEntries g npoints checkerboard comms_recv directions distances i s)).1
        (entryIndex npoints i site) := by
  induction n with
  | zero => exact absurd hin (Nat.not_lt_zero _)
  | succ k ih =>
    by_cases hk : i = k
    · subst hk
      rfl
    · have hstep : (constructLoopEntries g npoints checkerboard comms_recv directions distances
            (k + 1) s).1 (entryIndex npoints i site)
          = (constructLoopEntries g npoints checkerboard comms_recv directions distances
            k s).1 (entryIndex npoints i site) := by
        show (constructPointEntries g npoints checkerboard (comms_recv k) k
            (directions.getD k 0) (distances.getD k 0)
            (constructLoopEntries g npoints checkerboard comms_recv directions distances
              k s)).1 (entryIndex npoints i site) = _
        apply constructPointEntries_other
        intro t ht
        exact hk (entryIndex_point npoints i k site t (by omega) (by omega) ht)
      rw [hstep]
      exact ih (by omega) (by omega)

theorem inMask_three (g : GridBase) (k : Nat) (h : g.CheckerBoardFromOindex k ≤ 1) :
    inMask g 3 k = true := by
  unfold inMask
  generalize g.CheckerBoardFromOindex k = c at h
  interval_cases c <;> decide

theorem inMask_one (g : GridBase) (k : Nat) (h : g.CheckerBoardFromOindex k ≤ 1) :
    inMask g 1 k = true ↔ g.CheckerBoardFromOindex k = 0 := by
  unfold inMask
  generalize g.CheckerBoardFromOindex k = c at h
  interval_cases c <;> decide

theorem inMask_two (g : GridBase) (k : Nat) (h : g.CheckerBoardFromOindex k ≤ 1) :
    inMask g 2 k = true ↔ g.CheckerBoardFromOindex k ≠ 0 := by
  unfold inMask
  generalize g.CheckerBoardFromOindex k = c at h
  interval_cases c <;> decide

theorem planeSelected_iff (g : GridBase) (d cbmask k : Nat) :
    k ∈ planeSelected g d cbmask
      ↔ k ∈ planeOffsets g d ∧ (g.CheckerBoarded d = false ∨ inMask g cbmask k = true) := by
  unfold planeSelected
  rw [List.mem_filter]
  cases g.CheckerBoarded d <;> simp

theorem entryIndex_lt (npoints point site osites : Nat) (hp : point < npoints)
    (hs : site < osites) : entryIndex npoints point site < npoints * osites := by
  unfold entryIndex
  calc point + site * npoints < npoints + site * npoints := by omega
    _ = (site + 1) * npoints := by ring
    _ ≤ osites * npoints := Nat.mul_le_mul_right _ hs
    _ = npoints * osites := Nat.mul_comm _ _

theorem localPasses_entry (g : GridBase) (npoints checkerboard point dimension : Nat)
    (displacement : Int) (entries : Nat → StencilEntry)
    (hl : AxisLayout g dimension) (hp : point < npoints)
    (hpar : ∀ k, g.CheckerBoardFromOindex k ≤ 1)
    (hdep : g.CheckerBoardShiftForCB checkerboard dimension displacement Even
              ≠ g.CheckerBoardShiftForCB checkerboard dimension displacement Odd →
            g.CheckerBoarded dimension = true)
    (x k : Nat) (hx : x < g._rdimensions dimension) (hk : k ∈ planeOffsets g dimension) :
    (((pointPasses g checkerboard dimension displacement).foldl
        (fun e cbmask =>
          LocalEntries g npoints checkerboard point dimension displacement cbmask e) entries)
      (entryIndex npoints point (x * g._ostride dimension + k))).isLocalAt
        (shiftedPlane g dimension
            (passShift g checkerboard dimension displacement
              (siteMask g checkerboard dimension displacement k)) x
          * (g._ostride dimension : Int) + (k : Int))
        (localPermuteSlice g dimension
            (passShift g checkerboard dimension displacement
              (siteMask g checkerboard dimension displacement k)) x)
        (localWraparound displacement
          (shiftedPlane g dimension
            (passShift g checkerboard dimension displacement
              (siteMask g checkerboard dimension displacement k)) x) x) := by
  unfold pointPasses siteMask
  by_cases heq : g.CheckerBoardShiftForCB checkerboard dimension displacement Even
      = g.CheckerBoardShiftForCB checkerboard dimension displacement Odd
  · rw [if_pos heq, if_pos heq]
    simp only [List.foldl_cons, List.foldl_nil]
    exact (LocalEntries_spec g npoints checkerboard point dimension displacement 3 entries hl
      hp).1 x k hx ((planeSelected_iff _ _ _ _).2 ⟨hk, Or.inr (inMask_three g k (hpar k))⟩)
  · rw [if_neg heq, if_neg heq]
    simp only [List.foldl_cons, List.foldl_nil]
    have hcb := hdep heq
    by_cases hc : g.CheckerBoardFromOindex k = 0
    · rw [if_pos hc]
      rw [(LocalEntries_spec g npoints checkerboard point dimension displacement 2
        (LocalEntries g npoints checkerboard point dimension displacement 1 entries) hl hp).2]
      · exact (LocalEntries_spec g npoints checkerboard point dimension displacement 1 entries
          hl hp).1 x k hx
          ((planeSelected_iff _ _ _ _).2 ⟨hk, Or.inr ((inMask_one g k (hpar k)).2 hc)⟩)
      · intro x' k' hx' hk' hidx
        have hk2 := (planeSelected_iff _ _ _ _).1 hk'
        have hsite := entryIndex_inj npoints point _ _ hp hidx
        have hkk := (plane_site_inj g dimension hl x x' k k' hx hx' hk hk2.1 hsite).2
        rcases hk2.2 with hf | hm
        · rw [hcb] at hf
          exact Bool.noConfusion hf
        · rw [← hkk] at hm
          exact (inMask_two g k (hpar k)).1 hm hc
    · rw [if_neg hc]
      exact (LocalEntries_spec g npoints checkerboard point dimension displacement 2
        (LocalEntries g npoints checkerboard point dimension displacement 1 entries) hl hp).1
        x k hx ((planeSelected_iff _ _ _ _).2 ⟨hk, Or.inr ((inMask_two g k (hpar k)).2 hc)⟩)

theorem withByteOffset_fields (sizeof_vobj sizeof_cobj : Nat) (e : StencilEntry) :
    (withByteOffset sizeof_vobj sizeof_cobj e)._offset = e._offset
    ∧ (withByteOffset sizeof_vobj sizeof_cobj e)._is_local = e._is_local
    ∧ (withByteOffset sizeof_vobj sizeof_cobj e)._byte_offset
        = (e._offset * (if e._is_local ≠ 0 then sizeof_vobj else sizeof_cobj))
            % 18446744073709551616 := by
  unfold withByteOffset
  split <;> exact ⟨rfl, rfl, rfl⟩

theorem normalised_shift (d : Int) (fd : Nat) (hd : -(fd : Int) ≤ d) :
    cmod (d + (fd : Int)) (fd : Int) = d % (fd : Int) := by
  unfold cmod
  rw [Int.tmod_eq_emod (by omega) (Int.ofNat_nonneg fd), Int.add_emod_self]

theorem shiftedPlane_nonneg (g : GridBase) (dimension : Nat) (sshift : Int) (x : Nat)
    (h : 0 ≤ sshift) :
    shiftedPlane g dimension sshift x = ((x : Int) + sshift) % (g._rdimensions dimension : Int)
      ∧ 0 ≤ shiftedPlane g dimension sshift x := by
  unfold shiftedPlane cmod
  have hx : (0 : Int) ≤ (x : Int) + sshift := by omega
  rw [Int.tmod_eq_emod hx (Int.ofNat_nonneg _)]
  refine ⟨rfl, ?_⟩
  by_cases hr : (g._rdimensions dimension : Int) = 0
  · rw [hr, Int.emod_zero]
    exact hx
  · exact Int.emod_nonneg _ hr

theorem toU64_nonneg (v : Int) (h : 0 ≤ v) : ((toU64 v : Nat) : Int) = v := by
  unfold toU64
  rw [if_pos h]
  exact Int.toNat_of_nonneg h

theorem construct_local_entry {C : Type} (grid : GridBase) (npoints checkerboard : Nat)
    (directions : List Nat) (distances : List Int) (p : Parameters)
    (sizeof_vobj sizeof_cobj : Nat) (u : Indeterminate C) (st : CartesianStencil C)
    (hc : CartesianStencil.construct grid npoints checkerboard directions distances p
            sizeof_vobj sizeof_cobj u = .ok st)
    (point : Nat) (hp : point < npoints)
    (hpd : grid._processors (directions.getD point 0) ≤ 1)
    (hl : AxisLayout grid (directions.getD point 0))
    (hpar : ∀ k, grid.CheckerBoardFromOindex k ≤ 1)
    (hdep : grid.CheckerBoardShiftForCB checkerboard (directions.getD point 0)
                (distances.getD point 0) Even
              ≠ grid.CheckerBoardShiftForCB checkerboard (directions.getD point 0)
                (distances.getD point 0) Odd →
            grid.CheckerBoarded (directions.getD point 0) = true)
    (x k : Nat) (hx : x < grid._rdimensions (directions.getD point 0))
    (hk : k ∈ planeOffsets grid (directions.getD point 0)) :
    (st._entries (entryIndex npoints point
        (x * grid._ostride (directions.getD point 0) + k)))._is_local = 1
    ∧ (st._entries (entryIndex npoints point
        (x * grid._ostride (directions.getD point 0) + k)))._offset
      = toU64 (shiftedPlane grid (directions.getD point 0)
            (passShift grid checkerboard (directions.getD point 0) (distances.getD point 0)
              (siteMask grid checkerboard (directions.getD point 0) (distances.getD point 0) k))
            x
          * (grid._ostride (directions.getD point 0) : Int) + (k : Int)) := by
  obtain ⟨hent, _, _, _, _⟩ := construct_table grid npoints checkerboard directions distances
    p sizeof_vobj sizeof_cobj u st hc
  have hsite := plane_site_lt grid (directions.getD point 0) hl x k hx hk
  rw [hent _ (entryIndex_lt npoints point _ grid.oSites hp hsite)]
  obtain ⟨ho, hloc, _⟩ := withByteOffset_fields sizeof_vobj sizeof_cobj
    ((constructTable grid npoints checkerboard directions distances p sizeof_vobj
      sizeof_cobj u).1 (entryIndex npoints point
        (x * grid._ostride (directions.getD point 0) + k)))
  rw [ho, hloc]
  unfold constructTable
  rw [constructLoopEntries_point _ _ _ _ _ _ point npoints _ hp (Nat.le_refl _)]
  unfold constructPointEntries
  rw [if_neg (by omega)]
  have key := localPasses_entry grid npoints checkerboard point (directions.getD point 0)
    (distances.getD point 0)
    (constructLoopEntries grid npoints checkerboard
      (beforePoints grid npoints directions distances p sizeof_vobj sizeof_cobj u)._comms_recv
      directions distances point
      ((beforePoints grid npoints directions distances p sizeof_vobj sizeof_cobj u)._entries,
        0)).1 hl hp hpar hdep x k hx hk
  exact ⟨key.2.1, key.1⟩

/-- Where the shift is normalised, the offsets of a local axis are as
specified: for a stencil point whose displacement `d` is at least `-fd`,
on an axis that is not split across processes, every entry of the point is
local, and the entry of the site at plane `x` and in-plane position `(n, b)`
holds `_offset = ((x + sshift) mod rd)*ostride + n*slice_stride + b`, where
`sshift` is the checkerboard shift of `d mod fd`; when the two parities have
different checkerboard shifts of `d` the two passes together give this with
every site using the shift of its own parity.  Grid hypotheses: the slice
tables describe the reduced layout, parities are 0 or 1, only a checkerboarded
axis has a parity-dependent shift, and the checkerboard shift of a shift in
`[0, fd)` is not negative. -/
theorem local_axis_offsets {C : Type} (grid : GridBase) (npoints checkerboard : Nat)
    (directions : List Nat) (distances : List Int) (p : Parameters)
    (sizeof_vobj sizeof_cobj : Nat) (u : Indeterminate C) (st : CartesianStencil C)
    (hc : CartesianStencil.construct grid npoints checkerboard directions distances p
            sizeof_vobj sizeof_cobj u = .ok st)
    (point : Nat) (hp : point < npoints)
    (hpd : grid._processors (directions.getD point 0) ≤ 1)
    (hd : -(grid._fdimensions (directions.getD point 0) : Int) ≤ distances.getD point 0)
    (hl : AxisLayout grid (directions.getD point 0))
    (hpar : ∀ k, grid.CheckerBoardFromOindex k ≤ 1)
    (hdep : grid.CheckerBoardShiftForCB checkerboard (directions.getD point 0)
                (distances.getD point 0) Even
              ≠ grid.CheckerBoardShiftForCB checkerboard (directions.getD point 0)
                (distances.getD point 0) Odd →
            grid.CheckerBoarded (directions.getD point 0) = true)
    (hnn : ∀ ocb, 0 ≤ grid.CheckerBoardShiftForCB checkerboard (directions.getD point 0)
            (distances.getD point 0 % (grid._fdimensions (directions.getD point 0) : Int)) ocb) :
    (∀ site, site < grid.oSites → (st._entries (entryIndex npoints point site))._is_local = 1)
    ∧ ∀ x n b, x < grid._rdimensions (directions.getD point 0) →
        n < grid._slice_nblock (directions.getD point 0) →
        b < grid._slice_block (directions.getD point 0) →
        (((st._entries (entryIndex npoints point
            (x * grid._ostride (directions.getD point 0)
              + (n * grid._slice_stride (directions.getD point 0) + b))))._offset : Nat) : Int)
          = ((x : Int)
              + grid.CheckerBoardShiftForCB checkerboard (directions.getD point 0)
                  (distances.getD point 0 % (grid._fdimensions (directions.getD point 0) : Int))
                  (if grid.CheckerBoardShiftForCB checkerboard (directions.getD point 0)
                        (distances.getD point 0) Even
                      = grid.CheckerBoardShiftForCB checkerboard (directions.getD point 0)
                        (distances.getD point 0) Odd
                   then Even
                   else grid.CheckerBoardFromOindex
                          (n * grid._slice_stride (directions.getD point 0) + b)))
              % (grid._rdimensions (directions.getD point 0) : Int)
              * (grid._ostride (directions.getD point 0) : Int)
            + (n : Int) * (grid._slice_stride (directions.getD point 0) : Int) + (b : Int) := by
  constructor
  · intro site hs
    obtain ⟨x, hx, k, hk, rfl⟩ := plane_site_cover grid (directions.getD point 0) hl site hs
    exact (construct_local_entry grid npoints checkerboard directions distances p sizeof_vobj
      sizeof_cobj u st hc point hp hpd hl hpar hdep x k hx hk).1
  · intro x n b hx hn hb
    have hk : n * grid._slice_stride (directions.getD point 0) + b
        ∈ planeOffsets grid (directions.getD point 0) :=
      (mem_planeOffsets _ _ _).2 ⟨n, hn, b, hb, rfl⟩
    rw [(construct_local_entry grid npoints checkerboard directions distances p sizeof_vobj
      sizeof_cobj u st hc point hp hpd hl hpar hdep x _ hx hk).2]
    have hpass : passShift grid checkerboard (directions.getD point 0) (distances.getD point 0)
          (siteMask grid checkerboard (directions.getD point 0) (distances.getD point 0)
            (n * grid._slice_stride (directions.getD point 0) + b))
        = grid.CheckerBoardShiftForCB checkerboard (directions.getD point 0)
            (distances.getD point 0 % (grid._fdimensions (directions.getD point 0) : Int))
            (if grid.CheckerBoardShiftForCB checkerboard (directions.getD point 0)
                  (distances.getD point 0) Even
                = grid.CheckerBoardShiftForCB checkerboard (directions.getD point 0)
                  (distances.getD point 0) Odd
             then Even
             else grid.CheckerBoardFromOindex
                    (n * grid._slice_stride (directions.getD point 0) + b)) := by
      unfold passShift siteMask
      rw [normalised_shift _ _ hd]
      congr 1
      have hc1 := hpar (n * grid._slice_stride (directions.getD point 0) + b)
      split
      · rw [if_neg (by decide)]
      · split
        · rename_i h0
          rw [if_neg (by decide), h0]
          rfl
        · rename_i h0
          rw [if_pos rfl]
          unfold Odd
          omega
    rw [hpass]
    have hs := hnn (if grid.CheckerBoardShiftForCB checkerboard (directions.getD point 0)
                  (distances.getD point 0) Even
                = grid.CheckerBoardShiftForCB checkerboard (directions.getD point 0)
                  (distances.getD point 0) Odd
             then Even
             else grid.CheckerBoardFromOindex
                    (n * grid._slice_stride (directions.getD point 0) + b))
    obtain ⟨he, h0⟩ := shiftedPlane_nonneg grid (directions.getD point 0) _ x hs
    rw [toU64_nonneg _ (Int.add_nonneg (Int.mul_nonneg h0 (Int.ofNat_nonneg _))
      (Int.ofNat_nonneg _)), he]
    push_cast
    ring

/-- C4 fails in the code for a displacement below `-fd`.  `Local` takes the
shift `(shiftpm+fd)%fd`, which its comment calls always positive, and has no
assertion `shift>=0` as `Comms` has.  On the ring of 8 sites on one process
the stencil with the point of displacement `-9` is constructed, and the entry
of site 0 holds the offset `2^64 - 1`, not the site `((0 + 7) mod 8) = 7` that
the claim names: the shift `(-9 + 8) % 8` is `-1`, so the plane `(0 - 1) % 8`
is `-1`. -/
theorem C4_offset_of_negative_shift :
    (CartesianStencil.construct ringGrid 1 0 [0] [-9] ⟨[0]⟩ 8 8 (someStorage (0 : Nat))).toBool
        = true
      ∧ ringGrid._processors 0 ≤ 1
      ∧ ((ringStencil (-9))._entries (entryIndex 1 0 0))._is_local = 1
      ∧ ((ringStencil (-9))._entries (entryIndex 1 0 0))._offset = 18446744073709551615
      ∧ ¬ (∀ x n b, x < ringGrid._rdimensions 0 → n < ringGrid._slice_nblock 0 →
            b < ringGrid._slice_block 0 →
            ((((ringStencil (-9))._entries (entryIndex 1 0
                (x * ringGrid._ostride 0 + (n * ringGrid._slice_stride 0 + b))))._offset : Nat)
                : Int)
              = ((x : Int) + ringGrid.CheckerBoardShiftForCB 0 0
                    ((-9 : Int) % (ringGrid._fdimensions 0 : Int)) Even)
                  % (ringGrid._rdimensions 0 : Int) * (ringGrid._ostride 0 : Int)
                + (n : Int) * (ringGrid._slice_stride 0 : Int) + (b : Int)) :=
  ⟨by decide, by decide, by decide, by decide,
    fun h => absurd (h 0 0 0 (by decide) (by decide) (by decide)) (by decide)⟩

/-- An instance of `local_axis_offsets`: the point of displacement `+1` along the checkerboarded axis
of the 8 x 2 red-black grid on one process, which takes the two passes. -/
theorem local_axis_offsets_witness :
    ∃ st : CartesianStencil Nat,
      CartesianStencil.construct redBlackRing 1 0 [0] [1] ⟨[0, 0]⟩ 8 8 (someStorage (0 : Nat))
        = .ok st
      ∧ (∀ site, site < redBlackRing.oSites →
          (st._entries (entryIndex 1 0 site))._is_local = 1)
      ∧ ∀ x n b, x < redBlackRing._rdimensions ([0].getD 0 0) →
        n < redBlackRing._slice_nblock ([0].getD 0 0) →
        b < redBlackRing._slice_block ([0].getD 0 0) →
        (((st._entries (entryIndex 1 0
            (x * redBlackRing._ostride ([0].getD 0 0)
              + (n * redBlackRing._slice_stride ([0].getD 0 0) + b))))._offset : Nat) : Int)
          = ((x : Int)
              + redBlackRing.CheckerBoardShiftForCB 0 ([0].getD 0 0)
                  (([1] : List Int).getD 0 0 % (redBlackRing._fdimensions ([0].getD 0 0) : Int))
                  (if redBlackRing.CheckerBoardShiftForCB 0 ([0].getD 0 0)
                        (([1] : List Int).getD 0 0) Even
                      = redBlackRing.CheckerBoardShiftForCB 0 ([0].getD 0 0)
                        (([1] : List Int).getD 0 0) Odd
                   then Even
                   else redBlackRing.CheckerBoardFromOindex
                          (n * redBlackRing._slice_stride ([0].getD 0 0) + b)))
              % (redBlackRing._rdimensions ([0].getD 0 0) : Int)
              * (redBlackRing._ostride ([0].getD 0 0) : Int)
            + (n : Int) * (redBlackRing._slice_stride ([0].getD 0 0) : Int) + (b : Int) :=
  have hok : constructOk redBlackRing 1 [0] [1] ⟨[0, 0]⟩ 8 8 (someStorage (0 : Nat)) :=
    ⟨fun _ ii hii => by
        obtain rfl : ii = 0 := by omega
        decide,
      fun ii hii => by
        obtain rfl : ii = 0 := by omega
        decide⟩
  ⟨_, construct_of_constructOk redBlackRing 1 0 [0] [1] ⟨[0, 0]⟩ 8 8 (someStorage (0 : Nat)) hok,
    local_axis_offsets redBlackRing 1 0 [0] [1] ⟨[0, 0]⟩ 8 8 (someStorage (0 : Nat)) _
      (construct_of_constructOk redBlackRing 1 0 [0] [1] ⟨[0, 0]⟩ 8 8 (someStorage (0 : Nat)) hok)
      0 (by decide) (by decide) (by decide)
      ⟨by decide, by decide, by decide, by decide, by decide⟩
      (fun k => by
        show (k % 4 + k / 4 % 2) % 2 ≤ 1
        omega)
      (fun _ => by decide)
      (fun ocb => by
        show 0 ≤ (if (0 : Nat) ≠ 0 then ((1 : Int) % ((8 : Nat) : Int))
          else if (0 + ocb) % 2 = 1 then cdiv (cmod ((1 : Int) % ((8 : Nat) : Int) + 8) 8) 2
          else cdiv (cmod ((1 : Int) % ((8 : Nat) : Int) + 8) 8 + 1) 2)
        rw [if_neg (by decide)]
        split <;> decide)⟩

theorem commsPasses_entry (g : GridBase) (npoints checkerboard point dimension : Nat)
    (displacement comms_recv : Int) (s : (Nat → StencilEntry) × Nat)
    (hl : AxisLayout g dimension) (hp : point < npoints)
    (hpar : ∀ k, g.CheckerBoardFromOindex k ≤ 1)
    (hdep : g.CheckerBoardShiftForCB checkerboard dimension displacement Even
              ≠ g.CheckerBoardShiftForCB checkerboard dimension displacement Odd →
            g.CheckerBoarded dimension = true)
    (x k : Nat) (hx : x < g._rdimensions dimension) (hk : k ∈ planeOffsets g dimension) :
    k ∈ planeSelected g dimension (siteMask g checkerboard dimension displacement k)
    ∧ commsEntryAt g dimension displacement (siteMask g checkerboard dimension displacement k)
      comms_recv
      (passShift g checkerboard dimension displacement
        (siteMask g checkerboard dimension displacement k))
      (if siteMask g checkerboard dimension displacement k = 2 then
        (CommsEntries g npoints checkerboard point dimension displacement 1 comms_recv s).2
       else s.2) x k
      (((pointPasses g checkerboard dimension displacement).foldl
        (fun s cbmask =>
          CommsEntries g npoints checkerboard point dimension displacement cbmask comms_recv s)
        s).1 (entryIndex npoints point (x * g._ostride dimension + k))) := by
  unfold pointPasses siteMask
  by_cases heq : g.CheckerBoardShiftForCB checkerboard dimension displacement Even
      = g.CheckerBoardShiftForCB checkerboard dimension displacement Odd
  · rw [if_pos heq, if_pos heq, if_neg (by decide)]
    simp only [List.foldl_cons, List.foldl_nil]
    have hsel := (planeSelected_iff g dimension 3 k).2
      ⟨hk, Or.inr (inMask_three g k (hpar k))⟩
    exact ⟨hsel, (CommsEntries_spec g npoints checkerboard point dimension displacement 3
      comms_recv s hl hp).2.1 x k hx hsel⟩
  · rw [if_neg heq, if_neg heq]
    simp only [List.foldl_cons, List.foldl_nil]
    have hcb := hdep heq
    by_cases hc : g.CheckerBoardFromOindex k = 0
    · rw [if_pos hc, if_neg (by decide)]
      have hsel := (planeSelected_iff g dimension 1 k).2
        ⟨hk, Or.inr ((inMask_one g k (hpar k)).2 hc)⟩
      refine ⟨hsel, ?_⟩
      rw [(CommsEntries_spec g npoints checkerboard point dimension displacement 2 comms_recv
        (CommsEntries g npoints checkerboard point dimension displacement 1 comms_recv s)
        hl hp).2.2]
      · exact (CommsEntries_spec g npoints checkerboard point dimension displacement 1
          comms_recv s hl hp).2.1 x k hx hsel
      · intro x' k' hx' hk' hidx
        have hk2 := (planeSelected_iff _ _ _ _).1 hk'
        have hsite := entryIndex_inj npoints point _ _ hp hidx
        have hkk := (plane_site_inj g dimension hl x x' k k' hx hx' hk hk2.1 hsite).2
        rcases hk2.2 with hf | hm
        · rw [hcb] at hf
          exact Bool.noConfusion hf
        · rw [← hkk] at hm
          exact (inMask_two g k (hpar k)).1 hm hc
    · rw [if_neg hc, if_pos rfl]
      have hsel := (planeSelected_iff g dimension 2 k).2
        ⟨hk, Or.inr ((inMask_two g k (hpar k)).2 hc)⟩
      exact ⟨hsel, (CommsEntries_spec g npoints checkerboard point dimension displacement 2
        comms_recv
        (CommsEntries g npoints checkerboard point dimension displacement 1 comms_recv s)
        hl hp).2.1 x k hx hsel⟩

theorem commsPasses_size (g : GridBase) (npoints checkerboard point dimension : Nat)
    (displacement comms_recv : Int) (s : (Nat → StencilEntry) × Nat) :
    ((pointPasses g checkerboard dimension displacement).foldl
        (fun s cbmask =>
          CommsEntries g npoints checkerboard point dimension displacement cbmask comms_recv s)
        s).2
      = if g.CheckerBoardShiftForCB checkerboard dimension displacement Even
            = g.CheckerBoardShiftForCB checkerboard dimension displacement Odd
        then s.2 + sumTo (g._rdimensions dimension)
              (commsPlaneWords g dimension 3 (passShift g checkerboard dimension displacement 3))
        else s.2 + sumTo (g._rdimensions dimension)
              (commsPlaneWords g dimension 1 (passShift g checkerboard dimension displacement 1))
            + sumTo (g._rdimensions dimension)
              (commsPlaneWords g dimension 2
                (passShift g checkerboard dimension displacement 2)) := by
  unfold pointPasses
  split <;> simp only [List.foldl_cons, List.foldl_nil, CommsEntries_size]

theorem sumTo_le (f : Nat → Nat) (m n : Nat) (h : m ≤ n) : sumTo m f ≤ sumTo n f := by
  induction n with
  | zero =>
    have : m = 0 := by omega
    subst this
    exact Nat.le_refl _
  | succ k ih =>
    by_cases hk : m = k + 1
    · subst hk
      exact Nat.le_refl _
    · rw [sumTo_succ]
      exact Nat.le_trans (ih (by omega)) (Nat.le_add_right _ _)

theorem local_offset_lt (g : GridBase) (dimension : Nat) (hl : AxisLayout g dimension)
    (sshift : Int) (hs : 0 ≤ sshift) (x k : Nat) (hk : k ∈ planeOffsets g dimension) :
    toU64 (shiftedPlane g dimension sshift x * (g._ostride dimension : Int) + (k : Int))
      < g.oSites := by
  obtain ⟨he, h0⟩ := shiftedPlane_nonneg g dimension sshift x hs
  have hrd : (0 : Int) < (g._rdimensions dimension : Int) := by
    exact_mod_cast hl.rd_pos
  have hlt : shiftedPlane g dimension sshift x < (g._rdimensions dimension : Int) := by
    rw [he]
    exact Int.emod_lt_of_pos _ hrd
  obtain ⟨y, hy⟩ := Int.eq_ofNat_of_zero_le h0
  rw [hy] at hlt ⊢
  have hylt : y < g._rdimensions dimension := by exact_mod_cast hlt
  have hcast : ((y : Int) * (g._ostride dimension : Int) + (k : Int))
      = ((y * g._ostride dimension + k : Nat) : Int) := by push_cast; rfl
  rw [hcast]
  unfold toU64
  rw [if_pos (Int.ofNat_nonneg _), Int.toNat_ofNat]
  exact plane_site_lt g dimension hl y k hylt hk

theorem planeOffsets_length (g : GridBase) (d : Nat) :
    (planeOffsets g d).length = g._slice_nblock d * g._slice_block d := by
  unfold planeOffsets
  rw [List.length_flatMap]
  have hf : (List.length ∘ fun n =>
      (List.range (g._slice_block d)).map (fun b => n * g._slice_stride d + b))
      = fun _ => g._slice_block d := by
    funext n
    simp
  rw [hf, List.map_const', List.sum_const_nat, List.length_range]

theorem planeSelected_words (g : GridBase) (d m : Nat)
    (hpar : ∀ k, g.CheckerBoardFromOindex k ≤ 1)
    (hm : m = 3 ∨ ((m = 1 ∨ m = 2) ∧ g.CheckerBoarded d = true))
    (hhalf : g.CheckerBoarded d = true → ∀ par, par ≤ 1 →
      2 * ((planeOffsets g d).filter (fun k => g.CheckerBoardFromOindex k == par)).length
        = (planeOffsets g d).length) :
    (planeSelected g d m).length ≤ planeWords g d m := by
  unfold planeWords
  dsimp only
  rcases hm with rfl | ⟨hm, hcb⟩
  · rw [if_neg (by decide), ← planeOffsets_length]
    exact List.length_filter_le _ _
  · have hne : m ≠ 3 := by omega
    rw [if_pos hne, ← planeOffsets_length, Nat.shiftRight_eq_div_pow]
    have hsel : planeSelected g d m
        = (planeOffsets g d).filter (fun k => g.CheckerBoardFromOindex k == m - 1) := by
      unfold planeSelected
      apply List.filter_congr
      intro k _
      rw [hcb]
      rcases hm with rfl | rfl
      · rw [Bool.eq_iff_iff]
        simp only [Bool.not_true, Bool.false_or, beq_iff_eq]
        exact inMask_one g k (hpar k)
      · rw [Bool.eq_iff_iff]
        simp only [Bool.not_true, Bool.false_or, beq_iff_eq]
        rw [inMask_two g k (hpar k)]
        have := hpar k
        omega
    rw [hsel]
    have h2 := hhalf hcb (m - 1) (by omega)
    omega

theorem StencilEntry.inRange_mono (e : StencilEntry) (osites U V : Nat) (h : e.inRange osites U)
    (hUV : U ≤ V) : e.inRange osites V := by
  rcases h with h | h
  · exact Or.inl h
  · exact Or.inr ⟨h.1, Nat.lt_of_lt_of_le h.2 hUV⟩

theorem isLocalAt_inRange (g : GridBase) (dimension : Nat) (hl : AxisLayout g dimension)
    (sshift : Int) (hs : 0 ≤ sshift) (x k : Nat) (hk : k ∈ planeOffsets g dimension)
    (e : StencilEntry) (permute wrap : Int) (U : Nat)
    (h : e.isLocalAt
      (shiftedPlane g dimension sshift x * (g._ostride dimension : Int) + (k : Int))
      permute wrap) :
    e.inRange g.oSites U := by
  refine Or.inl ⟨h.2.1, ?_⟩
  rw [h.1]
  exact local_offset_lt g dimension hl sshift hs x k hk

theorem commsEntryAt_inRange (g : GridBase) (dimension : Nat) (hl : AxisLayout g dimension)
    (shiftpm : Int) (cbmask : Nat) (comms_recv sshift : Int) (hs : 0 ≤ sshift) (U x k : Nat)
    (hx : x < g._rdimensions dimension) (hk : k ∈ planeOffsets g dimension)
    (hw : (planeSelected g dimension cbmask).length ≤ planeWords g dimension cbmask)
    (e : StencilEntry)
    (h : commsEntryAt g dimension shiftpm cbmask comms_recv sshift U x k e) :
    e.inRange g.oSites
      (U + sumTo (g._rdimensions dimension) (commsPlaneWords g dimension cbmask sshift)) := by
  unfold commsEntryAt at h
  dsimp only at h
  by_cases hoff : offnodePlane g dimension sshift x = 0
  · rw [if_pos hoff] at h
    exact isLocalAt_inRange g dimension hl sshift hs x k hk e _ _ _ h
  · rw [if_neg hoff] at h
    by_cases hr : comms_recv = 0
    · rw [if_pos hr] at h
      exact isLocalAt_inRange g dimension hl sshift hs x k hk e _ _ _ h
    · rw [if_neg hr] at h
      obtain ⟨i, hi, hrem⟩ := h
      refine Or.inr ⟨hrem.2.1, ?_⟩
      rw [hrem.1]
      unfold toU64
      rw [if_pos (Int.ofNat_nonneg _), Int.toNat_ofNat]
      obtain ⟨hilt, _⟩ := List.get?_eq_some.1 hi
      have hwx : commsPlaneWords g dimension cbmask sshift x = planeWords g dimension cbmask := by
        unfold commsPlaneWords
        rw [if_pos]
        unfold truthy
        simpa using hoff
      have hsum := sumTo_le (commsPlaneWords g dimension cbmask sshift) (x + 1)
        (g._rdimensions dimension) hx
      rw [sumTo_succ, hwx] at hsum
      omega

theorem constructPointEntries_inRange (g : GridBase) (npoints checkerboard : Nat)
    (comms_recv : Int) (point dimension : Nat) (displacement : Int)
    (s : (Nat → StencilEntry) × Nat)
    (hl : AxisLayout g dimension) (hp : point < npoints)
    (hpar : ∀ k, g.CheckerBoardFromOindex k ≤ 1)
    (hdep : g.CheckerBoardShiftForCB checkerboard dimension displacement Even
              ≠ g.CheckerBoardShiftForCB checkerboard dimension displacement Odd →
            g.CheckerBoarded dimension = true)
    (hhalf : g.CheckerBoarded dimension = true → ∀ par, par ≤ 1 →
      2 * ((planeOffsets g dimension).filter
            (fun k => g.CheckerBoardFromOindex k == par)).length
        = (planeOffsets g dimension).length)
    (hnn : ∀ ocb, 0 ≤ g.CheckerBoardShiftForCB checkerboard dimension
            (cmod (displacement + (g._fdimensions dimension : Int))
              (g._fdimensions dimension : Int)) ocb)
    (x k : Nat) (hx : x < g._rdimensions dimension) (hk : k ∈ planeOffsets g dimension) :
    ((constructPointEntries g npoints checkerboard comms_recv point dimension displacement s).1
        (entryIndex npoints point (x * g._ostride dimension + k))).inRange g.oSites
      (constructPointEntries g npoints checkerboard comms_recv point dimension displacement s).2
    := by
  have hps : ∀ m, 0 ≤ passShift g checkerboard dimension displacement m := fun m => hnn _
  unfold constructPointEntries
  by_cases hpd : g._processors dimension > 1
  · rw [if_pos hpd]
    obtain ⟨_, hent⟩ := commsPasses_entry g npoints checkerboard point dimension displacement
      comms_recv s hl hp hpar hdep x k hx hk
    rw [commsPasses_size]
    by_cases heq : g.CheckerBoardShiftForCB checkerboard dimension displacement Even
        = g.CheckerBoardShiftForCB checkerboard dimension displacement Odd
    · have hm : siteMask g checkerboard dimension displacement k = 3 := by
        unfold siteMask
        rw [if_pos heq]
      rw [hm, if_neg (by decide)] at hent
      rw [if_pos heq]
      exact commsEntryAt_inRange g dimension hl displacement 3 comms_recv _ (hps 3) s.2 x k hx
        hk (planeSelected_words g dimension 3 hpar (Or.inl rfl) hhalf) _ hent
    · rw [if_neg heq]
      have hcb := hdep heq
      by_cases hc : g.CheckerBoardFromOindex k = 0
      · have hm : siteMask g checkerboard dimension displacement k = 1 := by
          unfold siteMask
          rw [if_neg heq, if_pos hc]
        rw [hm, if_neg (by decide)] at hent
        exact StencilEntry.inRange_mono _ _ _ _
          (commsEntryAt_inRange g dimension hl displacement 1 comms_recv _ (hps 1) s.2 x k hx
            hk (planeSelected_words g dimension 1 hpar (Or.inr ⟨Or.inl rfl, hcb⟩) hhalf) _ hent)
          (Nat.le_add_right _ _)
      · have hm : siteMask g checkerboard dimension displacement k = 2 := by
          unfold siteMask
          rw [if_neg heq, if_neg hc]
        rw [hm, if_pos rfl, CommsEntries_size] at hent
        exact commsEntryAt_inRange g dimension hl displacement 2 comms_recv _ (hps 2) _ x k hx
          hk (planeSelected_words g dimension 2 hpar (Or.inr ⟨Or.inr rfl, hcb⟩) hhalf) _ hent
  · rw [if_neg hpd]
    exact isLocalAt_inRange g dimension hl _ (hps _) x k hk _ _ _ _
      (localPasses_entry g npoints checkerboard point dimension displacement s.1 hl hp hpar
        hdep x k hx hk)

theorem constructTable_inRange {C : Type} (grid : GridBase) (npoints checkerboard : Nat)
    (directions : List Nat) (distances : List Int) (p : Parameters)
    (sizeof_vobj sizeof_cobj : Nat) (u : Indeterminate C)
    (point : Nat) (hp : point < npoints)
    (hl : AxisLayout grid (directions.getD point 0))
    (hpar : ∀ k, grid.CheckerBoardFromOindex k ≤ 1)
    (hdep : grid.CheckerBoardShiftForCB checkerboard (directions.getD point 0)
                (distances.getD point 0) Even
              ≠ grid.CheckerBoardShiftForCB checkerboard (directions.getD point 0)
                (distances.getD point 0) Odd →
            grid.CheckerBoarded (directions.getD point 0) = true)
    (hhalf : grid.CheckerBoarded (directions.getD point 0) = true → ∀ par, par ≤ 1 →
      2 * ((planeOffsets grid (directions.getD point 0)).filter
            (fun k => grid.CheckerBoardFromOindex k == par)).length
        = (planeOffsets grid (directions.getD point 0)).length)
    (hnn : ∀ ocb, 0 ≤ grid.CheckerBoardShiftForCB checkerboard (directions.getD point 0)
            (cmod (distances.getD point 0 + (grid._fdimensions (directions.getD point 0) : Int))
              (grid._fdimensions (directions.getD point 0) : Int)) ocb)
    (site : Nat) (hs : site < grid.oSites) :
    ((constructTable grid npoints checkerboard directions distances p sizeof_vobj
        sizeof_cobj u).1 (entryIndex npoints point site)).inRange grid.oSites
      (constructTable grid npoints checkerboard directions distances p sizeof_vobj
        sizeof_cobj u).2 := by
  obtain ⟨x, hx, k, hk, rfl⟩ := plane_site_cover grid (directions.getD point 0) hl site hs
  unfold constructTable
  rw [constructLoopEntries_point _ _ _ _ _ _ point npoints _ hp (Nat.le_refl _)]
  exact StencilEntry.inRange_mono _ _ _ _
    (constructPointEntries_inRange grid npoints checkerboard _ point (directions.getD point 0)
      (distances.getD point 0) _ hl hp hpar hdep hhalf hnn x k hx hk)
    (constructLoopEntries_size_mono grid npoints checkerboard _ directions distances
      (point + 1) npoints _ hp)

theorem constructPointOk_shift (g : GridBase) (dimension : Nat) (displacement : Int)
    (hok : constructPointOk g dimension displacement = true)
    (hd : g._processors dimension ≤ 1 → -(g._fdimensions dimension : Int) ≤ displacement) :
    0 ≤ cmod (displacement + (g._fdimensions dimension : Int))
          (g._fdimensions dimension : Int) := by
  by_cases hpd : g._processors dimension > 1
  · unfold constructPointOk commsAsserts at hok
    simp only [Bool.and_eq_true, Bool.or_eq_true, Bool.not_eq_true', decide_eq_true_eq,
      decide_eq_false_iff_not] at hok
    rcases hok.2 with h | h
    · exact absurd hpd h
    · exact h.1.2
  · unfold cmod
    exact Int.tmod_nonneg _ (by have := hd (by omega); omega)

theorem mul_lt_of_fit (a n s B : Nat) (ha : a < n) (hfit : n * s ≤ B) (hB : 0 < B) :
    a * s < B := by
  rcases Nat.eq_zero_or_pos s with h0 | h0
  · rw [h0, Nat.mul_zero]
    exact hB
  · exact Nat.lt_of_lt_of_le (Nat.mul_lt_mul_of_pos_right ha h0) hfit

/-- Where the shift is normalised, every entry is valid for the buffer that
its flag selects: in a successfully constructed stencil, for a point whose
displacement `d` is at least `-fd` when its axis is not split across processes,
the entry of every site below `osites` is either local (`_is_local = 1`) or
remote (`_is_local = 0`); a local entry's `_offset` is a site index below
`osites` and its `_byte_offset` is `_offset*sizeof(vobj)`; a remote entry's
`_offset` is below `_unified_buffer_size` and its `_byte_offset` is
`_offset*sizeof(cobj)` (products in `uint64_t`, exact when the lattice and the
buffer fit in `2^64` bytes).  Grid hypotheses: the slice tables describe the
reduced layout, parities are 0 or 1, only a checkerboarded axis has a
parity-dependent shift, on a checkerboarded axis each parity holds half of the
sites of a plane, and the checkerboard shift of a non-negative shift is not
negative. -/
theorem entry_local_or_remote {C : Type} (grid : GridBase) (npoints checkerboard : Nat)
    (directions : List Nat) (distances : List Int) (p : Parameters)
    (sizeof_vobj sizeof_cobj : Nat) (u : Indeterminate C) (st : CartesianStencil C)
    (hc : CartesianStencil.construct grid npoints checkerboard directions distances p
            sizeof_vobj sizeof_cobj u = .ok st)
    (point : Nat) (hp : point < npoints)
    (hd : grid._processors (directions.getD point 0) ≤ 1 →
            -(grid._fdimensions (directions.getD point 0) : Int) ≤ distances.getD point 0)
    (hl : AxisLayout grid (directions.getD point 0))
    (hpar : ∀ k, grid.CheckerBoardFromOindex k ≤ 1)
    (hdep : grid.CheckerBoardShiftForCB checkerboard (directions.getD point 0)
                (distances.getD point 0) Even
              ≠ grid.CheckerBoardShiftForCB checkerboard (directions.getD point 0)
                (distances.getD point 0) Odd →
            grid.CheckerBoarded (directions.getD point 0) = true)
    (hhalf : grid.CheckerBoarded (directions.getD point 0) = true → ∀ par, par ≤ 1 →
      2 * ((planeOffsets grid (directions.getD point 0)).filter
            (fun k => grid.CheckerBoardFromOindex k == par)).length
        = (planeOffsets grid (directions.getD point 0)).length)
    (hcbs : ∀ s ocb, 0 ≤ s →
      0 ≤ grid.CheckerBoardShiftForCB checkerboard (directions.getD point 0) s ocb)
    (site : Nat) (hs : site < grid.oSites) :
    ((st._entries (entryIndex npoints point site))._is_local = 1
      ∧ (st._entries (entryIndex npoints point site))._offset < grid.oSites
      ∧ (st._entries (entryIndex npoints point site))._byte_offset
          = ((st._entries (entryIndex npoints point site))._offset * sizeof_vobj)
              % 18446744073709551616
      ∧ (grid.oSites * sizeof_vobj ≤ 18446744073709551616 →
          (st._entries (entryIndex npoints point site))._byte_offset
            = (st._entries (entryIndex npoints point site))._offset * sizeof_vobj))
    ∨ ((st._entries (entryIndex npoints point site))._is_local = 0
      ∧ (st._entries (entryIndex npoints point site))._offset < st._unified_buffer_size
      ∧ (st._entries (entryIndex npoints point site))._byte_offset
          = ((st._entries (entryIndex npoints point site))._offset * sizeof_cobj)
              % 18446744073709551616
      ∧ (st._unified_buffer_size * sizeof_cobj ≤ 18446744073709551616 →
          (st._entries (entryIndex npoints point site))._byte_offset
            = (st._entries (entryIndex npoints point site))._offset * sizeof_cobj)) := by
  have hok := (constructOk_of_construct grid npoints checkerboard directions distances p
    sizeof_vobj sizeof_cobj u st hc).2 point hp
  have hsh := constructPointOk_shift grid (directions.getD point 0) (distances.getD point 0)
    hok hd
  obtain ⟨hent, hsz, _, _, _⟩ := construct_table grid npoints checkerboard directions distances
    p sizeof_vobj sizeof_cobj u st hc
  have hin := constructTable_inRange grid npoints checkerboard directions distances p
    sizeof_vobj sizeof_cobj u point hp hl hpar hdep hhalf (fun ocb => hcbs _ ocb hsh) site hs
  rw [hent _ (entryIndex_lt npoints point site grid.oSites hp hs), hsz]
  obtain ⟨ho, hloc, hb⟩ := withByteOffset_fields sizeof_vobj sizeof_cobj
    ((constructTable grid npoints checkerboard directions distances p sizeof_vobj
      sizeof_cobj u).1 (entryIndex npoints point site))
  rw [ho, hloc, hb]
  rcases hin with ⟨h1, h2⟩ | ⟨h1, h2⟩
  · left
    rw [h1, if_pos (by decide)]
    exact ⟨rfl, h2, rfl, fun hfit =>
      Nat.mod_eq_of_lt (mul_lt_of_fit _ _ _ _ h2 hfit (by decide))⟩
  · right
    rw [h1, if_neg (by decide)]
    exact ⟨rfl, h2, rfl, fun hfit =>
      Nat.mod_eq_of_lt (mul_lt_of_fit _ _ _ _ h2 hfit (by decide))⟩

/-- C3 fails in the code for a displacement below `-fd` on an axis that is not
split.  `Local` takes the shift `(shiftpm+fd)%fd`, which its comment calls
always positive, and has no assertion `shift>=0` as `Comms` has.  On the ring
of 8 sites on one process the stencil with the point of displacement `-9` is
constructed, and the entry of site 0 is local with `_offset = 2^64 - 1`, which
is not a site index below `osites = 8`. -/
theorem C3_offset_not_a_site :
    (CartesianStencil.construct ringGrid 1 0 [0] [-9] ⟨[0]⟩ 8 8 (someStorage (0 : Nat))).toBool
        = true
      ∧ (0 : Nat) < (ringStencil (-9))._npoints ∧ (0 : Nat) < (ringStencil (-9))._osites
      ∧ ((ringStencil (-9))._entries (entryIndex 1 0 0))._offset = 18446744073709551615
      ∧ ¬ ((((ringStencil (-9))._entries (entryIndex 1 0 0))._is_local = 1
            ∧ ((ringStencil (-9))._entries (entryIndex 1 0 0))._offset < ringGrid.oSites)
          ∨ (((ringStencil (-9))._entries (entryIndex 1 0 0))._is_local = 0
            ∧ ((ringStencil (-9))._entries (entryIndex 1 0 0))._offset
                < (ringStencil (-9))._unified_buffer_size)) := by
  decide

/-- An instance of `entry_local_or_remote`: rank 0 of the 16 x 2 red-black grid on two processes with
two SIMD lanes, the point of displacement `+1` along the checkerboarded axis,
which takes the two passes of `Comms`. -/
theorem entry_local_or_remote_witness :
    ∃ st : CartesianStencil Nat,
      CartesianStencil.construct (redBlackGrid 0) 1 0 [0] [1] ⟨[0, 0]⟩ 8 8
          (someStorage (0 : Nat)) = .ok st
      ∧ (((st._entries (entryIndex 1 0 1))._is_local = 1
          ∧ (st._entries (entryIndex 1 0 1))._offset < (redBlackGrid 0).oSites
          ∧ (st._entries (entryIndex 1 0 1))._byte_offset
              = ((st._entries (entryIndex 1 0 1))._offset * 8) % 18446744073709551616
          ∧ ((redBlackGrid 0).oSites * 8 ≤ 18446744073709551616 →
              (st._entries (entryIndex 1 0 1))._byte_offset
                = (st._entries (entryIndex 1 0 1))._offset * 8))
        ∨ ((st._entries (entryIndex 1 0 1))._is_local = 0
          ∧ (st._entries (entryIndex 1 0 1))._offset < st._unified_buffer_size
          ∧ (st._entries (entryIndex 1 0 1))._byte_offset
              = ((st._entries (entryIndex 1 0 1))._offset * 8) % 18446744073709551616
          ∧ (st._unified_buffer_size * 8 ≤ 18446744073709551616 →
              (st._entries (entryIndex 1 0 1))._byte_offset
                = (st._entries (entryIndex 1 0 1))._offset * 8))) :=
  have hok : constructOk (redBlackGrid 0) 1 [0] [1] ⟨[0, 0]⟩ 8 8 (someStorage (0 : Nat)) :=
    ⟨fun _ ii hii => by
        obtain rfl : ii = 0 := by omega
        decide,
      fun ii hii => by
        obtain rfl : ii = 0 := by omega
        decide⟩
  ⟨_, construct_of_constructOk (redBlackGrid 0) 1 0 [0] [1] ⟨[0, 0]⟩ 8 8
        (someStorage (0 : Nat)) hok,
    entry_local_or_remote (redBlackGrid 0) 1 0 [0] [1] ⟨[0, 0]⟩ 8 8 (someStorage (0 : Nat)) _
      (construct_of_constructOk (redBlackGrid 0) 1 0 [0] [1] ⟨[0, 0]⟩ 8 8
        (someStorage (0 : Nat)) hok)
      0 (by decide) (fun h => absurd h (by decide))
      ⟨by decide, by decide, by decide, by decide, by decide⟩
      (fun k => by
        show (k % 2 + k / 2 % 2) % 2 ≤ 1
        omega)
      (fun _ => by decide)
      (fun _ par hpar => by
        interval_cases par <;> decide)
      (fun s ocb hs => by
        have h16 : 0 ≤ cmod (s + 16) 16 := Int.tmod_nonneg _ (by omega)
        show 0 ≤ (if (0 : Nat) ≠ 0 then s
          else if (0 + ocb) % 2 = 1 then cdiv (cmod (s + 16) 16) 2
          else cdiv (cmod (s + 16) 16 + 1) 2)
        rw [if_neg (by decide)]
        split
        · exact Int.tdiv_nonneg h16 (by decide)
        · exact Int.tdiv_nonneg (by omega) (by decide))
      1 (by decide)⟩

/-! ## Invariants of the gather -/

theorem GatherPlane_inv {V C : Type} (source : Lattice V) (compress : Compressor V C)
    (Inv : CartesianStencil C → Nat → Prop) (hI : GatherInvariant source compress Inv)
    (dimension cbmask point : Nat) (sshift : Int) (x : Nat) (s r : CartesianStencil C × Nat)
    (h : GatherPlane source dimension cbmask compress point sshift x s = .ok r)
    (hs : Inv s.1 s.2) : Inv r.1 r.2 := by
  unfold GatherPlane at h
  dsimp only at h
  split at h
  · simp only [assert_bind_ok, pure_ok] at h
    rw [← h.2.2]
    exact hI.face s.1 s.2 _ _ _ _ _ hs
  · rw [pure_ok] at h
    rw [← h]
    exact hs

theorem Gather_inv {V C : Type} (source : Lattice V) (compress : Compressor V C)
    (Inv : CartesianStencil C → Nat → Prop) (hI : GatherInvariant source compress Inv)
    (st : CartesianStencil C) (dimension : Nat) (shift : Int) (cbmask face_idx point : Nat)
    (r : CartesianStencil C × Nat × Int)
    (h : Gather st source dimension shift cbmask compress face_idx point = .ok r)
    (hs : Inv st face_idx) : Inv r.1 r.2.1 := by
  unfold Gather at h
  simp only [bind_ok, assert_ok, pure_ok, exists_and_left, exists_const] at h
  obtain ⟨_, _, _, _, a, ha, hr⟩ := h
  rw [← hr]
  exact forLoopM_invariant (fun _ (b : CartesianStencil C × Nat) => Inv b.1 b.2) _ _
    (st, face_idx) a ha hs
    (fun i p q _ hp hq => GatherPlane_inv source compress Inv hI _ _ _ _ _ p q hq hp)

theorem GatherSimd_planes {V C : Type} (source : Lattice V) (compress : Compressor V C)
    (Inv : CartesianStencil C → Nat → Prop)
    (hplane : ∀ dimension cbmask point sshift bytes reduced_buffer_size x
      (s r : CartesianStencil C × Nat × List Pointer), Inv s.1 s.2.1 →
      GatherSimdPlane source dimension cbmask compress point sshift bytes reduced_buffer_size
        x s = .ok r → Inv r.1 r.2.1)
    (st : CartesianStencil C) (dimension : Nat) (shift : Int) (cbmask face_idx point : Nat)
    (r : CartesianStencil C × Nat × Int) (hs : Inv st face_idx)
    (h : GatherSimd st source dimension shift cbmask compress face_idx point = .ok r) :
    Inv r.1 r.2.1 := by
  unfold GatherSimd at h
  simp only [bind_ok, assert_ok, pure_ok, exists_and_left, exists_const] at h
  obtain ⟨_, _, _, _, _, _, a, ha, hr⟩ := h
  rw [← hr]
  exact forLoopM_invariant
    (fun _ (b : CartesianStencil C × Nat × List Pointer) => Inv b.1 b.2.1) _ _
    (st, face_idx, _) a ha hs
    (fun i p q _ hp hq => hplane _ _ _ _ _ _ _ p q hp hq)

theorem GatherSimd_inv {V C : Type} (source : Lattice V) (compress : Compressor V C)
    (Inv : CartesianStencil C → Nat → Prop) (hI : GatherInvariant source compress Inv)
    (st : CartesianStencil C) (dimension : Nat) (shift : Int) (cbmask face_idx point : Nat)
    (r : CartesianStencil C × Nat × Int)
    (h : GatherSimd st source dimension shift cbmask compress face_idx point = .ok r)
    (hs : Inv st face_idx) : Inv r.1 r.2.1 :=
  hI.simdPass st dimension shift cbmask face_idx point r hs h

theorem HaloGatherComm_inv {V C : Type} (source : Lattice V) (compress : Compressor V C)
    (Inv : CartesianStencil C → Nat → Prop) (hI : GatherInvariant source compress Inv)
    (st : CartesianStencil C) (point face_idx dimension : Nat) (shift : Int)
    (r : CartesianStencil C × Nat × Int)
    (h : HaloGatherComm st source compress point face_idx dimension shift = .ok r)
    (hs : Inv st face_idx) : Inv r.1 r.2.1 := by
  unfold HaloGatherComm at h
  dsimp only at h
  split at h
  · split at h
    · simp only [bind_ok, pure_ok] at h
      obtain ⟨a, ha, hr⟩ := h
      rw [← hr]
      exact GatherSimd_inv source compress Inv hI _ _ _ _ _ _ a ha hs
    · simp only [bind_ok, pure_ok] at h
      obtain ⟨a, ha, hr⟩ := h
      rw [← hr]
      exact Gather_inv source compress Inv hI _ _ _ _ _ _ a ha hs
  · split at h
    · simp only [bind_ok, pure_ok] at h
      obtain ⟨a, ha, b, hb, hr⟩ := h
      rw [← hr]
      exact GatherSimd_inv source compress Inv hI _ _ _ _ _ _ b hb
        (GatherSimd_inv source compress Inv hI _ _ _ _ _ _ a ha hs)
    · simp only [bind_ok, pure_ok] at h
      obtain ⟨a, ha, b, hb, hr⟩ := h
      rw [← hr]
      exact Gather_inv source compress Inv hI _ _ _ _ _ _ b hb
        (Gather_inv source compress Inv hI _ _ _ _ _ _ a ha hs)

theorem HaloGatherDir_inv {V C : Type} (source : Lattice V) (compress : Compressor V C)
    (Inv : CartesianStencil C → Nat → Prop) (hI : GatherInvariant source compress Inv)
    (st : CartesianStencil C) (point face_idx : Nat) (r : CartesianStencil C × Nat × Int)
    (h : HaloGatherDir st source compress point face_idx = .ok r)
    (hs : Inv st face_idx) : Inv r.1 r.2.1 := by
  unfold HaloGatherDir at h
  simp only [bind_ok, assert_ok, exists_and_left, exists_const] at h
  obtain ⟨_, h⟩ := h
  split at h
  · exact HaloGatherComm_inv source compress Inv hI _ _ _ _ _ _ h hs
  · rw [pure_ok] at h
    rw [← h]
    exact hs

theorem HaloGatherPoint_inv {V C : Type} (source : Lattice V) (compress : Compressor V C)
    (Inv : CartesianStencil C → Nat → Prop) (hI : GatherInvariant source compress Inv)
    (point : Nat) (s r : CartesianStencil C × Nat)
    (h : HaloGatherPoint source compress point s = .ok r)
    (hs : Inv s.1 s.2) : Inv r.1 r.2 := by
  unfold HaloGatherPoint at h
  simp only [bind_ok, pure_ok] at h
  obtain ⟨a, ha, hr⟩ := h
  rw [← hr]
  exact HaloGatherDir_inv source compress Inv hI _ _ _ a ha (hI.point _ _ _ hs)

theorem HaloGatherPoints_inv {V C : Type} (source : Lattice V) (compress : Compressor V C)
    (Inv : CartesianStencil C → Nat → Prop) (hI : GatherInvariant source compress Inv)
    (n : Nat) (s r : CartesianStencil C × Nat)
    (h : forLoopM n (HaloGatherPoint source compress) s = .ok r)
    (hs : Inv s.1 s.2) : Inv r.1 r.2 :=
  forLoopM_invariant (fun _ (b : CartesianStencil C × Nat) => Inv b.1 b.2) n _ s r h hs
    (fun i p q _ hp hq => HaloGatherPoint_inv source compress Inv hI i p q hq hp)

theorem FaceStep.refl_face {C : Type} (st : CartesianStencil C) (fi : Nat) : FaceStep st fi st :=
  ⟨rfl, fun _ => rfl, fun _ _ => rfl, rfl, rfl⟩

theorem FaceStep.trans_face {C : Type} {a b c : CartesianStencil C} {fi fj : Nat}
    (h1 : FaceStep a fi b) (hij : fi ≤ fj) (h2 : FaceStep b fj c) : FaceStep a fi c := by
  obtain ⟨a1, a2, a3, a4, a5⟩ := h1
  obtain ⟨b1, b2, b3, b4, b5⟩ := h2
  refine ⟨b1.trans a1, fun h => ?_, fun idx hidx => ?_, b4.trans a4, b5.trans a5⟩
  · rw [b2 (by rw [a1]; exact h), a2 h]
  · rw [b3 idx (by omega), a3 idx hidx]

theorem emit_faceStep {C : Type} (st : CartesianStencil C) (e : Event) (fi : Nat) :
    FaceStep st fi (emit st e) :=
  ⟨rfl, fun _ => rfl, fun _ _ => rfl, rfl, rfl⟩

theorem writeBuf_faceStep {C : Type} (st : CartesianStencil C) (p : Pointer) (j : Nat) (v : C)
    (fi : Nat) (hp : p.isSend) : FaceStep st fi (writeBuf st p j v) := by
  unfold writeBuf
  rcases hp with h | ⟨l, h⟩ <;> rw [h] <;> exact FaceStep.refl_face _ _

theorem storeFaceTable_getD {C : Type} (st : CartesianStencil C) (fi : Nat)
    (table : List (Nat × Nat)) (idx : Nat) (hidx : idx ≤ fi) :
    (storeFaceTable st fi table).face_table.getD idx []
      = if idx = fi then table else st.face_table.getD idx [] := by
  unfold storeFaceTable
  dsimp only
  have hlen : (List.take (fi + 1) st.face_table
      ++ List.replicate (fi + 1 - st.face_table.length) []).length = fi + 1 := by
    rw [List.length_append, List.length_take, List.length_replicate]
    omega
  rw [List.getD_eq_getElem?_getD, List.getD_eq_getElem?_getD, List.getElem?_set, hlen]
  by_cases h : fi = idx
  · subst h
    rw [if_pos rfl, if_pos rfl, if_pos (Nat.lt_succ_self _)]
    rfl
  · rw [if_neg h, if_neg (fun hh => h hh.symm), List.getElem?_append, List.length_take,
      List.getElem?_take, List.getElem?_replicate]
    by_cases h1 : idx < st.face_table.length
    · rw [if_pos (by omega), if_pos (by omega)]
    · rw [if_neg (by omega), if_pos (by omega), List.getElem?_eq_none (by omega)]
      rfl

theorem computeFaceTable_faceStep {C : Type} (st : CartesianStencil C) (dimension : Nat)
    (sx : Int) (cbmask comm_off fi : Nat) :
    FaceStep st fi (computeFaceTable st dimension sx cbmask comm_off fi) := by
  unfold computeFaceTable
  split
  · rename_i h0
    refine ⟨rfl, fun h => absurd h0 h, fun idx hidx => ?_, rfl, rfl⟩
    rw [storeFaceTable_getD _ _ _ _ (by omega), if_neg (by omega)]
    rfl
  · exact FaceStep.refl_face _ _

theorem forLoop_faceStep {C : Type} (n : Nat) (body : Nat → CartesianStencil C → CartesianStencil C)
    (st : CartesianStencil C) (fi : Nat) (h : ∀ i a, FaceStep a fi (body i a)) :
    FaceStep st fi (forLoop n body st) :=
  forLoop_invariant (fun _ b => FaceStep st fi b) n body st (FaceStep.refl_face _ _)
    (fun i a _ ha => ha.trans_face (Nat.le_refl _) (h i a))

theorem Gather_plane_simple_table_faceStep {V C : Type} (st : CartesianStencil C)
    (table : List (Nat × Nat)) (rhs : Lattice V) (buffer : Buffer) (compress : Compressor V C)
    (point off : Nat) (so : Int) (fi : Nat) (hb : (⟨buffer, 0⟩ : Pointer).isSend) :
    FaceStep st fi (Gather_plane_simple_table st table rhs buffer compress point off so) := by
  unfold Gather_plane_simple_table
  apply forLoop_faceStep
  intro i a
  split
  · exact FaceStep.refl_face _ _
  · exact writeBuf_faceStep _ _ _ _ _ hb

theorem Gather_plane_exchange_table_faceStep {V C : Type} (st r : CartesianStencil C)
    (table : List (Nat × Nat)) (rhs : Lattice V) (p0 p1 : Pointer) (dimension : Nat)
    (plane : Int) (compress : Compressor V C) (point type : Nat) (fi : Nat)
    (h0 : p0.isSend) (h1 : p1.isSend)
    (h : Gather_plane_exchange_table st table rhs p0 p1 dimension plane compress point type
          = .ok r) : FaceStep st fi r := by
  unfold Gather_plane_exchange_table at h
  rw [assert_bind_ok] at h
  have h2 := h.2
  rw [pure_ok] at h2
  rw [← h2]
  apply forLoop_faceStep
  intro i a
  exact (writeBuf_faceStep _ _ _ _ _ h0).trans_face (Nat.le_refl _) (writeBuf_faceStep _ _ _ _ _ h1)

theorem queueTransfer_faceStep {C : Type} (st : CartesianStencil C) (a b c : Int)
    (send recv : Pointer) (l y m : Int) (x : Nat) (cs : Int) (f : Nat) (cr : Int) (fi : Nat) :
    FaceStep st fi (queueTransfer st a b c send recv l y m x cs f cr) := by
  unfold queueTransfer CheckForDuplicate
  dsimp only
  split <;> split <;> exact FaceStep.refl_face _ _

theorem queueDecompress_faceStep {V C : Type} (st : CartesianStencil C)
    (compress : Compressor V C) (cr : Int) (recv_buf : Buffer) (comm_off words : Nat)
    (fi : Nat) : FaceStep st fi (queueDecompress st compress cr recv_buf comm_off words) := by
  unfold queueDecompress
  split <;> exact FaceStep.refl_face _ _

theorem gatherSendBlock_faceStep {V C : Type} (st : CartesianStencil C) (rhs : Lattice V)
    (dimension cbmask : Nat) (compress : Compressor V C) (point : Nat) (sx so : Int)
    (comm_off fi : Nat) :
    FaceStep st fi
      (gatherSendBlock st rhs dimension cbmask compress point sx so comm_off fi).1 := by
  unfold gatherSendBlock
  split
  · dsimp only
    exact ((computeFaceTable_faceStep _ _ _ _ _ _).trans_face (Nat.le_refl _)
      (FaceStep.refl_face _ _)).trans_face (Nat.le_refl _)
      (Gather_plane_simple_table_faceStep _ _ _ _ _ _ _ _ _ (Or.inl rfl))
  · exact FaceStep.refl_face _ _

theorem gatherOffnodePlane_faceStep {V C : Type} (rhs : Lattice V) (dimension cbmask : Nat)
    (compress : Compressor V C) (point : Nat) (sx comm_proc : Int)
    (s : CartesianStencil C × Nat) :
    FaceStep s.1 s.2
      (gatherOffnodePlane rhs dimension cbmask compress point sx comm_proc s).1 := by
  unfold gatherOffnodePlane
  dsimp only
  exact (((gatherSendBlock_faceStep _ _ _ _ _ _ _ _ _ _).trans_face (Nat.le_refl _)
    (queueTransfer_faceStep _ _ _ _ _ _ _ _ _ _ _ _ _ _)).trans_face (Nat.le_refl _)
    (queueDecompress_faceStep _ _ _ _ _ _ _)).trans_face (Nat.le_refl _) (FaceStep.refl_face _ _)

theorem GatherSimdLane_faceStep {C : Type} (dimension cbmask point : Nat) (sshift : Int)
    (x : Nat) (sx : Int) (comm_off : Nat) (bytes : Int) (i : Nat)
    (s r : CartesianStencil C × List Pointer) (fi : Nat)
    (h : GatherSimdLane dimension cbmask point sshift x sx comm_off bytes i s = .ok r) :
    FaceStep s.1 fi r.1 := by
  unfold GatherSimdLane at h
  simp only [bind_ok, assert_ok, pure_ok, exists_and_left, exists_const] at h
  rw [← h.2]
  unfold gatherSimdLaneBody
  dsimp only
  split
  · exact queueTransfer_faceStep _ _ _ _ _ _ _ _ _ _ _ _ _ _
  · exact FaceStep.refl_face _ _

theorem gatherSimdSendBlock_faceStep {V C : Type} (st r : CartesianStencil C)
    (rhs : Lattice V) (dimension cbmask : Nat) (compress : Compressor V C) (point : Nat)
    (sx : Int) (comm_off fi : Nat)
    (h : gatherSimdSendBlock st rhs dimension cbmask compress point sx comm_off fi = .ok r) :
    FaceStep st fi r := by
  unfold gatherSimdSendBlock at h
  dsimp only at h
  split at h
  · have h3 := Gather_plane_exchange_table_faceStep _ _ _ _ _ _ _ _ _ _ _ fi
      (Or.inr ⟨0, rfl⟩) (Or.inr ⟨1, rfl⟩) h
    exact ((computeFaceTable_faceStep st dimension sx cbmask comm_off fi).trans_face (Nat.le_refl _)
      (emit_faceStep _ _ _)).trans_face (Nat.le_refl _) h3
  · rw [pure_ok] at h
    rw [← h]
    exact computeFaceTable_faceStep _ _ _ _ _ _

theorem GatherSimdPlane_faceStep {V C : Type} (rhs : Lattice V) (dimension cbmask : Nat)
    (compress : Compressor V C) (point : Nat) (sshift bytes : Int)
    (reduced_buffer_size x : Nat) (s r : CartesianStencil C × Nat × List Pointer)
    (h : GatherSimdPlane rhs dimension cbmask compress point sshift bytes reduced_buffer_size x s
          = .ok r) : s.2.1 ≤ r.2.1 ∧ FaceStep s.1 s.2.1 r.1 := by
  unfold GatherSimdPlane at h
  dsimp only at h
  split at h
  · simp only [bind_ok, pure_ok] at h
    obtain ⟨a, ha, b, hb, hr⟩ := h
    rw [← hr]
    refine ⟨Nat.le_succ _, ?_⟩
    have h1 := gatherSimdSendBlock_faceStep _ _ _ _ _ _ _ _ _ _ ha
    have h2 : FaceStep a s.2.1 b.1 :=
      forLoopM_invariant (fun _ (q : CartesianStencil C × List Pointer) => FaceStep a s.2.1 q.1)
        _ _ (a, s.2.2) b hb (FaceStep.refl_face _ _)
        (fun i p q _ hp hq => hp.trans_face (Nat.le_refl _)
          (GatherSimdLane_faceStep _ _ _ _ _ _ _ _ _ _ _ _ hq))
    exact (h1.trans_face (Nat.le_refl _) h2).trans_face (Nat.le_refl _) (FaceStep.refl_face _ _)
  · rw [pure_ok] at h
    rw [← h]
    exact ⟨Nat.le_refl _, FaceStep.refl_face _ _⟩

theorem faceStep_invariant {V C : Type} (source : Lattice V) (compress : Compressor V C)
    (a : CartesianStencil C) (fi : Nat) :
    GatherInvariant source compress (fun st fj => fi ≤ fj ∧ FaceStep a fi st) where
  point := fun _ _ _ h => ⟨h.1, h.2.trans_face h.1 (emit_faceStep _ _ _)⟩
  face := fun st fj dimension cbmask point sx comm_proc h =>
    ⟨Nat.le_succ_of_le h.1, h.2.trans_face h.1
      (gatherOffnodePlane_faceStep source dimension cbmask compress point sx comm_proc (st, fj))⟩
  simdPass := GatherSimd_planes source compress (fun st fj => fi ≤ fj ∧ FaceStep a fi st)
    (fun dimension cbmask point sshift bytes rbs x s r h hr =>
      ⟨Nat.le_trans h.1
          (GatherSimdPlane_faceStep source dimension cbmask compress point sshift bytes rbs x
            s r hr).1,
        h.2.trans_face h.1
          (GatherSimdPlane_faceStep source dimension cbmask compress point sshift bytes rbs x
            s r hr).2⟩)

/-! ## Two runs on the same plan -/

theorem SamePlan.refl_plan {C : Type} (a : CartesianStencil C) : SamePlan a a := rfl

theorem SamePlan.intro {C : Type} (a : CartesianStencil C) (x : Scratch C) :
    SamePlan a (a.withScratch x) := rfl

theorem SamePlan.symm_plan {C : Type} {a b : CartesianStencil C} (h : SamePlan a b) :
    SamePlan b a := by
  unfold SamePlan at h ⊢
  rw [h]
  rfl

theorem SamePlan.trans_plan {C : Type} {a b c : CartesianStencil C} (h1 : SamePlan a b)
    (h2 : SamePlan b c) : SamePlan a c := by
  unfold SamePlan at h1 h2 ⊢
  rw [h2, h1]
  rfl

theorem SamePlan.congr {C : Type} {a b : CartesianStencil C} (h : SamePlan a b)
    (g : CartesianStencil C → CartesianStencil C)
    (hg : ∀ (s : CartesianStencil C) (x : Scratch C), g (s.withScratch x) = (g s).withScratch x) :
    SamePlan (g a) (g b) := by
  unfold SamePlan at h
  rw [h, hg]
  exact SamePlan.intro _ _

theorem SamePlan.proj {C α : Type} {a b : CartesianStencil C} (h : SamePlan a b)
    (f : CartesianStencil C → α) (hf : ∀ (s : CartesianStencil C) (x : Scratch C),
      f (s.withScratch x) = f s) : f b = f a := by
  unfold SamePlan at h
  rw [h, hf]

theorem emit_samePlan {C : Type} (st : CartesianStencil C) (e : Event) :
    SamePlan st (emit st e) := rfl

theorem writeBuf_samePlan {C : Type} (st : CartesianStencil C) (p : Pointer) (j : Nat) (v : C) :
    SamePlan st (writeBuf st p j v) := by
  unfold writeBuf
  split <;> rfl

theorem forLoop_samePlan {C : Type} (n : Nat)
    (body : Nat → CartesianStencil C → CartesianStencil C) (st : CartesianStencil C)
    (h : ∀ i a, SamePlan a (body i a)) : SamePlan st (forLoop n body st) :=
  forLoop_invariant (fun _ b => SamePlan st b) n body st (SamePlan.refl_plan _)
    (fun i a _ ha => ha.trans_plan (h i a))

theorem computeFaceTable_samePlan {C : Type} (st : CartesianStencil C) (dimension : Nat)
    (sx : Int) (cbmask comm_off fi : Nat) :
    SamePlan st (computeFaceTable st dimension sx cbmask comm_off fi) := by
  unfold computeFaceTable
  split
  · rfl
  · rfl

theorem Gather_plane_simple_table_samePlan {V C : Type} (st : CartesianStencil C)
    (table : List (Nat × Nat)) (rhs : Lattice V) (buffer : Buffer) (compress : Compressor V C)
    (point off : Nat) (so : Int) :
    SamePlan st (Gather_plane_simple_table st table rhs buffer compress point off so) := by
  unfold Gather_plane_simple_table
  apply forLoop_samePlan
  intro i a
  split
  · rfl
  · exact writeBuf_samePlan _ _ _ _

theorem Gather_plane_exchange_table_samePlan {V C : Type} (st r : CartesianStencil C)
    (table : List (Nat × Nat)) (rhs : Lattice V) (p0 p1 : Pointer) (dimension : Nat)
    (plane : Int) (compress : Compressor V C) (point type : Nat)
    (h : Gather_plane_exchange_table st table rhs p0 p1 dimension plane compress point type
          = .ok r) : SamePlan st r := by
  unfold Gather_plane_exchange_table at h
  rw [assert_bind_ok] at h
  have h2 := h.2
  rw [pure_ok] at h2
  rw [← h2]
  apply forLoop_samePlan
  intro i a
  exact (writeBuf_samePlan _ _ _ _).trans_plan (writeBuf_samePlan _ _ _ _)

theorem queueTransfer_withScratch {C : Type} (s : CartesianStencil C) (x : Scratch C)
    (a b c : Int) (send recv : Pointer) (l y m : Int) (to_rank : Nat) (cs : Int) (f : Nat)
    (cr : Int) :
    queueTransfer (s.withScratch x) a b c send recv l y m to_rank cs f cr
      = (queueTransfer s a b c send recv l y m to_rank cs f cr).withScratch x := by
  have e : (s.withScratch x).CachedTransfers = s.CachedTransfers := rfl
  unfold queueTransfer CheckForDuplicate
  dsimp only
  rw [e]
  cases findTransfer a b c y l m s.CachedTransfers with
  | none => rfl
  | some t => rfl

theorem queueDecompress_withScratch {V C : Type} (s : CartesianStencil C) (x : Scratch C)
    (compress : Compressor V C) (cr : Int) (recv_buf : Buffer) (comm_off words : Nat) :
    queueDecompress (s.withScratch x) compress cr recv_buf comm_off words
      = (queueDecompress s compress cr recv_buf comm_off words).withScratch x := by
  unfold queueDecompress
  split <;> rfl

theorem gatherSendBlock_samePlan {V C : Type} (st : CartesianStencil C) (rhs : Lattice V)
    (dimension cbmask : Nat) (compress : Compressor V C) (point : Nat) (sx so : Int)
    (comm_off fi : Nat) :
    SamePlan st (gatherSendBlock st rhs dimension cbmask compress point sx so comm_off fi).1
    ∧ (gatherSendBlock st rhs dimension cbmask compress point sx so comm_off fi).2
        = if truthy (st._comms_send point) then
            (if compress.DecompressionStep then Buffer.u_simd_recv_buf 0 else Buffer.u_recv_buf,
              Buffer.u_send_buf)
          else (Buffer.indeterminate, Buffer.indeterminate) := by
  unfold gatherSendBlock
  split
  · dsimp only
    exact ⟨((computeFaceTable_samePlan st dimension sx cbmask comm_off fi).trans_plan
      (emit_samePlan _ _)).trans_plan (Gather_plane_simple_table_samePlan _ _ _ _ _ _ _ _), rfl⟩
  · exact ⟨SamePlan.refl_plan _, rfl⟩

theorem gatherOffnodePlane_sim {V C : Type} (rhs : Lattice V) (dimension cbmask : Nat)
    (compress : Compressor V C) (point : Nat) (sx comm_proc : Int)
    (a b : CartesianStencil C) (fi : Nat) (h : SamePlan a b) :
    SamePlan (gatherOffnodePlane rhs dimension cbmask compress point sx comm_proc (a, fi)).1
      (gatherOffnodePlane rhs dimension cbmask compress point sx comm_proc (b, fi)).1
    ∧ (gatherOffnodePlane rhs dimension cbmask compress point sx comm_proc (a, fi)).2 = fi + 1
    ∧ (gatherOffnodePlane rhs dimension cbmask compress point sx comm_proc (b, fi)).2
        = fi + 1 := by
  refine ⟨?_, rfl, rfl⟩
  have hg : b._grid = a._grid := h.proj (fun s => s._grid) (fun _ _ => rfl)
  have hs : b._comms_send = a._comms_send := h.proj (fun s => s._comms_send) (fun _ _ => rfl)
  have hr : b._comms_recv = a._comms_recv := h.proj (fun s => s._comms_recv) (fun _ _ => rfl)
  have ho : b.u_comm_offset = a.u_comm_offset :=
    h.proj (fun s => s.u_comm_offset) (fun _ _ => rfl)
  obtain ⟨ha1, ha2⟩ := gatherSendBlock_samePlan a rhs dimension cbmask compress point sx
    (sx * (a._grid._ostride dimension : Int)) a.u_comm_offset fi
  obtain ⟨hb1, hb2⟩ := gatherSendBlock_samePlan b rhs dimension cbmask compress point sx
    (sx * (a._grid._ostride dimension : Int)) a.u_comm_offset fi
  rw [hs] at hb2
  have h1 := ha1.symm_plan.trans_plan (h.trans_plan hb1)
  unfold gatherOffnodePlane
  dsimp only
  rw [hg, hs, hr, ho, ha2, hb2]
  generalize (gatherSendBlock a rhs dimension cbmask compress point sx
    (sx * (a._grid._ostride dimension : Int)) a.u_comm_offset fi).1 = A1 at h1 ⊢
  generalize (gatherSendBlock b rhs dimension cbmask compress point sx
    (sx * (a._grid._ostride dimension : Int)) a.u_comm_offset fi).1 = B1 at h1 ⊢
  unfold SamePlan at h1
  rw [h1, queueTransfer_withScratch, queueDecompress_withScratch]
  exact SamePlan.intro _ _

theorem SimStep.pure {C τ : Type} (fidx : τ → Nat) :
    SimStep fidx fidx
      (fun (s : CartesianStencil C × τ) => (Except.ok s : Except Assertion _)) := by
  constructor
  · intro s r h
    cases h
    exact ⟨Nat.le_refl _, FaceStep.refl_face _ _⟩
  · intro s r b h hp _ _
    cases h
    exact ⟨b, rfl, hp⟩

theorem SimStep.comp {C τ ρ σ : Type} (fin : τ → Nat) (fmid : ρ → Nat) (fout : σ → Nat)
    (f : CartesianStencil C × τ → Except Assertion (CartesianStencil C × ρ))
    (g : CartesianStencil C × ρ → Except Assertion (CartesianStencil C × σ))
    (hf : SimStep fin fmid f) (hg : SimStep fmid fout g) :
    SimStep fin fout (fun s => f s >>= g) := by
  constructor
  · intro s r h
    rw [bind_ok] at h
    obtain ⟨m, hm, hr⟩ := h
    obtain ⟨f1, f2⟩ := hf.1 s m hm
    obtain ⟨g1, g2⟩ := hg.1 m r hr
    exact ⟨Nat.le_trans f1 g1, f2.trans_face f1 g2⟩
  · intro s r b h hp hc hag
    rw [bind_ok] at h
    obtain ⟨m, hm, hr⟩ := h
    obtain ⟨f1, f2⟩ := hf.1 s m hm
    obtain ⟨g1, g2⟩ := hg.1 m r hr
    obtain ⟨bm, hbm, hpm⟩ := hf.2 s m b hm hp hc (fun idx h1 h2 => by
      rw [hag idx h1 (by omega), g2.2.2.1 idx h2])
    obtain ⟨_, fb⟩ := hf.1 (b, s.2) (bm, m.2) hbm
    have hcm : bm.face_table_computed ≠ 0 := by
      rw [fb.1]
      exact hc
    have hft : bm.face_table = b.face_table := fb.2.1 hc
    obtain ⟨b', hb', hp'⟩ := hg.2 m r bm hr hpm hcm (fun idx h1 h2 => by
      rw [hft]
      exact hag idx (by omega) h2)
    refine ⟨b', ?_, hp'⟩
    show (f (b, s.2) >>= g) = _
    rw [hbm]
    exact hb'

theorem SimStep.loop {C τ : Type} (fidx : τ → Nat) (n : Nat)
    (body : Nat → CartesianStencil C × τ → Except Assertion (CartesianStencil C × τ))
    (h : ∀ i, SimStep fidx fidx (body i)) : SimStep fidx fidx (forLoopM n body) := by
  induction n with
  | zero => exact SimStep.pure fidx
  | succ k ih => exact SimStep.comp fidx fidx fidx _ _ ih (h k)

theorem GatherPlane_simStep {V C : Type} (rhs : Lattice V) (dimension cbmask : Nat)
    (compress : Compressor V C) (point : Nat) (sshift : Int) (x : Nat) :
    SimStep (fun fi : Nat => fi) (fun fi : Nat => fi)
      (@GatherPlane V C rhs dimension cbmask compress point sshift x) := by
  constructor
  · intro s r h
    exact GatherPlane_inv rhs compress _ (faceStep_invariant rhs compress s.1 s.2) _ _ _ _ _
      s r h ⟨Nat.le_refl _, FaceStep.refl_face _ _⟩
  · intro s r b h hp _ _
    have hg : b._grid = s.1._grid := hp.proj (fun s => s._grid) (fun _ _ => rfl)
    unfold GatherPlane at h ⊢
    dsimp only at h ⊢
    rw [hg]
    split at h
    · rename_i hc
      simp only [assert_bind_ok, pure_ok] at h
      obtain ⟨h1, h2, hr⟩ := h
      obtain ⟨hsim, _, hfb⟩ := gatherOffnodePlane_sim rhs dimension cbmask compress point
        (cmod ((x : Int) + sshift) (s.1._grid._rdimensions dimension : Int))
        (cmod (cdiv ((x : Int) + sshift) (s.1._grid._rdimensions dimension : Int))
          (s.1._grid._processors dimension : Int)) s.1 b s.2 hp
      refine ⟨(gatherOffnodePlane rhs dimension cbmask compress point
        (cmod ((x : Int) + sshift) (s.1._grid._rdimensions dimension : Int))
        (cmod (cdiv ((x : Int) + sshift) (s.1._grid._rdimensions dimension : Int))
          (s.1._grid._processors dimension : Int)) (b, s.2)).1, ?_, ?_⟩
      · rw [if_pos hc]
        simp only [assert_bind_ok, pure_ok]
        refine ⟨h1, h2, ?_⟩
        rw [← hr]
        exact Prod.ext rfl hfb
      · rw [← hr]
        exact hsim
    · rename_i hc
      rw [pure_ok] at h
      rw [if_neg hc, ← h]
      exact ⟨b, rfl, hp⟩

theorem Gather_simStep {V C : Type} (rhs : Lattice V) (dimension : Nat) (shift : Int)
    (cbmask : Nat) (compress : Compressor V C) (point : Nat) :
    SimStep (fun fi : Nat => fi) (fun r : Nat × Int => r.1)
      (fun s : CartesianStencil C × Nat =>
        Gather s.1 rhs dimension shift cbmask compress s.2 point) := by
  constructor
  · intro s r h
    exact Gather_inv rhs compress _ (faceStep_invariant rhs compress s.1 s.2) _ _ _ _ _ _
      r h ⟨Nat.le_refl _, FaceStep.refl_face _ _⟩
  · intro s r b h hp hc hag
    have hg : b._grid = s.1._grid := hp.proj (fun s => s._grid) (fun _ _ => rfl)
    dsimp only at h ⊢
    unfold Gather at h ⊢
    simp only [bind_ok, assert_ok, pure_ok, exists_and_left, exists_const] at h
    obtain ⟨h1, h2, h3, h4, a, ha, hr⟩ := h
    have hloop := SimStep.loop (fun fi : Nat => fi) (s.1._grid._rdimensions dimension)
      (GatherPlane rhs dimension cbmask compress point
        (s.1._grid.CheckerBoardShiftForCB rhs.Checkerboard dimension shift
          (if cbmask = 2 then Odd else Even)))
      (fun i => GatherPlane_simStep rhs dimension cbmask compress point _ i)
    obtain ⟨b', hb', hp'⟩ := hloop.2 (s.1, s.2) a b ha hp hc (fun idx i1 i2 => by
      rw [hag idx i1 (by rw [← hr]; exact i2), ← hr])
    refine ⟨b', ?_, by rw [← hr]; exact hp'⟩
    dsimp only
    rw [hg]
    simp only [bind_ok, assert_ok, pure_ok, exists_and_left, exists_const]
    exact ⟨h1, h2, h3, h4, (b', a.2), hb', by rw [← hr]⟩

theorem gatherSimdLaneBody_sim {C : Type} (dimension cbmask point : Nat)
    (sx nbr_proc nbr_plane : Int) (comm_off : Nat) (bytes : Int) (i : Nat)
    (a b : CartesianStencil C) (rp : List Pointer) (hp : SamePlan a b) :
    SamePlan
      (gatherSimdLaneBody dimension cbmask point sx nbr_proc nbr_plane comm_off bytes i
        (a, rp)).1
      (gatherSimdLaneBody dimension cbmask point sx nbr_proc nbr_plane comm_off bytes i
        (b, rp)).1
    ∧ (gatherSimdLaneBody dimension cbmask point sx nbr_proc nbr_plane comm_off bytes i
        (b, rp)).2
      = (gatherSimdLaneBody dimension cbmask point sx nbr_proc nbr_plane comm_off bytes i
        (a, rp)).2 := by
  have hg : b._grid = a._grid := hp.proj (fun s => s._grid) (fun _ _ => rfl)
  have hs : b._comms_send = a._comms_send := hp.proj (fun s => s._comms_send) (fun _ _ => rfl)
  have hr : b._comms_recv = a._comms_recv := hp.proj (fun s => s._comms_recv) (fun _ _ => rfl)
  unfold gatherSimdLaneBody
  dsimp only
  rw [hg, hs, hr]
  unfold SamePlan at hp
  split
  · refine ⟨?_, rfl⟩
    dsimp only
    rw [hp, queueTransfer_withScratch]
    exact SamePlan.intro _ _
  · refine ⟨?_, rfl⟩
    dsimp only
    rw [hp]
    exact SamePlan.intro _ _

theorem GatherSimdLane_simStep {C : Type} (dimension cbmask point : Nat) (sshift : Int)
    (x : Nat) (sx : Int) (comm_off : Nat) (bytes : Int) (i : Nat) :
    SimStep (fun _ : List Pointer => 0) (fun _ : List Pointer => 0)
      (@GatherSimdLane C dimension cbmask point sshift x sx comm_off bytes i) := by
  constructor
  · intro s r h
    exact ⟨Nat.le_refl _, GatherSimdLane_faceStep _ _ _ _ _ _ _ _ _ s r 0 h⟩
  · intro s r b h hp _ _
    have hg : b._grid = s.1._grid := hp.proj (fun s => s._grid) (fun _ _ => rfl)
    unfold GatherSimdLane at h ⊢
    simp only [bind_ok, assert_ok, pure_ok, exists_and_left, exists_const] at h ⊢
    obtain ⟨h1, h2⟩ := h
    rw [hg]
    obtain ⟨k1, k2⟩ := gatherSimdLaneBody_sim dimension cbmask point sx
        (cmod (cdiv ((s.1._grid._rdimensions dimension : Int) * (i : Int) + (x : Int) + sshift)
          (s.1._grid._ldimensions dimension : Int)) (s.1._grid._processors dimension : Int))
        (cdiv (cmod ((s.1._grid._rdimensions dimension : Int) * (i : Int) + (x : Int) + sshift)
          (s.1._grid._ldimensions dimension : Int)) (s.1._grid._rdimensions dimension : Int))
        comm_off bytes i s.1 b s.2 hp
    refine ⟨_, ⟨h1, Prod.ext rfl ?_⟩, ?_⟩
    · rw [← h2]
      exact k2
    · rw [← h2]
      exact k1

theorem computeFaceTable_of_computed {C : Type} (st : CartesianStencil C) (dimension : Nat)
    (sx : Int) (cbmask comm_off fi : Nat) (h : st.face_table_computed ≠ 0) :
    computeFaceTable st dimension sx cbmask comm_off fi = st := by
  unfold computeFaceTable
  rw [if_neg h]

theorem Gather_plane_exchange_table_sim {V C : Type} (st r b : CartesianStencil C)
    (table : List (Nat × Nat)) (rhs : Lattice V) (p0 p1 : Pointer) (dimension : Nat)
    (plane : Int) (compress : Compressor V C) (point type : Nat)
    (h : Gather_plane_exchange_table st table rhs p0 p1 dimension plane compress point type
          = .ok r) :
    ∃ b', Gather_plane_exchange_table b table rhs p0 p1 dimension plane compress point type
          = .ok b' := by
  unfold Gather_plane_exchange_table at h ⊢
  rw [assert_bind_ok] at h
  exact ⟨_, by rw [assert_bind_ok]; exact ⟨h.1, rfl⟩⟩

theorem gatherSimdSendBlock_samePlan_aux {V C : Type} (a a1 : CartesianStencil C)
    (rhs : Lattice V) (dimension cbmask : Nat) (compress : Compressor V C) (point : Nat)
    (sx : Int) (comm_off fi : Nat)
    (h : gatherSimdSendBlock a rhs dimension cbmask compress point sx comm_off fi = .ok a1) :
    SamePlan a a1 := by
  unfold gatherSimdSendBlock at h
  dsimp only at h
  split at h
  · exact ((computeFaceTable_samePlan a dimension sx cbmask comm_off fi).trans_plan
      (emit_samePlan _ _)).trans_plan (Gather_plane_exchange_table_samePlan _ _ _ _ _ _ _ _ _ _ _ h)
  · rw [pure_ok] at h
    rw [← h]
    exact computeFaceTable_samePlan _ _ _ _ _ _

theorem gatherSimdSendBlock_sim {V C : Type} (a a1 b : CartesianStencil C) (rhs : Lattice V)
    (dimension cbmask : Nat) (compress : Compressor V C) (point : Nat) (sx : Int)
    (comm_off fi : Nat)
    (h : gatherSimdSendBlock a rhs dimension cbmask compress point sx comm_off fi = .ok a1)
    (hp : SamePlan a b) (hc : b.face_table_computed ≠ 0)
    (hag : b.face_table.getD fi [] = a1.face_table.getD fi []) :
    ∃ b1, gatherSimdSendBlock b rhs dimension cbmask compress point sx comm_off fi = .ok b1
      ∧ SamePlan a1 b1 := by
  have hg : b._grid = a._grid := hp.proj (fun s => s._grid) (fun _ _ => rfl)
  have hs : b._comms_send = a._comms_send := hp.proj (fun s => s._comms_send) (fun _ _ => rfl)
  have hcs : (computeFaceTable a dimension sx cbmask comm_off fi)._comms_send = a._comms_send :=
    (computeFaceTable_samePlan a dimension sx cbmask comm_off fi).proj
      (fun s => s._comms_send) (fun _ _ => rfl)
  have ha1 := gatherSimdSendBlock_samePlan_aux a a1 rhs dimension cbmask compress point sx
    comm_off fi h
  unfold gatherSimdSendBlock at h ⊢
  dsimp only at h ⊢
  rw [computeFaceTable_of_computed b dimension sx cbmask comm_off fi hc, hs, hg]
  rw [hcs] at h
  by_cases hsend : truthy (a._comms_send point) = true
  · rw [if_pos hsend] at h ⊢
    have hfs := Gather_plane_exchange_table_faceStep _ _ _ _ _ _ _ _ _ _ _ (fi + 1)
      (Or.inr ⟨0, rfl⟩) (Or.inr ⟨1, rfl⟩) h
    have htab : b.face_table.getD fi []
        = (computeFaceTable a dimension sx cbmask comm_off fi).face_table.getD fi [] := by
      rw [hag, hfs.2.2.1 fi (Nat.lt_succ_self _)]
      rfl
    have htab' : (emit b (Event.Gather_plane_exchange_table fi
          ⟨Buffer.u_simd_send_buf 0, comm_off⟩ ⟨Buffer.u_simd_send_buf 1, comm_off⟩ dimension sx
          cbmask (a._grid.PermuteType dimension))).face_table.getD fi []
        = (emit (computeFaceTable a dimension sx cbmask comm_off fi)
            (Event.Gather_plane_exchange_table fi
              ⟨Buffer.u_simd_send_buf 0, comm_off⟩ ⟨Buffer.u_simd_send_buf 1, comm_off⟩
              dimension sx cbmask (a._grid.PermuteType dimension))).face_table.getD fi [] :=
      htab
    rw [htab']
    obtain ⟨b1, hb1⟩ := Gather_plane_exchange_table_sim _ _
      (emit b (Event.Gather_plane_exchange_table fi
          ⟨Buffer.u_simd_send_buf 0, comm_off⟩ ⟨Buffer.u_simd_send_buf 1, comm_off⟩ dimension sx
          cbmask (a._grid.PermuteType dimension))) _ _ _ _ _ _ _ _ _ h
    refine ⟨b1, hb1, ?_⟩
    exact ha1.symm_plan.trans_plan (hp.trans_plan ((emit_samePlan _ _).trans_plan
      (Gather_plane_exchange_table_samePlan _ _ _ _ _ _ _ _ _ _ _ hb1)))
  · rw [if_neg hsend] at h ⊢
    rw [pure_ok] at h
    exact ⟨b, rfl, ha1.symm_plan.trans_plan hp⟩

theorem GatherSimdPlane_simStep {V C : Type} (rhs : Lattice V) (dimension cbmask : Nat)
    (compress : Compressor V C) (point : Nat) (sshift bytes : Int)
    (reduced_buffer_size x : Nat) :
    SimStep (fun t : Nat × List Pointer => t.1) (fun t : Nat × List Pointer => t.1)
      (@GatherSimdPlane V C rhs dimension cbmask compress point sshift bytes
        reduced_buffer_size x) := by
  constructor
  · intro s r h
    exact GatherSimdPlane_faceStep rhs dimension cbmask compress point sshift bytes
      reduced_buffer_size x s r h
  · intro s r b h hp hc hag
    have hg : b._grid = s.1._grid := hp.proj (fun s => s._grid) (fun _ _ => rfl)
    have ho : b.u_comm_offset = s.1.u_comm_offset :=
      hp.proj (fun s => s.u_comm_offset) (fun _ _ => rfl)
    unfold GatherSimdPlane at h ⊢
    dsimp only at h ⊢
    rw [hg, ho]
    split at h
    · rename_i hoff
      rw [if_pos hoff]
      simp only [bind_ok, pure_ok] at h ⊢
      obtain ⟨a1, ha1, q, hq, hr⟩ := h
      have hlanes : FaceStep a1 (s.2.1 + 1) q.1 :=
        forLoopM_invariant
          (fun _ (p : CartesianStencil C × List Pointer) => FaceStep a1 (s.2.1 + 1) p.1)
          _ _ (a1, s.2.2) q hq (FaceStep.refl_face _ _)
          (fun i p p' _ hp1 hp2 => hp1.trans_face (Nat.le_refl _)
            (GatherSimdLane_faceStep _ _ _ _ _ _ _ _ _ _ _ _ hp2))
      have htab : b.face_table.getD s.2.1 [] = a1.face_table.getD s.2.1 [] := by
        rw [hag s.2.1 (Nat.le_refl _) (by rw [← hr]; exact Nat.lt_succ_self _), ← hr]
        exact hlanes.2.2.1 s.2.1 (Nat.lt_succ_self _)
      obtain ⟨b1, hb1, hp1⟩ := gatherSimdSendBlock_sim s.1 a1 b rhs dimension cbmask compress
        point _ _ s.2.1 ha1 hp hc htab
      have hc1 : b1.face_table_computed ≠ 0 := by
        rw [(gatherSimdSendBlock_faceStep _ _ _ _ _ _ _ _ _ s.2.1 hb1).1]
        exact hc
      have hloop := SimStep.loop (fun _ : List Pointer => 0) 2
        (@GatherSimdLane C dimension cbmask point sshift x
          (cmod ((x : Int) + sshift) (s.1._grid._rdimensions dimension : Int))
          s.1.u_comm_offset bytes)
        (fun i => GatherSimdLane_simStep dimension cbmask point sshift x _ _ bytes i)
      obtain ⟨b2, hb2, hp2⟩ := hloop.2 (a1, s.2.2) q b1 hq hp1 hc1
        (fun idx _ h2 => absurd h2 (Nat.not_lt_zero _))
      refine ⟨advanceOffset (AddMerge b2 ⟨Buffer.u_recv_buf, s.1.u_comm_offset⟩ q.2
        reduced_buffer_size (s.1._grid.PermuteType dimension))
        (s.1._grid._slice_nblock dimension * s.1._grid._slice_block dimension),
        ⟨b1, hb1, (b2, q.2), hb2, ?_⟩, ?_⟩
      · rw [← hr]
      · rw [← hr]
        exact SamePlan.congr hp2
          (fun st => advanceOffset (AddMerge st ⟨Buffer.u_recv_buf, s.1.u_comm_offset⟩ q.2
            reduced_buffer_size (s.1._grid.PermuteType dimension))
            (s.1._grid._slice_nblock dimension * s.1._grid._slice_block dimension))
          (fun _ _ => rfl)
    · rename_i hoff
      rw [if_neg hoff]
      rw [pure_ok] at h
      rw [← h]
      exact ⟨b, rfl, hp⟩

theorem GatherSimd_simStep {V C : Type} (rhs : Lattice V) (dimension : Nat) (shift : Int)
    (cbmask : Nat) (compress : Compressor V C) (point : Nat) :
    SimStep (fun fi : Nat => fi) (fun r : Nat × Int => r.1)
      (fun s : CartesianStencil C × Nat =>
        GatherSimd s.1 rhs dimension shift cbmask compress s.2 point) := by
  constructor
  · intro s r h
    exact GatherSimd_inv rhs compress _ (faceStep_invariant rhs compress s.1 s.2) _ _ _ _ _ _
      r h ⟨Nat.le_refl _, FaceStep.refl_face _ _⟩
  · intro s r b h hp hc hag
    have hg : b._grid = s.1._grid := hp.proj (fun s => s._grid) (fun _ _ => rfl)
    dsimp only at h ⊢
    unfold GatherSimd at h ⊢
    simp only [bind_ok, assert_ok, pure_ok, exists_and_left, exists_const] at h
    obtain ⟨h1, h2, h3, h4, h5, h6, a, ha, hr⟩ := h
    have hloop := SimStep.loop (fun t : Nat × List Pointer => t.1)
      (s.1._grid._rdimensions dimension)
      (@GatherSimdPlane V C rhs dimension cbmask compress point
        (s.1._grid.CheckerBoardShiftForCB rhs.Checkerboard dimension shift
          (if cbmask = 2 then Odd else Even))
        (cdiv (((if cbmask ≠ 3 then
            (s.1._grid._slice_nblock dimension * s.1._grid._slice_block dimension) >>> 1
          else s.1._grid._slice_nblock dimension * s.1._grid._slice_block dimension : Nat) : Int)
          * compress.CommDatumSize) (s.1._grid._simd_layout dimension : Int))
        (if cbmask ≠ 3 then
            (s.1._grid._slice_nblock dimension * s.1._grid._slice_block dimension) >>> 1
          else s.1._grid._slice_nblock dimension * s.1._grid._slice_block dimension))
      (fun i => GatherSimdPlane_simStep rhs dimension cbmask compress point _ _ _ i)
    obtain ⟨b', hb', hp'⟩ := hloop.2 (s.1, s.2, _) a b ha hp hc (fun idx i1 i2 => by
      rw [hag idx i1 (by rw [← hr]; exact i2), ← hr])
    refine ⟨b', ?_, by rw [← hr]; exact hp'⟩
    dsimp only
    rw [hg]
    simp only [bind_ok, assert_ok, pure_ok, exists_and_left, exists_const]
    exact ⟨h1, h2, h3, h4, h5, h6, (b', a.2), hb', by rw [← hr]⟩

theorem onePass_simStep {C : Type}
    (G : CartesianStencil C → Nat → Except Assertion (CartesianStencil C × Nat × Int))
    (hG : SimStep (fun fi : Nat => fi) (fun r : Nat × Int => r.1)
      (fun s : CartesianStencil C × Nat => G s.1 s.2))
    (k : Int → Int) :
    SimStep (fun fi : Nat => fi) (fun r : Nat × Int => r.1)
      (fun s : CartesianStencil C × Nat =>
        G s.1 s.2 >>= fun r => pure (r.1, r.2.1, k r.2.2)) := by
  constructor
  · intro s r h
    simp only [bind_ok, pure_ok] at h
    obtain ⟨a, ha, hr⟩ := h
    rw [← hr]
    exact hG.1 s a ha
  · intro s r b h hp hc hag
    simp only [bind_ok, pure_ok] at h
    obtain ⟨a, ha, hr⟩ := h
    obtain ⟨b', hb', hp'⟩ := hG.2 s a b ha hp hc (fun idx i1 i2 => by
      rw [hag idx i1 (by rw [← hr]; exact i2), ← hr])
    refine ⟨b', ?_, by rw [← hr]; exact hp'⟩
    simp only [bind_ok, pure_ok]
    exact ⟨(b', a.2), hb', by rw [← hr]⟩

theorem twoPass_simStep {C : Type}
    (G1 G2 : CartesianStencil C → Nat → Except Assertion (CartesianStencil C × Nat × Int))
    (hG1 : SimStep (fun fi : Nat => fi) (fun r : Nat × Int => r.1)
      (fun s : CartesianStencil C × Nat => G1 s.1 s.2))
    (hG2 : SimStep (fun fi : Nat => fi) (fun r : Nat × Int => r.1)
      (fun s : CartesianStencil C × Nat => G2 s.1 s.2))
    (k : Int → Int → Int) :
    SimStep (fun fi : Nat => fi) (fun r : Nat × Int => r.1)
      (fun s : CartesianStencil C × Nat =>
        G1 s.1 s.2 >>= fun r1 => G2 r1.1 r1.2.1 >>= fun r2 =>
          pure (r2.1, r2.2.1, k r1.2.2 r2.2.2)) := by
  constructor
  · intro s r h
    simp only [bind_ok, pure_ok] at h
    obtain ⟨a1, ha1, a2, ha2, hr⟩ := h
    rw [← hr]
    obtain ⟨f1, f2⟩ := hG1.1 s a1 ha1
    obtain ⟨g1, g2⟩ := hG2.1 (a1.1, a1.2.1) a2 ha2
    exact ⟨Nat.le_trans f1 g1, f2.trans_face f1 g2⟩
  · intro s r b h hp hc hag
    simp only [bind_ok, pure_ok] at h
    obtain ⟨a1, ha1, a2, ha2, hr⟩ := h
    obtain ⟨f1, f2⟩ := hG1.1 s a1 ha1
    obtain ⟨g1, g2⟩ := hG2.1 (a1.1, a1.2.1) a2 ha2
    have hag' : ∀ idx, s.2 ≤ idx → idx < a2.2.1 →
        b.face_table.getD idx [] = a2.1.face_table.getD idx [] := by
      intro idx i1 i2
      rw [hag idx i1 (by rw [← hr]; exact i2), ← hr]
    obtain ⟨b1, hb1, hp1⟩ := hG1.2 s a1 b ha1 hp hc (fun idx i1 i2 => by
      rw [hag' idx i1 (Nat.lt_of_lt_of_le i2 g1), g2.2.2.1 idx i2])
    obtain ⟨_, fb⟩ := hG1.1 (b, s.2) (b1, a1.2) hb1
    have hc1 : b1.face_table_computed ≠ 0 := by
      rw [fb.1]
      exact hc
    have hft : b1.face_table = b.face_table := fb.2.1 hc
    obtain ⟨b2, hb2, hp2⟩ := hG2.2 (a1.1, a1.2.1) a2 b1 ha2 hp1 hc1 (fun idx i1 i2 => by
      rw [hft]
      exact hag' idx (Nat.le_trans f1 i1) i2)
    refine ⟨b2, ?_, by rw [← hr]; exact hp2⟩
    simp only [bind_ok, pure_ok]
    exact ⟨(b1, a1.2), hb1, (b2, a2.2), hb2, by rw [← hr]⟩

theorem HaloGatherComm_simStep {V C : Type} (source : Lattice V) (compress : Compressor V C)
    (point dimension : Nat) (shift : Int) :
    SimStep (fun fi : Nat => fi) (fun r : Nat × Int => r.1)
      (fun s : CartesianStencil C × Nat =>
        HaloGatherComm s.1 source compress point s.2 dimension shift) := by
  have h1 := fun cbmask => @Gather_simStep V C source dimension shift cbmask compress point
  have h2 := fun cbmask =>
    @GatherSimd_simStep V C source dimension shift cbmask compress point
  constructor
  · intro s r h
    exact HaloGatherComm_inv source compress _ (faceStep_invariant source compress s.1 s.2)
      _ _ _ _ _ r h ⟨Nat.le_refl _, FaceStep.refl_face _ _⟩
  · intro s r b h hp hc hag
    have hg : b._grid = s.1._grid := hp.proj (fun s => s._grid) (fun _ _ => rfl)
    have hk : b._checkerboard = s.1._checkerboard :=
      hp.proj (fun s => s._checkerboard) (fun _ _ => rfl)
    unfold HaloGatherComm at h ⊢
    dsimp only at h ⊢
    rw [hg, hk]
    split at h
    · rename_i c1
      rw [if_pos c1]
      split at h
      · rename_i c2
        rw [if_pos c2]
        exact (onePass_simStep
          (fun st fi => GatherSimd st source dimension shift 3 compress fi point) (h2 3)
          (fun f => ofBool (truthy 1 && truthy f))).2 s r b h hp hc hag
      · rename_i c2
        rw [if_neg c2]
        exact (onePass_simStep
          (fun st fi => Gather st source dimension shift 3 compress fi point) (h1 3)
          (fun f => ofBool (truthy 1 && truthy f))).2 s r b h hp hc hag
    · rename_i c1
      rw [if_neg c1]
      split at h
      · rename_i c2
        rw [if_pos c2]
        exact (twoPass_simStep
          (fun st fi => GatherSimd st source dimension shift 1 compress fi point)
          (fun st fi => GatherSimd st source dimension shift 2 compress fi point) (h2 1) (h2 2)
          (fun f1 f2 => ofBool (truthy 1 && truthy f1 && truthy f2))).2 s r b h hp hc hag
      · rename_i c2
        rw [if_neg c2]
        exact (twoPass_simStep
          (fun st fi => Gather st source dimension shift 1 compress fi point)
          (fun st fi => Gather st source dimension shift 2 compress fi point) (h1 1) (h1 2)
          (fun f1 f2 => ofBool (truthy 1 && truthy f1 && truthy f2))).2 s r b h hp hc hag

theorem HaloGatherDir_simStep {V C : Type} (source : Lattice V) (compress : Compressor V C)
    (point : Nat) :
    SimStep (fun fi : Nat => fi) (fun r : Nat × Int => r.1)
      (fun s : CartesianStencil C × Nat => HaloGatherDir s.1 source compress point s.2) := by
  constructor
  · intro s r h
    exact HaloGatherDir_inv source compress _ (faceStep_invariant source compress s.1 s.2)
      _ _ _ r h ⟨Nat.le_refl _, FaceStep.refl_face _ _⟩
  · intro s r b h hp hc hag
    have hg : b._grid = s.1._grid := hp.proj (fun s => s._grid) (fun _ _ => rfl)
    have hk : b._checkerboard = s.1._checkerboard :=
      hp.proj (fun s => s._checkerboard) (fun _ _ => rfl)
    have hd : b._directions = s.1._directions :=
      hp.proj (fun s => s._directions) (fun _ _ => rfl)
    have hx : b._distances = s.1._distances :=
      hp.proj (fun s => s._distances) (fun _ _ => rfl)
    dsimp only at h ⊢
    unfold HaloGatherDir at h ⊢
    simp only [bind_ok, assert_ok, exists_and_left, exists_const] at h ⊢
    rw [hg, hk, hd, hx]
    obtain ⟨h1, h⟩ := h
    split at h
    · rename_i c
      obtain ⟨b', hb', hp'⟩ := (HaloGatherComm_simStep source compress point
        (s.1._directions.getD point 0)
        (cmod (s.1._distances.getD point 0
            + (s.1._grid._fdimensions (s.1._directions.getD point 0) : Int))
          (s.1._grid._fdimensions (s.1._directions.getD point 0) : Int))).2 s r b h hp hc hag
      refine ⟨b', ⟨h1, ?_⟩, hp'⟩
      rw [if_pos c]
      exact hb'
    · rename_i c
      rw [pure_ok] at h
      refine ⟨b, ⟨h1, ?_⟩, by rw [← h]; exact hp⟩
      rw [if_neg c, pure_ok, ← h]

theorem HaloGatherPoint_simStep {V C : Type} (source : Lattice V) (compress : Compressor V C)
    (point : Nat) :
    SimStep (fun fi : Nat => fi) (fun fi : Nat => fi)
      (@HaloGatherPoint V C source compress point) := by
  constructor
  · intro s r h
    exact HaloGatherPoint_inv source compress _ (faceStep_invariant source compress s.1 s.2)
      point s r h ⟨Nat.le_refl _, FaceStep.refl_face _ _⟩
  · intro s r b h hp hc hag
    unfold HaloGatherPoint at h ⊢
    simp only [bind_ok, pure_ok] at h ⊢
    obtain ⟨a, ha, hr⟩ := h
    obtain ⟨b', hb', hp'⟩ := (HaloGatherDir_simStep source compress point).2
      (emit s.1 (Event.Point point), s.2) a (emit b (Event.Point point)) ha
      ((emit_samePlan s.1 (Event.Point point)).symm_plan.trans_plan
        (hp.trans_plan (emit_samePlan b (Event.Point point))))
      hc (fun idx i1 i2 => by
        rw [← hr] at hag
        exact hag idx i1 i2)
    exact ⟨b', ⟨(b', a.2), hb', by rw [← hr]⟩, by rw [← hr]; exact hp'⟩

theorem HaloGatherPoints_simStep {V C : Type} (source : Lattice V) (compress : Compressor V C)
    (n : Nat) :
    SimStep (fun fi : Nat => fi) (fun fi : Nat => fi)
      (forLoopM n (@HaloGatherPoint V C source compress)) :=
  SimStep.loop _ n _ (fun i => HaloGatherPoint_simStep source compress i)

/-! ## What an exchange leaves of the stencil -/

theorem SameStatic.refl_static {C : Type} (a : CartesianStencil C) : SameStatic a a :=
  SamePlan.refl_plan _

theorem SameStatic.trans_static {C : Type} {a b c : CartesianStencil C} (h1 : SameStatic a b)
    (h2 : SameStatic b c) : SameStatic a c :=
  SamePlan.trans_plan h1 h2

theorem SameStatic.symm_static {C : Type} {a b : CartesianStencil C} (h : SameStatic a b) :
    SameStatic b a :=
  SamePlan.symm_plan h

theorem SamePlan.toStatic {C : Type} {a b : CartesianStencil C} (h : SamePlan a b) :
    SameStatic a b :=
  SamePlan.congr h (fun s => s.cleared) (fun _ _ => rfl)

theorem queueTransfer_static {C : Type} (s : CartesianStencil C) (a b c : Int)
    (send recv : Pointer) (l y m : Int) (to_rank : Nat) (cs : Int) (f : Nat) (cr : Int) :
    SameStatic s (queueTransfer s a b c send recv l y m to_rank cs f cr) := by
  unfold queueTransfer CheckForDuplicate
  dsimp only
  cases findTransfer a b c y l m s.CachedTransfers with
  | none => exact SamePlan.refl_plan _
  | some t => exact SamePlan.refl_plan _

theorem queueDecompress_static {V C : Type} (s : CartesianStencil C)
    (compress : Compressor V C) (cr : Int) (recv_buf : Buffer) (comm_off words : Nat) :
    SameStatic s (queueDecompress s compress cr recv_buf comm_off words) := by
  unfold queueDecompress
  split <;> exact SamePlan.refl_plan _

theorem gatherOffnodePlane_static {V C : Type} (rhs : Lattice V) (dimension cbmask : Nat)
    (compress : Compressor V C) (point : Nat) (sx comm_proc : Int)
    (s : CartesianStencil C × Nat) :
    SameStatic s.1 (gatherOffnodePlane rhs dimension cbmask compress point sx comm_proc s).1 := by
  unfold gatherOffnodePlane
  dsimp only
  exact (((gatherSendBlock_samePlan _ _ _ _ _ _ _ _ _ _).1.toStatic.trans_static
    (queueTransfer_static _ _ _ _ _ _ _ _ _ _ _ _ _)).trans_static
    (queueDecompress_static _ _ _ _ _ _)).trans_static (SamePlan.refl_plan _)

theorem GatherSimdPlane_static {V C : Type} (rhs : Lattice V) (dimension cbmask : Nat)
    (compress : Compressor V C) (point : Nat) (sshift bytes : Int)
    (reduced_buffer_size x : Nat) (s r : CartesianStencil C × Nat × List Pointer)
    (h : GatherSimdPlane rhs dimension cbmask compress point sshift bytes reduced_buffer_size x s
          = .ok r) : SameStatic s.1 r.1 := by
  unfold GatherSimdPlane at h
  dsimp only at h
  split at h
  · simp only [bind_ok, pure_ok] at h
    obtain ⟨a, ha, b, hb, hr⟩ := h
    rw [← hr]
    have h1 := (gatherSimdSendBlock_samePlan_aux _ _ _ _ _ _ _ _ _ _ ha).toStatic
    have h2 : SameStatic a b.1 :=
      forLoopM_invariant (fun _ (q : CartesianStencil C × List Pointer) => SameStatic a q.1)
        _ _ (a, s.2.2) b hb (SameStatic.refl_static _)
        (fun i p q _ hp hq => by
          unfold GatherSimdLane at hq
          simp only [bind_ok, assert_ok, pure_ok, exists_and_left, exists_const] at hq
          rw [← hq.2]
          unfold gatherSimdLaneBody
          dsimp only
          split
          · exact hp.trans_static (queueTransfer_static _ _ _ _ _ _ _ _ _ _ _ _ _)
          · exact hp)
    exact (h1.trans_static h2).trans_static (SamePlan.refl_plan _)
  · rw [pure_ok] at h
    rw [← h]
    exact SameStatic.refl_static _

theorem static_invariant {V C : Type} (source : Lattice V) (compress : Compressor V C)
    (a : CartesianStencil C) :
    GatherInvariant source compress (fun st _ => SameStatic a st) where
  point := fun _ _ _ h => h.trans_static (emit_samePlan _ _).toStatic
  face := fun st fj dimension cbmask point sx comm_proc h =>
    h.trans_static (gatherOffnodePlane_static source dimension cbmask compress point sx comm_proc
      (st, fj))
  simdPass := GatherSimd_planes source compress (fun st _ => SameStatic a st)
    (fun dimension cbmask point sshift bytes rbs x s r h hr =>
      h.trans_static (GatherSimdPlane_static source dimension cbmask compress point sshift bytes rbs x
        s r hr))

theorem OnlyBuffers.refl_buffers {C : Type} (a : CartesianStencil C) : OnlyBuffers a a :=
  ⟨SamePlan.refl_plan _, rfl, rfl⟩

theorem OnlyBuffers.trans_buffers {C : Type} {a b c : CartesianStencil C} (h1 : OnlyBuffers a b)
    (h2 : OnlyBuffers b c) : OnlyBuffers a c :=
  ⟨h1.1.trans_plan h2.1, h2.2.1.trans h1.2.1, h2.2.2.trans h1.2.2⟩

theorem emit_onlyBuffers {C : Type} (st : CartesianStencil C) (e : Event) :
    OnlyBuffers st (emit st e) := ⟨rfl, rfl, rfl⟩

theorem writeBuf_onlyBuffers {C : Type} (st : CartesianStencil C) (p : Pointer) (j : Nat)
    (v : C) : OnlyBuffers st (writeBuf st p j v) := by
  unfold writeBuf
  split <;> exact ⟨rfl, rfl, rfl⟩

theorem forLoop_onlyBuffers {C : Type} (n : Nat)
    (body : Nat → CartesianStencil C → CartesianStencil C) (a st : CartesianStencil C)
    (h0 : OnlyBuffers a st) (h : ∀ i b, OnlyBuffers b (body i b)) :
    OnlyBuffers a (forLoop n body st) :=
  forLoop_invariant (fun _ b => OnlyBuffers a b) n body st h0
    (fun i b _ hb => hb.trans_buffers (h i b))

theorem receivePacket_onlyBuffers {C : Type} (st : CartesianStencil C) (net : Transport C)
    (p : Packet) (dir : Nat) : OnlyBuffers st (receivePacket st net p dir) := by
  unfold receivePacket
  split
  · apply forLoop_onlyBuffers _ _ _ _ (OnlyBuffers.refl_buffers _)
    intro j a
    split
    · exact writeBuf_onlyBuffers _ _ _ _
    · exact OnlyBuffers.refl_buffers _
  · exact OnlyBuffers.refl_buffers _

theorem Communicate_onlyBuffers {C : Type} (st : CartesianStencil C) (net : Transport C) :
    OnlyBuffers st (Communicate st net) := by
  unfold Communicate
  dsimp only
  split
  · apply forLoop_onlyBuffers _ _ _ _ (emit_onlyBuffers st _)
    intro i a
    split
    · exact OnlyBuffers.refl_buffers _
    · exact (emit_onlyBuffers _ _).trans_buffers (receivePacket_onlyBuffers _ _ _ _)
  · unfold CommunicateComplete CommunicateBegin
    apply forLoop_onlyBuffers
    · apply forLoop_onlyBuffers _ _ _ _ (emit_onlyBuffers st _)
      intro i a
      split
      · exact OnlyBuffers.refl_buffers _
      · exact emit_onlyBuffers _ _
    · intro i a
      split
      · exact OnlyBuffers.refl_buffers _
      · exact (emit_onlyBuffers _ _).trans_buffers (receivePacket_onlyBuffers _ _ _ _)

theorem CommsCopy_onlyBuffers {C : Type} (a st : CartesianStencil C) (h0 : OnlyBuffers a st) :
    OnlyBuffers a (CommsCopy st) := by
  unfold CommsCopy
  apply forLoop_onlyBuffers _ _ _ _ h0
  intro i a
  split
  · exact OnlyBuffers.refl_buffers _
  · apply forLoop_onlyBuffers _ _ _ _ (OnlyBuffers.refl_buffers _)
    intro j b
    dsimp only
    split
    · exact (emit_onlyBuffers _ _).trans_buffers (writeBuf_onlyBuffers _ _ _ _)
    · exact emit_onlyBuffers _ _

theorem CommsMergeLists_onlyBuffers {C : Type} (a st : CartesianStencil C) (mm : List Merge)
    (dd : List Decompress) (h0 : OnlyBuffers a st) :
    OnlyBuffers a (CommsMergeLists st mm dd) := by
  unfold CommsMergeLists
  dsimp only
  apply forLoop_onlyBuffers
  · apply forLoop_onlyBuffers _ _ _ _ h0
    intro i a
    split
    · exact OnlyBuffers.refl_buffers _
    · apply forLoop_onlyBuffers _ _ _ _ (OnlyBuffers.refl_buffers _)
      intro o b
      exact emit_onlyBuffers _ _
  · intro i a
    split
    · exact OnlyBuffers.refl_buffers _
    · apply forLoop_onlyBuffers _ _ _ _ (OnlyBuffers.refl_buffers _)
      intro o b
      exact emit_onlyBuffers _ _

theorem CommsMergeSHM_onlyBuffers {C : Type} (st : CartesianStencil C) :
    OnlyBuffers st (CommsMergeSHM st) := by
  unfold CommsMergeSHM
  dsimp only
  exact CommsMergeLists_onlyBuffers _ _ _ _ ((emit_onlyBuffers st _).trans_buffers (emit_onlyBuffers _ _))

theorem CommsMerge_onlyBuffers {C : Type} (st : CartesianStencil C) :
    OnlyBuffers st (CommsMerge st) := by
  unfold CommsMerge
  dsimp only
  exact CommsMergeLists_onlyBuffers _ _ _ _ (CommsCopy_onlyBuffers _ _ (emit_onlyBuffers st _))

theorem HaloGather_parts {V C : Type} (a g : CartesianStencil C) (source : Lattice V)
    (compress : Compressor V C) (h : HaloGather a source compress = .ok g) :
    ∃ s : CartesianStencil C × Nat,
      forLoopM a._npoints (HaloGatherPoint source compress)
        (resetOffset (emit (emit a (Event.call Step.HaloGather)) Event.StencilBarrier), 0)
        = .ok s
      ∧ (s.1.u_comm_offset == s.1._unified_buffer_size) = true
      ∧ g = emit (setFaceTableComputed s.1) Event.accelerator_barrier := by
  unfold HaloGather at h
  simp only [bind_ok, assert_ok, pure_ok, exists_and_left, exists_const] at h
  obtain ⟨s, hs, hassert, hg⟩ := h
  exact ⟨s, hs, hassert, hg.symm⟩

theorem HaloGather_of_parts {V C : Type} (a : CartesianStencil C) (source : Lattice V)
    (compress : Compressor V C) (s : CartesianStencil C × Nat)
    (hs : forLoopM a._npoints (HaloGatherPoint source compress)
        (resetOffset (emit (emit a (Event.call Step.HaloGather)) Event.StencilBarrier), 0)
        = .ok s)
    (hassert : (s.1.u_comm_offset == s.1._unified_buffer_size) = true) :
    HaloGather a source compress
      = .ok (emit (setFaceTableComputed s.1) Event.accelerator_barrier) := by
  unfold HaloGather
  simp only [bind_ok, assert_ok, pure_ok, exists_and_left, exists_const]
  exact ⟨s, hs, hassert, rfl⟩

theorem HaloGather_static {V C : Type} (a g : CartesianStencil C) (source : Lattice V)
    (compress : Compressor V C) (h : HaloGather a source compress = .ok g) :
    SameStatic a g := by
  obtain ⟨s, hs, _, hg⟩ := HaloGather_parts a g source compress h
  have h1 : SameStatic
      (resetOffset (emit (emit a (Event.call Step.HaloGather)) Event.StencilBarrier)) s.1 :=
    HaloGatherPoints_inv source compress
      (fun st _ => SameStatic
        (resetOffset (emit (emit a (Event.call Step.HaloGather)) Event.StencilBarrier)) st)
      (static_invariant source compress
        (resetOffset (emit (emit a (Event.call Step.HaloGather)) Event.StencilBarrier)))
      a._npoints
      (resetOffset (emit (emit a (Event.call Step.HaloGather)) Event.StencilBarrier), 0) s hs
      (SameStatic.refl_static _)
  have h0 : SameStatic a
      (resetOffset (emit (emit a (Event.call Step.HaloGather)) Event.StencilBarrier)) := by
    unfold SameStatic SamePlan
    rfl
  have h2 : SameStatic s.1 g := by
    rw [hg]
    unfold SameStatic SamePlan
    rfl
  exact (h0.trans_static h1).trans_static h2

theorem HaloGather_second {V C : Type} (a g1 b : CartesianStencil C) (source : Lattice V)
    (compress : Compressor V C) (h : HaloGather a source compress = .ok g1)
    (hab : SamePlan (resetOffset a) (resetOffset b)) (hc : b.face_table_computed ≠ 0)
    (hft : b.face_table = g1.face_table) :
    ∃ g2, HaloGather b source compress = .ok g2 ∧ SamePlan g1 g2
      ∧ g2.u_recv_buf = b.u_recv_buf ∧ g2.u_simd_recv_buf = b.u_simd_recv_buf
      ∧ g2.face_table = b.face_table ∧ g2.face_table_computed = 1 := by
  obtain ⟨s, hs, hassert, hg⟩ := HaloGather_parts a g1 source compress h
  have hn : b._npoints = a._npoints :=
    hab.proj (fun s => s._npoints) (fun _ _ => rfl)
  have hp0 : SamePlan
      (resetOffset (emit (emit a (Event.call Step.HaloGather)) Event.StencilBarrier))
      (resetOffset (emit (emit b (Event.call Step.HaloGather)) Event.StencilBarrier)) := by
    have h1 : SamePlan (resetOffset a)
        (resetOffset (emit (emit a (Event.call Step.HaloGather)) Event.StencilBarrier)) := rfl
    have h2 : SamePlan (resetOffset b)
        (resetOffset (emit (emit b (Event.call Step.HaloGather)) Event.StencilBarrier)) := rfl
    exact h1.symm_plan.trans_plan (hab.trans_plan h2)
  have hsim := HaloGatherPoints_simStep source compress a._npoints
  obtain ⟨bL, hbL, hpL⟩ := hsim.2 _ s
    (resetOffset (emit (emit b (Event.call Step.HaloGather)) Event.StencilBarrier)) hs hp0 hc
    (fun idx _ _ => by
      show b.face_table.getD idx [] = _
      rw [hft, hg]
      rfl)
  obtain ⟨_, hfr⟩ := hsim.1 _ (bL, s.2) hbL
  have ho : bL.u_comm_offset = s.1.u_comm_offset :=
    hpL.proj (fun s => s.u_comm_offset) (fun _ _ => rfl)
  have hu : bL._unified_buffer_size = s.1._unified_buffer_size :=
    hpL.proj (fun s => s._unified_buffer_size) (fun _ _ => rfl)
  refine ⟨emit (setFaceTableComputed bL) Event.accelerator_barrier, ?_, ?_, hfr.2.2.2.1,
    hfr.2.2.2.2, hfr.2.1 hc, rfl⟩
  · have := HaloGather_of_parts b source compress (bL, s.2) (by rw [hn]; exact hbL)
      (by
        show (bL.u_comm_offset == bL._unified_buffer_size) = true
        rw [ho, hu]
        exact hassert)
    exact this
  · rw [hg]
    have h1 : SamePlan s.1 (emit (setFaceTableComputed s.1) Event.accelerator_barrier) := rfl
    have h2 : SamePlan bL (emit (setFaceTableComputed bL) Event.accelerator_barrier) := rfl
    exact h1.symm_plan.trans_plan (hpL.trans_plan h2)

theorem HaloExchange_parts {V C : Type} (st s1 : CartesianStencil C) (source : Lattice V)
    (compress : Compressor V C) (net : Transport C) :
    HaloExchange st source compress net = .ok s1
      ↔ ∃ g1, HaloGather (Prepare st) source compress = .ok g1
          ∧ s1 = CommsMerge (CommsMergeSHM (Communicate g1 net)) := by
  unfold HaloExchange
  simp only [bind_ok, pure_ok]
  constructor
  · rintro ⟨g1, h1, h2⟩
    exact ⟨g1, h1, h2.symm⟩
  · rintro ⟨g1, h1, h2⟩
    exact ⟨g1, h1, h2.symm⟩

theorem afterGather_onlyBuffers {C : Type} (g : CartesianStencil C) (net : Transport C) :
    OnlyBuffers g (CommsMerge (CommsMergeSHM (Communicate g net))) :=
  ((Communicate_onlyBuffers g net).trans_buffers (CommsMergeSHM_onlyBuffers _)).trans_buffers
    (CommsMerge_onlyBuffers _)

theorem HaloExchange_second {V C : Type} (st s1 g1 : CartesianStencil C) (source : Lattice V)
    (compress : Compressor V C) (net : Transport C)
    (hg1 : HaloGather (Prepare st) source compress = .ok g1)
    (hs1 : s1 = CommsMerge (CommsMergeSHM (Communicate g1 net))) :
    ∃ g2, HaloGather (Prepare s1) source compress = .ok g2 ∧ SamePlan g1 g2
      ∧ g2.u_recv_buf = s1.u_recv_buf ∧ g2.u_simd_recv_buf = s1.u_simd_recv_buf := by
  have hpost := afterGather_onlyBuffers g1 net
  rw [← hs1] at hpost
  obtain ⟨s, _, _, hg⟩ := HaloGather_parts _ g1 source compress hg1
  have hstat : SameStatic st s1 := by
    have h1 : SameStatic st (Prepare st) := by
      unfold SameStatic SamePlan
      rfl
    exact (h1.trans_static (HaloGather_static _ _ _ _ hg1)).trans_static hpost.1.toStatic
  have hab : SamePlan (resetOffset (Prepare st)) (resetOffset (Prepare s1)) := by
    have h1 : SamePlan st.cleared (resetOffset (Prepare st)) := by
      unfold SamePlan
      rfl
    have h2 : SamePlan s1.cleared (resetOffset (Prepare s1)) := by
      unfold SamePlan
      rfl
    exact h1.symm_plan.trans_plan (hstat.trans_static h2)
  have hc : (Prepare s1).face_table_computed ≠ 0 := by
    show s1.face_table_computed ≠ 0
    rw [hpost.2.2, hg]
    show (1 : Int) ≠ 0
    decide
  have hft : (Prepare s1).face_table = g1.face_table := hpost.2.1
  obtain ⟨g2, h2, hp2, hr1, hr2, _, _⟩ := HaloGather_second _ g1 (Prepare s1) source compress
    hg1 hab hc hft
  exact ⟨g2, h2, hp2, hr1, hr2⟩

/-! ## The receive buffers -/

theorem RecvBufs.write_write {C : Type} (R : RecvBufs C) (p : Pointer) (j : Nat) (v : C) :
    (R.write p j v).write p j v = R.write p j v := by
  unfold RecvBufs.write
  cases p.base with
  | u_recv_buf => simp [setAt_setAt]
  | u_simd_recv_buf l => simp [setAt_setAt, setAt_same]
  | u_send_buf => rfl
  | u_simd_send_buf l => rfl
  | indeterminate => rfl

theorem setAt_comm {α : Type} (f : Nat → α) (i j : Nat) (a b : α) (h : i ≠ j) :
    setAt (setAt f i a) j b = setAt (setAt f j b) i a := by
  funext k
  unfold setAt
  by_cases h1 : k = j
  · by_cases h2 : k = i
    · exact absurd (h2.symm.trans h1) h
    · rw [if_pos h1, if_neg h2, if_pos h1]
  · by_cases h2 : k = i
    · rw [if_neg h1, if_pos h2, if_pos h2]
    · rw [if_neg h1, if_neg h2, if_neg h2, if_neg h1]

theorem RecvBufs.write_comm {C : Type} (R : RecvBufs C) (p q : Pointer) (j k : Nat) (v w : C)
    (h : p.base ≠ q.base ∨ p.index + j ≠ q.index + k) :
    (R.write p j v).write q k w = (R.write q k w).write p j v := by
  unfold RecvBufs.write
  cases hp : p.base <;> cases hq : q.base <;> try rfl
  · rw [hp, hq] at h
    have hne : p.index + j ≠ q.index + k := by
      rcases h with h | h
      · exact absurd rfl h
      · exact h
    simp only
    rw [setAt_comm _ _ _ _ _ hne]
  · rename_i l l'
    rw [hp, hq] at h
    simp only
    by_cases hl : l = l'
    · subst hl
      have hne : p.index + j ≠ q.index + k := by
        rcases h with h | h
        · exact absurd rfl h
        · exact h
      simp only [setAt_setAt, setAt_same]
      rw [setAt_comm _ _ _ _ _ hne]
    · congr 1
      rw [setAt_other _ _ _ _ (fun hh => hl hh.symm), setAt_other _ _ _ _ hl]
      exact setAt_comm _ _ _ _ _ hl

theorem RecvBufs.read_write {C : Type} (R : RecvBufs C) (p q : Pointer) (j k : Nat) (v : C)
    (h : p.base ≠ q.base ∨ p.index + j ≠ q.index + k) :
    (R.write p j v).read q k = R.read q k := by
  unfold RecvBufs.write RecvBufs.read
  cases hp : p.base <;> cases hq : q.base <;> try rfl
  · rw [hp, hq] at h
    have hne : q.index + k ≠ p.index + j := by
      rcases h with h | h
      · exact absurd rfl h
      · exact fun hh => h hh.symm
    simp only
    rw [setAt_other _ _ _ _ hne]
  · rename_i l l'
    rw [hp, hq] at h
    simp only
    by_cases hl : l' = l
    · subst hl
      have hne : q.index + k ≠ p.index + j := by
        rcases h with h | h
        · exact absurd rfl h
        · exact fun hh => h hh.symm
      rw [setAt_same, setAt_other _ _ _ _ hne]
    · rw [setAt_other _ _ _ _ hl]

theorem Apart.symm_at {p q : Pointer} {n m : Nat} (h : Apart p n q m) {j k : Nat} (hj : j < n)
    (hk : k < m) : q.base ≠ p.base ∨ q.index + k ≠ p.index + j := by
  rcases h j hj k hk with h1 | h1
  · exact Or.inl (fun hh => h1 hh.symm)
  · exact Or.inr (fun hh => h1 hh.symm)

theorem same_pointer_apart (p : Pointer) {j k : Nat} (h : j ≠ k) :
    p.base ≠ p.base ∨ p.index + j ≠ p.index + k :=
  Or.inr (by omega)

theorem receive_received {C : Type} (sizeof_cobj : Nat) (net : Transport C)
    (packets : List Packet) (copies : List CopyReceiveBuffer)
    (hs : Slots sizeof_cobj packets copies) (n : Nat) (p : Packet)
    (hp : packets.get? n = some p) (R : RecvBufs C)
    (hR : Received sizeof_cobj net packets n R) :
    Received sizeof_cobj net packets (n + 1) (R.receive sizeof_cobj net p n) := by
  unfold RecvBufs.receive
  by_cases hrecv : truthy p.do_recv = true
  · rw [if_pos hrecv]
    have key := forLoop_invariant
      (fun (m : Nat) (Rm : RecvBufs C) =>
        m ≤ objects sizeof_cobj p.bytes ∧ Received sizeof_cobj net packets n Rm
        ∧ ∀ j, j < m → ∀ v, net p n j = some v → Rm.write p.recv_buf j v = Rm)
      (objects sizeof_cobj p.bytes)
      (fun j R => match net p n j with
        | some v => R.write p.recv_buf j v
        | none => R) R
      ⟨Nat.zero_le _, hR, fun j hj => absurd hj (Nat.not_lt_zero _)⟩
      (by
        intro m Rm hm ⟨_, h1, h2⟩
        dsimp only
        cases hnet : net p n m with
        | none =>
          dsimp only
          refine ⟨hm, h1, ?_⟩
          intro j hj w hw
          by_cases hjm : j = m
          · subst hjm
            rw [hnet] at hw
            exact Option.noConfusion hw
          · exact h2 j (by omega) w hw
        | some v =>
          dsimp only
          refine ⟨hm, ?_, ?_⟩
          · intro i q hi hq hqr j hj w hw
            rw [RecvBufs.write_comm _ _ _ _ _ _ _
              ((hs.packets_apart n i p q hp hq (by omega)) m hm j hj), h1 i q hi hq hqr j hj w hw]
          · intro j hj w hw
            by_cases hjm : j = m
            · subst hjm
              rw [hnet] at hw
              cases hw
              exact RecvBufs.write_write _ _ _ _
            · rw [RecvBufs.write_comm _ _ _ _ _ _ _
                (same_pointer_apart p.recv_buf (fun hh => hjm hh.symm)),
                h2 j (by omega) w hw])
    intro i q hi hq hqr j hj w hw
    by_cases hin : i = n
    · subst hin
      rw [hp] at hq
      cases hq
      exact key.2.2 j hj w hw
    · exact key.2.1 i q (by omega) hq hqr j hj w hw
  · rw [if_neg hrecv]
    intro i q hi hq hqr j hj w hw
    by_cases hin : i = n
    · subst hin
      rw [hp] at hq
      cases hq
      exact absurd hqr hrecv
    · exact hR i q (by omega) hq hqr j hj w hw

theorem receiveAll_received {C : Type} (sizeof_cobj : Nat) (net : Transport C)
    (packets : List Packet) (copies : List CopyReceiveBuffer)
    (hs : Slots sizeof_cobj packets copies) (R : RecvBufs C) :
    Received sizeof_cobj net packets packets.length
      (R.receiveAll sizeof_cobj net packets) := by
  unfold RecvBufs.receiveAll
  exact forLoop_invariant
    (fun (n : Nat) (Rn : RecvBufs C) => Received sizeof_cobj net packets n Rn)
    packets.length _ R
    (fun i p hi => absurd hi (Nat.not_lt_zero _))
    (by
      intro n Rn hn h
      obtain ⟨p, hp⟩ : ∃ p, packets.get? n = some p :=
        ⟨packets.get ⟨n, hn⟩, List.get?_eq_get hn⟩
      rw [hp]
      exact receive_received sizeof_cobj net packets copies hs n p hp Rn h)

theorem copy_copied {C : Type} (sizeof_cobj : Nat) (net : Transport C)
    (packets : List Packet) (copies : List CopyReceiveBuffer)
    (hs : Slots sizeof_cobj packets copies) (n : Nat) (c : CopyReceiveBuffer)
    (hc : copies.get? n = some c) (R : RecvBufs C)
    (hR : Received sizeof_cobj net packets packets.length R)
    (hK : Copied sizeof_cobj copies n R) :
    Received sizeof_cobj net packets packets.length (R.copy sizeof_cobj c)
      ∧ Copied sizeof_cobj copies (n + 1) (R.copy sizeof_cobj c) := by
  have hcm : c ∈ copies := List.get?_mem hc
  unfold RecvBufs.copy
  have key := forLoop_invariant
    (fun (m : Nat) (Rm : RecvBufs C) =>
      m ≤ objects sizeof_cobj c.bytes
      ∧ Received sizeof_cobj net packets packets.length Rm
      ∧ Copied sizeof_cobj copies n Rm
      ∧ ∀ j, j < m → ∀ v, Rm.read c.from_p j = some v → Rm.write c.to_p j v = Rm)
    (objects sizeof_cobj c.bytes)
    (fun j R => match R.read c.from_p j with
      | some v => R.write c.to_p j v
      | none => R) R
    ⟨Nat.zero_le _, hR, hK, fun j hj => absurd hj (Nat.not_lt_zero _)⟩
    (by
      intro m Rm hm ⟨_, h1, h2, h3⟩
      dsimp only
      cases hread : Rm.read c.from_p m with
      | none =>
        dsimp only
        refine ⟨hm, h1, h2, ?_⟩
        intro j hj w hw
        by_cases hjm : j = m
        · subst hjm
          rw [hread] at hw
          exact Option.noConfusion hw
        · exact h3 j (by omega) w hw
      | some v =>
        dsimp only
        refine ⟨hm, ?_, ?_, ?_⟩
        · intro i q hi hq hqr j hj w hw
          rw [RecvBufs.write_comm _ _ _ _ _ _ _
            ((hs.packet_copy q c (List.get?_mem hq) hcm).symm_at hj hm),
            h1 i q hi hq hqr j hj w hw]
        · intro i d hi hd j hj w hw
          rw [RecvBufs.read_write _ _ _ _ _ _
            ((hs.read_write d c (List.get?_mem hd) hcm).symm_at hj hm)] at hw
          rw [RecvBufs.write_comm _ _ _ _ _ _ _
            ((hs.copies_apart n i c d hc hd (by omega)) m hm j hj), h2 i d hi hd j hj w hw]
        · intro j hj w hw
          rw [RecvBufs.read_write _ _ _ _ _ _
            ((hs.read_write c c hcm hcm).symm_at (by omega) hm)] at hw
          by_cases hjm : j = m
          · subst hjm
            rw [hread] at hw
            cases hw
            exact RecvBufs.write_write _ _ _ _
          · rw [RecvBufs.write_comm _ _ _ _ _ _ _
              (same_pointer_apart c.to_p (fun hh => hjm hh.symm)), h3 j (by omega) w hw])
  refine ⟨key.2.1, ?_⟩
  intro i d hi hd j hj w hw
  by_cases hin : i = n
  · subst hin
    rw [hc] at hd
    cases hd
    exact key.2.2.2 j hj w hw
  · exact key.2.2.1 i d (by omega) hd j hj w hw

theorem copyAll_copied {C : Type} (sizeof_cobj : Nat) (net : Transport C)
    (packets : List Packet) (copies : List CopyReceiveBuffer)
    (hs : Slots sizeof_cobj packets copies) (R : RecvBufs C)
    (hR : Received sizeof_cobj net packets packets.length R) :
    Received sizeof_cobj net packets packets.length (R.copyAll sizeof_cobj copies)
      ∧ Copied sizeof_cobj copies copies.length (R.copyAll sizeof_cobj copies) := by
  unfold RecvBufs.copyAll
  exact forLoop_invariant
    (fun (n : Nat) (Rn : RecvBufs C) =>
      Received sizeof_cobj net packets packets.length Rn ∧ Copied sizeof_cobj copies n Rn)
    copies.length _ R
    ⟨hR, fun i c hi => absurd hi (Nat.not_lt_zero _)⟩
    (by
      intro n Rn hn ⟨h1, h2⟩
      obtain ⟨c, hc⟩ : ∃ c, copies.get? n = some c :=
        ⟨copies.get ⟨n, hn⟩, List.get?_eq_get hn⟩
      rw [hc]
      exact copy_copied sizeof_cobj net packets copies hs n c hc Rn h1 h2)

theorem receiveAll_fixed {C : Type} (sizeof_cobj : Nat) (net : Transport C)
    (packets : List Packet) (R : RecvBufs C)
    (hR : Received sizeof_cobj net packets packets.length R) :
    R.receiveAll sizeof_cobj net packets = R := by
  unfold RecvBufs.receiveAll
  exact forLoop_invariant (fun (_ : Nat) (Rn : RecvBufs C) => Rn = R) packets.length _ R rfl
    (by
      intro n Rn hn h
      subst h
      obtain ⟨p, hp⟩ : ∃ p, packets.get? n = some p :=
        ⟨packets.get ⟨n, hn⟩, List.get?_eq_get hn⟩
      rw [hp]
      dsimp only
      unfold RecvBufs.receive
      by_cases hrecv : truthy p.do_recv = true
      · rw [if_pos hrecv]
        exact forLoop_invariant (fun (_ : Nat) (Rm : RecvBufs C) => Rm = Rn) _ _ Rn rfl
          (by
            intro m Rm hm h
            subst h
            cases hnet : net p n m with
            | none => rfl
            | some v => exact hR n p hn hp hrecv m hm v hnet)
      · rw [if_neg hrecv])

theorem copyAll_fixed {C : Type} (sizeof_cobj : Nat) (copies : List CopyReceiveBuffer)
    (R : RecvBufs C) (hK : Copied sizeof_cobj copies copies.length R) :
    R.copyAll sizeof_cobj copies = R := by
  unfold RecvBufs.copyAll
  exact forLoop_invariant (fun (_ : Nat) (Rn : RecvBufs C) => Rn = R) copies.length _ R rfl
    (by
      intro n Rn hn h
      subst h
      obtain ⟨c, hc⟩ : ∃ c, copies.get? n = some c :=
        ⟨copies.get ⟨n, hn⟩, List.get?_eq_get hn⟩
      rw [hc]
      dsimp only
      unfold RecvBufs.copy
      exact forLoop_invariant (fun (_ : Nat) (Rm : RecvBufs C) => Rm = Rn) _ _ Rn rfl
        (by
          intro m Rm hm h
          subst h
          cases hread : Rm.read c.from_p m with
          | none => rfl
          | some v => exact hK n c hn hc m hm v hread))

theorem deliver_idempotent {C : Type} (sizeof_cobj : Nat) (net : Transport C)
    (packets : List Packet) (copies : List CopyReceiveBuffer)
    (hs : Slots sizeof_cobj packets copies) (R : RecvBufs C) :
    (((R.receiveAll sizeof_cobj net packets).copyAll sizeof_cobj copies).receiveAll
        sizeof_cobj net packets).copyAll sizeof_cobj copies
      = (R.receiveAll sizeof_cobj net packets).copyAll sizeof_cobj copies := by
  obtain ⟨h1, h2⟩ := copyAll_copied sizeof_cobj net packets copies hs _
    (receiveAll_received sizeof_cobj net packets copies hs R)
  rw [receiveAll_fixed sizeof_cobj net packets _ h1, copyAll_fixed sizeof_cobj copies _ h2]

/-! ## Prepare -/

/-- C14: `Prepare` empties the seven lists of an exchange (`Packets`,
`Mergers`, `MergersSHM`, `Decompressions`, `DecompressionsSHM`,
`CopyReceiveBuffers`, `CachedTransfers`) and changes nothing else of the
stencil: the entry table and its size, `face_table`, `face_table_computed`,
`_unified_buffer_size`, the send and receive flags and the four buffers are
what they were, and so is every other member (the last conjunct: the result
is the stencil with the seven lists emptied, the call noted in the trace). -/
theorem C14_Prepare_clears_transient_state {C : Type} (st : CartesianStencil C) :
    (Prepare st).Packets = [] ∧ (Prepare st).Mergers = [] ∧ (Prepare st).MergersSHM = []
      ∧ (Prepare st).Decompressions = [] ∧ (Prepare st).DecompressionsSHM = []
      ∧ (Prepare st).CopyReceiveBuffers = [] ∧ (Prepare st).CachedTransfers = []
      ∧ (Prepare st)._entries = st._entries ∧ (Prepare st)._entries_size = st._entries_size
      ∧ (Prepare st).face_table = st.face_table
      ∧ (Prepare st).face_table_computed = st.face_table_computed
      ∧ (Prepare st)._unified_buffer_size = st._unified_buffer_size
      ∧ (Prepare st)._comms_send = st._comms_send ∧ (Prepare st)._comms_recv = st._comms_recv
      ∧ (Prepare st).u_send_buf = st.u_send_buf ∧ (Prepare st).u_recv_buf = st.u_recv_buf
      ∧ (Prepare st).u_simd_send_buf = st.u_simd_send_buf
      ∧ (Prepare st).u_simd_recv_buf = st.u_simd_recv_buf
      ∧ Prepare st
          = { st with Packets := [], Mergers := [], MergersSHM := [], Decompressions := [],
                      DecompressionsSHM := [], CopyReceiveBuffers := [], CachedTransfers := [],
                      trace := st.trace ++ [Event.call Step.Prepare] } :=
  ⟨rfl, rfl, rfl, rfl, rfl, rfl, rfl, rfl, rfl, rfl, rfl, rfl, rfl, rfl, rfl, rfl, rfl, rfl, rfl⟩

/-! ## The events of the loops over the lists of an exchange -/

theorem forLoop_list_trace {C α : Type} (l : List α) (g : Nat → α → List Event)
    (P : CartesianStencil C → Prop) (body : Nat → CartesianStencil C → CartesianStencil C)
    (st : CartesianStencil C) (h0 : P st)
    (h : ∀ i a p, l.get? i = some p → P a →
      P (body i a) ∧ (body i a).trace = a.trace ++ g i p) :
    P (forLoop l.length body st)
      ∧ (forLoop l.length body st).trace
          = st.trace ++ l.enum.flatMap (fun ip => g ip.1 ip.2) := by
  have key := forLoop_invariant
    (fun k b => P b ∧ b.trace = st.trace ++ (l.take k).enum.flatMap (fun ip => g ip.1 ip.2))
    l.length body st ⟨h0, by simp⟩
    (by
      intro i a hi ⟨hP, ht⟩
      have hget : l.get? i = some (l.get ⟨i, hi⟩) := List.get?_eq_get hi
      obtain ⟨hP', ht'⟩ := h i a _ hget hP
      refine ⟨hP', ?_⟩
      have hidx : l[i]? = some (l.get ⟨i, hi⟩) := by simp [hi]
      rw [ht', ht, List.take_succ, List.enum_append, List.flatMap_append, List.append_assoc,
        hidx]
      simp [List.length_take, Nat.min_eq_left (Nat.le_of_lt hi)])
  dsimp only at key
  rw [List.take_length] at key
  exact key

theorem forLoop_count_trace {C : Type} (n : Nat) (g : Nat → Event)
    (P : CartesianStencil C → Prop) (body : Nat → CartesianStencil C → CartesianStencil C)
    (st : CartesianStencil C) (h0 : P st)
    (h : ∀ i a, i < n → P a → P (body i a) ∧ (body i a).trace = a.trace ++ [g i]) :
    P (forLoop n body st)
      ∧ (forLoop n body st).trace = st.trace ++ (List.range n).map g := by
  refine forLoop_invariant
    (fun k b => P b ∧ b.trace = st.trace ++ (List.range k).map g) n body st ⟨h0, by simp⟩ ?_
  intro i a hi ⟨hP, ht⟩
  obtain ⟨hP', ht'⟩ := h i a hi hP
  refine ⟨hP', ?_⟩
  rw [ht', ht, List.range_succ, List.map_append, List.append_assoc]
  rfl

theorem receivePacket_trace {C : Type} (st : CartesianStencil C) (net : Transport C)
    (p : Packet) (dir : Nat) : (receivePacket st net p dir).trace = st.trace := by
  unfold receivePacket
  split
  · refine forLoop_invariant (fun _ b => b.trace = st.trace) _ _ st rfl ?_
    intro j a _ ha
    dsimp only
    split
    · rw [writeBuf_trace, ha]
    · exact ha
  · rfl

theorem receivePacket_Packets {C : Type} (st : CartesianStencil C) (net : Transport C)
    (p : Packet) (dir : Nat) : (receivePacket st net p dir).Packets = st.Packets :=
  (receivePacket_onlyBuffers st net p dir).1.proj (fun s => s.Packets) (fun _ _ => rfl)

theorem enum_flatMap_index {α β : Type} (l : List α) (f : Nat → β) :
    l.enum.flatMap (fun ip => [f ip.1]) = (List.range l.length).map f := by
  rw [← List.enum_map_fst l, List.map_map]
  induction l.enum with
  | nil => rfl
  | cons x xs ih => simp [List.flatMap_cons, ih]

theorem flatMap_singleton_map {α β : Type} (l : List α) (f : α → β) :
    l.flatMap (fun a => [f a]) = l.map f := by
  induction l with
  | nil => rfl
  | cons x xs ih => simp [List.flatMap_cons, ih]

theorem CommunicateBegin_trace {C : Type} (st : CartesianStencil C) :
    (CommunicateBegin st).Packets = st.Packets
      ∧ (CommunicateBegin st).trace
          = st.trace
            ++ st.Packets.enum.map (fun ip => Event.StencilSendToRecvFromBegin ip.2 ip.1) := by
  unfold CommunicateBegin
  have key := forLoop_list_trace st.Packets
    (fun i p => [Event.StencilSendToRecvFromBegin p i])
    (fun b => b.Packets = st.Packets)
    (fun i (b : CartesianStencil C) =>
      match b.Packets.get? i with
      | none => b
      | some p => emit b (Event.StencilSendToRecvFromBegin p i)) st rfl
    (by
      intro i a p hp ha
      dsimp only
      rw [ha, hp]
      exact ⟨ha, rfl⟩)
  rw [flatMap_singleton_map] at key
  exact key

theorem CommunicateComplete_trace {C : Type} (st : CartesianStencil C) (net : Transport C) :
    (CommunicateComplete st net).Packets = st.Packets
      ∧ (CommunicateComplete st net).trace
          = st.trace
            ++ (List.range st.Packets.length).map Event.StencilSendToRecvFromComplete := by
  unfold CommunicateComplete
  have key := forLoop_list_trace st.Packets
    (fun i _ => [Event.StencilSendToRecvFromComplete i])
    (fun b => b.Packets = st.Packets)
    (fun i (b : CartesianStencil C) =>
      match b.Packets.get? i with
      | none => b
      | some p => receivePacket (emit b (Event.StencilSendToRecvFromComplete i)) net p i) st rfl
    (by
      intro i a p hp ha
      dsimp only
      rw [ha, hp]
      dsimp only
      rw [receivePacket_trace, receivePacket_Packets]
      exact ⟨ha, rfl⟩)
  rw [enum_flatMap_index] at key
  exact key

/-- C18: under any policy other than `CommunicatorPolicySequential`,
`Communicate` issues one `StencilSendToRecvFromBegin` for each packet, in the
order of the list `Packets`, each with the record of its packet (both buffers,
both ranks, both flags, the byte count) and tagged with the index of the
packet, and after these one `StencilSendToRecvFromComplete` for each index, in
the same order; nothing else is appended to the trace but the entry into the
step, so every `Begin` precedes every `Complete`. -/
theorem C18_concurrent_begin_then_complete {C : Type} (st : CartesianStencil C)
    (net : Transport C)
    (hpol : st._grid.CommunicatorPolicy ≠ CommunicatorPolicy_t.CommunicatorPolicySequential) :
    (Communicate st net).trace
      = st.trace ++ [Event.call Step.Communicate]
          ++ st.Packets.enum.map (fun ip => Event.StencilSendToRecvFromBegin ip.2 ip.1)
          ++ (List.range st.Packets.length).map Event.StencilSendToRecvFromComplete := by
  unfold Communicate
  dsimp only
  rw [if_neg (by exact hpol)]
  obtain ⟨hP, hT⟩ := CommunicateBegin_trace (emit st (Event.call Step.Communicate))
  obtain ⟨_, hT2⟩ := CommunicateComplete_trace
    (CommunicateBegin (emit st (Event.call Step.Communicate))) net
  rw [hT2, hP, hT]
  rfl

/-- Witness of C18: rank 0 of the line of 8 sites on 2 processes after its
gather, which has queued one packet; the policy of the grid is concurrent. -/
theorem C18_concurrent_begin_then_complete_witness :
    (gatheredRank (lineStencil [0]) lineField (plainCompressor (Nat × Nat) 8) 0).Packets.length
        = 1
      ∧ (gatheredRank (lineStencil [0]) lineField
            (plainCompressor (Nat × Nat) 8) 0)._grid.CommunicatorPolicy
          ≠ CommunicatorPolicy_t.CommunicatorPolicySequential
      ∧ (Communicate (gatheredRank (lineStencil [0]) lineField (plainCompressor (Nat × Nat) 8) 0)
            (rankTransport (gatheredRank (lineStencil [0]) lineField
              (plainCompressor (Nat × Nat) 8)) 0)).trace
          = (gatheredRank (lineStencil [0]) lineField (plainCompressor (Nat × Nat) 8) 0).trace
              ++ [Event.call Step.Communicate]
              ++ (gatheredRank (lineStencil [0]) lineField
                    (plainCompressor (Nat × Nat) 8) 0).Packets.enum.map
                  (fun ip => Event.StencilSendToRecvFromBegin ip.2 ip.1)
              ++ (List.range (gatheredRank (lineStencil [0]) lineField
                    (plainCompressor (Nat × Nat) 8) 0).Packets.length).map
                  Event.StencilSendToRecvFromComplete :=
  ⟨by decide, by decide,
    C18_concurrent_begin_then_complete
      (gatheredRank (lineStencil [0]) lineField (plainCompressor (Nat × Nat) 8) 0)
      (rankTransport (gatheredRank (lineStencil [0]) lineField
        (plainCompressor (Nat × Nat) 8)) 0) (by decide)⟩

/-! ## The calls of `CommsMerge` -/

theorem enum_flatMap_snd {α β : Type} (l : List α) (f : α → List β) :
    l.enum.flatMap (fun ip => f ip.2) = l.flatMap f := by
  have h : l.enum.flatMap (fun ip => f ip.2) = (l.enum.map Prod.snd).flatMap f := by
    induction l.enum with
    | nil => rfl
    | cons x xs ih => simp [List.flatMap_cons, ih]
  rw [h, List.enum_map_snd]

theorem CommsMergeLists_trace {C : Type} (st : CartesianStencil C) (mm : List Merge)
    (dd : List Decompress) :
    (CommsMergeLists st mm dd).trace
      = st.trace
        ++ mm.flatMap (fun m =>
            (List.range (cdiv m.buffer_size 2).toNat).map (fun o =>
              Event.Exchange m.mpointer (m.vpointers.getD 0 ⟨Buffer.indeterminate, 0⟩)
                (m.vpointers.getD 1 ⟨Buffer.indeterminate, 0⟩) m.type o))
        ++ dd.flatMap (fun d =>
            (List.range d.buffer_size.toNat).map (fun o =>
              Event.Decompress d.kernel_p d.mpi_p o)) := by
  unfold CommsMergeLists
  dsimp only
  have h1 := forLoop_list_trace mm
    (fun _ m => (List.range (cdiv m.buffer_size 2).toNat).map (fun o =>
      Event.Exchange m.mpointer (m.vpointers.getD 0 ⟨Buffer.indeterminate, 0⟩)
        (m.vpointers.getD 1 ⟨Buffer.indeterminate, 0⟩) m.type o))
    (fun _ => True)
    (fun i (b : CartesianStencil C) =>
      match mm.get? i with
      | none => b
      | some m =>
        forLoop (cdiv m.buffer_size 2).toNat (fun o b =>
          emit b (Event.Exchange m.mpointer (m.vpointers.getD 0 ⟨Buffer.indeterminate, 0⟩)
            (m.vpointers.getD 1 ⟨Buffer.indeterminate, 0⟩) m.type o)) b) st trivial
    (by
      intro i a m hm _
      dsimp only
      rw [hm]
      exact ⟨trivial, (forLoop_count_trace _ _ (fun _ => True) _ a trivial
        (fun o b _ _ => ⟨trivial, rfl⟩)).2⟩)
  have h2 := forLoop_list_trace dd
    (fun _ d => (List.range d.buffer_size.toNat).map (fun o =>
      Event.Decompress d.kernel_p d.mpi_p o))
    (fun _ => True)
    (fun i (b : CartesianStencil C) =>
      match dd.get? i with
      | none => b
      | some d =>
        forLoop d.buffer_size.toNat (fun o b =>
          emit b (Event.Decompress d.kernel_p d.mpi_p o)) b)
    (forLoop mm.length (fun i (b : CartesianStencil C) =>
      match mm.get? i with
      | none => b
      | some m =>
        forLoop (cdiv m.buffer_size 2).toNat (fun o b =>
          emit b (Event.Exchange m.mpointer (m.vpointers.getD 0 ⟨Buffer.indeterminate, 0⟩)
            (m.vpointers.getD 1 ⟨Buffer.indeterminate, 0⟩) m.type o)) b) st) trivial
    (by
      intro i a d hd _
      dsimp only
      rw [hd]
      exact ⟨trivial, (forLoop_count_trace _ _ (fun _ => True) _ a trivial
        (fun o b _ _ => ⟨trivial, rfl⟩)).2⟩)
  have e1 := enum_flatMap_snd mm (fun m =>
    (List.range (cdiv m.buffer_size 2).toNat).map (fun o =>
      Event.Exchange m.mpointer (m.vpointers.getD 0 ⟨Buffer.indeterminate, 0⟩)
        (m.vpointers.getD 1 ⟨Buffer.indeterminate, 0⟩) m.type o))
  have e2 := enum_flatMap_snd dd (fun d =>
    (List.range d.buffer_size.toNat).map (fun o => Event.Decompress d.kernel_p d.mpi_p o))
  rw [h2.2, h1.2, ← e1, ← e2]

theorem half_covers (b : Int) (k : Nat) (hb : cmod b 2 = 0) (hk : (k : Int) < b) :
    k / 2 < (cdiv b 2).toNat ∧ (k = 2 * (k / 2) ∨ k = 2 * (k / 2) + 1) := by
  have h0 : (0 : Int) ≤ b := by omega
  unfold cmod at hb
  unfold cdiv
  rw [Int.tmod_eq_emod h0 (by decide)] at hb
  rw [Int.tdiv_eq_ediv h0 (by decide)]
  omega

/-- The calls of the three-argument `CommsMerge`: it appends to the trace, for
each merge record of `mm` in order, the calls `Exchange(mp,vp0,vp1,type,o)` for
`o = 0, ..., buffer_size/2 - 1` with the destination, the two half-buffer
pointers and the permute type of the record, and after all of these, for each
record of `dd` in order, the calls `Decompress(kernel_p,mpi_p,o)` for
`o = 0, ..., buffer_size - 1`; each call is made once and every `Exchange`
precedes every `Decompress`.  For a merge record of even `buffer_size`, the
elements that its `Exchange` calls fill are all the `buffer_size` elements of
the merged plane. -/
theorem CommsMerge_calls {C : Type} (st : CartesianStencil C) (mm : List Merge)
    (dd : List Decompress) :
    (CommsMergeLists st mm dd).trace
        = st.trace
          ++ mm.flatMap (fun m =>
              (List.range (cdiv m.buffer_size 2).toNat).map (fun o =>
                Event.Exchange m.mpointer (m.vpointers.getD 0 ⟨Buffer.indeterminate, 0⟩)
                  (m.vpointers.getD 1 ⟨Buffer.indeterminate, 0⟩) m.type o))
          ++ dd.flatMap (fun d =>
              (List.range d.buffer_size.toNat).map (fun o =>
                Event.Decompress d.kernel_p d.mpi_p o))
      ∧ ∀ m, m ∈ mm → cmod m.buffer_size 2 = 0 → ∀ k : Nat, (k : Int) < m.buffer_size →
          (m.mpointer, k) ∈
            ((List.range (cdiv m.buffer_size 2).toNat).map (fun o =>
                Event.Exchange m.mpointer (m.vpointers.getD 0 ⟨Buffer.indeterminate, 0⟩)
                  (m.vpointers.getD 1 ⟨Buffer.indeterminate, 0⟩) m.type o)).flatMap
              exchangeTargets := by
  refine ⟨CommsMergeLists_trace st mm dd, ?_⟩
  intro m _ heven k hk
  obtain ⟨ho, hcase⟩ := half_covers m.buffer_size k heven hk
  refine List.mem_flatMap.mpr ⟨_, List.mem_map.mpr ⟨k / 2, List.mem_range.mpr ho, rfl⟩, ?_⟩
  show (m.mpointer, k) ∈ [(m.mpointer, 2 * (k / 2)), (m.mpointer, 2 * (k / 2) + 1)]
  rcases hcase with h | h
  · rw [← h]
    exact List.mem_cons_self _ _
  · rw [← h]
    exact List.mem_cons_of_mem _ (List.mem_cons_self _ _)

/-- An instance of `CommsMerge_calls`: one merge record of `buffer_size = 4` and one decompress
record of `buffer_size = 2`; element 3 of the merged plane is filled. -/
theorem CommsMerge_calls_witness :
    cmod 4 2 = 0 ∧ ((3 : Nat) : Int) < 4
      ∧ ((⟨Buffer.u_recv_buf, 0⟩ : Pointer), 3) ∈
          ((List.range (cdiv 4 2).toNat).map (fun o =>
              Event.Exchange ⟨Buffer.u_recv_buf, 0⟩ ⟨Buffer.u_simd_recv_buf 0, 0⟩
                ⟨Buffer.u_simd_send_buf 1, 0⟩ 0 o)).flatMap exchangeTargets :=
  ⟨by decide, by decide,
    (CommsMerge_calls (lineStencil [0] 0)
      [⟨⟨Buffer.u_recv_buf, 0⟩, [⟨Buffer.u_simd_recv_buf 0, 0⟩, ⟨Buffer.u_simd_send_buf 1, 0⟩],
        4, 0⟩]
      [⟨⟨Buffer.u_recv_buf, 4⟩, ⟨Buffer.u_recv_buf, 4⟩, 2⟩]).2 _ (List.mem_singleton.mpr rfl)
      (by decide) 3 (by decide)⟩

/-! ## The queries of the view -/

/-- C16: `GetInfo(ptype,local,perm,point,ent,base)` stores in `local` and
`perm` the flags `_is_local` and `_permute` of the record `ent`; it returns
`base + _byte_offset` when the record is local and the address of the receive
buffer plus `_byte_offset` otherwise (sums in `uint64_t`, exact when they are
below `2^64`); it stores `_permute_type[point]` in `ptype` when the permute
flag is not zero and leaves `ptype` as the caller had it otherwise; and
`GetPFInfo(ent,base)` returns the address that `GetInfo` returns. -/
theorem C16_GetInfo_address {C : Type} (st : CartesianStencil C) (u_recv_buf_p : Nat)
    (ptype : Int) (point ent base : Nat) :
    (GetInfo st u_recv_buf_p ptype point ent base).local_ = (st._entries ent)._is_local
      ∧ (GetInfo st u_recv_buf_p ptype point ent base).perm = (st._entries ent)._permute
      ∧ ((st._entries ent)._is_local ≠ 0 →
          (GetInfo st u_recv_buf_p ptype point ent base).address
              = (base + (st._entries ent)._byte_offset) % 18446744073709551616
            ∧ (base + (st._entries ent)._byte_offset < 18446744073709551616 →
                (GetInfo st u_recv_buf_p ptype point ent base).address
                  = base + (st._entries ent)._byte_offset))
      ∧ ((st._entries ent)._is_local = 0 →
          (GetInfo st u_recv_buf_p ptype point ent base).address
              = (u_recv_buf_p + (st._entries ent)._byte_offset) % 18446744073709551616
            ∧ (u_recv_buf_p + (st._entries ent)._byte_offset < 18446744073709551616 →
                (GetInfo st u_recv_buf_p ptype point ent base).address
                  = u_recv_buf_p + (st._entries ent)._byte_offset))
      ∧ ((st._entries ent)._permute ≠ 0 →
          (GetInfo st u_recv_buf_p ptype point ent base).ptype = st._permute_type point)
      ∧ ((st._entries ent)._permute = 0 →
          (GetInfo st u_recv_buf_p ptype point ent base).ptype = ptype)
      ∧ GetPFInfo st u_recv_buf_p ent base
          = (GetInfo st u_recv_buf_p ptype point ent base).address := by
  have hl : ∀ n : Nat, truthy (n : Int) = true ↔ n ≠ 0 := by
    intro n
    unfold truthy
    simp
  unfold GetInfo GetPFInfo
  dsimp only
  by_cases hloc : (st._entries ent)._is_local = 0
  · have h1 : truthy ((st._entries ent)._is_local : Int) = false := by
      rw [hloc]; rfl
    rw [h1]
    refine ⟨rfl, rfl, fun h => absurd hloc h, fun _ => ⟨rfl, fun hlt => Nat.mod_eq_of_lt hlt⟩,
      ?_, ?_, rfl⟩
    · intro hp
      show (if truthy ((st._entries ent)._permute : Int) = true then _ else _) = _
      rw [if_pos ((hl _).2 hp)]
    · intro hp
      show (if truthy ((st._entries ent)._permute : Int) = true then _ else _) = _
      rw [hp]
      rfl
  · have h1 : truthy ((st._entries ent)._is_local : Int) = true := (hl _).2 hloc
    rw [h1]
    refine ⟨rfl, rfl, fun _ => ⟨rfl, fun hlt => Nat.mod_eq_of_lt hlt⟩, fun h => absurd h hloc,
      ?_, ?_, rfl⟩
    · intro hp
      show (if truthy ((st._entries ent)._permute : Int) = true then _ else _) = _
      rw [if_pos ((hl _).2 hp)]
    · intro hp
      show (if truthy ((st._entries ent)._permute : Int) = true then _ else _) = _
      rw [hp]
      rfl

/-- Witness of C16 on rank 0 of the line of 8 sites on 2 processes, at the
record of site 3 for the point of displacement `+1`: without blocking the
record is in the buffer and not permuted, so the address is taken from the
receive buffer at 4096 and `ptype` stays 7; with the Dirichlet block 4 the
record is local and permuted, so the address is taken from `base = 1024` and
`ptype` becomes `_permute_type[0]`. -/
theorem C16_GetInfo_address_witness :
    (((lineStencil [0] 0)._entries 3)._is_local = 0
        ∧ (GetInfo (lineStencil [0] 0) 4096 7 0 3 1024).address
            = 4096 + ((lineStencil [0] 0)._entries 3)._byte_offset)
      ∧ (((lineStencil [0] 0)._entries 3)._permute = 0
        ∧ (GetInfo (lineStencil [0] 0) 4096 7 0 3 1024).ptype = 7)
      ∧ (((lineStencil [4] 0)._entries 3)._is_local ≠ 0
        ∧ (GetInfo (lineStencil [4] 0) 4096 7 0 3 1024).address
            = 1024 + ((lineStencil [4] 0)._entries 3)._byte_offset)
      ∧ (((lineStencil [4] 0)._entries 3)._permute ≠ 0
        ∧ (GetInfo (lineStencil [4] 0) 4096 7 0 3 1024).ptype
            = (lineStencil [4] 0)._permute_type 0) :=
  ⟨⟨by decide,
      ((C16_GetInfo_address (lineStencil [0] 0) 4096 7 0 3 1024).2.2.2.1 (by decide)).2
        (by decide)⟩,
    ⟨by decide, (C16_GetInfo_address (lineStencil [0] 0) 4096 7 0 3 1024).2.2.2.2.2.1 (by decide)⟩,
    ⟨by decide,
      ((C16_GetInfo_address (lineStencil [4] 0) 4096 7 0 3 1024).2.2.1 (by decide)).2
        (by decide)⟩,
    ⟨by decide, (C16_GetInfo_address (lineStencil [4] 0) 4096 7 0 3 1024).2.2.2.2.1 (by decide)⟩⟩

theorem construct_members {C : Type} (grid : GridBase) (npoints checkerboard : Nat)
    (directions : List Nat) (distances : List Int) (p : Parameters)
    (sizeof_vobj sizeof_cobj : Nat) (u : Indeterminate C) (st : CartesianStencil C)
    (h : CartesianStencil.construct grid npoints checkerboard directions distances p sizeof_vobj
          sizeof_cobj u = .ok st) :
    st._entries_size = npoints * grid.oSites ∧ st._directions = directions
      ∧ st._distances = distances ∧ st.surface_list = []
      ∧ ∀ point, point < npoints →
          st._permute_type point = grid.PermuteType (directions.getD point 0) := by
  rw [construct_ok_iff] at h
  obtain ⟨_, rfl⟩ := h
  unfold beforePoints
  by_cases hd : p.dirichlet.length ≠ 0
  · rw [if_pos hd]
    exact ⟨rfl, rfl, rfl, rfl, fun point hp => if_pos hp⟩
  · rw [if_neg hd]
    exact ⟨rfl, rfl, rfl, rfl, fun point hp => if_pos hp⟩

/-- C15: a constructed stencil has a table of `npoints*osites` records; for
every `point < npoints` and `osite < osites` the query index
`point + npoints*osite` is below that size, and two such pairs with the same
index are the same pair; `GetNodeLocal(osite,point)` returns the flag
`_is_local` of the record at the index, `GetEntry(ptype,point,osite)` returns
the address of that record and stores `_permute_type[point]` in `ptype`; and
`CopyPlane` and `ScatterPlane`, called for a point, change records at indices
`point + site*npoints` only, the index of the queries. -/
theorem C15_entry_index {C : Type} (grid : GridBase) (npoints checkerboard : Nat)
    (directions : List Nat) (distances : List Int) (p : Parameters)
    (sizeof_vobj sizeof_cobj : Nat) (u : Indeterminate C) (st : CartesianStencil C)
    (hc : CartesianStencil.construct grid npoints checkerboard directions distances p
            sizeof_vobj sizeof_cobj u = .ok st) :
    st._npoints = npoints ∧ st._osites = grid.oSites
      ∧ st._entries_size = npoints * st._osites
      ∧ (∀ point osite, point < npoints → osite < st._osites →
          point + npoints * osite < st._entries_size
          ∧ (GetNodeLocal st osite point : Int)
              = (st._entries (point + npoints * osite))._is_local
          ∧ GetEntry st point osite = ((st._permute_type point : Int), point + npoints * osite)
          ∧ ∀ point' osite', point' < npoints → osite' < st._osites →
              point + npoints * osite = point' + npoints * osite' →
              point = point' ∧ osite = osite')
      ∧ (∀ (s : CartesianStencil C) (point dimension lplane : Nat) (rplane : Int)
            (cbmask : Nat) (permute wrap : Int) (idx : Nat),
          (CopyPlane s point dimension lplane rplane cbmask permute wrap)._entries idx
              ≠ s._entries idx →
            ∃ site, idx = point + site * s._npoints)
      ∧ (∀ (s : CartesianStencil C) (point dimension plane cbmask offset : Nat) (wrap : Int)
            (idx : Nat),
          (ScatterPlane s point dimension plane cbmask offset wrap)._entries idx
              ≠ s._entries idx →
            ∃ site, idx = point + site * s._npoints) := by
  obtain ⟨_, _, _, hn, ho⟩ := construct_table grid npoints checkerboard directions distances p
    sizeof_vobj sizeof_cobj u st hc
  obtain ⟨hsz, _⟩ := construct_members grid npoints checkerboard directions distances p
    sizeof_vobj sizeof_cobj u st hc
  refine ⟨hn, ho, by rw [hsz, ho], ?_, ?_, ?_⟩
  · intro point osite hp hs
    refine ⟨?_, ?_, ?_, ?_⟩
    · have := entryIndex_lt npoints point osite st._osites hp hs
      unfold entryIndex at this
      rw [hsz, ← ho, Nat.mul_comm npoints osite]
      exact this
    · unfold GetNodeLocal
      rw [hn]
    · unfold GetEntry
      rw [hn]
    · intro point' osite' hp' _ heq
      rw [Nat.mul_comm npoints osite, Nat.mul_comm npoints osite'] at heq
      have h1 := entryIndex_point npoints point point' osite osite' hp hp' heq
      subst h1
      exact ⟨rfl, entryIndex_inj npoints point osite osite' hp heq⟩
  · intro s point dimension lplane rplane cbmask permute wrap idx hne
    by_contra hno
    push_neg at hno
    exact hne (CopyPlaneEntries_miss s._grid s._npoints s._entries point dimension lplane rplane
      cbmask permute wrap idx (fun k _ => hno _))
  · intro s point dimension plane cbmask offset wrap idx hne
    by_contra hno
    push_neg at hno
    exact hne (ScatterPlaneEntries_miss s._grid s._npoints s._entries point dimension plane
      cbmask offset wrap idx (fun k _ => hno _))

/-- Witness of C15: rank 0 of the line of 8 sites on 2 processes, the point of
displacement `+1` and the outer site 3. -/
theorem C15_entry_index_witness :
    ∃ st : CartesianStencil Nat,
      CartesianStencil.construct (lineGrid 0) 1 0 [0] [1] ⟨[0]⟩ 8 8 (someStorage (0 : Nat))
          = .ok st
      ∧ st._entries_size = 1 * st._osites
      ∧ 0 + 1 * 3 < st._entries_size
      ∧ (GetNodeLocal st 3 0 : Int) = (st._entries (0 + 1 * 3))._is_local
      ∧ GetEntry st 0 3 = ((st._permute_type 0 : Int), 0 + 1 * 3) :=
  have hok : constructOk (lineGrid 0) 1 [0] [1] ⟨[0]⟩ 8 8 (someStorage (0 : Nat)) :=
    ⟨fun _ ii hii => by
        obtain rfl : ii = 0 := by omega
        decide,
      fun ii hii => by
        obtain rfl : ii = 0 := by omega
        decide⟩
  have hc := construct_of_constructOk (lineGrid 0) 1 0 [0] [1] ⟨[0]⟩ 8 8
    (someStorage (0 : Nat)) hok
  have h := C15_entry_index (lineGrid 0) 1 0 [0] [1] ⟨[0]⟩ 8 8 (someStorage (0 : Nat)) _ hc
  have hs : (3 : Nat) < (PrecomputeByteOffsets
      (afterPoints (beforePoints (lineGrid 0) 1 [0] [1] ⟨[0]⟩ 8 8 (someStorage (0 : Nat)))
        0 [0] [1] 1))._osites := by
    rw [h.2.1]
    decide
  ⟨_, hc, h.2.2.1, (h.2.2.2.1 0 3 (by decide) hs).1, (h.2.2.2.1 0 3 (by decide) hs).2.1,
    (h.2.2.2.1 0 3 (by decide) hs).2.2.1⟩

/-! ## The assertion of `DirichletBlock` -/

theorem DirichletBlock_loop_error {C : Type} (st : CartesianStencil C) (blk : List Int) (n : Nat)
    (h : ∃ ii, ii < n ∧ dirichletAborts st blk ii = true) :
    forLoopM n (DirichletPoint blk) st = .error Assertion.dirichlet_displacement := by
  induction n with
  | zero =>
    obtain ⟨ii, hii, _⟩ := h
    exact absurd hii (Nat.not_lt_zero _)
  | succ k ih =>
    simp only [forLoopM]
    by_cases hbelow : ∃ ii, ii < k ∧ dirichletAborts st blk ii = true
    · rw [ih hbelow]
      rfl
    · have hfine : ∀ ii, ii < k → dirichletAborts st blk ii = false := by
        intro ii hii
        by_contra hne
        exact hbelow ⟨ii, hii, by simpa using hne⟩
      obtain ⟨ii, hii, hab⟩ := h
      have hik : ii = k := by
        by_contra hne
        have hlt : ii < k := by omega
        rw [hfine ii hlt] at hab
        cases hab
      subst hik
      rw [DirichletBlock_loop_ok st blk ii hfine]
      show DirichletPoint blk ii (dirichletResult st blk ii) = _
      rw [DirichletPoint_eq]
      have hc : (dirichletActive (dirichletResult st blk ii)._grid
          ((dirichletResult st blk ii)._directions.getD ii 0)
          (blk.getD ((dirichletResult st blk ii)._directions.getD ii 0) 0)
            && !decide ((((dirichletResult st blk ii)._distances.getD ii 0).natAbs : Int)
              < cdiv ((dirichletResult st blk ii)._grid._fdimensions
                    ((dirichletResult st blk ii)._directions.getD ii 0))
                  ((dirichletResult st blk ii)._grid._processors
                    ((dirichletResult st blk ii)._directions.getD ii 0)))) = true := hab
      rw [hc]
      rfl

/-- C11 (amended): when a Dirichlet block list is configured and some point
on an axis that is split across processes has a non-zero block size and a
displacement whose absolute value is not below the local extent `fd/pd`, the
constructor stops at the assertion of `DirichletBlock`, before any record of
the table is written.  This is the only condition that `DirichletBlock` checks;
it does not test whether the block size divides the local extent. -/
theorem C11_dirichlet_displacement_fails_fast {C : Type} (grid : GridBase)
    (npoints checkerboard : Nat) (directions : List Nat) (distances : List Int)
    (p : Parameters) (sizeof_vobj sizeof_cobj : Nat) (u : Indeterminate C)
    (hlen : p.dirichlet.length ≠ 0) (ii : Nat) (hii : ii < npoints)
    (hblock : p.dirichlet.getD (directions.getD ii 0) 0 ≠ 0)
    (hcomm : grid._processors (directions.getD ii 0) > 1)
    (hd : cdiv (grid._fdimensions (directions.getD ii 0))
            (grid._processors (directions.getD ii 0))
          ≤ ((distances.getD ii 0).natAbs : Int)) :
    CartesianStencil.construct grid npoints checkerboard directions distances p sizeof_vobj
        sizeof_cobj u = .error Assertion.dirichlet_displacement := by
  have hab : dirichletAborts (CartesianStencil.initial grid npoints directions distances p
      sizeof_vobj sizeof_cobj u) p.dirichlet ii = true := by
    unfold dirichletAborts dirichletActive CartesianStencil.initial truthy ofBool
    simp only [Bool.and_eq_true, Bool.not_eq_true', decide_eq_false_iff_not, bne_iff_ne,
      ne_eq, decide_eq_true_eq]
    refine ⟨⟨hblock, ?_⟩, by omega⟩
    rw [if_pos hcomm]
    decide
  unfold CartesianStencil.construct
  rw [if_pos hlen]
  have hloop : DirichletBlock (CartesianStencil.initial grid npoints directions distances p
      sizeof_vobj sizeof_cobj u) p.dirichlet = .error Assertion.dirichlet_displacement :=
    DirichletBlock_loop_error _ _ _ ⟨ii, hii, hab⟩
  rw [hloop]
  rfl

/-- C11 as stated fails: on rank 0 of the line of 8 sites on 2 processes the
axis is split, its local extent is 4 and the configured block size 3 does not
divide it, and the constructor succeeds for the point of displacement `+1`. -/
theorem C11_counterexample :
    (⟨[3]⟩ : Parameters).dirichlet.getD 0 0 = 3
      ∧ (lineGrid 0)._processors 0 > 1
      ∧ (lineGrid 0)._ldimensions 0 = 4
      ∧ cdiv ((lineGrid 0)._fdimensions 0) ((lineGrid 0)._processors 0) = 4
      ∧ cmod 4 3 ≠ 0
      ∧ (CartesianStencil.construct (lineGrid 0) 1 0 [0] [1] ⟨[3]⟩ 8 8
            (someStorage (0 : Nat))).toBool = true := by
  decide

/-- Witness of C11: on rank 0 of the line of 8 sites on 2 processes, with the
block size 3, the point of displacement `+4` (the local extent) stops the
constructor. -/
theorem C11_dirichlet_displacement_fails_fast_witness :
    CartesianStencil.construct (lineGrid 0) 1 0 [0] [4] ⟨[3]⟩ 8 8 (someStorage (0 : Nat))
      = .error Assertion.dirichlet_displacement :=
  C11_dirichlet_displacement_fails_fast (lineGrid 0) 1 0 [0] [4] ⟨[3]⟩ 8 8
    (someStorage (0 : Nat)) (by decide) 0 (by decide) (by decide) (by decide) (by decide)

/-! ## The flags of a record after construction -/

theorem withByteOffset_flags (sizeof_vobj sizeof_cobj : Nat) (e : StencilEntry) :
    (withByteOffset sizeof_vobj sizeof_cobj e)._around_the_world = e._around_the_world
      ∧ (withByteOffset sizeof_vobj sizeof_cobj e)._permute = e._permute := by
  unfold withByteOffset
  split <;> exact ⟨rfl, rfl⟩

theorem construct_comms_recv {C : Type} (grid : GridBase) (npoints checkerboard : Nat)
    (directions : List Nat) (distances : List Int) (p : Parameters)
    (sizeof_vobj sizeof_cobj : Nat) (u : Indeterminate C) (st : CartesianStencil C)
    (hc : CartesianStencil.construct grid npoints checkerboard directions distances p
            sizeof_vobj sizeof_cobj u = .ok st) :
    st._comms_recv
      = (beforePoints grid npoints directions distances p sizeof_vobj sizeof_cobj u)._comms_recv
    := by
  rw [construct_ok_iff] at hc
  obtain ⟨_, rfl⟩ := hc
  rfl

theorem construct_entry_flags {C : Type} (grid : GridBase) (npoints checkerboard : Nat)
    (directions : List Nat) (distances : List Int) (p : Parameters)
    (sizeof_vobj sizeof_cobj : Nat) (u : Indeterminate C) (st : CartesianStencil C)
    (hc : CartesianStencil.construct grid npoints checkerboard directions distances p
            sizeof_vobj sizeof_cobj u = .ok st)
    (point : Nat) (hp : point < npoints)
    (hl : AxisLayout grid (directions.getD point 0))
    (hpar : ∀ k, grid.CheckerBoardFromOindex k ≤ 1)
    (hdep : grid.CheckerBoardShiftForCB checkerboard (directions.getD point 0)
                (distances.getD point 0) Even
              ≠ grid.CheckerBoardShiftForCB checkerboard (directions.getD point 0)
                (distances.getD point 0) Odd →
            grid.CheckerBoarded (directions.getD point 0) = true)
    (x k : Nat) (hx : x < grid._rdimensions (directions.getD point 0))
    (hk : k ∈ planeOffsets grid (directions.getD point 0)) :
    (grid._processors (directions.getD point 0) ≤ 1 →
      (st._entries (entryIndex npoints point
          (x * grid._ostride (directions.getD point 0) + k)))._is_local = 1
      ∧ (st._entries (entryIndex npoints point
          (x * grid._ostride (directions.getD point 0) + k)))._around_the_world
        = toU8 (localWraparound (distances.getD point 0)
            (shiftedPlane grid (directions.getD point 0)
              (passShift grid checkerboard (directions.getD point 0) (distances.getD point 0)
                (siteMask grid checkerboard (directions.getD point 0)
                  (distances.getD point 0) k)) x) x))
    ∧ (grid._processors (directions.getD point 0) > 1 →
      (st._entries (entryIndex npoints point
          (x * grid._ostride (directions.getD point 0) + k)))._is_local
        = (if offnodePlane grid (directions.getD point 0)
                (passShift grid checkerboard (directions.getD point 0) (distances.getD point 0)
                  (siteMask grid checkerboard (directions.getD point 0)
                    (distances.getD point 0) k)) x = 0
              ∨ st._comms_recv point = 0 then 1 else 0)
      ∧ (st._entries (entryIndex npoints point
          (x * grid._ostride (directions.getD point 0) + k)))._around_the_world
        = toU8 (commsWraparound grid (directions.getD point 0) (distances.getD point 0)
            (shiftedPlane grid (directions.getD point 0)
              (passShift grid checkerboard (directions.getD point 0) (distances.getD point 0)
                (siteMask grid checkerboard (directions.getD point 0)
                  (distances.getD point 0) k)) x) x)) := by
  obtain ⟨hent, _, _, _, _⟩ := construct_table grid npoints checkerboard directions distances
    p sizeof_vobj sizeof_cobj u st hc
  have hrecv := construct_comms_recv grid npoints checkerboard directions distances
    p sizeof_vobj sizeof_cobj u st hc
  have hsite := plane_site_lt grid (directions.getD point 0) hl x k hx hk
  rw [hent _ (entryIndex_lt npoints point _ grid.oSites hp hsite)]
  obtain ⟨_, hloc, _⟩ := withByteOffset_fields sizeof_vobj sizeof_cobj
    ((constructTable grid npoints checkerboard directions distances p sizeof_vobj
      sizeof_cobj u).1 (entryIndex npoints point
        (x * grid._ostride (directions.getD point 0) + k)))
  obtain ⟨hw, _⟩ := withByteOffset_flags sizeof_vobj sizeof_cobj
    ((constructTable grid npoints checkerboard directions distances p sizeof_vobj
      sizeof_cobj u).1 (entryIndex npoints point
        (x * grid._ostride (directions.getD point 0) + k)))
  rw [hloc, hw, hrecv]
  unfold constructTable
  rw [constructLoopEntries_point _ _ _ _ _ _ point npoints _ hp (Nat.le_refl _)]
  unfold constructPointEntries
  constructor
  · intro hpd
    rw [if_neg (by omega)]
    have key := localPasses_entry grid npoints checkerboard point (directions.getD point 0)
      (distances.getD point 0)
      (constructLoopEntries grid npoints checkerboard
        (beforePoints grid npoints directions distances p sizeof_vobj sizeof_cobj u)._comms_recv
        directions distances point
        ((beforePoints grid npoints directions distances p sizeof_vobj sizeof_cobj u)._entries,
          0)).1 hl hp hpar hdep x k hx hk
    exact ⟨key.2.1, key.2.2.2⟩
  · intro hpd
    rw [if_pos hpd]
    obtain ⟨_, key⟩ := commsPasses_entry grid npoints checkerboard point
      (directions.getD point 0) (distances.getD point 0)
      ((beforePoints grid npoints directions distances p sizeof_vobj sizeof_cobj u)._comms_recv
        point)
      (constructLoopEntries grid npoints checkerboard
        (beforePoints grid npoints directions distances p sizeof_vobj sizeof_cobj u)._comms_recv
        directions distances point
        ((beforePoints grid npoints directions distances p sizeof_vobj sizeof_cobj u)._entries,
          0)) hl hp hpar hdep x k hx hk
    unfold commsEntryAt at key
    dsimp only at key
    by_cases hoff : offnodePlane grid (directions.getD point 0)
        (passShift grid checkerboard (directions.getD point 0) (distances.getD point 0)
          (siteMask grid checkerboard (directions.getD point 0) (distances.getD point 0) k))
        x = 0
    · rw [if_pos hoff] at key
      rw [if_pos (Or.inl hoff)]
      exact ⟨key.2.1, key.2.2.2⟩
    · rw [if_neg hoff] at key
      by_cases hr : (beforePoints grid npoints directions distances p sizeof_vobj
          sizeof_cobj u)._comms_recv point = 0
      · rw [if_pos hr] at key
        rw [if_pos (Or.inr hr)]
        exact ⟨key.2.1, key.2.2.2⟩
      · rw [if_neg hr] at key
        rw [if_neg (by
          intro h
          rcases h with h | h
          · exact hoff h
          · exact hr h)]
        obtain ⟨i, _, hrem⟩ := key
        exact ⟨hrem.2.1, hrem.2.2.2⟩

/-! ## The wraparound flag -/

theorem shift_plus_one (fd : Nat) (hfd : 1 < fd) : cmod (1 + (fd : Int)) (fd : Int) = 1 := by
  unfold cmod
  rw [Int.tmod_eq_emod (by omega) (by omega), Int.add_emod_self]
  exact Int.emod_eq_of_lt (by omega) (by omega)

theorem shift_minus_one (fd : Nat) (hfd : 1 < fd) :
    cmod (-1 + (fd : Int)) (fd : Int) = (fd : Int) - 1 := by
  unfold cmod
  rw [Int.tmod_eq_emod (by omega) (by omega)]
  have h : (-1 + (fd : Int)) = (fd : Int) - 1 := by omega
  rw [h]
  exact Int.emod_eq_of_lt (by omega) (by omega)

theorem plane_plus_one (x ld : Nat) (hx : x < ld) :
    cmod ((x : Int) + 1) (ld : Int) = if x + 1 = ld then 0 else (x : Int) + 1 := by
  unfold cmod
  rw [Int.tmod_eq_emod (by omega) (by omega)]
  split
  · rename_i h
    have h2 : (x : Int) + 1 = (ld : Int) := by omega
    rw [h2]
    exact Int.emod_self
  · exact Int.emod_eq_of_lt (by omega) (by omega)

theorem plane_minus_one (x ld pd : Nat) (hx : x < ld) (hpd : 0 < pd) :
    cmod ((x : Int) + (((ld * pd : Nat) : Int) - 1)) (ld : Int)
      = if x = 0 then (ld : Int) - 1 else (x : Int) - 1 := by
  unfold cmod
  have hprod : (0 : Int) < ((ld * pd : Nat) : Int) := by
    have : 0 < ld * pd := Nat.mul_pos (by omega) hpd
    omega
  rw [Int.tmod_eq_emod (by omega) (by omega)]
  have h : (x : Int) + (((ld * pd : Nat) : Int) - 1) = ((x : Int) - 1) + (ld : Int) * (pd : Int) := by
    push_cast
    ring
  rw [h, Int.add_mul_emod_self_left]
  split
  · rename_i h0
    subst h0
    have h1 : ((0 : Nat) : Int) - 1 = ((ld : Int) - 1) + (ld : Int) * (-1) := by
      push_cast
      ring
    rw [h1, Int.add_mul_emod_self_left]
    exact Int.emod_eq_of_lt (by omega) (by omega)
  · exact Int.emod_eq_of_lt (by omega) (by omega)

theorem last_process_site (pc pd ld x : Nat) (hpc : pc < pd) (hx : x < ld) :
    (ld * pd ≤ pc * ld + x + 1) ↔ (pc + 1 = pd ∧ x + 1 = ld) := by
  constructor
  · intro h
    have h1 : (pc + 1) * ld ≤ pd * ld := Nat.mul_le_mul_right ld hpc
    have h2 : (pc + 1) * ld = pc * ld + ld := by ring
    have h3 : ld * pd = pd * ld := Nat.mul_comm _ _
    have hx1 : x + 1 = ld := by omega
    refine ⟨?_, hx1⟩
    have h4 : pd * ld ≤ (pc + 1) * ld := by omega
    have hld : 0 < ld := by omega
    have := Nat.le_of_mul_le_mul_right h4 hld
    omega
  · rintro ⟨h1, h2⟩
    subst h1
    have : ld * (pc + 1) = pc * ld + ld := by ring
    omega

theorem toU8_flag (b : Prop) [Decidable b] :
    toU8 (if b then 1 else 0) = if b then 1 else 0 := by
  split <;> rfl

/-- C13 (amended): for a point of displacement `d` with `0 < |d| <` local
extent on an axis with `simd_layout` 1, and every site of the local lattice,
the flag `_around_the_world` of the record is 1 when `|d| = 1` and the global
coordinate of the site plus `d` leaves `[0, fd)`, and 0 otherwise; it is set
only on the first process of the axis (`d = -1`) or on the last (`d = +1`).
The global coordinate of a site in plane `x` is `pc*ld + x`.  Grid hypotheses:
the axis carries no parity (the checkerboard shift of a shift is the shift),
`ld = rd*simd_layout`, `fd = ld*pd`, `pc < pd`, the slice tables describe the
reduced layout, parities are 0 or 1. -/
theorem C13_around_the_world_flag {C : Type} (grid : GridBase) (npoints checkerboard : Nat)
    (directions : List Nat) (distances : List Int) (p : Parameters)
    (sizeof_vobj sizeof_cobj : Nat) (u : Indeterminate C) (st : CartesianStencil C)
    (hc : CartesianStencil.construct grid npoints checkerboard directions distances p
            sizeof_vobj sizeof_cobj u = .ok st)
    (point : Nat) (hp : point < npoints) (dim : Nat) (d : Int)
    (hdim : directions.getD point 0 = dim) (hdist : distances.getD point 0 = d)
    (hd0 : d ≠ 0) (hdl : d.natAbs < grid._ldimensions dim)
    (hsimd : grid._simd_layout dim = 1)
    (hl : AxisLayout grid dim) (hpar : ∀ k, grid.CheckerBoardFromOindex k ≤ 1)
    (hcb : ∀ s ocb, grid.CheckerBoardShiftForCB checkerboard dim s ocb = s)
    (hld : grid._ldimensions dim = grid._rdimensions dim * grid._simd_layout dim)
    (hfd : grid._fdimensions dim = grid._ldimensions dim * grid._processors dim)
    (hpc : grid._processor_coor dim < grid._processors dim)
    (x k : Nat) (hx : x < grid._rdimensions dim) (hk : k ∈ planeOffsets grid dim) :
    (st._entries (entryIndex npoints point (x * grid._ostride dim + k)))._around_the_world
        = (if (d = 1 ∨ d = -1)
              ∧ ¬ (0 ≤ ((grid._processor_coor dim * grid._ldimensions dim + x : Nat) : Int) + d
                  ∧ ((grid._processor_coor dim * grid._ldimensions dim + x : Nat) : Int) + d
                      < (grid._fdimensions dim : Int))
            then 1 else 0)
      ∧ ((st._entries (entryIndex npoints point (x * grid._ostride dim + k)))._around_the_world
            = 1 →
          (d = -1 ∧ grid._processor_coor dim = 0)
            ∨ (d = 1 ∧ grid._processor_coor dim + 1 = grid._processors dim)) := by
  subst hdim hdist
  have hrd : grid._rdimensions (directions.getD point 0)
      = grid._ldimensions (directions.getD point 0) := by
    rw [hld, hsimd, Nat.mul_one]
  have hflags := construct_entry_flags grid npoints checkerboard directions distances p
    sizeof_vobj sizeof_cobj u st hc point hp hl hpar
    (fun h => absurd (by rw [hcb, hcb]) h) x k hx hk
  have hshift : ∀ m, passShift grid checkerboard (directions.getD point 0)
      (distances.getD point 0) m
        = cmod (distances.getD point 0 + (grid._fdimensions (directions.getD point 0) : Int))
            (grid._fdimensions (directions.getD point 0) : Int) := by
    intro m
    unfold passShift
    rw [hcb]
  rw [hshift] at hflags
  generalize hflag : (st._entries (entryIndex npoints point
    (x * grid._ostride (directions.getD point 0) + k)))._around_the_world = flag at hflags ⊢
  generalize distances.getD point 0 = d at *
  generalize directions.getD point 0 = dim at *
  generalize hpcv : grid._processor_coor dim = pc at *
  generalize hpdv : grid._processors dim = pd at *
  generalize hldv : grid._ldimensions dim = ld at *
  generalize hfdv : grid._fdimensions dim = fd at *
  generalize hrdv : grid._rdimensions dim = rd at *
  subst hrd hfd
  have hpd0 : 0 < pd := by omega
  have hld1 : 1 < rd := by omega
  have hfd1 : 1 < rd * pd := by
    have : rd * 1 ≤ rd * pd := Nat.mul_le_mul_left rd hpd0
    omega
  have hwrap : flag = toU8 (if (d = -1 ∧ (x = 0 ∧ pc = 0)) ∨ (d = 1 ∧ (x + 1 = rd ∧ pc + 1 = pd))
      then 1 else 0) := by
    by_cases hsplit : pd ≤ 1
    · have hpd1 : pd = 1 := by omega
      have hpc0 : pc = 0 := by omega
      rw [(hflags.1 hsplit).2]
      unfold localWraparound shiftedPlane
      rw [hrdv]
      by_cases h1 : d = 1
      · subst h1
        rw [shift_plus_one _ hfd1, plane_plus_one x rd hx]
        congr 1
        by_cases hx1 : x + 1 = rd
        · rw [if_pos hx1, if_pos (Or.inr ⟨rfl, by omega⟩), if_pos (Or.inr ⟨rfl, hx1, by omega⟩)]
        · rw [if_neg hx1, if_neg (by omega), if_neg (by omega)]
      · by_cases h2 : d = -1
        · subst h2
          rw [shift_minus_one _ hfd1, plane_minus_one x rd pd hx hpd0]
          congr 1
          by_cases hx0 : x = 0
          · rw [if_pos hx0, if_pos (Or.inl ⟨rfl, by omega⟩),
              if_pos (Or.inl ⟨rfl, hx0, hpc0⟩)]
          · rw [if_neg hx0, if_neg (by omega), if_neg (by omega)]
        · rw [if_neg (by omega), if_neg (by omega)]
    · rw [(hflags.2 (by omega)).2]
      unfold commsWraparound shiftedPlane
      rw [hrdv, hpcv, hpdv]
      by_cases h1 : d = 1
      · subst h1
        rw [shift_plus_one _ hfd1, plane_plus_one x rd hx]
        congr 1
        by_cases hx1 : x + 1 = rd
        · rw [if_pos hx1]
          by_cases hlast : pc + 1 = pd
          · rw [if_pos (Or.inr ⟨rfl, by omega, by omega⟩), if_pos (Or.inr ⟨rfl, hx1, hlast⟩)]
          · rw [if_neg (by omega), if_neg (by omega)]
        · rw [if_neg hx1, if_neg (by omega), if_neg (by omega)]
      · by_cases h2 : d = -1
        · subst h2
          rw [shift_minus_one _ hfd1, plane_minus_one x rd pd hx hpd0]
          congr 1
          by_cases hx0 : x = 0
          · rw [if_pos hx0]
            by_cases hfirst : pc = 0
            · rw [if_pos (Or.inl ⟨rfl, by omega, hfirst⟩), if_pos (Or.inl ⟨rfl, hx0, hfirst⟩)]
            · rw [if_neg (by omega), if_neg (by omega)]
          · rw [if_neg hx0, if_neg (by omega), if_neg (by omega)]
        · rw [if_neg (by omega), if_neg (by omega)]
  rw [toU8_flag] at hwrap
  have hlast := last_process_site pc pd rd x hpc hx
  have hzero : pc * rd + x = 0 ↔ (x = 0 ∧ pc = 0) := by
    constructor
    · intro h
      have hx0 : x = 0 := by omega
      have : pc * rd = 0 := by omega
      rcases Nat.mul_eq_zero.1 this with h' | h'
      · exact ⟨hx0, h'⟩
      · omega
    · rintro ⟨h1, h2⟩
      subst h1 h2
      simp
  constructor
  · rw [hwrap]
    by_cases hc1 : (d = -1 ∧ (x = 0 ∧ pc = 0)) ∨ (d = 1 ∧ (x + 1 = rd ∧ pc + 1 = pd))
    · rw [if_pos hc1, if_pos]
      rcases hc1 with ⟨hd, hx0⟩ | ⟨hd, hx1, hp1⟩
      · refine ⟨Or.inr hd, ?_⟩
        have := hzero.2 hx0
        omega
      · refine ⟨Or.inl hd, ?_⟩
        have := hlast.2 ⟨hp1, hx1⟩
        push_cast
        push_cast at this
        omega
    · rw [if_neg hc1, if_neg]
      rintro ⟨hd, hleave⟩
      apply hc1
      rcases hd with hd | hd
      · right
        subst hd
        refine ⟨rfl, ?_⟩
        have : rd * pd ≤ pc * rd + x + 1 := by
          by_contra hlt
          apply hleave
          push_cast
          constructor
          · positivity
          · have : pc * rd + x + 1 < rd * pd := by omega
            have h2 : ((pc * rd + x + 1 : Nat) : Int) < ((rd * pd : Nat) : Int) := by
              exact_mod_cast this
            push_cast at h2
            omega
        have := hlast.1 this
        exact ⟨this.2, this.1⟩
      · left
        subst hd
        refine ⟨rfl, ?_⟩
        apply hzero.1
        by_contra hne
        apply hleave
        have hpos : 0 < pc * rd + x := by omega
        have h2 : (0 : Int) < ((pc * rd + x : Nat) : Int) := by exact_mod_cast hpos
        have h3 : pc * rd + x < rd * pd + 1 := by
          have h1 : (pc + 1) * rd ≤ pd * rd := Nat.mul_le_mul_right rd hpc
          have h2 : (pc + 1) * rd = pc * rd + rd := by ring
          have h3 : rd * pd = pd * rd := Nat.mul_comm _ _
          omega
        have h4 : ((pc * rd + x : Nat) : Int) < ((rd * pd + 1 : Nat) : Int) := by
          exact_mod_cast h3
        push_cast at h4
        constructor
        · omega
        · push_cast
          omega
  · intro h1
    rw [hwrap] at h1
    by_cases hc1 : (d = -1 ∧ (x = 0 ∧ pc = 0)) ∨ (d = 1 ∧ (x + 1 = rd ∧ pc + 1 = pd))
    · rcases hc1 with ⟨hd, _, hp0⟩ | ⟨hd, _, hp1⟩
      · exact Or.inl ⟨hd, hp0⟩
      · exact Or.inr ⟨hd, hp1⟩
    · rw [if_neg hc1] at h1
      cases h1

/-- C13 as stated fails for `|d| = 2`: on rank 1, the last process of the
line of 8 sites on 2 processes (local extent 4, `simd_layout` 1), the site 3
has the global coordinate 7, and `7 + 2` leaves `[0, 8)`, but the record of the
point of displacement `+2` has `_around_the_world = 0`. -/
theorem C13_counterexample :
    (CartesianStencil.construct (lineGrid 1) 1 0 [0] [2] ⟨[0]⟩ 8 8
          (someStorage (0 : Nat))).toBool = true
      ∧ (2 : Int).natAbs < (lineGrid 1)._ldimensions 0
      ∧ (lineGrid 1)._simd_layout 0 = 1
      ∧ (lineGrid 1)._processor_coor 0 + 1 = (lineGrid 1)._processors 0
      ∧ ((constructed (lineGrid 1) 1 0 [0] [2] ⟨[0]⟩ 8 8 (someStorage (0 : Nat)))._entries
            (entryIndex 1 0 3))._around_the_world = 0
      ∧ ¬ ((((lineGrid 1)._processor_coor 0 * (lineGrid 1)._ldimensions 0 + 3 : Nat) : Int) + 2
            < ((lineGrid 1)._fdimensions 0 : Int)) := by
  decide

/-- Witness of C13: rank 1 of the line of 8 sites on 2 processes, the point
of displacement `+1` and the site in plane 3. -/
theorem C13_around_the_world_flag_witness :
    ∃ st : CartesianStencil Nat,
      CartesianStencil.construct (lineGrid 1) 1 0 [0] [1] ⟨[0]⟩ 8 8 (someStorage (0 : Nat))
          = .ok st
      ∧ (st._entries (entryIndex 1 0 (3 * (lineGrid 1)._ostride 0 + 0)))._around_the_world
          = (if ((1 : Int) = 1 ∨ (1 : Int) = -1)
                ∧ ¬ (0 ≤ (((lineGrid 1)._processor_coor 0 * (lineGrid 1)._ldimensions 0 + 3
                            : Nat) : Int) + 1
                    ∧ (((lineGrid 1)._processor_coor 0 * (lineGrid 1)._ldimensions 0 + 3
                            : Nat) : Int) + 1 < ((lineGrid 1)._fdimensions 0 : Int))
              then 1 else 0) :=
  have hok : constructOk (lineGrid 1) 1 [0] [1] ⟨[0]⟩ 8 8 (someStorage (0 : Nat)) :=
    ⟨fun _ ii hii => by
        obtain rfl : ii = 0 := by omega
        decide,
      fun ii hii => by
        obtain rfl : ii = 0 := by omega
        decide⟩
  ⟨_, construct_of_constructOk (lineGrid 1) 1 0 [0] [1] ⟨[0]⟩ 8 8 (someStorage (0 : Nat)) hok,
    (C13_around_the_world_flag (lineGrid 1) 1 0 [0] [1] ⟨[0]⟩ 8 8 (someStorage (0 : Nat)) _
      (construct_of_constructOk (lineGrid 1) 1 0 [0] [1] ⟨[0]⟩ 8 8 (someStorage (0 : Nat)) hok)
      0 (by decide) 0 1 rfl rfl (by decide) (by decide) rfl
      ⟨by decide, by decide, by decide, by decide, by decide⟩
      (fun _ => Nat.zero_le 1) (fun _ _ => rfl) (by decide) (by decide) (by decide)
      3 0 (by decide) (by decide)).1⟩

/-! ## A displacement of zero -/

theorem offnodePlane_zero (g : GridBase) (dimension x : Nat)
    (hx : x < g._rdimensions dimension)
    (hld : g._ldimensions dimension = g._rdimensions dimension * g._simd_layout dimension) :
    offnodePlane g dimension 0 x = 0 := by
  unfold offnodePlane
  dsimp only
  split
  · rename_i hs
    refine forLoop_invariant (fun _ (o : Int) => o = 0) _ _ _ rfl ?_
    intro i o _ ho
    subst ho
    have hlt : ∀ ic : Int, (ic = 0 ∨ ic = 1) →
        cmod (cdiv ((g._rdimensions dimension : Int) * ic + (x : Int) + 0)
          (g._ldimensions dimension : Int)) (g._processors dimension : Int) = 0 := by
      intro ic hic
      have h2 : 2 * g._rdimensions dimension ≤ g._ldimensions dimension := by
        rw [hld, Nat.mul_comm 2]
        exact Nat.mul_le_mul_left _ hs
      have hq : cdiv ((g._rdimensions dimension : Int) * ic + (x : Int) + 0)
          (g._ldimensions dimension : Int) = 0 := by
        unfold cdiv
        apply Int.tdiv_eq_zero_of_lt
        · rcases hic with h | h <;> subst h <;> omega
        · rcases hic with h | h <;> subst h <;> omega
      rw [hq]
      unfold cmod
      exact Int.zero_tmod _
    by_cases hbit : i &&& g.Nsimd >>> (g.PermuteType dimension + 1) ≠ 0
    · rw [if_pos hbit, hlt 1 (Or.inr rfl)]
      rfl
    · rw [if_neg hbit, hlt 0 (Or.inl rfl)]
      rfl
  · have hq : cdiv ((x : Int) + 0) (g._rdimensions dimension : Int) = 0 := by
      unfold cdiv
      exact Int.tdiv_eq_zero_of_lt (by omega) (by omega)
    rw [hq]
    unfold cmod
    rw [Int.zero_tmod]
    rfl

theorem zero_shift_normalised (fd : Nat) : cmod (0 + (fd : Int)) (fd : Int) = 0 := by
  unfold cmod
  rw [Int.zero_add]
  exact Int.tmod_self

theorem sumTo_zero (n : Nat) (f : Nat → Nat) (h : ∀ i, i < n → f i = 0) : sumTo n f = 0 := by
  unfold sumTo
  refine forLoop_invariant (fun _ (a : Nat) => a = 0) n _ 0 rfl ?_
  intro i a hi ha
  rw [ha, h i hi]

theorem passShift_zero (g : GridBase) (checkerboard dimension m : Nat)
    (hzero : ∀ ocb, g.CheckerBoardShiftForCB checkerboard dimension 0 ocb = 0) :
    passShift g checkerboard dimension 0 m = 0 := by
  unfold passShift
  rw [zero_shift_normalised, hzero]

theorem constructPointEntries_zero_size (g : GridBase) (npoints checkerboard : Nat)
    (comms_recv : Int) (point dimension : Nat) (s : (Nat → StencilEntry) × Nat)
    (hzero : ∀ ocb, g.CheckerBoardShiftForCB checkerboard dimension 0 ocb = 0)
    (hld : g._ldimensions dimension = g._rdimensions dimension * g._simd_layout dimension) :
    (constructPointEntries g npoints checkerboard comms_recv point dimension 0 s).2 = s.2 := by
  unfold constructPointEntries
  split
  · rw [commsPasses_size, if_pos (by rw [hzero, hzero]), passShift_zero g _ _ _ hzero,
      sumTo_zero, Nat.add_zero]
    intro x hx
    unfold commsPlaneWords
    rw [offnodePlane_zero g dimension x hx hld]
    rfl
  · rfl

/-- C12: for a stencil point of displacement 0, on an axis that is split
across processes or not and SIMD-split or not, every record of the point in
the constructed table has `_is_local = 1`, the constructor loop body for the
point leaves `_unified_buffer_size` as it finds it, and `SameNode(point)`
returns 1.  Grid hypotheses: the checkerboard shift of a zero shift is zero;
the local extent is the reduced extent times `simd_layout`; the slice tables
describe the reduced layout and parities are 0 or 1 (so that every site of the
local lattice has its record written). -/
theorem C12_zero_displacement_local {C : Type} (grid : GridBase) (npoints checkerboard : Nat)
    (directions : List Nat) (distances : List Int) (p : Parameters)
    (sizeof_vobj sizeof_cobj : Nat) (u : Indeterminate C) (st : CartesianStencil C)
    (hc : CartesianStencil.construct grid npoints checkerboard directions distances p
            sizeof_vobj sizeof_cobj u = .ok st)
    (point : Nat) (hp : point < npoints) (hd : distances.getD point 0 = 0)
    (hzero : ∀ ocb,
      grid.CheckerBoardShiftForCB checkerboard (directions.getD point 0) 0 ocb = 0)
    (hld : grid._ldimensions (directions.getD point 0)
            = grid._rdimensions (directions.getD point 0)
                * grid._simd_layout (directions.getD point 0))
    (hl : AxisLayout grid (directions.getD point 0))
    (hpar : ∀ k, grid.CheckerBoardFromOindex k ≤ 1) :
    (∀ site, site < grid.oSites →
        (st._entries (entryIndex npoints point site))._is_local = 1)
      ∧ (∀ s r : CartesianStencil C, s._grid = grid →
          constructPoint checkerboard directions distances point s = .ok r →
          r._unified_buffer_size = s._unified_buffer_size)
      ∧ SameNode st point = 1 := by
  refine ⟨?_, ?_, ?_⟩
  · intro site hs
    obtain ⟨x, hx, k, hk, rfl⟩ := plane_site_cover grid (directions.getD point 0) hl site hs
    have hflags := construct_entry_flags grid npoints checkerboard directions distances p
      sizeof_vobj sizeof_cobj u st hc point hp hl hpar
      (fun h => absurd (by rw [hd, hzero, hzero]) h) x k hx hk
    by_cases hpd : grid._processors (directions.getD point 0) ≤ 1
    · exact (hflags.1 hpd).1
    · rw [(hflags.2 (by omega)).1, hd, passShift_zero grid _ _ _ hzero,
        offnodePlane_zero grid _ x hx hld]
      exact if_pos (Or.inl rfl)
  · intro s r hg hr
    subst hg
    by_cases hok : constructPointOk s._grid (directions.getD point 0)
        (distances.getD point 0) = true
    · rw [constructPoint_ok checkerboard directions distances point s hok] at hr
      cases hr
      show (constructPointEntries s._grid s._npoints checkerboard (s._comms_recv point) point
        (directions.getD point 0) (distances.getD point 0)
        (s._entries, s._unified_buffer_size)).2 = _
      rw [hd]
      exact constructPointEntries_zero_size s._grid s._npoints checkerboard _ point _ _ hzero hld
    · obtain ⟨a, ha⟩ := constructPoint_error checkerboard directions distances point s
        (by simpa using hok)
      rw [ha] at hr
      cases hr
  · obtain ⟨_, _, hdist, _⟩ := construct_members grid npoints checkerboard directions
      distances p sizeof_vobj sizeof_cobj u st hc
    unfold SameNode
    dsimp only
    rw [hdist, hd]
    split
    · rfl
    · rfl

/-- Witness of C12: rank 0 of the 16 x 2 red-black grid on two processes with
two SIMD lanes, one point of displacement 0 along the axis that is split
across the processes and across the SIMD lanes; the record of site 3. -/
theorem C12_zero_displacement_local_witness :
    ∃ st : CartesianStencil Nat,
      CartesianStencil.construct (redBlackGrid 0) 1 0 [0] [0] ⟨[0, 0]⟩ 8 8
          (someStorage (0 : Nat)) = .ok st
      ∧ (st._entries (entryIndex 1 0 3))._is_local = 1
      ∧ SameNode st 0 = 1 :=
  have hok : constructOk (redBlackGrid 0) 1 [0] [0] ⟨[0, 0]⟩ 8 8 (someStorage (0 : Nat)) :=
    ⟨fun _ ii hii => by
        obtain rfl : ii = 0 := by omega
        decide,
      fun ii hii => by
        obtain rfl : ii = 0 := by omega
        decide⟩
  have h := C12_zero_displacement_local (redBlackGrid 0) 1 0 [0] [0] ⟨[0, 0]⟩ 8 8
    (someStorage (0 : Nat)) _
    (construct_of_constructOk (redBlackGrid 0) 1 0 [0] [0] ⟨[0, 0]⟩ 8 8
      (someStorage (0 : Nat)) hok)
    0 (by decide) rfl
    (fun ocb => by
      show (if (0 : Nat) ≠ 0 then (0 : Int)
        else if (0 + ocb) % 2 = 1 then cdiv (cmod (0 + 16) 16) 2
        else cdiv (cmod (0 + 16) 16 + 1) 2) = 0
      rw [if_neg (by decide)]
      split <;> decide)
    (by decide)
    ⟨by decide, by decide, by decide, by decide, by decide⟩
    (fun k => by
      show (k % 2 + k / 2 % 2) % 2 ≤ 1
      omega)
  ⟨_, construct_of_constructOk (redBlackGrid 0) 1 0 [0] [0] ⟨[0, 0]⟩ 8 8
      (someStorage (0 : Nat)) hok, h.1 3 (by decide), h.2.2⟩

/-! ## The surface list -/

theorem SameNode_eq {C : Type} (st : CartesianStencil C) (point : Nat) :
    SameNode st point
      = if st._grid._processors (st._directions.getD point 0) ≤ 1
            ∨ st._distances.getD point 0 = 0 then 1 else 0 := by
  unfold SameNode
  dsimp only
  generalize st._directions.getD point 0 = dim
  generalize st._distances.getD point 0 = d
  by_cases hpd : st._grid._processors dim > 1
  · have h1 : ¬ st._grid._processors dim ≤ 1 := by omega
    by_cases hd : d = 0
    · simp [hpd, hd, truthy, ofBool]
    · simp [hpd, hd, h1, truthy, ofBool]
  · have h1 : st._grid._processors dim ≤ 1 := by omega
    simp [hpd, h1, truthy, ofBool]

theorem sameNode_entries_local {C : Type} (grid : GridBase) (npoints checkerboard : Nat)
    (directions : List Nat) (distances : List Int) (p : Parameters)
    (sizeof_vobj sizeof_cobj : Nat) (u : Indeterminate C) (st : CartesianStencil C)
    (hc : CartesianStencil.construct grid npoints checkerboard directions distances p
            sizeof_vobj sizeof_cobj u = .ok st)
    (point : Nat) (hp : point < npoints)
    (hl : AxisLayout grid (directions.getD point 0))
    (hpar : ∀ k, grid.CheckerBoardFromOindex k ≤ 1)
    (hdep : grid.CheckerBoardShiftForCB checkerboard (directions.getD point 0)
                (distances.getD point 0) Even
              ≠ grid.CheckerBoardShiftForCB checkerboard (directions.getD point 0)
                (distances.getD point 0) Odd →
            grid.CheckerBoarded (directions.getD point 0) = true)
    (hzero : ∀ ocb,
      grid.CheckerBoardShiftForCB checkerboard (directions.getD point 0) 0 ocb = 0)
    (hld : grid._ldimensions (directions.getD point 0)
            = grid._rdimensions (directions.getD point 0)
                * grid._simd_layout (directions.getD point 0))
    (hsame : SameNode st point ≠ 0) (site : Nat) (hs : site < grid.oSites) :
    (st._entries (entryIndex npoints point site))._is_local = 1 := by
  obtain ⟨_, hdir, hdist, _⟩ := construct_members grid npoints checkerboard directions
    distances p sizeof_vobj sizeof_cobj u st hc
  obtain ⟨_, _, hg, _, _⟩ := construct_table grid npoints checkerboard directions distances p
    sizeof_vobj sizeof_cobj u st hc
  rw [SameNode_eq, hg, hdir, hdist] at hsame
  obtain ⟨x, hx, k, hk, rfl⟩ := plane_site_cover grid (directions.getD point 0) hl site hs
  have hflags := construct_entry_flags grid npoints checkerboard directions distances p
    sizeof_vobj sizeof_cobj u st hc point hp hl hpar hdep x k hx hk
  by_cases hpd : grid._processors (directions.getD point 0) ≤ 1
  · exact (hflags.1 hpd).1
  · have hd : distances.getD point 0 = 0 := by
      by_contra hne
      rw [if_neg (by
        intro h
        rcases h with h | h
        · exact hpd h
        · exact hne h)] at hsame
      exact hsame rfl
    rw [(hflags.2 (by omega)).1, hd, passShift_zero grid _ _ _ hzero,
      offnodePlane_zero grid _ x hx hld]
    exact if_pos (Or.inl rfl)

theorem sameNodeLoop {C : Type} (st : CartesianStencil C) (n : Nat) :
    forLoop n (fun point (s : CartesianStencil C) =>
        { s with same_node := setAt s.same_node point (SameNode s point) }) st
      = { st with same_node := fun j => if j < n then SameNode st j else st.same_node j } := by
  induction n with
  | zero => simp [forLoop]
  | succ k ih =>
    simp only [forLoop]
    rw [ih]
    show ({ st with same_node := _ } : CartesianStencil C) = _
    congr 1
    funext j
    unfold setAt
    by_cases hj : j = k
    · subst hj
      simp [SameNode]
    · have : (j < k + 1) = (j < k) := by
        apply propext
        constructor <;> intro hh <;> omega
      simp [hj, this]

theorem localLoop {C : Type} (st : CartesianStencil C) (osite n : Nat) :
    forLoop n (fun point (local_ : Int) =>
        if !truthy (GetNodeLocal st osite point) && !truthy (st.same_node point) then 0
        else local_) 1
      = if ∃ point, point < n
            ∧ (st._entries (point + st._npoints * osite))._is_local = 0
            ∧ st.same_node point = 0 then 0 else 1 := by
  induction n with
  | zero => simp [forLoop]
  | succ k ih =>
    simp only [forLoop]
    rw [ih]
    have hcond : (!truthy (GetNodeLocal st osite k) && !truthy (st.same_node k)) = true
        ↔ ((st._entries (k + st._npoints * osite))._is_local = 0 ∧ st.same_node k = 0) := by
      unfold truthy GetNodeLocal
      simp
    by_cases hk : (st._entries (k + st._npoints * osite))._is_local = 0 ∧ st.same_node k = 0
    · rw [if_pos (hcond.2 hk), if_pos ⟨k, Nat.lt_succ_self k, hk⟩]
    · rw [if_neg (fun h => hk (hcond.1 h))]
      by_cases hbelow : ∃ point, point < k
          ∧ (st._entries (point + st._npoints * osite))._is_local = 0 ∧ st.same_node point = 0
      · obtain ⟨q, hq, hq2⟩ := hbelow
        rw [if_pos ⟨q, hq, hq2⟩, if_pos ⟨q, Nat.lt_succ_of_lt hq, hq2⟩]
      · rw [if_neg hbelow, if_neg]
        rintro ⟨q, hq, hq2⟩
        by_cases hqk : q = k
        · subst hqk
          exact hk hq2
        · exact hbelow ⟨q, by omega, hq2⟩

theorem surfaceLoop {C : Type} (st : CartesianStencil C) (Ls n : Nat) :
    forLoop n (fun site (s : CartesianStencil C) =>
        if forLoop s._npoints (fun point (local_ : Int) =>
              if !truthy (GetNodeLocal s (site * Ls) point) && !truthy (s.same_node point)
              then 0 else local_) 1 = 0
        then { s with surface_list := s.surface_list ++ [site] } else s) st
      = { st with surface_list := st.surface_list ++ (List.range n).filter (fun site =>
            decide (∃ point, point < st._npoints
              ∧ (st._entries (point + st._npoints * (site * Ls)))._is_local = 0
              ∧ st.same_node point = 0)) } := by
  induction n with
  | zero => simp [forLoop]
  | succ k ih =>
    simp only [forLoop]
    rw [ih, localLoop]
    dsimp only
    rw [List.range_succ, List.filter_append]
    by_cases h : ∃ point, point < st._npoints
        ∧ (st._entries (point + st._npoints * (k * Ls)))._is_local = 0 ∧ st.same_node point = 0
    · rw [if_pos h, if_pos rfl]
      have hf : List.filter (fun site => decide (∃ point, point < st._npoints
          ∧ (st._entries (point + st._npoints * (site * Ls)))._is_local = 0
          ∧ st.same_node point = 0)) [k] = [k] := by
        rw [List.filter_cons_of_pos (by simpa using h)]
        rfl
      rw [hf, List.append_assoc]
    · rw [if_neg h, if_neg (by decide)]
      have hf : List.filter (fun site => decide (∃ point, point < st._npoints
          ∧ (st._entries (point + st._npoints * (site * Ls)))._is_local = 0
          ∧ st.same_node point = 0)) [k] = [] := by
        rw [List.filter_cons_of_neg (by simpa using h)]
        rfl
      rw [hf, List.append_nil]

/-- C17: after construction and one call `BuildSurfaceList(Ls,vol4)` whose
sites `s*Ls`, `s < vol4`, are outer sites of the grid, `surface_list` is
strictly increasing and holds exactly the sites `s < vol4` for which some
stencil point has a record with `_is_local = 0` at the outer site `s*Ls`.  The
test of `same_node[point]`, which the call sets to `SameNode(point)`, does not
remove any such site: a point with `SameNode(point) = 1` (its axis is not split
across processes, or its displacement is 0) has local records only.  Grid
hypotheses: the slice tables describe the reduced layout, parities are 0 or 1,
only a checkerboarded axis has a parity-dependent shift, the checkerboard shift
of a zero shift is zero, and `ld = rd*simd_layout`. -/
theorem C17_surface_list {C : Type} (grid : GridBase) (npoints checkerboard : Nat)
    (directions : List Nat) (distances : List Int) (p : Parameters)
    (sizeof_vobj sizeof_cobj : Nat) (u : Indeterminate C) (st : CartesianStencil C)
    (hc : CartesianStencil.construct grid npoints checkerboard directions distances p
            sizeof_vobj sizeof_cobj u = .ok st)
    (Ls vol4 : Nat) (hsites : ∀ s, s < vol4 → s * Ls < grid.oSites)
    (hl : ∀ point, point < npoints → AxisLayout grid (directions.getD point 0))
    (hpar : ∀ k, grid.CheckerBoardFromOindex k ≤ 1)
    (hdep : ∀ point, point < npoints →
      grid.CheckerBoardShiftForCB checkerboard (directions.getD point 0)
          (distances.getD point 0) Even
        ≠ grid.CheckerBoardShiftForCB checkerboard (directions.getD point 0)
          (distances.getD point 0) Odd →
      grid.CheckerBoarded (directions.getD point 0) = true)
    (hzero : ∀ point, point < npoints → ∀ ocb,
      grid.CheckerBoardShiftForCB checkerboard (directions.getD point 0) 0 ocb = 0)
    (hld : ∀ point, point < npoints →
      grid._ldimensions (directions.getD point 0)
        = grid._rdimensions (directions.getD point 0)
            * grid._simd_layout (directions.getD point 0)) :
    (∀ s, s ∈ (BuildSurfaceList st Ls vol4).surface_list ↔
        s < vol4 ∧ ∃ point, point < npoints
          ∧ (st._entries (point + npoints * (s * Ls)))._is_local = 0)
      ∧ List.Pairwise (fun a b => a < b) (BuildSurfaceList st Ls vol4).surface_list
      ∧ (∀ point, point < npoints →
          (BuildSurfaceList st Ls vol4).same_node point = SameNode st point)
      ∧ (∀ point, point < npoints → SameNode st point ≠ 0 → ∀ site, site < grid.oSites →
          (st._entries (point + npoints * site))._is_local = 1) := by
  obtain ⟨_, _, _, hsurf, _⟩ := construct_members grid npoints checkerboard directions
    distances p sizeof_vobj sizeof_cobj u st hc
  obtain ⟨_, _, _, hn, _⟩ := construct_table grid npoints checkerboard directions distances p
    sizeof_vobj sizeof_cobj u st hc
  have hlocal : ∀ point, point < npoints → SameNode st point ≠ 0 → ∀ site,
      site < grid.oSites → (st._entries (point + npoints * site))._is_local = 1 := by
    intro point hp hsame site hs
    have := sameNode_entries_local grid npoints checkerboard directions distances p
      sizeof_vobj sizeof_cobj u st hc point hp (hl point hp) hpar (hdep point hp)
      (hzero point hp) (hld point hp) hsame site hs
    unfold entryIndex at this
    rw [Nat.mul_comm npoints site]
    exact this
  have hlist : (BuildSurfaceList st Ls vol4).surface_list
      = (List.range vol4).filter (fun site =>
          decide (∃ point, point < npoints
            ∧ (st._entries (point + npoints * (site * Ls)))._is_local = 0
            ∧ (if point < npoints then SameNode st point else st.same_node point) = 0)) := by
    unfold BuildSurfaceList
    dsimp only
    rw [sameNodeLoop, surfaceLoop]
    dsimp only
    rw [hsurf, hn, List.nil_append]
  have hsame : ∀ point, point < npoints →
      (BuildSurfaceList st Ls vol4).same_node point = SameNode st point := by
    intro point hp
    unfold BuildSurfaceList
    dsimp only
    rw [sameNodeLoop, surfaceLoop]
    dsimp only
    rw [hn, if_pos hp]
  refine ⟨?_, ?_, hsame, hlocal⟩
  · intro s
    rw [hlist, List.mem_filter, List.mem_range, decide_eq_true_iff]
    constructor
    · rintro ⟨hs, point, hp, hloc, _⟩
      exact ⟨hs, point, hp, hloc⟩
    · rintro ⟨hs, point, hp, hloc⟩
      refine ⟨hs, point, hp, hloc, ?_⟩
      rw [if_pos hp]
      by_contra hne
      have := hlocal point hp hne (s * Ls) (hsites s hs)
      rw [hloc] at this
      cases this
  · rw [hlist]
    exact List.Pairwise.sublist (List.filter_sublist _) (List.pairwise_lt_range vol4)

/-- Witness of C17: rank 0 of the line of 8 sites on 2 processes with the two
points of displacement `+1` and `-1`, and `BuildSurfaceList(1,4)`. -/
theorem C17_surface_list_witness :
    ∃ st : CartesianStencil Nat,
      CartesianStencil.construct (lineGrid 0) 2 0 [0, 0] [1, -1] ⟨[0]⟩ 8 8
          (someStorage (0 : Nat)) = .ok st
      ∧ (∀ s, s ∈ (BuildSurfaceList st 1 4).surface_list ↔
          s < 4 ∧ ∃ point, point < 2 ∧ (st._entries (point + 2 * (s * 1)))._is_local = 0)
      ∧ List.Pairwise (fun a b => a < b) (BuildSurfaceList st 1 4).surface_list :=
  have hok : constructOk (lineGrid 0) 2 [0, 0] [1, -1] ⟨[0]⟩ 8 8 (someStorage (0 : Nat)) :=
    ⟨fun _ ii hii => by
        interval_cases ii <;> decide,
      fun ii hii => by
        interval_cases ii <;> decide⟩
  have h := C17_surface_list (lineGrid 0) 2 0 [0, 0] [1, -1] ⟨[0]⟩ 8 8
    (someStorage (0 : Nat)) _
    (construct_of_constructOk (lineGrid 0) 2 0 [0, 0] [1, -1] ⟨[0]⟩ 8 8
      (someStorage (0 : Nat)) hok)
    1 4 (fun s hs => by
      show s * 1 < 4
      omega)
    (fun _ _ => ⟨Nat.succ_pos 3, Nat.succ_pos 0, rfl, rfl, rfl⟩)
    (fun _ => Nat.zero_le 1)
    (fun _ _ hne => absurd rfl hne)
    (fun _ _ _ => rfl)
    (fun _ _ => rfl)
  ⟨_, construct_of_constructOk (lineGrid 0) 2 0 [0, 0] [1, -1] ⟨[0]⟩ 8 8
      (someStorage (0 : Nat)) hok, h.1, h.2.1⟩

/-! ## The order of the events of an exchange -/

theorem GatherStep.refl_gather {C : Type} (a : CartesianStencil C) : GatherStep a a :=
  ⟨⟨[], by simp, rfl⟩, rfl, rfl⟩

theorem GatherStep.trans_gather {C : Type} {a b c : CartesianStencil C} (h1 : GatherStep a b)
    (h2 : GatherStep b c) : GatherStep a c := by
  obtain ⟨⟨e1, t1, c1⟩, m1, d1⟩ := h1
  obtain ⟨⟨e2, t2, c2⟩, m2, d2⟩ := h2
  refine ⟨⟨e1 ++ e2, by rw [t2, t1, List.append_assoc], ?_⟩, m2.trans m1, d2.trans d1⟩
  rw [List.all_append, c1, c2]
  rfl

theorem GatherStep.of_samePlan {C : Type} {a b : CartesianStencil C} (h : SamePlan a b)
    (ht : b.trace = a.trace) : GatherStep a b :=
  ⟨⟨[], by simp [ht], rfl⟩, h.proj (fun s => s.MergersSHM) (fun _ _ => rfl),
    h.proj (fun s => s.DecompressionsSHM) (fun _ _ => rfl)⟩

theorem emit_gatherStep {C : Type} (a : CartesianStencil C) (e : Event)
    (h : e.isGather = true) : GatherStep a (emit a e) :=
  ⟨⟨[e], rfl, by rw [List.all_cons, h]; rfl⟩, rfl, rfl⟩

theorem writeBuf_gatherStep {C : Type} (st : CartesianStencil C) (p : Pointer) (j : Nat)
    (v : C) : GatherStep st (writeBuf st p j v) :=
  GatherStep.of_samePlan (writeBuf_samePlan st p j v) (writeBuf_trace st p j v)

theorem forLoop_gatherStep {C : Type} (n : Nat)
    (body : Nat → CartesianStencil C → CartesianStencil C) (st : CartesianStencil C)
    (h : ∀ i a, GatherStep a (body i a)) : GatherStep st (forLoop n body st) :=
  forLoop_invariant (fun _ b => GatherStep st b) n body st (GatherStep.refl_gather st)
    (fun i a _ ha => ha.trans_gather (h i a))

theorem computeFaceTable_gatherStep {C : Type} (st : CartesianStencil C) (dimension : Nat)
    (sx : Int) (cbmask comm_off face_idx : Nat) :
    GatherStep st (computeFaceTable st dimension sx cbmask comm_off face_idx) := by
  unfold computeFaceTable
  split
  · exact ⟨⟨[_], rfl, rfl⟩, rfl, rfl⟩
  · exact GatherStep.refl_gather st

theorem Gather_plane_simple_table_gatherStep {V C : Type} (st : CartesianStencil C)
    (table : List (Nat × Nat)) (rhs : Lattice V) (buffer : Buffer) (compress : Compressor V C)
    (point off : Nat) (so : Int) :
    GatherStep st (Gather_plane_simple_table st table rhs buffer compress point off so) := by
  unfold Gather_plane_simple_table
  apply forLoop_gatherStep
  intro i a
  split
  · exact GatherStep.refl_gather a
  · exact writeBuf_gatherStep _ _ _ _

theorem Gather_plane_exchange_table_gatherStep {V C : Type} (st r : CartesianStencil C)
    (table : List (Nat × Nat)) (rhs : Lattice V) (p0 p1 : Pointer) (dimension : Nat)
    (plane : Int) (compress : Compressor V C) (point type : Nat)
    (h : Gather_plane_exchange_table st table rhs p0 p1 dimension plane compress point type
          = .ok r) : GatherStep st r := by
  unfold Gather_plane_exchange_table at h
  rw [assert_bind_ok] at h
  have h2 := h.2
  rw [pure_ok] at h2
  rw [← h2]
  apply forLoop_gatherStep
  intro i a
  exact (writeBuf_gatherStep _ _ _ _).trans_gather (writeBuf_gatherStep _ _ _ _)

theorem queueTransfer_gatherStep {C : Type} (st : CartesianStencil C) (a b c : Int)
    (send recv : Pointer) (l y m : Int) (x : Nat) (cs : Int) (f : Nat) (cr : Int) :
    GatherStep st (queueTransfer st a b c send recv l y m x cs f cr) := by
  unfold queueTransfer CheckForDuplicate
  dsimp only
  cases findTransfer a b c y l m st.CachedTransfers with
  | none => exact ⟨⟨[], by simp [AddPacket], rfl⟩, rfl, rfl⟩
  | some t => exact ⟨⟨[], by simp [AddCopy], rfl⟩, rfl, rfl⟩

theorem queueDecompress_gatherStep {V C : Type} (st : CartesianStencil C)
    (compress : Compressor V C) (cr : Int) (recv_buf : Buffer) (comm_off words : Nat) :
    GatherStep st (queueDecompress st compress cr recv_buf comm_off words) := by
  unfold queueDecompress
  split
  · exact ⟨⟨[], by simp [AddDecompress], rfl⟩, rfl, rfl⟩
  · exact GatherStep.refl_gather st

theorem gatherSendBlock_gatherStep {V C : Type} (st : CartesianStencil C) (rhs : Lattice V)
    (dimension cbmask : Nat) (compress : Compressor V C) (point : Nat) (sx so : Int)
    (comm_off face_idx : Nat) :
    GatherStep st
      (gatherSendBlock st rhs dimension cbmask compress point sx so comm_off face_idx).1 := by
  unfold gatherSendBlock
  split
  · dsimp only
    exact ((computeFaceTable_gatherStep _ _ _ _ _ _).trans_gather
      (emit_gatherStep _ (Event.Gather_plane_simple_table _ _ _ _) rfl)).trans_gather
      (Gather_plane_simple_table_gatherStep _ _ _ _ _ _ _ _)
  · exact GatherStep.refl_gather st

theorem gatherOffnodePlane_gatherStep {V C : Type} (rhs : Lattice V) (dimension cbmask : Nat)
    (compress : Compressor V C) (point : Nat) (sx comm_proc : Int)
    (s : CartesianStencil C × Nat) :
    GatherStep s.1
      (gatherOffnodePlane rhs dimension cbmask compress point sx comm_proc s).1 := by
  unfold gatherOffnodePlane
  dsimp only
  exact (((gatherSendBlock_gatherStep _ _ _ _ _ _ _ _ _ _).trans_gather
    (queueTransfer_gatherStep _ _ _ _ _ _ _ _ _ _ _ _ _)).trans_gather
    (queueDecompress_gatherStep _ _ _ _ _ _)).trans_gather ⟨⟨[], by simp [advanceOffset], rfl⟩, rfl, rfl⟩

theorem gatherSimdSendBlock_gatherStep {V C : Type} (st r : CartesianStencil C)
    (rhs : Lattice V) (dimension cbmask : Nat) (compress : Compressor V C) (point : Nat)
    (sx : Int) (comm_off face_idx : Nat)
    (h : gatherSimdSendBlock st rhs dimension cbmask compress point sx comm_off face_idx
          = .ok r) : GatherStep st r := by
  unfold gatherSimdSendBlock at h
  dsimp only at h
  split at h
  · exact ((computeFaceTable_gatherStep _ _ _ _ _ _).trans_gather
      (emit_gatherStep _ (Event.Gather_plane_exchange_table _ _ _ _ _ _ _) rfl)).trans_gather
      (Gather_plane_exchange_table_gatherStep _ _ _ _ _ _ _ _ _ _ _ h)
  · rw [pure_ok] at h
    rw [← h]
    exact computeFaceTable_gatherStep _ _ _ _ _ _

theorem GatherSimdPlane_gatherStep {V C : Type} (rhs : Lattice V) (dimension cbmask : Nat)
    (compress : Compressor V C) (point : Nat) (sshift bytes : Int)
    (reduced_buffer_size x : Nat) (s r : CartesianStencil C × Nat × List Pointer)
    (h : GatherSimdPlane rhs dimension cbmask compress point sshift bytes reduced_buffer_size x s
          = .ok r) : GatherStep s.1 r.1 := by
  unfold GatherSimdPlane at h
  dsimp only at h
  split at h
  · simp only [bind_ok, pure_ok] at h
    obtain ⟨a, ha, b, hb, hr⟩ := h
    rw [← hr]
    have h1 := gatherSimdSendBlock_gatherStep _ _ _ _ _ _ _ _ _ _ ha
    have h2 : GatherStep a b.1 :=
      forLoopM_invariant (fun _ (q : CartesianStencil C × List Pointer) => GatherStep a q.1)
        _ _ (a, s.2.2) b hb (GatherStep.refl_gather _)
        (fun i p q _ hp hq => by
          unfold GatherSimdLane at hq
          simp only [bind_ok, assert_ok, pure_ok, exists_and_left, exists_const] at hq
          rw [← hq.2]
          unfold gatherSimdLaneBody
          dsimp only
          split
          · exact hp.trans_gather (queueTransfer_gatherStep _ _ _ _ _ _ _ _ _ _ _ _ _)
          · exact hp)
    exact (h1.trans_gather h2).trans_gather ⟨⟨[], by simp [advanceOffset, AddMerge], rfl⟩, rfl, rfl⟩
  · rw [pure_ok] at h
    rw [← h]
    exact GatherStep.refl_gather _

theorem gatherStep_invariant {V C : Type} (source : Lattice V) (compress : Compressor V C)
    (a : CartesianStencil C) :
    GatherInvariant source compress (fun st _ => GatherStep a st) where
  point := fun _ _ _ h => h.trans_gather (emit_gatherStep _ _ rfl)
  face := fun st fj dimension cbmask point sx comm_proc h =>
    h.trans_gather (gatherOffnodePlane_gatherStep source dimension cbmask compress point sx comm_proc
      (st, fj))
  simdPass := GatherSimd_planes source compress (fun st _ => GatherStep a st)
    (fun dimension cbmask point sshift bytes rbs x s r h hr =>
      h.trans_gather (GatherSimdPlane_gatherStep source dimension cbmask compress point sshift bytes
        rbs x s r hr))

theorem HaloGather_events {V C : Type} (a g : CartesianStencil C) (source : Lattice V)
    (compress : Compressor V C) (h : HaloGather a source compress = .ok g) :
    ∃ G, g.trace = a.trace ++ [Event.call Step.HaloGather, Event.StencilBarrier] ++ G
            ++ [Event.accelerator_barrier]
      ∧ G.all Event.isGather = true
      ∧ g.MergersSHM = a.MergersSHM ∧ g.DecompressionsSHM = a.DecompressionsSHM := by
  obtain ⟨s, hs, _, hg⟩ := HaloGather_parts a g source compress h
  have hinv := HaloGatherPoints_inv source compress
    (fun st _ => GatherStep
      (resetOffset (emit (emit a (Event.call Step.HaloGather)) Event.StencilBarrier)) st)
    (gatherStep_invariant source compress _) a._npoints _ s hs (GatherStep.refl_gather _)
  obtain ⟨⟨G, hG, hall⟩, hm, hd⟩ := hinv
  refine ⟨G, ?_, hall, ?_, ?_⟩
  · rw [hg]
    show s.1.trace ++ [Event.accelerator_barrier] = _
    rw [hG]
    show (a.trace ++ [Event.call Step.HaloGather] ++ [Event.StencilBarrier]) ++ G ++ _ = _
    simp
  · rw [hg]
    exact hm
  · rw [hg]
    exact hd

theorem Grows.refl_grows {C : Type} (P : Event → Bool) (a : CartesianStencil C) : Grows P a a :=
  ⟨[], by simp, rfl⟩

theorem Grows.of_eq_grows {C : Type} (P : Event → Bool) {a b : CartesianStencil C}
    (h : b.trace = a.trace) : Grows P a b := ⟨[], by simp [h], rfl⟩

theorem Grows.trans_grows {C : Type} {P : Event → Bool} {a b c : CartesianStencil C}
    (h1 : Grows P a b) (h2 : Grows P b c) : Grows P a c := by
  obtain ⟨e1, t1, c1⟩ := h1
  obtain ⟨e2, t2, c2⟩ := h2
  refine ⟨e1 ++ e2, by rw [t2, t1, List.append_assoc], ?_⟩
  rw [List.all_append, c1, c2]
  rfl

theorem emit_grows {C : Type} (P : Event → Bool) (a : CartesianStencil C) (e : Event)
    (h : P e = true) : Grows P a (emit a e) :=
  ⟨[e], rfl, by rw [List.all_cons, h]; rfl⟩

theorem forLoop_grows {C : Type} (P : Event → Bool) (n : Nat)
    (body : Nat → CartesianStencil C → CartesianStencil C) (st : CartesianStencil C)
    (h : ∀ i a, Grows P a (body i a)) : Grows P st (forLoop n body st) :=
  forLoop_invariant (fun _ b => Grows P st b) n body st (Grows.refl_grows P st)
    (fun i a _ ha => ha.trans_grows (h i a))

theorem Communicate_grows {C : Type} (st : CartesianStencil C) (net : Transport C) :
    Grows Event.isPacket (emit st (Event.call Step.Communicate)) (Communicate st net) := by
  unfold Communicate
  dsimp only
  split
  · apply forLoop_grows
    intro i a
    split
    · exact Grows.refl_grows _ a
    · rename_i p hp
      exact (emit_grows _ a (Event.StencilSendToRecvFrom p i) rfl).trans_grows
        (Grows.of_eq_grows _ (receivePacket_trace _ _ _ _))
  · unfold CommunicateComplete CommunicateBegin
    refine Grows.trans_grows (forLoop_grows _ _ _ _ ?_) (forLoop_grows _ _ _ _ ?_)
    · intro i a
      split
      · exact Grows.refl_grows _ a
      · exact emit_grows _ _ _ rfl
    · intro i a
      split
      · exact Grows.refl_grows _ a
      · exact (emit_grows _ a (Event.StencilSendToRecvFromComplete i) rfl).trans_grows
          (Grows.of_eq_grows _ (receivePacket_trace _ _ _ _))

theorem CommsCopy_grows {C : Type} (st : CartesianStencil C) :
    Grows Event.isCopy st (CommsCopy st) := by
  unfold CommsCopy
  apply forLoop_grows
  intro i a
  split
  · exact Grows.refl_grows _ a
  · rename_i r hr
    apply forLoop_grows
    intro j b
    dsimp only
    refine (emit_grows _ b (Event.coalescedWrite r.to_p r.from_p j) rfl).trans_grows ?_
    split
    · exact Grows.of_eq_grows _ (by simp)
    · exact Grows.refl_grows _ _

theorem CommsMergeLists_grows {C : Type} (st : CartesianStencil C) (mm : List Merge)
    (dd : List Decompress) : Grows Event.isMerge st (CommsMergeLists st mm dd) := by
  unfold CommsMergeLists
  refine Grows.trans_grows ?_ (forLoop_grows _ _ _ _ ?_)
  · apply forLoop_grows
    intro i a
    split
    · exact Grows.refl_grows _ a
    · exact forLoop_grows _ _ _ _ (fun o b => emit_grows _ _ _ rfl)
  · intro i a
    split
    · exact Grows.refl_grows _ a
    · exact forLoop_grows _ _ _ _ (fun o b => emit_grows _ _ _ rfl)

theorem CommsMergeSHM_empty {C : Type} (st : CartesianStencil C) (hm : st.MergersSHM = [])
    (hd : st.DecompressionsSHM = []) :
    CommsMergeSHM st
      = emit (emit st (Event.call Step.CommsMergeSHM)) Event.StencilBarrier := by
  unfold CommsMergeSHM
  dsimp only
  show CommsMergeLists _ st.MergersSHM st.DecompressionsSHM = _
  rw [hm, hd]
  rfl

theorem Staged.mono {lo hi : Nat} {l : List Event} (h : Staged lo hi l) (hi' : Nat)
    (hle : hi ≤ hi') : Staged lo hi' l := by
  intro e he m hm
  obtain ⟨h1, h2⟩ := h e he m hm
  exact ⟨h1, Nat.le_trans h2 hle⟩

theorem staged_of_all (P : Event → Bool) (k : Nat) (hk : ∀ e, P e = true → e.stage = some k)
    (l : List Event) (h : l.all P = true) : Staged k k l := by
  intro e he m hm
  rw [hk e (List.all_eq_true.1 h e he)] at hm
  cases hm
  exact ⟨Nat.le_refl _, Nat.le_refl _⟩

theorem staged_markers (lo hi : Nat) (l : List Event) (h : ∀ e, e ∈ l → e.stage = none) :
    Staged lo hi l := by
  intro e he m hm
  rw [h e he] at hm
  cases hm

theorem ordered_of_staged (k : Nat) (l : List Event) (h : Staged k k l) : StageOrdered l := by
  unfold StageOrdered
  rw [List.pairwise_iff_getElem]
  intro i j hi hj _ m n hm hn
  have h1 := h _ (List.getElem_mem hi) m hm
  have h2 := h _ (List.getElem_mem hj) n hn
  omega

theorem ordered_append (k : Nat) (l1 l2 : List Event) (h1 : StageOrdered l1)
    (s1 : Staged 0 k l1) (s2 : Staged k k l2) :
    StageOrdered (l1 ++ l2) ∧ Staged 0 k (l1 ++ l2) := by
  constructor
  · unfold StageOrdered
    rw [List.pairwise_append]
    refine ⟨h1, ordered_of_staged k l2 s2, ?_⟩
    intro a ha b hb m n hm hn
    have := s1 a ha m hm
    have := s2 b hb n hn
    omega
  · intro e he m hm
    rcases List.mem_append.1 he with h | h
    · exact s1 e h m hm
    · have := s2 e h m hm
      omega

theorem precede_of_ordered (T : List Event) (hT : StageOrdered T) (P Q : Event → Bool)
    (p q : Nat) (hpq : p < q) (hP : ∀ e, P e = true → e.stage = some p)
    (hQ : ∀ e, Q e = true → e.stage = some q) : Precede T P Q := by
  intro i j e f hi hj hPe hQf
  rw [List.get?_eq_getElem?] at hi hj
  obtain ⟨hi1, hi2⟩ := List.getElem?_eq_some.1 hi
  obtain ⟨hj1, hj2⟩ := List.getElem?_eq_some.1 hj
  by_contra hnot
  have hle : j ≤ i := by omega
  rcases Nat.lt_or_eq_of_le hle with hlt | heq
  · have := (List.pairwise_iff_getElem.1 hT) j i hj1 hi1 hlt q p
      (by rw [hj2]; exact hQ f hQf) (by rw [hi2]; exact hP e hPe)
    omega
  · subst heq
    have he : e = f := by rw [← hi2, ← hj2]
    subst he
    have h1 := hP e hPe
    rw [hQ e hQf] at h1
    cases h1
    omega

theorem stage_gather (e : Event) (h : e.isGather = true) : e.stage = some 0 := by
  unfold Event.stage
  rw [if_pos h]

theorem stage_packet (e : Event) (h : e.isPacket = true) : e.stage = some 1 := by
  cases e <;> first | rfl | cases h

theorem stage_copy (e : Event) (h : e.isCopy = true) : e.stage = some 2 := by
  cases e <;> first | rfl | cases h

theorem stage_merge (e : Event) (h : e.isMerge = true) : e.stage = some 3 := by
  cases e <;> first | rfl | cases h

theorem HaloExchange_segments {V C : Type} (st r : CartesianStencil C) (source : Lattice V)
    (compress : Compressor V C) (net : Transport C)
    (h : HaloExchange st source compress net = .ok r) :
    ∃ G N K M : List Event,
      r.trace = st.trace
          ++ ([Event.call Step.Prepare, Event.call Step.HaloGather, Event.StencilBarrier] ++ G
            ++ [Event.accelerator_barrier, Event.call Step.Communicate] ++ N
            ++ [Event.call Step.CommsMergeSHM, Event.StencilBarrier,
                Event.call Step.CommsMerge] ++ K ++ M)
      ∧ G.all Event.isGather = true ∧ N.all Event.isPacket = true
      ∧ K.all Event.isCopy = true ∧ M.all Event.isMerge = true := by
  obtain ⟨g1, hg, rfl⟩ := (HaloExchange_parts st r source compress net).1 h
  obtain ⟨G, hG, hGall, hm, hd⟩ := HaloGather_events (Prepare st) g1 source compress hg
  obtain ⟨N, hN, hNall⟩ := Communicate_grows g1 net
  have hcm : (Communicate g1 net).MergersSHM = [] :=
    ((Communicate_onlyBuffers g1 net).1.proj (fun s => s.MergersSHM) (fun _ _ => rfl)).trans hm
  have hcd : (Communicate g1 net).DecompressionsSHM = [] :=
    ((Communicate_onlyBuffers g1 net).1.proj (fun s => s.DecompressionsSHM)
      (fun _ _ => rfl)).trans hd
  rw [CommsMergeSHM_empty _ hcm hcd]
  unfold CommsMerge
  dsimp only
  obtain ⟨K, hK, hKall⟩ := CommsCopy_grows
    (emit (emit (emit (Communicate g1 net) (Event.call Step.CommsMergeSHM))
      Event.StencilBarrier) (Event.call Step.CommsMerge))
  obtain ⟨M, hM, hMall⟩ := CommsMergeLists_grows
    (CommsCopy (emit (emit (emit (Communicate g1 net) (Event.call Step.CommsMergeSHM))
      Event.StencilBarrier) (Event.call Step.CommsMerge)))
    (CommsCopy (emit (emit (emit (Communicate g1 net) (Event.call Step.CommsMergeSHM))
      Event.StencilBarrier) (Event.call Step.CommsMerge))).Mergers
    (CommsCopy (emit (emit (emit (Communicate g1 net) (Event.call Step.CommsMergeSHM))
      Event.StencilBarrier) (Event.call Step.CommsMerge))).Decompressions
  refine ⟨G, N, K, M, ?_, hGall, hNall, hKall, hMall⟩
  rw [hM, hK]
  show (((Communicate g1 net).trace ++ [Event.call Step.CommsMergeSHM])
    ++ [Event.StencilBarrier]) ++ [Event.call Step.CommsMerge] ++ K ++ M = _
  rw [hN]
  show ((((g1.trace ++ [Event.call Step.Communicate]) ++ N)
    ++ [Event.call Step.CommsMergeSHM]) ++ [Event.StencilBarrier])
    ++ [Event.call Step.CommsMerge] ++ K ++ M = _
  rw [hG]
  show (((((((st.trace ++ [Event.call Step.Prepare])
    ++ [Event.call Step.HaloGather, Event.StencilBarrier]) ++ G)
    ++ [Event.accelerator_barrier]) ++ [Event.call Step.Communicate]) ++ N
    ++ [Event.call Step.CommsMergeSHM]) ++ [Event.StencilBarrier])
    ++ [Event.call Step.CommsMerge] ++ K ++ M = _
  simp only [List.append_assoc, List.cons_append, List.nil_append]

theorem segments_ordered (G N K M : List Event) (hG : G.all Event.isGather = true)
    (hN : N.all Event.isPacket = true) (hK : K.all Event.isCopy = true)
    (hM : M.all Event.isMerge = true) :
    StageOrdered
      ([Event.call Step.Prepare, Event.call Step.HaloGather, Event.StencilBarrier] ++ G
        ++ [Event.accelerator_barrier, Event.call Step.Communicate] ++ N
        ++ [Event.call Step.CommsMergeSHM, Event.StencilBarrier,
            Event.call Step.CommsMerge] ++ K ++ M) := by
  have s1 : Staged 0 0
      [Event.call Step.Prepare, Event.call Step.HaloGather, Event.StencilBarrier] := by
    apply staged_markers
    intro e he
    simp only [List.mem_cons, List.mem_singleton, List.not_mem_nil, or_false] at he
    rcases he with rfl | rfl | rfl <;> rfl
  have s2 : Staged 0 0 [Event.accelerator_barrier, Event.call Step.Communicate] := by
    intro e he m hm
    simp only [List.mem_cons, List.mem_singleton, List.not_mem_nil, or_false] at he
    rcases he with rfl | rfl
    · cases hm
      exact ⟨Nat.le_refl _, Nat.le_refl _⟩
    · cases hm
  have s3 : Staged 1 1
      [Event.call Step.CommsMergeSHM, Event.StencilBarrier, Event.call Step.CommsMerge] := by
    apply staged_markers
    intro e he
    simp only [List.mem_cons, List.mem_singleton, List.not_mem_nil, or_false] at he
    rcases he with rfl | rfl | rfl <;> rfl
  have a1 := ordered_append 0 _ G (ordered_of_staged 0 _ s1) s1
    (staged_of_all _ 0 stage_gather G hG)
  have a2 := ordered_append 0 _ _ a1.1 a1.2 s2
  have a3 := ordered_append 1 _ N a2.1 (a2.2.mono 1 (by decide))
    (staged_of_all _ 1 stage_packet N hN)
  have a4 := ordered_append 1 _ _ a3.1 a3.2 s3
  have a5 := ordered_append 2 _ K a4.1 (a4.2.mono 2 (by decide))
    (staged_of_all _ 2 stage_copy K hK)
  have a6 := ordered_append 3 _ M a5.1 (a5.2.mono 3 (by decide))
    (staged_of_all _ 3 stage_merge M hM)
  exact a6.1

/-- C19: in every halo exchange that runs to its end, under either
communication policy, the events that the exchange appends to the trace are
ordered by stage: every event of the gather (the announcements of the points,
the face tables, the plane gathers and the barrier that ends `HaloGather`)
comes before every issue or completion of a packet; every issue and completion
of a packet comes before every copy of `CommsCopy` and before every `Exchange`
and `Decompress` call; and every copy of `CommsCopy` comes before every
`Exchange` and `Decompress` call. -/
theorem C19_exchange_order {V C : Type} (st r : CartesianStencil C) (source : Lattice V)
    (compress : Compressor V C) (net : Transport C)
    (h : HaloExchange st source compress net = .ok r) :
    ∃ T, r.trace = st.trace ++ T
      ∧ Precede T Event.isGather Event.isPacket
      ∧ Precede T Event.isPacket Event.isCopy
      ∧ Precede T Event.isPacket Event.isMerge
      ∧ Precede T Event.isCopy Event.isMerge := by
  obtain ⟨G, N, K, M, hT, hG, hN, hK, hM⟩ := HaloExchange_segments st r source compress net h
  have hord := segments_ordered G N K M hG hN hK hM
  exact ⟨_, hT,
    precede_of_ordered _ hord _ _ 0 1 (by decide) stage_gather stage_packet,
    precede_of_ordered _ hord _ _ 1 2 (by decide) stage_packet stage_copy,
    precede_of_ordered _ hord _ _ 1 3 (by decide) stage_packet stage_merge,
    precede_of_ordered _ hord _ _ 2 3 (by decide) stage_copy stage_merge⟩

/-- Witness of C19: the exchange of rank 0 on the line of 8 sites on 2
processes runs to its end, and its events are ordered by stage. -/
theorem C19_exchange_order_witness :
    (exchangeRank (lineStencil [0]) lineField (plainCompressor (Nat × Nat) 8) 0).toBool = true
      ∧ ∃ T, (lineExchanged 0).trace = (lineStencil [0] 0).trace ++ T
          ∧ Precede T Event.isGather Event.isPacket
          ∧ Precede T Event.isPacket Event.isCopy
          ∧ Precede T Event.isPacket Event.isMerge
          ∧ Precede T Event.isCopy Event.isMerge := by
  have hok : (exchangeRank (lineStencil [0]) lineField (plainCompressor (Nat × Nat) 8) 0).toBool
      = true := by decide
  refine ⟨hok, ?_⟩
  refine C19_exchange_order (lineStencil [0] 0) (lineExchanged 0) (lineField 0)
    (plainCompressor (Nat × Nat) 8)
    (rankTransport (gatheredRank (lineStencil [0]) lineField (plainCompressor (Nat × Nat) 8)) 0)
    ?_
  unfold lineExchanged
  unfold exchangeRank at hok ⊢
  cases h : HaloExchange (lineStencil [0] 0) (lineField 0) (plainCompressor (Nat × Nat) 8)
      (rankTransport (gatheredRank (lineStencil [0]) lineField (plainCompressor (Nat × Nat) 8)) 0) with
  | ok s => rfl
  | error e => rw [h] at hok; cases hok

/-! ## The assertion on rotated and split axes -/

/-- C21: construction stops at an assertion whenever some stencil point lies on
an axis with more than two SIMD lanes (`rotate_dim`) that is also split across
processes (`comm_dim`); no such configuration yields a stencil, and hence no
entry table. -/
theorem C21_rotate_and_comm_fails {C : Type} (grid : GridBase) (npoints checkerboard : Nat)
    (directions : List Nat) (distances : List Int) (p : Parameters)
    (sizeof_vobj sizeof_cobj : Nat) (u : Indeterminate C) (ii : Nat) (hii : ii < npoints)
    (hrot : grid._simd_layout (directions.getD ii 0) > 2)
    (hcomm : grid._processors (directions.getD ii 0) > 1) :
    (∃ a, CartesianStencil.construct grid npoints checkerboard directions distances p
            sizeof_vobj sizeof_cobj u = .error a)
    ∧ ∀ st, CartesianStencil.construct grid npoints checkerboard directions distances p
            sizeof_vobj sizeof_cobj u ≠ .ok st := by
  have hno : ∀ st, CartesianStencil.construct grid npoints checkerboard directions distances p
            sizeof_vobj sizeof_cobj u ≠ .ok st := by
    intro st h
    have hok := (constructOk_of_construct _ _ _ _ _ _ _ _ _ _ h).2 ii hii
    unfold constructPointOk at hok
    generalize directions.getD ii 0 = dim at hrot hcomm hok
    simp [hrot, hcomm] at hok
  refine ⟨?_, hno⟩
  cases h : CartesianStencil.construct grid npoints checkerboard directions distances p
            sizeof_vobj sizeof_cobj u with
  | ok st => exact absurd h (hno st)
  | error a => exact ⟨a, rfl⟩

/-- Witness for C21: a split axis of `lineGrid` given four SIMD lanes. -/
theorem C21_rotate_and_comm_fails_witness :
    (∃ a, CartesianStencil.construct { lineGrid 0 with _simd_layout := fun _ => 4 } 1 0 [0] [1]
            ⟨[0]⟩ 8 8 (someStorage (0 : Nat)) = .error a)
    ∧ ∀ st, CartesianStencil.construct { lineGrid 0 with _simd_layout := fun _ => 4 } 1 0 [0] [1]
            ⟨[0]⟩ 8 8 (someStorage (0 : Nat)) ≠ .ok st :=
  C21_rotate_and_comm_fails { lineGrid 0 with _simd_layout := fun _ => 4 } 1 0 [0] [1] ⟨[0]⟩ 8 8
    (someStorage (0 : Nat)) 0 (by decide) (by decide) (by decide)

/-! ## The permute flag of `Local` -/

theorem permuteSlice_wraps (rd ly s x : Int) (hrd : 0 < rd) (hly : 0 < ly) (hs : 0 ≤ s)
    (hx0 : 0 ≤ x) (hx : x < rd) :
    (if x < rd - cmod s rd then cmod (cdiv s rd) ly else cmod (cmod (cdiv s rd) ly + 1) ly)
      = (x + s) / rd % ly := by
  unfold cmod cdiv
  have hq : 0 ≤ s / rd := Int.ediv_nonneg hs hrd.le
  rw [Int.tmod_eq_emod hs hrd.le, Int.tdiv_eq_ediv hs hrd.le,
    Int.tmod_eq_emod hq hly.le]
  have hn0 : 0 ≤ s % rd := Int.emod_nonneg _ hrd.ne'
  have hn1 : s % rd < rd := Int.emod_lt_of_pos _ hrd
  have hdec : s = rd * (s / rd) + s % rd := (Int.ediv_add_emod s rd).symm
  split
  · next h =>
    have : (x + s) / rd = s / rd := by
      rw [show x + s = (x + s % rd) + rd * (s / rd) by omega, Int.add_mul_ediv_left _ _ hrd.ne',
        Int.ediv_eq_zero_of_lt (by omega) (by omega)]
      simp
    rw [this]
  · next h =>
    have : (x + s) / rd = s / rd + 1 := by
      rw [show x + s = (x + s % rd - rd) + rd * (s / rd + 1) by
            rw [Int.mul_add]; omega,
        Int.add_mul_ediv_left _ _ hrd.ne', Int.ediv_eq_zero_of_lt (by omega) (by omega)]
      simp
    rw [this, Int.tmod_eq_emod (by have := Int.emod_nonneg (s / rd) hly.ne'; omega) hly.le]
    simp [Int.add_emod]

/-- C30: in `Local`, on an axis that is a permute dimension with `ly` SIMD
lanes and reduced extent `rd`, the value of `permute_slice` for plane `x` is
`((x + sshift) / rd) mod ly` for every `x` in `[0, rd)` and every checkerboard
shift `sshift >= 0`, and on any other axis it is 0; this value, as a
`uint8_t`, is the `_permute` that the pass records for every site it visits
in plane `x`. -/
theorem C30_local_permute_flag {C : Type} (st : CartesianStencil C) (point dimension : Nat)
    (shiftpm : Int) (cbmask : Nat) (x k : Nat)
    (hl : AxisLayout st._grid dimension) (hp : point < st._npoints)
    (hly : 0 < st._grid._simd_layout dimension)
    (hs : 0 ≤ passShift st._grid st._checkerboard dimension shiftpm cbmask)
    (hx : x < st._grid._rdimensions dimension)
    (hk : k ∈ planeSelected st._grid dimension cbmask) :
    localPermuteSlice st._grid dimension
        (passShift st._grid st._checkerboard dimension shiftpm cbmask) x
      = (if truthy (st._grid.PermuteDim dimension) then
          ((x : Int) + passShift st._grid st._checkerboard dimension shiftpm cbmask)
            / (st._grid._rdimensions dimension : Int) % (st._grid._simd_layout dimension : Int)
         else 0)
    ∧ ((Local st point dimension shiftpm cbmask)._entries
          (entryIndex st._npoints point (x * st._grid._ostride dimension + k)))._permute
      = toU8 (if truthy (st._grid.PermuteDim dimension) then
          ((x : Int) + passShift st._grid st._checkerboard dimension shiftpm cbmask)
            / (st._grid._rdimensions dimension : Int) % (st._grid._simd_layout dimension : Int)
         else 0) := by
  have harith : localPermuteSlice st._grid dimension
        (passShift st._grid st._checkerboard dimension shiftpm cbmask) x
      = (if truthy (st._grid.PermuteDim dimension) then
          ((x : Int) + passShift st._grid st._checkerboard dimension shiftpm cbmask)
            / (st._grid._rdimensions dimension : Int) % (st._grid._simd_layout dimension : Int)
         else 0) := by
    unfold localPermuteSlice
    dsimp only
    by_cases hpd : truthy (st._grid.PermuteDim dimension) = true
    · rw [if_pos hpd, if_pos hpd]
      exact permuteSlice_wraps _ _ _ _ (by exact_mod_cast hl.rd_pos) (by exact_mod_cast hly) hs
        (Int.natCast_nonneg x) (by exact_mod_cast hx)
    · rw [if_neg hpd, if_neg hpd]
  refine ⟨harith, ?_⟩
  rw [Local_eq]
  have h := (LocalEntries_spec st._grid st._npoints st._checkerboard point dimension shiftpm
    cbmask st._entries hl hp).1 x k hx hk
  rw [← harith]
  exact h.2.2.1

/-- Witness for C30: plane 3 of `simdRing` for the displacement `+5`, where the
flag is `(3 + 5) / 4 mod 2 = 0`. -/
theorem C30_local_permute_flag_witness :
    localPermuteSlice (simdRingStencil 5)._grid 0
        (passShift (simdRingStencil 5)._grid (simdRingStencil 5)._checkerboard 0 5 3) 3
      = (if truthy ((simdRingStencil 5)._grid.PermuteDim 0) then
          ((3 : Nat) + passShift (simdRingStencil 5)._grid (simdRingStencil 5)._checkerboard 0 5 3)
            / ((simdRingStencil 5)._grid._rdimensions 0 : Int)
            % ((simdRingStencil 5)._grid._simd_layout 0 : Int)
         else 0)
    ∧ ((Local (simdRingStencil 5) 0 0 5 3)._entries
          (entryIndex (simdRingStencil 5)._npoints 0
            (3 * (simdRingStencil 5)._grid._ostride 0 + 0)))._permute
      = toU8 (if truthy ((simdRingStencil 5)._grid.PermuteDim 0) then
          ((3 : Nat) + passShift (simdRingStencil 5)._grid (simdRingStencil 5)._checkerboard 0 5 3)
            / ((simdRingStencil 5)._grid._rdimensions 0 : Int)
            % ((simdRingStencil 5)._grid._simd_layout 0 : Int)
         else 0) :=
  C30_local_permute_flag (simdRingStencil 5) 0 0 5 3 3 0
    ⟨by decide, by decide, by decide, by decide, by decide⟩ (by decide) (by decide) (by decide)
    (by decide) (by decide)

/-! ## The parity of the source field -/

theorem forLoopM_first_error {σ ε : Type} (n : Nat) (body : Nat → σ → Except ε σ) (s : σ)
    (a : ε) (h : body 0 s = .error a) : forLoopM (n + 1) body s = .error a := by
  induction n with
  | zero => exact h
  | succ k ih =>
    show forLoopM (k + 1) body s >>= body (k + 1) = _
    rw [ih]
    rfl

theorem HaloGatherPoint_checkerboard {V C : Type} (source : Lattice V)
    (compress : Compressor V C) (point : Nat) (s : CartesianStencil C × Nat)
    (hcb : source.Checkerboard ≠ s.1._checkerboard) :
    HaloGatherPoint source compress point s = .error Assertion.checkerboard := by
  unfold HaloGatherPoint HaloGatherDir
  have hne : (source.Checkerboard == (emit s.1 (Event.Point point))._checkerboard) = false := by
    show (source.Checkerboard == s.1._checkerboard) = false
    simpa using hcb
  simp only [hne, assert]
  rfl

/-- C22, on a stencil with at least one point: when the checkerboard of the
source field differs from `_checkerboard`, `HaloGather` stops at the assertion
`source.Checkerboard() == _checkerboard` of `HaloGatherDir` for point 0, from
any state of the stencil, and so does `HaloExchange`; since the packets are
issued by `Communicate`, which `HaloExchange` reaches only when `HaloGather`
has returned, no packet is issued and no exchange completes. -/
theorem C22_checkerboard_mismatch_fatal {V C : Type} (st : CartesianStencil C)
    (source : Lattice V) (compress : Compressor V C) (net : Transport C)
    (hn : 0 < st._npoints) (hcb : source.Checkerboard ≠ st._checkerboard) :
    HaloGather st source compress = .error Assertion.checkerboard
    ∧ HaloGather (Prepare st) source compress = .error Assertion.checkerboard
    ∧ HaloExchange st source compress net = .error Assertion.checkerboard
    ∧ ∀ r, HaloExchange st source compress net ≠ .ok r := by
  have hg : ∀ a : CartesianStencil C, a._npoints = st._npoints →
      a._checkerboard = st._checkerboard →
      HaloGather a source compress = .error Assertion.checkerboard := by
    intro a han hac
    unfold HaloGather
    dsimp only
    have hnp : (resetOffset (emit (emit a (Event.call Step.HaloGather))
        Event.StencilBarrier))._npoints = (st._npoints - 1) + 1 := by
      show a._npoints = _
      omega
    rw [hnp, forLoopM_first_error _ _ _ Assertion.checkerboard
      (HaloGatherPoint_checkerboard source compress 0 _ (by
        show source.Checkerboard ≠ a._checkerboard
        rw [hac]
        exact hcb))]
    rfl
  have hx : HaloExchange st source compress net = .error Assertion.checkerboard := by
    unfold HaloExchange
    dsimp only
    rw [hg (Prepare st) rfl rfl]
    rfl
  refine ⟨hg st rfl rfl, hg (Prepare st) rfl rfl, hx, ?_⟩
  intro r hr
  rw [hx] at hr
  cases hr

/-- Counterexample to C22 as stated: the stencil without points never reaches
the assertion, which sits in the loop over the points.  Its `_checkerboard` is
what the storage held (7 here), and its exchange with a field of parity 0 and
with a field of parity 1 both complete without any packet, so an exchange with
a mismatched parity completes whatever `_checkerboard` holds. -/
theorem C22_counterexample :
    (CartesianStencil.construct (lineGrid 0) 0 0 [] [] ⟨[0]⟩ 8 8 (someStorage (0 : Nat))).toBool
      = true
    ∧ emptyStencil._checkerboard = 7
    ∧ (HaloExchange emptyStencil ({ Checkerboard := 0, rhs_v := fun i => i } : Lattice Nat)
          (plainCompressor Nat 8) (fun _ _ _ => none)).toBool = true
    ∧ (HaloExchange emptyStencil ({ Checkerboard := 1, rhs_v := fun i => i } : Lattice Nat)
          (plainCompressor Nat 8) (fun _ _ _ => none)).toBool = true
    ∧ ((HaloExchange emptyStencil ({ Checkerboard := 0, rhs_v := fun i => i } : Lattice Nat)
          (plainCompressor Nat 8) (fun _ _ _ => none)).toOption.map
        (fun s => s.Packets.length)) = some 0 := by
  decide

/-- Witness for C22: the stencil of `lineGrid`, of parity 0, and a field of parity 1. -/
theorem C22_checkerboard_mismatch_fatal_witness :
    HaloGather (lineStencil [0] 0) ({ Checkerboard := 1, rhs_v := fun i => (0, i) } :
        Lattice (Nat × Nat)) (plainCompressor (Nat × Nat) 8) = .error Assertion.checkerboard
    ∧ HaloGather (Prepare (lineStencil [0] 0)) ({ Checkerboard := 1, rhs_v := fun i => (0, i) } :
        Lattice (Nat × Nat)) (plainCompressor (Nat × Nat) 8) = .error Assertion.checkerboard
    ∧ HaloExchange (lineStencil [0] 0) ({ Checkerboard := 1, rhs_v := fun i => (0, i) } :
        Lattice (Nat × Nat)) (plainCompressor (Nat × Nat) 8) (fun _ _ _ => none)
        = .error Assertion.checkerboard
    ∧ ∀ r, HaloExchange (lineStencil [0] 0) ({ Checkerboard := 1, rhs_v := fun i => (0, i) } :
        Lattice (Nat × Nat)) (plainCompressor (Nat × Nat) 8) (fun _ _ _ => none) ≠ .ok r :=
  C22_checkerboard_mismatch_fatal (lineStencil [0] 0) _ _ _ (by decide) (by decide)

/-! ## Dirichlet flags on both sides of a process boundary -/

theorem cmod_eq_zero_iff_dvd (a b : Int) : cmod a b = 0 ↔ b ∣ a :=
  ⟨Int.dvd_of_tmod_eq_zero, Int.tmod_eq_zero_of_dvd⟩

theorem dirichletFlags_split (g : GridBase) (dimension : Nat) (displacement block : Int)
    (hb : block ≠ 0) (hcomm : g._processors dimension > 1) :
    dirichletFlags g dimension displacement block
      = if displacement > 0 then
          (if block ∣ cdiv (g._fdimensions dimension) (g._processors dimension)
                * (g._processor_coor dimension : Int) then 0 else 1,
           if block ∣ cdiv (g._fdimensions dimension) (g._processors dimension)
                * ((g._processor_coor dimension : Int) + 1) then 0 else 1)
        else
          (if block ∣ cdiv (g._fdimensions dimension) (g._processors dimension)
                * ((g._processor_coor dimension : Int) + 1) then 0 else 1,
           if block ∣ cdiv (g._fdimensions dimension) (g._processors dimension)
                * (g._processor_coor dimension : Int) then 0 else 1) := by
  unfold dirichletFlags
  have h1 : ofBool (decide (g._processors dimension > 1)) = 1 := by simp [ofBool, hcomm]
  have h2 : (truthy block && truthy 1) = true := by
    simp [truthy, hb]
  simp only [h1, h2, if_true, cmod_eq_zero_iff_dvd]

theorem dirichletFlags_neighbour (g g' : GridBase) (dimension : Nat) (displacement block : Int)
    (hb : block ≠ 0) (hcomm : g._processors dimension > 1)
    (hfd : g'._fdimensions dimension = g._fdimensions dimension)
    (hpd : g'._processors dimension = g._processors dimension)
    (hld : (g._processors dimension : Int) ∣ (g._fdimensions dimension : Int))
    (hblock : block ∣ (g._fdimensions dimension : Int))
    (hpc : g._processor_coor dimension < g._processors dimension)
    (hnb : g'._processor_coor dimension
            = if displacement > 0 then
                (g._processor_coor dimension + 1) % g._processors dimension
              else
                (g._processor_coor dimension + g._processors dimension - 1)
                  % g._processors dimension) :
    (dirichletFlags g dimension displacement block).2
      = (dirichletFlags g' dimension displacement block).1 := by
  have hcomm' : g'._processors dimension > 1 := by rw [hpd]; exact hcomm
  rw [dirichletFlags_split g dimension displacement block hb hcomm,
    dirichletFlags_split g' dimension displacement block hb hcomm', hfd, hpd]
  have hfull : block ∣ cdiv (g._fdimensions dimension) (g._processors dimension)
      * (g._processors dimension : Int) := by
    unfold cdiv
    rw [Int.tdiv_eq_ediv (Int.natCast_nonneg _) (Int.natCast_nonneg _),
      Int.ediv_mul_cancel hld]
    exact hblock
  generalize cdiv (g._fdimensions dimension) (g._processors dimension) = ld at hfull ⊢
  generalize g._processors dimension = pd at hcomm hpc hnb hfull
  generalize g._processor_coor dimension = pc at hpc hnb
  by_cases hd : displacement > 0
  · rw [if_pos hd, if_pos hd]
    rw [if_pos hd] at hnb
    dsimp only
    by_cases hlast : pc + 1 = pd
    · have e1 : ((pc : Int) + 1) = (pd : Int) := by exact_mod_cast hlast
      have e2 : g'._processor_coor dimension = 0 := by rw [hnb, hlast, Nat.mod_self]
      rw [e1, e2, if_pos hfull]
      simp
    · have e2 : g'._processor_coor dimension = pc + 1 := by
        rw [hnb, Nat.mod_eq_of_lt (by omega)]
      rw [e2]
      push_cast
      rfl
  · rw [if_neg hd, if_neg hd]
    rw [if_neg hd] at hnb
    dsimp only
    by_cases hfirst : pc = 0
    · subst hfirst
      have e2 : g'._processor_coor dimension = pd - 1 := by
        rw [hnb, Nat.zero_add, Nat.mod_eq_of_lt (by omega)]
      have e3 : (((pd - 1 : Nat) : Int) + 1) = (pd : Int) := by omega
      rw [e2, e3, if_pos hfull]
      simp
    · have e2 : g'._processor_coor dimension = pc - 1 := by
        rw [hnb, show pc + pd - 1 = (pc - 1) + pd by omega, Nat.add_mod_right,
          Nat.mod_eq_of_lt (by omega)]
      have e3 : (((pc - 1 : Nat) : Int) + 1) = (pc : Int) := by omega
      rw [e2, e3]

theorem DirichletBlock_flags {C : Type} (st r : CartesianStencil C) (blk : List Int)
    (h : DirichletBlock st blk = .ok r) (ii : Nat) (hii : ii < st._npoints) :
    (r._comms_send ii, r._comms_recv ii)
      = dirichletFlags st._grid (st._directions.getD ii 0) (st._distances.getD ii 0)
          (blk.getD (st._directions.getD ii 0) 0) := by
  have hok := DirichletBlock_of_ok st r blk st._npoints h
  have h2 := DirichletBlock_ok st blk hok
  rw [h] at h2
  cases h2
  unfold dirichletResult
  dsimp only
  rw [if_pos hii, if_pos hii]

theorem flag_zero_iff (P : Prop) [Decidable P] : (if P then (0 : Int) else 1) = 0 ↔ P := by
  by_cases hP : P
  · simp [hP]
  · simp [hP]

theorem flag_cases (P : Prop) [Decidable P] :
    (if P then (0 : Int) else 1) = 0 ∨ (if P then (0 : Int) else 1) = 1 := by
  by_cases hP : P
  · simp [hP]
  · simp [hP]

/-- C26: on a communicating axis with non-zero block size `b`, `DirichletBlock`
leaves, for a point of displacement `> 0`, `_comms_recv = 0` exactly when `b`
divides `ld*(pc+1)` and `_comms_send = 0` exactly when `b` divides `ld*pc`, with
the roles swapped for a displacement `<= 0`, and each flag is 1 otherwise.
Hence, when the processes divide the full extent (`fd = ld*pd`) and `b` divides
it, the receive flag of the rank at process coordinate `pc` equals the send
flag, for the same point, of the rank it receives from: the rank at
`(pc+1) mod pd` for a displacement `> 0` and the rank at `(pc-1) mod pd`
otherwise, the periodic wrap pairs `(pd-1, 0)` and `(0, pd-1)` included.
Here `st` is the stencil of the receiving rank and `st'` that of the rank it
receives from, built for the same points and the same block list. -/
theorem C26_dirichlet_flags_match {C : Type} (st r st' r' : CartesianStencil C)
    (blk : List Int) (h : DirichletBlock st blk = .ok r) (h' : DirichletBlock st' blk = .ok r')
    (hn : st'._npoints = st._npoints) (hdir : st'._directions = st._directions)
    (hdist : st'._distances = st._distances) (ii : Nat) (hii : ii < st._npoints)
    (hb : blk.getD (st._directions.getD ii 0) 0 ≠ 0)
    (hcomm : st._grid._processors (st._directions.getD ii 0) > 1)
    (hfd : st'._grid._fdimensions (st._directions.getD ii 0)
            = st._grid._fdimensions (st._directions.getD ii 0))
    (hpd : st'._grid._processors (st._directions.getD ii 0)
            = st._grid._processors (st._directions.getD ii 0))
    (hld : (st._grid._processors (st._directions.getD ii 0) : Int)
            ∣ (st._grid._fdimensions (st._directions.getD ii 0) : Int))
    (hblock : blk.getD (st._directions.getD ii 0) 0
            ∣ (st._grid._fdimensions (st._directions.getD ii 0) : Int))
    (hpc : st._grid._processor_coor (st._directions.getD ii 0)
            < st._grid._processors (st._directions.getD ii 0))
    (hnb : st'._grid._processor_coor (st._directions.getD ii 0)
            = if st._distances.getD ii 0 > 0 then
                (st._grid._processor_coor (st._directions.getD ii 0) + 1)
                  % st._grid._processors (st._directions.getD ii 0)
              else
                (st._grid._processor_coor (st._directions.getD ii 0)
                    + st._grid._processors (st._directions.getD ii 0) - 1)
                  % st._grid._processors (st._directions.getD ii 0)) :
    (if st._distances.getD ii 0 > 0 then
        (r._comms_recv ii = 0
          ↔ blk.getD (st._directions.getD ii 0) 0
              ∣ cdiv (st._grid._fdimensions (st._directions.getD ii 0))
                    (st._grid._processors (st._directions.getD ii 0))
                * ((st._grid._processor_coor (st._directions.getD ii 0) : Int) + 1))
        ∧ (r._comms_send ii = 0
          ↔ blk.getD (st._directions.getD ii 0) 0
              ∣ cdiv (st._grid._fdimensions (st._directions.getD ii 0))
                    (st._grid._processors (st._directions.getD ii 0))
                * (st._grid._processor_coor (st._directions.getD ii 0) : Int))
      else
        (r._comms_send ii = 0
          ↔ blk.getD (st._directions.getD ii 0) 0
              ∣ cdiv (st._grid._fdimensions (st._directions.getD ii 0))
                    (st._grid._processors (st._directions.getD ii 0))
                * ((st._grid._processor_coor (st._directions.getD ii 0) : Int) + 1))
        ∧ (r._comms_recv ii = 0
          ↔ blk.getD (st._directions.getD ii 0) 0
              ∣ cdiv (st._grid._fdimensions (st._directions.getD ii 0))
                    (st._grid._processors (st._directions.getD ii 0))
                * (st._grid._processor_coor (st._directions.getD ii 0) : Int)))
    ∧ (r._comms_send ii = 0 ∨ r._comms_send ii = 1)
    ∧ (r._comms_recv ii = 0 ∨ r._comms_recv ii = 1)
    ∧ r._comms_recv ii = r'._comms_send ii := by
  have hf := DirichletBlock_flags st r blk h ii hii
  have hf' := DirichletBlock_flags st' r' blk h' ii (by rw [hn]; exact hii)
  rw [hdir, hdist] at hf'
  have hnbr := dirichletFlags_neighbour st._grid st'._grid (st._directions.getD ii 0)
    (st._distances.getD ii 0) (blk.getD (st._directions.getD ii 0) 0) hb hcomm hfd hpd hld hblock
    hpc hnb
  rw [← hf, ← hf'] at hnbr
  rw [dirichletFlags_split _ _ _ _ hb hcomm] at hf
  have h1 := congrArg Prod.fst hf
  have h2 := congrArg Prod.snd hf
  dsimp only at h1 h2
  clear hf hf' hnb hpc hblock hld hpd hfd h h'
  refine ⟨?_, ?_, ?_, hnbr⟩
  · by_cases hd : st._distances.getD ii 0 > 0
    · rw [if_pos hd] at h1 h2
      rw [if_pos hd, h1, h2]
      exact ⟨flag_zero_iff _, flag_zero_iff _⟩
    · rw [if_neg hd] at h1 h2
      rw [if_neg hd, h1, h2]
      exact ⟨flag_zero_iff _, flag_zero_iff _⟩
  · rw [h1]
    split
    · exact flag_cases _
    · exact flag_cases _
  · rw [h2]
    split
    · exact flag_cases _
    · exact flag_cases _

/-- Witness for C26: the two ranks of `lineGrid` with the block size 8, the
full extent, for a point of displacement `+1`; rank 1 receives from rank 0
across the periodic wrap, and both flags are off. -/
theorem C26_dirichlet_flags_match_witness :
    ∃ r r' : CartesianStencil Nat,
      DirichletBlock (CartesianStencil.initial (lineGrid 1) 1 [0] [1] ⟨[8]⟩ 8 8 (someStorage 0))
          [8] = .ok r
      ∧ DirichletBlock (CartesianStencil.initial (lineGrid 0) 1 [0] [1] ⟨[8]⟩ 8 8 (someStorage 0))
          [8] = .ok r'
      ∧ r._comms_recv 0 = r'._comms_send 0 :=
  have h : DirichletBlock
      (CartesianStencil.initial (lineGrid 1) 1 [0] [1] ⟨[8]⟩ 8 8 (someStorage (0 : Nat))) [8]
      = .ok (dirichletResult
          (CartesianStencil.initial (lineGrid 1) 1 [0] [1] ⟨[8]⟩ 8 8 (someStorage (0 : Nat)))
          [8] 1) :=
    DirichletBlock_ok _ _ (fun ii hii => by
      obtain rfl : ii = 0 := Nat.lt_one_iff.mp hii
      decide)
  have h' : DirichletBlock
      (CartesianStencil.initial (lineGrid 0) 1 [0] [1] ⟨[8]⟩ 8 8 (someStorage (0 : Nat))) [8]
      = .ok (dirichletResult
          (CartesianStencil.initial (lineGrid 0) 1 [0] [1] ⟨[8]⟩ 8 8 (someStorage (0 : Nat)))
          [8] 1) :=
    DirichletBlock_ok _ _ (fun ii hii => by
      obtain rfl : ii = 0 := Nat.lt_one_iff.mp hii
      decide)
  ⟨_, _, h, h',
    (C26_dirichlet_flags_match _ _ _ _ [8] h h' rfl rfl rfl 0 (by decide) (by decide) (by decide)
      rfl rfl (by decide) (by decide) (by decide) (by decide)).2.2.2⟩

/-! ## The flags when no Dirichlet block list is given -/

theorem construct_flags_unset {C : Type} (grid : GridBase) (npoints checkerboard : Nat)
    (directions : List Nat) (distances : List Int) (sizeof_vobj sizeof_cobj : Nat)
    (u : Indeterminate C) (st : CartesianStencil C)
    (h : CartesianStencil.construct grid npoints checkerboard directions distances ⟨[]⟩
          sizeof_vobj sizeof_cobj u = .ok st) :
    st._comms_send = u._comms_send ∧ st._comms_recv = u._comms_recv := by
  rw [construct_ok_iff] at h
  obtain ⟨_, rfl⟩ := h
  exact ⟨rfl, rfl⟩

/-- C27 fails in the code: `DirichletBlock` is the only place where
`_comms_send` and `_comms_recv` are assigned, and the constructor calls it only
`if ( p.dirichlet.size() )`.  With an empty block list the stencil of
`lineGrid`, whose axis is split across 2 processes, is constructed with the
flags holding what the storage held (5 and 5 in one storage, 0 and 0 in
another), not 1 and 1, which are the flags that the all-zero block list `[0]`
produces. -/
theorem C27_flags_left_unset :
    (CartesianStencil.construct (lineGrid 0) 1 0 [0] [1] ⟨[]⟩ 8 8
        (someStorage (0 : Nat))).toBool = true
    ∧ (lineGrid 0)._processors 0 > 1
    ∧ (constructed (lineGrid 0) 1 0 [0] [1] ⟨[]⟩ 8 8 (someStorage (0 : Nat)))._comms_send 0 = 5
    ∧ (constructed (lineGrid 0) 1 0 [0] [1] ⟨[]⟩ 8 8 (someStorage (0 : Nat)))._comms_recv 0 = 5
    ∧ (constructed (lineGrid 0) 1 0 [0] [1] ⟨[]⟩ 8 8
        { someStorage (0 : Nat) with _comms_send := fun _ => 0,
                                     _comms_recv := fun _ => 0 })._comms_send 0 = 0
    ∧ (constructed (lineGrid 0) 1 0 [0] [1] ⟨[]⟩ 8 8
        { someStorage (0 : Nat) with _comms_send := fun _ => 0,
                                     _comms_recv := fun _ => 0 })._comms_recv 0 = 0
    ∧ (constructed (lineGrid 0) 1 0 [0] [1] ⟨[0]⟩ 8 8 (someStorage (0 : Nat)))._comms_send 0 = 1
    ∧ (constructed (lineGrid 0) 1 0 [0] [1] ⟨[0]⟩ 8 8 (someStorage (0 : Nat)))._comms_recv 0 = 1 := by
  decide

/-! ## The receive slots of the halo sites -/

theorem toU64_natCast (n : Nat) : toU64 ((n : Nat) : Int) = n := by
  unfold toU64
  rw [if_pos (Int.ofNat_nonneg _), Int.toNat_ofNat]

theorem isLocalAt_not_remote (e : StencilEntry) (o p w : Int) (h : e.isLocalAt o p w)
    (hr : e._is_local = 0) : False := by
  rw [h.2.1] at hr
  exact absurd hr (by decide)

theorem remote_slot (g : GridBase) (npoints checkerboard : Nat)
    (comms_recv : Int) (point dimension : Nat) (displacement : Int)
    (s : (Nat → StencilEntry) × Nat)
    (hl : AxisLayout g dimension) (hp : point < npoints)
    (hpar : ∀ k, g.CheckerBoardFromOindex k ≤ 1)
    (hdep : g.CheckerBoardShiftForCB checkerboard dimension displacement Even
              ≠ g.CheckerBoardShiftForCB checkerboard dimension displacement Odd →
            g.CheckerBoarded dimension = true)
    (x k : Nat) (hx : x < g._rdimensions dimension) (hk : k ∈ planeOffsets g dimension)
    (hrem : ((constructPointEntries g npoints checkerboard comms_recv point dimension
                displacement s).1
              (entryIndex npoints point (x * g._ostride dimension + k)))._is_local = 0) :
    ∃ i, (planeSelected g dimension (siteMask g checkerboard dimension displacement k)).get? i
          = some k
      ∧ ((constructPointEntries g npoints checkerboard comms_recv point dimension
                displacement s).1
              (entryIndex npoints point (x * g._ostride dimension + k)))._offset
          = slotBase g checkerboard dimension displacement s.2
              (siteMask g checkerboard dimension displacement k) x + i
      ∧ commsPlaneWords g dimension (siteMask g checkerboard dimension displacement k)
            (passShift g checkerboard dimension displacement
              (siteMask g checkerboard dimension displacement k)) x
          = planeWords g dimension (siteMask g checkerboard dimension displacement k)
      ∧ g._processors dimension > 1 := by
  unfold constructPointEntries at hrem ⊢
  by_cases hpd : g._processors dimension > 1
  · rw [if_pos hpd] at hrem ⊢
    obtain ⟨_, hent⟩ := commsPasses_entry g npoints checkerboard point dimension displacement
      comms_recv s hl hp hpar hdep x k hx hk
    unfold commsEntryAt at hent
    dsimp only at hent
    by_cases hoff : offnodePlane g dimension (passShift g checkerboard dimension displacement
        (siteMask g checkerboard dimension displacement k)) x = 0
    · rw [if_pos hoff] at hent
      exact absurd hrem (fun h => isLocalAt_not_remote _ _ _ _ hent h)
    · rw [if_neg hoff] at hent
      by_cases hr : comms_recv = 0
      · rw [if_pos hr] at hent
        exact absurd hrem (fun h => isLocalAt_not_remote _ _ _ _ hent h)
      · rw [if_neg hr] at hent
        obtain ⟨i, hi, hat⟩ := hent
        refine ⟨i, hi, ?_, ?_, hpd⟩
        · rw [hat.1, toU64_natCast]
          unfold slotBase
          rw [CommsEntries_size]
        · unfold commsPlaneWords
          rw [if_pos]
          unfold truthy
          simpa using hoff
  · rw [if_neg hpd] at hrem
    exact absurd hrem (fun h => isLocalAt_not_remote _ _ _ _
      (localPasses_entry g npoints checkerboard point dimension displacement s.1 hl hp hpar
        hdep x k hx hk) h)

theorem siteMask_cases (g : GridBase) (checkerboard dimension : Nat) (displacement : Int)
    (k : Nat) :
    (g.CheckerBoardShiftForCB checkerboard dimension displacement Even
        = g.CheckerBoardShiftForCB checkerboard dimension displacement Odd
      ∧ siteMask g checkerboard dimension displacement k = 3)
    ∨ (g.CheckerBoardShiftForCB checkerboard dimension displacement Even
        ≠ g.CheckerBoardShiftForCB checkerboard dimension displacement Odd
      ∧ (siteMask g checkerboard dimension displacement k = 1
          ∨ siteMask g checkerboard dimension displacement k = 2)) := by
  unfold siteMask
  by_cases heq : g.CheckerBoardShiftForCB checkerboard dimension displacement Even
      = g.CheckerBoardShiftForCB checkerboard dimension displacement Odd
  · rw [if_pos heq]
    exact Or.inl ⟨heq, rfl⟩
  · rw [if_neg heq]
    refine Or.inr ⟨heq, ?_⟩
    split
    · exact Or.inl rfl
    · exact Or.inr rfl

theorem slotBase_lt (g : GridBase) (checkerboard dimension : Nat) (displacement : Int)
    (U m x m' x' i : Nat) (hx : x < g._rdimensions dimension)
    (hm : m = m' ∨ (m = 1 ∧ m' = 2))
    (hord : m < m' ∨ (m = m' ∧ x < x'))
    (hw : commsPlaneWords g dimension m (passShift g checkerboard dimension displacement m) x
            = planeWords g dimension m)
    (hi : i < planeWords g dimension m) :
    slotBase g checkerboard dimension displacement U m x + i
      < slotBase g checkerboard dimension displacement U m' x' + 0 := by
  have hstep : sumTo x (commsPlaneWords g dimension m
        (passShift g checkerboard dimension displacement m)) + i
      < sumTo (x + 1) (commsPlaneWords g dimension m
        (passShift g checkerboard dimension displacement m)) := by
    rw [sumTo_succ, hw]
    omega
  rcases hm with rfl | ⟨rfl, rfl⟩
  · rcases hord with h | ⟨_, h⟩
    · exact absurd h (Nat.lt_irrefl _)
    · have := sumTo_le (commsPlaneWords g dimension m
        (passShift g checkerboard dimension displacement m)) (x + 1) x' h
      unfold slotBase
      omega
  · have := sumTo_le (commsPlaneWords g dimension 1
        (passShift g checkerboard dimension displacement 1)) (x + 1)
        (g._rdimensions dimension) hx
    unfold slotBase
    rw [if_neg (by decide), if_pos rfl]
    omega

theorem slotBase_bounds (g : GridBase) (npoints checkerboard : Nat) (comms_recv : Int)
    (point dimension : Nat) (displacement : Int) (s : (Nat → StencilEntry) × Nat)
    (k x i : Nat) (hx : x < g._rdimensions dimension) (hpd : g._processors dimension > 1)
    (hw : commsPlaneWords g dimension (siteMask g checkerboard dimension displacement k)
            (passShift g checkerboard dimension displacement
              (siteMask g checkerboard dimension displacement k)) x
            = planeWords g dimension (siteMask g checkerboard dimension displacement k))
    (hi : i < planeWords g dimension (siteMask g checkerboard dimension displacement k)) :
    s.2 ≤ slotBase g checkerboard dimension displacement s.2
            (siteMask g checkerboard dimension displacement k) x + i
    ∧ slotBase g checkerboard dimension displacement s.2
            (siteMask g checkerboard dimension displacement k) x + i
        < (constructPointEntries g npoints checkerboard comms_recv point dimension
            displacement s).2 := by
  have hstep : sumTo x (commsPlaneWords g dimension
        (siteMask g checkerboard dimension displacement k)
        (passShift g checkerboard dimension displacement
          (siteMask g checkerboard dimension displacement k))) + i
      < sumTo (x + 1) (commsPlaneWords g dimension
        (siteMask g checkerboard dimension displacement k)
        (passShift g checkerboard dimension displacement
          (siteMask g checkerboard dimension displacement k))) := by
    rw [sumTo_succ, hw]
    omega
  have hle := sumTo_le (commsPlaneWords g dimension
        (siteMask g checkerboard dimension displacement k)
        (passShift g checkerboard dimension displacement
          (siteMask g checkerboard dimension displacement k))) (x + 1)
        (g._rdimensions dimension) hx
  constructor
  · unfold slotBase
    split <;> omega
  · unfold constructPointEntries
    rw [if_pos hpd, commsPasses_size]
    rcases siteMask_cases g checkerboard dimension displacement k with ⟨heq, hm⟩ | ⟨hne, hm | hm⟩
    · rw [if_pos heq]
      rw [hm] at hstep hle ⊢
      unfold slotBase
      rw [if_neg (by decide)]
      omega
    · rw [if_neg hne]
      rw [hm] at hstep hle ⊢
      unfold slotBase
      rw [if_neg (by decide)]
      omega
    · rw [if_neg hne]
      rw [hm] at hstep hle ⊢
      unfold slotBase
      rw [if_pos rfl]
      omega

theorem table_slot {C : Type} (grid : GridBase) (npoints checkerboard : Nat)
    (directions : List Nat) (distances : List Int) (p : Parameters)
    (sizeof_vobj sizeof_cobj : Nat) (u : Indeterminate C)
    (point : Nat) (hp : point < npoints)
    (hl : AxisLayout grid (directions.getD point 0))
    (hpar : ∀ k, grid.CheckerBoardFromOindex k ≤ 1)
    (hdep : grid.CheckerBoardShiftForCB checkerboard (directions.getD point 0)
                (distances.getD point 0) Even
              ≠ grid.CheckerBoardShiftForCB checkerboard (directions.getD point 0)
                (distances.getD point 0) Odd →
            grid.CheckerBoarded (directions.getD point 0) = true)
    (hhalf : grid.CheckerBoarded (directions.getD point 0) = true → ∀ par, par ≤ 1 →
      2 * ((planeOffsets grid (directions.getD point 0)).filter
            (fun k => grid.CheckerBoardFromOindex k == par)).length
        = (planeOffsets grid (directions.getD point 0)).length)
    (x k : Nat) (hx : x < grid._rdimensions (directions.getD point 0))
    (hk : k ∈ planeOffsets grid (directions.getD point 0))
    (hrem : ((constructTable grid npoints checkerboard directions distances p sizeof_vobj
                sizeof_cobj u).1
              (entryIndex npoints point (x * grid._ostride (directions.getD point 0) + k)))._is_local
            = 0) :
    ∃ i, (planeSelected grid (directions.getD point 0)
            (siteMask grid checkerboard (directions.getD point 0) (distances.getD point 0) k)).get? i
          = some k
      ∧ ((constructTable grid npoints checkerboard directions distances p sizeof_vobj
                sizeof_cobj u).1
              (entryIndex npoints point (x * grid._ostride (directions.getD point 0) + k)))._offset
          = slotBase grid checkerboard (directions.getD point 0) (distances.getD point 0)
              (pointBase grid npoints checkerboard directions distances p sizeof_vobj sizeof_cobj
                u point)
              (siteMask grid checkerboard (directions.getD point 0) (distances.getD point 0) k) x
            + i
      ∧ i < planeWords grid (directions.getD point 0)
              (siteMask grid checkerboard (directions.getD point 0) (distances.getD point 0) k)
      ∧ commsPlaneWords grid (directions.getD point 0)
            (siteMask grid checkerboard (directions.getD point 0) (distances.getD point 0) k)
            (passShift grid checkerboard (directions.getD point 0) (distances.getD point 0)
              (siteMask grid checkerboard (directions.getD point 0) (distances.getD point 0) k)) x
          = planeWords grid (directions.getD point 0)
              (siteMask grid checkerboard (directions.getD point 0) (distances.getD point 0) k)
      ∧ pointBase grid npoints checkerboard directions distances p sizeof_vobj sizeof_cobj
            u point
          ≤ ((constructTable grid npoints checkerboard directions distances p sizeof_vobj
                sizeof_cobj u).1
              (entryIndex npoints point (x * grid._ostride (directions.getD point 0) + k)))._offset
      ∧ ((constructTable grid npoints checkerboard directions distances p sizeof_vobj
                sizeof_cobj u).1
              (entryIndex npoints point (x * grid._ostride (directions.getD point 0) + k)))._offset
          < pointBase grid npoints checkerboard directions distances p sizeof_vobj sizeof_cobj
              u (point + 1) := by
  unfold constructTable at hrem ⊢
  rw [constructLoopEntries_point _ _ _ _ _ _ point npoints _ hp (Nat.le_refl _)] at hrem ⊢
  obtain ⟨i, hi, hoff, hw, hpd⟩ := remote_slot grid npoints checkerboard _ point
    (directions.getD point 0) (distances.getD point 0) _ hl hp hpar hdep x k hx hk hrem
  have hlen : i < (planeSelected grid (directions.getD point 0)
      (siteMask grid checkerboard (directions.getD point 0) (distances.getD point 0) k)).length :=
    (List.get?_eq_some.1 hi).1
  have hsel : (planeSelected grid (directions.getD point 0)
      (siteMask grid checkerboard (directions.getD point 0) (distances.getD point 0) k)).length
      ≤ planeWords grid (directions.getD point 0)
          (siteMask grid checkerboard (directions.getD point 0) (distances.getD point 0) k) := by
    apply planeSelected_words grid _ _ hpar _ hhalf
    rcases siteMask_cases grid checkerboard (directions.getD point 0) (distances.getD point 0) k
      with ⟨_, hm⟩ | ⟨hne, hm⟩
    · exact Or.inl hm
    · exact Or.inr ⟨hm, hdep hne⟩
  have hiw := Nat.lt_of_lt_of_le hlen hsel
  have hb := slotBase_bounds grid npoints checkerboard
    ((beforePoints grid npoints directions distances p sizeof_vobj sizeof_cobj u)._comms_recv
      point) point (directions.getD point 0) (distances.getD point 0)
    (constructLoopEntries grid npoints checkerboard
      (beforePoints grid npoints directions distances p sizeof_vobj sizeof_cobj u)._comms_recv
      directions distances point
      ((beforePoints grid npoints directions distances p sizeof_vobj sizeof_cobj u)._entries, 0))
    k x i hx hpd hw hiw
  refine ⟨i, hi, hoff, hiw, hw, ?_, ?_⟩
  · rw [hoff]
    exact hb.1
  · rw [hoff]
    exact hb.2

theorem pointBase_mono {C : Type} (grid : GridBase) (npoints checkerboard : Nat)
    (directions : List Nat) (distances : List Int) (p : Parameters)
    (sizeof_vobj sizeof_cobj : Nat) (u : Indeterminate C) (m n : Nat) (h : m ≤ n) :
    pointBase grid npoints checkerboard directions distances p sizeof_vobj sizeof_cobj u m
      ≤ pointBase grid npoints checkerboard directions distances p sizeof_vobj sizeof_cobj u n :=
  constructLoopEntries_size_mono grid npoints checkerboard _ directions distances m n _ h

theorem table_slot_lt {C : Type} (grid : GridBase) (npoints checkerboard : Nat)
    (directions : List Nat) (distances : List Int) (p : Parameters)
    (sizeof_vobj sizeof_cobj : Nat) (u : Indeterminate C)
    (hg : SlotLayout grid npoints checkerboard directions distances)
    (point x k point' x' k' : Nat) (hp : point < npoints) (hp' : point' < npoints)
    (hx : x < grid._rdimensions (directions.getD point 0))
    (hk : k ∈ planeOffsets grid (directions.getD point 0))
    (hx' : x' < grid._rdimensions (directions.getD point' 0))
    (hk' : k' ∈ planeOffsets grid (directions.getD point' 0))
    (hrem : ((constructTable grid npoints checkerboard directions distances p sizeof_vobj
                sizeof_cobj u).1
              (entryIndex npoints point (x * grid._ostride (directions.getD point 0) + k)))._is_local
            = 0)
    (hrem' : ((constructTable grid npoints checkerboard directions distances p sizeof_vobj
                sizeof_cobj u).1
              (entryIndex npoints point'
                (x' * grid._ostride (directions.getD point' 0) + k')))._is_local = 0)
    (hord : point < point'
      ∨ (point = point'
        ∧ (siteMask grid checkerboard (directions.getD point 0) (distances.getD point 0) k
            < siteMask grid checkerboard (directions.getD point' 0) (distances.getD point' 0) k'
          ∨ (siteMask grid checkerboard (directions.getD point 0) (distances.getD point 0) k
              = siteMask grid checkerboard (directions.getD point' 0) (distances.getD point' 0) k'
            ∧ x < x')))) :
    ((constructTable grid npoints checkerboard directions distances p sizeof_vobj
          sizeof_cobj u).1
        (entryIndex npoints point (x * grid._ostride (directions.getD point 0) + k)))._offset
      < slotBase grid checkerboard (directions.getD point' 0) (distances.getD point' 0)
          (pointBase grid npoints checkerboard directions distances p sizeof_vobj sizeof_cobj
            u point')
          (siteMask grid checkerboard (directions.getD point' 0) (distances.getD point' 0) k') x'
    ∧ slotBase grid checkerboard (directions.getD point' 0) (distances.getD point' 0)
          (pointBase grid npoints checkerboard directions distances p sizeof_vobj sizeof_cobj
            u point')
          (siteMask grid checkerboard (directions.getD point' 0) (distances.getD point' 0) k') x'
      ≤ ((constructTable grid npoints checkerboard directions distances p sizeof_vobj
          sizeof_cobj u).1
        (entryIndex npoints point'
          (x' * grid._ostride (directions.getD point' 0) + k')))._offset := by
  obtain ⟨i, hi, hoff, hiw, hw, hlo, hhi⟩ := table_slot grid npoints checkerboard directions
    distances p sizeof_vobj sizeof_cobj u point hp (hg.layout point hp) hg.parity
    (hg.dependent point hp) (hg.half point hp) x k hx hk hrem
  obtain ⟨i', hi', hoff', hiw', hw', hlo', hhi'⟩ := table_slot grid npoints checkerboard
    directions distances p sizeof_vobj sizeof_cobj u point' hp' (hg.layout point' hp') hg.parity
    (hg.dependent point' hp') (hg.half point' hp') x' k' hx' hk' hrem'
  refine ⟨?_, by rw [hoff']; exact Nat.le_add_right _ _⟩
  rcases hord with hlt | ⟨rfl, hord⟩
  · have h1 := pointBase_mono grid npoints checkerboard directions distances p sizeof_vobj
      sizeof_cobj u (point + 1) point' hlt
    have h2 : pointBase grid npoints checkerboard directions distances p sizeof_vobj
        sizeof_cobj u point'
        ≤ slotBase grid checkerboard (directions.getD point' 0) (distances.getD point' 0)
          (pointBase grid npoints checkerboard directions distances p sizeof_vobj sizeof_cobj
            u point')
          (siteMask grid checkerboard (directions.getD point' 0) (distances.getD point' 0) k')
          x' := by
      unfold slotBase
      split <;> omega
    omega
  · rw [hoff]
    have hm : siteMask grid checkerboard (directions.getD point 0) (distances.getD point 0) k
          = siteMask grid checkerboard (directions.getD point 0) (distances.getD point 0) k'
        ∨ (siteMask grid checkerboard (directions.getD point 0) (distances.getD point 0) k = 1
          ∧ siteMask grid checkerboard (directions.getD point 0) (distances.getD point 0) k'
              = 2) := by
      rcases siteMask_cases grid checkerboard (directions.getD point 0)
          (distances.getD point 0) k with ⟨_, h1⟩ | ⟨hne, h1⟩
      · rcases siteMask_cases grid checkerboard (directions.getD point 0)
            (distances.getD point 0) k' with ⟨_, h2⟩ | ⟨hne', _⟩
        · exact Or.inl (h1.trans h2.symm)
        · omega
      · rcases siteMask_cases grid checkerboard (directions.getD point 0)
            (distances.getD point 0) k' with ⟨heq', _⟩ | ⟨_, h2⟩
        · exact absurd heq' hne
        · omega
    have := slotBase_lt grid checkerboard (directions.getD point 0) (distances.getD point 0)
      (pointBase grid npoints checkerboard directions distances p sizeof_vobj sizeof_cobj
        u point) _ x _ x' i hx hm hord hw hiw
    omega

theorem construct_entry_slot {C : Type} (grid : GridBase) (npoints checkerboard : Nat)
    (directions : List Nat) (distances : List Int) (p : Parameters)
    (sizeof_vobj sizeof_cobj : Nat) (u : Indeterminate C) (st : CartesianStencil C)
    (hc : CartesianStencil.construct grid npoints checkerboard directions distances p
            sizeof_vobj sizeof_cobj u = .ok st)
    (point site : Nat) (hp : point < npoints) (hs : site < grid.oSites) :
    (st._entries (entryIndex npoints point site))._offset
      = ((constructTable grid npoints checkerboard directions distances p sizeof_vobj
            sizeof_cobj u).1 (entryIndex npoints point site))._offset
    ∧ (st._entries (entryIndex npoints point site))._is_local
      = ((constructTable grid npoints checkerboard directions distances p sizeof_vobj
            sizeof_cobj u).1 (entryIndex npoints point site))._is_local := by
  obtain ⟨hent, _⟩ := construct_table grid npoints checkerboard directions distances
    p sizeof_vobj sizeof_cobj u st hc
  rw [hent _ (entryIndex_lt npoints point site grid.oSites hp hs)]
  obtain ⟨ho, hloc, _⟩ := withByteOffset_fields sizeof_vobj sizeof_cobj
    ((constructTable grid npoints checkerboard directions distances p sizeof_vobj
      sizeof_cobj u).1 (entryIndex npoints point site))
  exact ⟨ho, hloc⟩

/-- C25: in a successfully constructed stencil no two halo sites share a
receive slot.  (1) Any two distinct pairs `(point, site)` whose entries are
remote have different `_offset`.  (2) One call of `ScatterPlane` gives the
sites it selects in the plane the consecutive offsets `offset`, `offset+1`,
... : the site at position `i` of the `(n, b)` traversal gets `offset + i`.
(3) In the table, the remote entry of the site at position `i` of plane `x`
holds `slotBase + i`, where `slotBase` is the value of `_unified_buffer_size`
with which the constructor reached that plane in that pass of that point.
(4) Every slot of a plane lies below the start of every later plane of the
same pass, of every plane of a later parity pass of the same point, and of
every plane of a later point, and so below every slot handed out there.
Grid hypotheses (`SlotLayout`): the slice tables describe the reduced layout,
parities are 0 or 1, only a checkerboarded axis has a parity-dependent shift,
and each parity holds exactly half of the sites of a plane. -/
theorem C25_receive_slots_distinct {C : Type} (grid : GridBase) (npoints checkerboard : Nat)
    (directions : List Nat) (distances : List Int) (p : Parameters)
    (sizeof_vobj sizeof_cobj : Nat) (u : Indeterminate C) (st : CartesianStencil C)
    (hc : CartesianStencil.construct grid npoints checkerboard directions distances p
            sizeof_vobj sizeof_cobj u = .ok st)
    (hg : SlotLayout grid npoints checkerboard directions distances) :
    (∀ point site point' site', point < npoints → point' < npoints →
      site < grid.oSites → site' < grid.oSites →
      (st._entries (entryIndex npoints point site))._is_local = 0 →
      (st._entries (entryIndex npoints point' site'))._is_local = 0 →
      (point, site) ≠ (point', site') →
      (st._entries (entryIndex npoints point site))._offset
        ≠ (st._entries (entryIndex npoints point' site'))._offset)
    ∧ (∀ (s : CartesianStencil C) (point dimension plane cbmask offset : Nat) (wrap : Int)
        (k : Nat), point < s._npoints → k ∈ planeSelected s._grid dimension cbmask →
        ∃ i, (planeSelected s._grid dimension cbmask).get? i = some k
          ∧ ((ScatterPlane s point dimension plane cbmask offset wrap)._entries
              (entryIndex s._npoints point (plane * s._grid._ostride dimension + k)))._offset
            = offset + i
          ∧ ((ScatterPlane s point dimension plane cbmask offset wrap)._entries
              (entryIndex s._npoints point (plane * s._grid._ostride dimension + k)))._is_local
            = 0)
    ∧ (∀ point x k, point < npoints → x < grid._rdimensions (directions.getD point 0) →
        k ∈ planeOffsets grid (directions.getD point 0) →
        (st._entries (entryIndex npoints point
          (x * grid._ostride (directions.getD point 0) + k)))._is_local = 0 →
        ∃ i, (planeSelected grid (directions.getD point 0)
                (siteMask grid checkerboard (directions.getD point 0) (distances.getD point 0)
                  k)).get? i = some k
          ∧ (st._entries (entryIndex npoints point
              (x * grid._ostride (directions.getD point 0) + k)))._offset
            = slotBase grid checkerboard (directions.getD point 0) (distances.getD point 0)
                (pointBase grid npoints checkerboard directions distances p sizeof_vobj
                  sizeof_cobj u point)
                (siteMask grid checkerboard (directions.getD point 0) (distances.getD point 0) k)
                x + i)
    ∧ (∀ point x k point' x' k', point < npoints → point' < npoints →
        x < grid._rdimensions (directions.getD point 0) →
        k ∈ planeOffsets grid (directions.getD point 0) →
        x' < grid._rdimensions (directions.getD point' 0) →
        k' ∈ planeOffsets grid (directions.getD point' 0) →
        (st._entries (entryIndex npoints point
          (x * grid._ostride (directions.getD point 0) + k)))._is_local = 0 →
        (st._entries (entryIndex npoints point'
          (x' * grid._ostride (directions.getD point' 0) + k')))._is_local = 0 →
        (point < point'
          ∨ (point = point'
            ∧ (siteMask grid checkerboard (directions.getD point 0) (distances.getD point 0) k
                < siteMask grid checkerboard (directions.getD point' 0)
                    (distances.getD point' 0) k'
              ∨ (siteMask grid checkerboard (directions.getD point 0) (distances.getD point 0) k
                  = siteMask grid checkerboard (directions.getD point' 0)
                      (distances.getD point' 0) k'
                ∧ x < x')))) →
        (st._entries (entryIndex npoints point
            (x * grid._ostride (directions.getD point 0) + k)))._offset
          < slotBase grid checkerboard (directions.getD point' 0) (distances.getD point' 0)
              (pointBase grid npoints checkerboard directions distances p sizeof_vobj
                sizeof_cobj u point')
              (siteMask grid checkerboard (directions.getD point' 0) (distances.getD point' 0)
                k') x'
        ∧ slotBase grid checkerboard (directions.getD point' 0) (distances.getD point' 0)
              (pointBase grid npoints checkerboard directions distances p sizeof_vobj
                sizeof_cobj u point')
              (siteMask grid checkerboard (directions.getD point' 0) (distances.getD point' 0)
                k') x'
          ≤ (st._entries (entryIndex npoints point'
              (x' * grid._ostride (directions.getD point' 0) + k')))._offset) := by
  have horder : ∀ point x k point' x' k', point < npoints → point' < npoints →
        x < grid._rdimensions (directions.getD point 0) →
        k ∈ planeOffsets grid (directions.getD point 0) →
        x' < grid._rdimensions (directions.getD point' 0) →
        k' ∈ planeOffsets grid (directions.getD point' 0) →
        (st._entries (entryIndex npoints point
          (x * grid._ostride (directions.getD point 0) + k)))._is_local = 0 →
        (st._entries (entryIndex npoints point'
          (x' * grid._ostride (directions.getD point' 0) + k')))._is_local = 0 →
        (point < point'
          ∨ (point = point'
            ∧ (siteMask grid checkerboard (directions.getD point 0) (distances.getD point 0) k
                < siteMask grid checkerboard (directions.getD point' 0)
                    (distances.getD point' 0) k'
              ∨ (siteMask grid checkerboard (directions.getD point 0) (distances.getD point 0) k
                  = siteMask grid checkerboard (directions.getD point' 0)
                      (distances.getD point' 0) k'
                ∧ x < x')))) →
        (st._entries (entryIndex npoints point
            (x * grid._ostride (directions.getD point 0) + k)))._offset
          < slotBase grid checkerboard (directions.getD point' 0) (distances.getD point' 0)
              (pointBase grid npoints checkerboard directions distances p sizeof_vobj
                sizeof_cobj u point')
              (siteMask grid checkerboard (directions.getD point' 0) (distances.getD point' 0)
                k') x'
        ∧ slotBase grid checkerboard (directions.getD point' 0) (distances.getD point' 0)
              (pointBase grid npoints checkerboard directions distances p sizeof_vobj
                sizeof_cobj u point')
              (siteMask grid checkerboard (directions.getD point' 0) (distances.getD point' 0)
                k') x'
          ≤ (st._entries (entryIndex npoints point'
              (x' * grid._ostride (directions.getD point' 0) + k')))._offset := by
    intro point x k point' x' k' hp hp' hx hk hx' hk' hrem hrem' hord
    have hs := plane_site_lt grid _ (hg.layout point hp) x k hx hk
    have hs' := plane_site_lt grid _ (hg.layout point' hp') x' k' hx' hk'
    obtain ⟨e1, e2⟩ := construct_entry_slot grid npoints checkerboard directions distances p
      sizeof_vobj sizeof_cobj u st hc point _ hp hs
    obtain ⟨e1', e2'⟩ := construct_entry_slot grid npoints checkerboard directions distances p
      sizeof_vobj sizeof_cobj u st hc point' _ hp' hs'
    rw [e2] at hrem
    rw [e2'] at hrem'
    rw [e1, e1']
    exact table_slot_lt grid npoints checkerboard directions distances p sizeof_vobj
      sizeof_cobj u hg point x k point' x' k' hp hp' hx hk hx' hk' hrem hrem' hord
  have hslot : ∀ point x k, point < npoints → x < grid._rdimensions (directions.getD point 0) →
        k ∈ planeOffsets grid (directions.getD point 0) →
        (st._entries (entryIndex npoints point
          (x * grid._ostride (directions.getD point 0) + k)))._is_local = 0 →
        ∃ i, (planeSelected grid (directions.getD point 0)
                (siteMask grid checkerboard (directions.getD point 0) (distances.getD point 0)
                  k)).get? i = some k
          ∧ (st._entries (entryIndex npoints point
              (x * grid._ostride (directions.getD point 0) + k)))._offset
            = slotBase grid checkerboard (directions.getD point 0) (distances.getD point 0)
                (pointBase grid npoints checkerboard directions distances p sizeof_vobj
                  sizeof_cobj u point)
                (siteMask grid checkerboard (directions.getD point 0) (distances.getD point 0) k)
                x + i := by
    intro point x k hp hx hk hrem
    have hs := plane_site_lt grid _ (hg.layout point hp) x k hx hk
    obtain ⟨e1, e2⟩ := construct_entry_slot grid npoints checkerboard directions distances p
      sizeof_vobj sizeof_cobj u st hc point _ hp hs
    rw [e2] at hrem
    rw [e1]
    obtain ⟨i, hi, hoff, _⟩ := table_slot grid npoints checkerboard directions
      distances p sizeof_vobj sizeof_cobj u point hp (hg.layout point hp) hg.parity
      (hg.dependent point hp) (hg.half point hp) x k hx hk hrem
    exact ⟨i, hi, hoff⟩
  refine ⟨?_, ?_, hslot, horder⟩
  · intro point site point' site' hp hp' hs hs' hrem hrem' hne
    obtain ⟨x, hx, k, hk, rfl⟩ := plane_site_cover grid _ (hg.layout point hp) site hs
    obtain ⟨x', hx', k', hk', rfl⟩ := plane_site_cover grid _ (hg.layout point' hp') site' hs'
    rcases Nat.lt_trichotomy point point' with hlt | heq | hgt
    · have := horder point x k point' x' k' hp hp' hx hk hx' hk' hrem hrem' (Or.inl hlt)
      omega
    · subst heq
      rcases Nat.lt_trichotomy
          (siteMask grid checkerboard (directions.getD point 0) (distances.getD point 0) k)
          (siteMask grid checkerboard (directions.getD point 0) (distances.getD point 0) k')
        with hm | hm | hm
      · have := horder point x k point x' k' hp hp hx hk hx' hk' hrem hrem'
          (Or.inr ⟨rfl, Or.inl hm⟩)
        omega
      · rcases Nat.lt_trichotomy x x' with hxx | hxx | hxx
        · have := horder point x k point x' k' hp hp hx hk hx' hk' hrem hrem'
            (Or.inr ⟨rfl, Or.inr ⟨hm, hxx⟩⟩)
          omega
        · subst hxx
          obtain ⟨i, hi, hoff⟩ := hslot point x k hp hx hk hrem
          obtain ⟨i', hi', hoff'⟩ := hslot point x k' hp hx hk' hrem'
          rw [hoff, hoff', ← hm]
          intro hcontra
          have hii : i = i' := by omega
          subst hii
          rw [← hm, hi] at hi'
          have hkk : k = k' := Option.some.inj hi'
          subst hkk
          exact hne rfl
        · have := horder point x' k' point x k hp hp hx' hk' hx hk hrem' hrem
            (Or.inr ⟨rfl, Or.inr ⟨hm.symm, hxx⟩⟩)
          omega
      · have := horder point x' k' point x k hp hp hx' hk' hx hk hrem' hrem
          (Or.inr ⟨rfl, Or.inl hm⟩)
        omega
    · have := horder point' x' k' point x k hp' hp hx' hk' hx hk hrem' hrem (Or.inl hgt)
      omega
  · intro s point dimension plane cbmask offset wrap k hp hk
    obtain ⟨i, hi, hat⟩ := ScatterPlaneEntries_hit s._grid s._npoints s._entries point dimension
      plane cbmask offset wrap k hp hk
    refine ⟨i, hi, ?_, hat.2.1⟩
    show ((ScatterPlaneEntries s._grid s._npoints s._entries point dimension plane cbmask
      offset wrap).1 _)._offset = _
    rw [hat.1, toU64_natCast]

/-- Witness for C25: rank 0 of `lineGrid` with the two points `+1` and `-1`;
the halo site of the first point (site 3) and that of the second (site 0) get
different slots. -/
theorem C25_receive_slots_distinct_witness :
    ∃ st : CartesianStencil Nat,
      CartesianStencil.construct (lineGrid 0) 2 0 [0, 0] [1, -1] ⟨[0]⟩ 8 8
          (someStorage (0 : Nat)) = .ok st
      ∧ (st._entries (entryIndex 2 0 3))._is_local = 0
      ∧ (st._entries (entryIndex 2 1 0))._is_local = 0
      ∧ (st._entries (entryIndex 2 0 3))._offset ≠ (st._entries (entryIndex 2 1 0))._offset :=
  have hok : constructOk (lineGrid 0) 2 [0, 0] [1, -1] ⟨[0]⟩ 8 8 (someStorage (0 : Nat)) :=
    ⟨fun _ ii hii => by interval_cases ii <;> decide,
      fun ii hii => by interval_cases ii <;> decide⟩
  ⟨_, construct_of_constructOk (lineGrid 0) 2 0 [0, 0] [1, -1] ⟨[0]⟩ 8 8
        (someStorage (0 : Nat)) hok, by decide, by decide,
    (C25_receive_slots_distinct (lineGrid 0) 2 0 [0, 0] [1, -1] ⟨[0]⟩ 8 8
      (someStorage (0 : Nat)) _
      (construct_of_constructOk (lineGrid 0) 2 0 [0, 0] [1, -1] ⟨[0]⟩ 8 8
        (someStorage (0 : Nat)) hok)
      ⟨fun _ _ => ⟨Nat.succ_pos 3, Nat.succ_pos 0, rfl, rfl, rfl⟩, fun _ => Nat.zero_le 1,
        fun _ _ hne => absurd rfl hne, fun _ _ h => Bool.noConfusion h⟩).1
      0 3 1 0 (by decide) (by decide) (by decide) (by decide) (by decide) (by decide)
      (by decide)⟩

/-! ## Buffer placement in the table and in the gather -/

/-- C24 fails in the code on a checkerboarded axis that is split across
processes and across SIMD lanes.  On rank 0 of `redBlackGrid` the stencil
with two points of displacement `-2` along axis 0 is constructed successfully.
For the second point the constructor reaches plane 0, which is off-node, with
`_unified_buffer_size = 2` and stores the offsets 2 and 3 for its two sites,
because `Comms` counted only plane 0 of the first point.  `GatherSimd` counts
planes 0 and 1 of the first point (`((x+sshift)%fd) >= rd` with the full
extent `fd = 16`), so the gather of the first point leaves
`u_comm_offset = 4` and the merge destination of plane 0 of the second point
is `u_recv_buf + 4`. -/
theorem C24_placement_differs :
    (CartesianStencil.construct (redBlackGrid 0) 2 0 [0, 0] [-2, -2] ⟨[0, 0]⟩ 8 8
        (someStorage (0 : Nat))).toBool = true
    ∧ (redBlackPair 0)._comms_recv 1 = 1
    ∧ offnodePlane (redBlackGrid 0) 0 (passShift (redBlackGrid 0) 0 0 (-2) 3) 0 = 1
    ∧ pointBase (redBlackGrid 0) 2 0 [0, 0] [-2, -2] ⟨[0, 0]⟩ 8 8 (someStorage (0 : Nat)) 1 = 2
    ∧ slotBase (redBlackGrid 0) 0 0 (-2) 2 3 0 = 2
    ∧ ((redBlackPair 0)._entries (entryIndex 2 1 0))._is_local = 0
    ∧ ((redBlackPair 0)._entries (entryIndex 2 1 0))._offset = 2
    ∧ ((redBlackPair 0)._entries (entryIndex 2 1 2))._is_local = 0
    ∧ ((redBlackPair 0)._entries (entryIndex 2 1 2))._offset = 3
    ∧ (gatheredPoints (redBlackPair 0) redBlackField (plainCompressor Nat 8) 1).map
        (fun s => s.u_comm_offset) = some 4
    ∧ (gatheredPoints (redBlackPair 0) redBlackField (plainCompressor Nat 8) 1).map
        (fun s => s.Mergers.length) = some 2
    ∧ (gatheredPoints (redBlackPair 0) redBlackField (plainCompressor Nat 8) 2).map
        (fun s => (s.Mergers.get? 2).map (fun m => m.mpointer))
        = some (some ⟨Buffer.u_recv_buf, 4⟩) := by
  decide

/-! ## The merge descriptors of `GatherSimd` -/

/-- C29 fails in the code on a checkerboarded axis that is split across
processes and across SIMD lanes.  On rank 0 of `redBlackGrid`, for the point
of displacement `-2` along axis 0 (checkerboard shift 7), both lanes of plane
1 have their neighbour on this process (`nbr_proc = 0` for lane 0 and lane 1)
and `Comms` does not count the plane as off-node, yet `GatherSimd` finds
`((x+sshift)%fd) >= rd` and appends a `Merge` for it whose two half-buffer
pointers are both local send buffers: no lane lies on another process. -/
theorem C29_merge_without_remote_lane :
    (CartesianStencil.construct (redBlackGrid 0) 1 0 [0] [-2] ⟨[0, 0]⟩ 8 8
        (someStorage (0 : Nat))).toBool = true
    ∧ passShift (redBlackGrid 0) 0 0 (-2) 3 = 7
    ∧ cmod (cdiv (((redBlackGrid 0)._rdimensions 0 : Int) * 0 + 1 + 7)
              ((redBlackGrid 0)._ldimensions 0 : Int)) ((redBlackGrid 0)._processors 0 : Int) = 0
    ∧ cmod (cdiv (((redBlackGrid 0)._rdimensions 0 : Int) * 1 + 1 + 7)
              ((redBlackGrid 0)._ldimensions 0 : Int)) ((redBlackGrid 0)._processors 0 : Int) = 0
    ∧ offnodePlane (redBlackGrid 0) 0 7 1 = 0
    ∧ (gatheredPoints (redBlackStencil 0) redBlackField (plainCompressor Nat 8) 1).map
        (fun s => s.Mergers)
        = some [⟨⟨Buffer.u_recv_buf, 0⟩,
                  [⟨Buffer.u_simd_recv_buf 0, 0⟩, ⟨Buffer.u_simd_send_buf 0, 0⟩], 2, 0⟩,
                ⟨⟨Buffer.u_recv_buf, 2⟩,
                  [⟨Buffer.u_simd_send_buf 0, 2⟩, ⟨Buffer.u_simd_send_buf 1, 2⟩], 2, 0⟩] := by
  decide

/-! ## The packets queued by the gather -/

theorem Queues.refl_queues {C : Type} (P : Packet → Prop) (a : CartesianStencil C) :
    Queues P a a :=
  ⟨SameStatic.refl_static _, [], (List.append_nil _).symm, fun _ h => absurd h (List.not_mem_nil _)⟩

theorem Queues.trans_queues {C : Type} {P : Packet → Prop} {a b c : CartesianStencil C}
    (h1 : Queues P a b) (h2 : Queues P b c) : Queues P a c := by
  obtain ⟨s1, n1, e1, p1⟩ := h1
  obtain ⟨s2, n2, e2, p2⟩ := h2
  refine ⟨s1.trans_static s2, n1 ++ n2, ?_, ?_⟩
  · rw [e2, e1, List.append_assoc]
  · intro pk hpk
    rcases List.mem_append.1 hpk with h | h
    · exact p1 pk h
    · exact p2 pk h

theorem Queues.mono_queues {C : Type} {P Q : Packet → Prop} {a b : CartesianStencil C}
    (h : Queues P a b) (hPQ : ∀ pk, P pk → Q pk) : Queues Q a b := by
  obtain ⟨s1, n1, e1, p1⟩ := h
  exact ⟨s1, n1, e1, fun pk hpk => hPQ pk (p1 pk hpk)⟩

theorem Queues.of_plan_queues {C : Type} (P : Packet → Prop) {a b : CartesianStencil C}
    (h : SamePlan a b) : Queues P a b :=
  ⟨h.toStatic, [], by
    rw [List.append_nil]
    exact h.proj (fun s => s.Packets) (fun _ _ => rfl),
    fun _ hh => absurd hh (List.not_mem_nil _)⟩

theorem SameStatic.fields {C : Type} {a b : CartesianStencil C} (h : SameStatic a b) :
    b._grid = a._grid ∧ b._comms_send = a._comms_send ∧ b._comms_recv = a._comms_recv
      ∧ b._directions = a._directions ∧ b._distances = a._distances
      ∧ b._checkerboard = a._checkerboard ∧ b._npoints = a._npoints :=
  ⟨h.proj (fun s => s._grid) (fun _ _ => rfl), h.proj (fun s => s._comms_send) (fun _ _ => rfl),
    h.proj (fun s => s._comms_recv) (fun _ _ => rfl),
    h.proj (fun s => s._directions) (fun _ _ => rfl),
    h.proj (fun s => s._distances) (fun _ _ => rfl),
    h.proj (fun s => s._checkerboard) (fun _ _ => rfl),
    h.proj (fun s => s._npoints) (fun _ _ => rfl)⟩

theorem queueTransfer_queues {C : Type} (s : CartesianStencil C) (a b c : Int)
    (send recv : Pointer) (l y m : Int) (to_rank : Nat) (cs : Int) (f : Nat) (cr : Int) :
    Queues (fun pk => pk.to_rank = to_rank ∧ pk.from_rank = f ∧ pk.do_send = cs
                ∧ pk.do_recv = cr ∧ pk.bytes = y)
      s (queueTransfer s a b c send recv l y m to_rank cs f cr) := by
  refine ⟨queueTransfer_static _ _ _ _ _ _ _ _ _ _ _ _ _, ?_⟩
  unfold queueTransfer CheckForDuplicate
  dsimp only
  cases findTransfer a b c y l m s.CachedTransfers with
  | none =>
    refine ⟨[_], rfl, ?_⟩
    intro pk hpk
    rw [List.mem_singleton] at hpk
    subst hpk
    exact ⟨rfl, rfl, rfl, rfl, rfl⟩
  | some t =>
    exact ⟨[], (List.append_nil _).symm, fun _ hh => absurd hh (List.not_mem_nil _)⟩

theorem queueDecompress_queues {V C : Type} (P : Packet → Prop) (s : CartesianStencil C)
    (compress : Compressor V C) (cr : Int) (recv_buf : Buffer) (comm_off words : Nat) :
    Queues P s (queueDecompress s compress cr recv_buf comm_off words) := by
  refine ⟨queueDecompress_static _ _ _ _ _ _, [], ?_, fun _ hh => absurd hh (List.not_mem_nil _)⟩
  unfold queueDecompress
  split <;> simp [AddDecompress]

theorem advanceOffset_queues {C : Type} (P : Packet → Prop) (s : CartesianStencil C)
    (words : Nat) : Queues P s (advanceOffset s words) :=
  ⟨SamePlan.refl_plan _, [], (List.append_nil _).symm,
    fun _ hh => absurd hh (List.not_mem_nil _)⟩

theorem gatherOffnodePlane_queues {V C : Type} (rhs : Lattice V) (dimension cbmask : Nat)
    (compress : Compressor V C) (point : Nat) (sx comm_proc : Int)
    (s : CartesianStencil C × Nat) :
    Queues (fun pk => pk.to_rank = (s.1._grid.ShiftedRanks dimension comm_proc).1
                ∧ pk.from_rank = (s.1._grid.ShiftedRanks dimension comm_proc).2
                ∧ pk.do_send = s.1._comms_send point ∧ pk.do_recv = s.1._comms_recv point
                ∧ pk.bytes = (planeWords s.1._grid dimension cbmask : Int)
                    * compress.CommDatumSize)
      s.1 (gatherOffnodePlane rhs dimension cbmask compress point sx comm_proc s).1 := by
  unfold gatherOffnodePlane
  dsimp only
  have h1 := (gatherSendBlock_samePlan s.1 rhs dimension cbmask compress point sx
    (sx * (s.1._grid._ostride dimension : Int)) s.1.u_comm_offset s.2).1
  have e1 := h1.toStatic.fields
  refine ((Queues.of_plan_queues _ h1).trans_queues ?_).trans_queues
    ((queueDecompress_queues _ _ _ _ _ _ _).trans_queues (advanceOffset_queues _ _ _))
  rw [← e1.1, ← e1.2.1, ← e1.2.2.1]
  exact queueTransfer_queues _ _ _ _ _ _ _ _ _ _ _ _ _

theorem GatherPlane_queues {V C : Type} (rhs : Lattice V) (dimension cbmask : Nat)
    (compress : Compressor V C) (point : Nat) (sshift : Int) (x : Nat)
    (s r : CartesianStencil C × Nat)
    (h : GatherPlane rhs dimension cbmask compress point sshift x s = .ok r)
    (hx : x < s.1._grid._rdimensions dimension) :
    Queues (fun pk => pk.ofGather s.1._grid dimension cbmask sshift (s.1._comms_send point)
              (s.1._comms_recv point) compress.CommDatumSize) s.1 r.1 := by
  unfold GatherPlane at h
  dsimp only at h
  split at h
  · next hproc =>
    simp only [assert_bind_ok, pure_ok] at h
    obtain ⟨hto, hfrom, hr⟩ := h
    rw [← hr]
    refine (gatherOffnodePlane_queues rhs dimension cbmask compress point _ _ s).mono_queues ?_
    rintro pk ⟨h1, h2, h3, h4, h5⟩
    refine ⟨h3, h4, h5, ?_, ?_, x, hx, ?_, h1, h2⟩
    · rw [h1]
      simpa using hto
    · rw [h2]
      simpa using hfrom
    · unfold truthy at hproc
      simpa using hproc
  · rw [pure_ok] at h
    rw [← h]
    exact Queues.refl_queues _ _

theorem Gather_queues {V C : Type} (st : CartesianStencil C) (rhs : Lattice V)
    (dimension : Nat) (shift : Int) (cbmask : Nat) (compress : Compressor V C)
    (face_idx point : Nat) (r : CartesianStencil C × Nat × Int)
    (h : Gather st rhs dimension shift cbmask compress face_idx point = .ok r) :
    st._grid._simd_layout dimension = 1
    ∧ Queues (fun pk => pk.ofGather st._grid dimension cbmask
              (st._grid.CheckerBoardShiftForCB rhs.Checkerboard dimension shift
                (if cbmask = 2 then Odd else Even))
              (st._comms_send point) (st._comms_recv point) compress.CommDatumSize) st r.1 := by
  unfold Gather at h
  simp only [bind_ok, assert_ok, pure_ok, exists_and_left, exists_const] at h
  obtain ⟨hsimd, _, _, _, a, ha, hr⟩ := h
  rw [← hr]
  refine ⟨by simpa using hsimd, ?_⟩
  exact forLoopM_invariant
    (fun _ (b : CartesianStencil C × Nat) =>
      Queues (fun pk => pk.ofGather st._grid dimension cbmask
              (st._grid.CheckerBoardShiftForCB rhs.Checkerboard dimension shift
                (if cbmask = 2 then Odd else Even))
              (st._comms_send point) (st._comms_recv point) compress.CommDatumSize) st b.1)
    _ _ (st, face_idx) a ha (Queues.refl_queues _ _)
    (fun i p q hi hp hq => by
      have e := hp.1.fields
      have hstep := GatherPlane_queues rhs dimension cbmask compress point _ i p q hq
        (by rw [e.1]; exact hi)
      rw [e.1, e.2.1, e.2.2.1] at hstep
      exact hp.trans_queues hstep)

theorem GatherSimdLane_queues {C : Type} (dimension cbmask point : Nat) (sshift : Int)
    (x : Nat) (sx : Int) (comm_off : Nat) (bytes : Int) (i : Nat)
    (s r : CartesianStencil C × List Pointer)
    (h : GatherSimdLane dimension cbmask point sshift x sx comm_off bytes i s = .ok r) :
    Queues (fun pk => pk.do_send = s.1._comms_send point ∧ pk.do_recv = s.1._comms_recv point
              ∧ pk.bytes = bytes
              ∧ cmod (cdiv ((s.1._grid._rdimensions dimension : Int) * (i : Int) + (x : Int)
                    + sshift) (s.1._grid._ldimensions dimension : Int))
                  (s.1._grid._processors dimension : Int) ≠ 0
              ∧ pk.to_rank = (s.1._grid.ShiftedRanks dimension
                  (cmod (cdiv ((s.1._grid._rdimensions dimension : Int) * (i : Int) + (x : Int)
                    + sshift) (s.1._grid._ldimensions dimension : Int))
                  (s.1._grid._processors dimension : Int))).1
              ∧ pk.from_rank = (s.1._grid.ShiftedRanks dimension
                  (cmod (cdiv ((s.1._grid._rdimensions dimension : Int) * (i : Int) + (x : Int)
                    + sshift) (s.1._grid._ldimensions dimension : Int))
                  (s.1._grid._processors dimension : Int))).2) s.1 r.1 := by
  unfold GatherSimdLane at h
  simp only [bind_ok, assert_ok, pure_ok, exists_and_left, exists_const] at h
  rw [← h.2]
  unfold gatherSimdLaneBody
  dsimp only
  split
  · next hproc =>
    refine (queueTransfer_queues _ _ _ _ _ _ _ _ _ _ _ _ _).mono_queues ?_
    rintro pk ⟨h1, h2, h3, h4, h5⟩
    refine ⟨h3, h4, h5, ?_, h1, h2⟩
    unfold truthy at hproc
    simpa using hproc
  · exact Queues.refl_queues _ _

theorem GatherSimdPlane_queues {V C : Type} (rhs : Lattice V) (dimension cbmask : Nat)
    (compress : Compressor V C) (point : Nat) (sshift bytes : Int)
    (reduced_buffer_size x : Nat) (s r : CartesianStencil C × Nat × List Pointer)
    (h : GatherSimdPlane rhs dimension cbmask compress point sshift bytes reduced_buffer_size x s
          = .ok r)
    (hx : x < s.1._grid._rdimensions dimension) :
    Queues (fun pk => pk.do_send = s.1._comms_send point ∧ pk.do_recv = s.1._comms_recv point
              ∧ pk.bytes = bytes
              ∧ ∃ x i : Nat, x < s.1._grid._rdimensions dimension ∧ i < 2
                ∧ cmod (cdiv ((s.1._grid._rdimensions dimension : Int) * (i : Int) + (x : Int)
                      + sshift) (s.1._grid._ldimensions dimension : Int))
                    (s.1._grid._processors dimension : Int) ≠ 0
                ∧ pk.to_rank = (s.1._grid.ShiftedRanks dimension
                    (cmod (cdiv ((s.1._grid._rdimensions dimension : Int) * (i : Int) + (x : Int)
                      + sshift) (s.1._grid._ldimensions dimension : Int))
                    (s.1._grid._processors dimension : Int))).1
                ∧ pk.from_rank = (s.1._grid.ShiftedRanks dimension
                    (cmod (cdiv ((s.1._grid._rdimensions dimension : Int) * (i : Int) + (x : Int)
                      + sshift) (s.1._grid._ldimensions dimension : Int))
                    (s.1._grid._processors dimension : Int))).2) s.1 r.1 := by
  unfold GatherSimdPlane at h
  dsimp only at h
  split at h
  · simp only [bind_ok, pure_ok] at h
    obtain ⟨a, ha, b, hb, hr⟩ := h
    rw [← hr]
    have h1 := gatherSimdSendBlock_samePlan_aux _ _ _ _ _ _ _ _ _ _ ha
    have e1 := h1.toStatic.fields
    have h2 : Queues (fun pk => pk.do_send = s.1._comms_send point
              ∧ pk.do_recv = s.1._comms_recv point
              ∧ pk.bytes = bytes
              ∧ ∃ x i : Nat, x < s.1._grid._rdimensions dimension ∧ i < 2
                ∧ cmod (cdiv ((s.1._grid._rdimensions dimension : Int) * (i : Int) + (x : Int)
                      + sshift) (s.1._grid._ldimensions dimension : Int))
                    (s.1._grid._processors dimension : Int) ≠ 0
                ∧ pk.to_rank = (s.1._grid.ShiftedRanks dimension
                    (cmod (cdiv ((s.1._grid._rdimensions dimension : Int) * (i : Int) + (x : Int)
                      + sshift) (s.1._grid._ldimensions dimension : Int))
                    (s.1._grid._processors dimension : Int))).1
                ∧ pk.from_rank = (s.1._grid.ShiftedRanks dimension
                    (cmod (cdiv ((s.1._grid._rdimensions dimension : Int) * (i : Int) + (x : Int)
                      + sshift) (s.1._grid._ldimensions dimension : Int))
                    (s.1._grid._processors dimension : Int))).2) a b.1 :=
      forLoopM_invariant
        (fun _ (q : CartesianStencil C × List Pointer) => Queues _ a q.1)
        _ _ (a, s.2.2) b hb (Queues.refl_queues _ _)
        (fun i p q hi hp hq => by
          have e := hp.1.fields
          have hstep := GatherSimdLane_queues dimension cbmask point sshift x _ _ bytes i p q hq
          rw [e.1, e.2.1, e.2.2.1, e1.1, e1.2.1, e1.2.2.1] at hstep
          refine hp.trans_queues (hstep.mono_queues ?_)
          rintro pk ⟨g1, g2, g3, g4, g5, g6⟩
          exact ⟨g1, g2, g3, x, i, hx, hi, g4, g5, g6⟩)
    refine ((Queues.of_plan_queues _ h1).trans_queues h2).trans_queues ?_
    exact ⟨SamePlan.refl_plan _, [], (List.append_nil _).symm,
      fun _ hh => absurd hh (List.not_mem_nil _)⟩
  · rw [pure_ok] at h
    rw [← h]
    exact Queues.refl_queues _ _

theorem GatherSimd_queues {V C : Type} (st : CartesianStencil C) (rhs : Lattice V)
    (dimension : Nat) (shift : Int) (cbmask : Nat) (compress : Compressor V C)
    (face_idx point : Nat) (r : CartesianStencil C × Nat × Int)
    (h : GatherSimd st rhs dimension shift cbmask compress face_idx point = .ok r) :
    st._grid._simd_layout dimension = 2 ∧ st._grid._processors dimension > 1
    ∧ Queues (fun pk => pk.ofGatherSimd st._grid dimension cbmask
              (st._grid.CheckerBoardShiftForCB rhs.Checkerboard dimension shift
                (if cbmask = 2 then Odd else Even))
              (st._comms_send point) (st._comms_recv point) compress.CommDatumSize) st r.1 := by
  unfold GatherSimd at h
  simp only [bind_ok, assert_ok, pure_ok, exists_and_left, exists_const] at h
  obtain ⟨hcomm, hsimd, _, _, _, hbytes, a, ha, hr⟩ := h
  rw [← hr]
  have hs2 : st._grid._simd_layout dimension = 2 := by simpa using hsimd
  have hwords : (if cbmask ≠ 3 then
        (st._grid._slice_nblock dimension * st._grid._slice_block dimension) >>> 1
      else st._grid._slice_nblock dimension * st._grid._slice_block dimension)
      = planeWords st._grid dimension cbmask := rfl
  rw [hwords] at ha hbytes
  rw [hs2] at ha hbytes
  refine ⟨hs2, by simpa using hcomm, ?_⟩
  have hloop := forLoopM_invariant
    (fun _ (b : CartesianStencil C × Nat × List Pointer) =>
      Queues (fun pk => pk.do_send = st._comms_send point ∧ pk.do_recv = st._comms_recv point
              ∧ pk.bytes = cdiv ((planeWords st._grid dimension cbmask : Int)
                  * compress.CommDatumSize) ((2 : Nat) : Int)
              ∧ ∃ x i : Nat, x < st._grid._rdimensions dimension ∧ i < 2
                ∧ cmod (cdiv ((st._grid._rdimensions dimension : Int) * (i : Int) + (x : Int)
                      + st._grid.CheckerBoardShiftForCB rhs.Checkerboard dimension shift
                          (if cbmask = 2 then Odd else Even))
                    (st._grid._ldimensions dimension : Int))
                    (st._grid._processors dimension : Int) ≠ 0
                ∧ pk.to_rank = (st._grid.ShiftedRanks dimension
                    (cmod (cdiv ((st._grid._rdimensions dimension : Int) * (i : Int) + (x : Int)
                      + st._grid.CheckerBoardShiftForCB rhs.Checkerboard dimension shift
                          (if cbmask = 2 then Odd else Even))
                    (st._grid._ldimensions dimension : Int))
                    (st._grid._processors dimension : Int))).1
                ∧ pk.from_rank = (st._grid.ShiftedRanks dimension
                    (cmod (cdiv ((st._grid._rdimensions dimension : Int) * (i : Int) + (x : Int)
                      + st._grid.CheckerBoardShiftForCB rhs.Checkerboard dimension shift
                          (if cbmask = 2 then Odd else Even))
                    (st._grid._ldimensions dimension : Int))
                    (st._grid._processors dimension : Int))).2) st b.1)
    _ _ (st, face_idx, _) a ha (Queues.refl_queues _ _)
    (fun i p q hi hp hq => by
      have e := hp.1.fields
      have hstep := GatherSimdPlane_queues rhs dimension cbmask compress point _ _ _ i p q hq
        (by rw [e.1]; exact hi)
      rw [e.1, e.2.1, e.2.2.1] at hstep
      exact hp.trans_queues hstep)
  refine hloop.mono_queues ?_
  rintro pk ⟨g1, g2, g3, g4⟩
  refine ⟨g1, g2, g3, ?_, g4⟩
  rw [g3]
  simpa using hbytes

theorem cmod_bounds (a b : Int) (hb : 0 < b) : -b < cmod a b ∧ cmod a b < b := by
  unfold cmod
  refine ⟨?_, Int.tmod_lt_of_pos a hb⟩
  obtain ⟨k, rfl⟩ := Int.eq_ofNat_of_zero_le hb.le
  cases a with
  | ofNat n =>
    have := Int.tmod_nonneg (k : Int) (Int.ofNat_nonneg n)
    simp only [Int.ofNat_eq_coe] at this ⊢
    omega
  | negSucc m =>
    have hk : 0 < k := by exact_mod_cast hb
    have h1 : (Int.negSucc m).tmod (k : Int) = -(((m + 1) % k : Nat) : Int) := rfl
    rw [h1]
    have := Nat.mod_lt (m + 1) hk
    omega

theorem ofGatherSimd_ranks (pk : Packet) (g : GridBase) (dimension cbmask : Nat) (sshift : Int)
    (cs cr datum : Int) (h : pk.ofGatherSimd g dimension cbmask sshift cs cr datum)
    (hpd : g._processors dimension > 1) (hr : RanksShift g) :
    pk.to_rank ≠ g.ThisRank ∧ pk.from_rank ≠ g.ThisRank := by
  obtain ⟨_, _, _, _, x, i, _, _, hne, hto, hfrom⟩ := h
  have hb := cmod_bounds (cdiv ((g._rdimensions dimension : Int) * (i : Int) + (x : Int) + sshift)
    (g._ldimensions dimension : Int)) (g._processors dimension : Int)
    (by exact_mod_cast Nat.lt_trans Nat.zero_lt_one hpd)
  have := hr dimension _ hne hb.1 hb.2
  rw [hto, hfrom]
  exact this

theorem HaloGatherComm_queues {V C : Type} (st : CartesianStencil C) (source : Lattice V)
    (compress : Compressor V C) (point face_idx dimension : Nat) (shift : Int)
    (r : CartesianStencil C × Nat × Int)
    (h : HaloGatherComm st source compress point face_idx dimension shift = .ok r)
    (hcb : source.Checkerboard = st._checkerboard) :
    Queues (fun pk => ∃ cbmask, (cbmask = 3 ∨ cbmask = 1 ∨ cbmask = 2)
        ∧ ((st._grid._simd_layout dimension = 1
            ∧ pk.ofGather st._grid dimension cbmask
                (st._grid.CheckerBoardShiftForCB st._checkerboard dimension shift
                  (if cbmask = 2 then Odd else Even))
                (st._comms_send point) (st._comms_recv point) compress.CommDatumSize)
          ∨ (st._grid._simd_layout dimension = 2
            ∧ pk.ofGatherSimd st._grid dimension cbmask
                (st._grid.CheckerBoardShiftForCB st._checkerboard dimension shift
                  (if cbmask = 2 then Odd else Even))
                (st._comms_send point) (st._comms_recv point) compress.CommDatumSize
            ∧ (RanksShift st._grid →
                pk.to_rank ≠ st._grid.ThisRank ∧ pk.from_rank ≠ st._grid.ThisRank)))) st r.1 := by
  have hG : ∀ (a : CartesianStencil C) (cbmask fi : Nat) (q : CartesianStencil C × Nat × Int),
      SameStatic st a → (cbmask = 3 ∨ cbmask = 1 ∨ cbmask = 2) →
      Gather a source dimension shift cbmask compress fi point = .ok q →
      Queues (fun pk => ∃ cbmask, (cbmask = 3 ∨ cbmask = 1 ∨ cbmask = 2)
        ∧ ((st._grid._simd_layout dimension = 1
            ∧ pk.ofGather st._grid dimension cbmask
                (st._grid.CheckerBoardShiftForCB st._checkerboard dimension shift
                  (if cbmask = 2 then Odd else Even))
                (st._comms_send point) (st._comms_recv point) compress.CommDatumSize)
          ∨ (st._grid._simd_layout dimension = 2
            ∧ pk.ofGatherSimd st._grid dimension cbmask
                (st._grid.CheckerBoardShiftForCB st._checkerboard dimension shift
                  (if cbmask = 2 then Odd else Even))
                (st._comms_send point) (st._comms_recv point) compress.CommDatumSize
            ∧ (RanksShift st._grid →
                pk.to_rank ≠ st._grid.ThisRank ∧ pk.from_rank ≠ st._grid.ThisRank)))) a q.1 := by
    intro a cbmask fi q hsa hm hq
    obtain ⟨h1, h2⟩ := Gather_queues a source dimension shift cbmask compress fi point q hq
    have e := hsa.fields
    rw [e.1, e.2.1, e.2.2.1, hcb] at h2
    rw [e.1] at h1
    exact h2.mono_queues (fun pk hpk => ⟨cbmask, hm, Or.inl ⟨h1, hpk⟩⟩)
  have hS : ∀ (a : CartesianStencil C) (cbmask fi : Nat) (q : CartesianStencil C × Nat × Int),
      SameStatic st a → (cbmask = 3 ∨ cbmask = 1 ∨ cbmask = 2) →
      GatherSimd a source dimension shift cbmask compress fi point = .ok q →
      Queues (fun pk => ∃ cbmask, (cbmask = 3 ∨ cbmask = 1 ∨ cbmask = 2)
        ∧ ((st._grid._simd_layout dimension = 1
            ∧ pk.ofGather st._grid dimension cbmask
                (st._grid.CheckerBoardShiftForCB st._checkerboard dimension shift
                  (if cbmask = 2 then Odd else Even))
                (st._comms_send point) (st._comms_recv point) compress.CommDatumSize)
          ∨ (st._grid._simd_layout dimension = 2
            ∧ pk.ofGatherSimd st._grid dimension cbmask
                (st._grid.CheckerBoardShiftForCB st._checkerboard dimension shift
                  (if cbmask = 2 then Odd else Even))
                (st._comms_send point) (st._comms_recv point) compress.CommDatumSize
            ∧ (RanksShift st._grid →
                pk.to_rank ≠ st._grid.ThisRank ∧ pk.from_rank ≠ st._grid.ThisRank)))) a q.1 := by
    intro a cbmask fi q hsa hm hq
    obtain ⟨h1, hpd, h2⟩ := GatherSimd_queues a source dimension shift cbmask compress fi point
      q hq
    have e := hsa.fields
    rw [e.1, e.2.1, e.2.2.1, hcb] at h2
    rw [e.1] at h1 hpd
    exact h2.mono_queues (fun pk hpk => ⟨cbmask, hm, Or.inr ⟨h1, hpk,
      fun hr => ofGatherSimd_ranks pk _ _ _ _ _ _ _ hpk hpd hr⟩⟩)
  unfold HaloGatherComm at h
  dsimp only at h
  split at h
  · split at h
    · simp only [bind_ok, pure_ok] at h
      obtain ⟨a, ha, hr⟩ := h
      rw [← hr]
      exact hS st 3 _ a (SameStatic.refl_static _) (Or.inl rfl) ha
    · simp only [bind_ok, pure_ok] at h
      obtain ⟨a, ha, hr⟩ := h
      rw [← hr]
      exact hG st 3 _ a (SameStatic.refl_static _) (Or.inl rfl) ha
  · split at h
    · simp only [bind_ok, pure_ok] at h
      obtain ⟨a, ha, b, hb, hr⟩ := h
      rw [← hr]
      have q1 := hS st 1 _ a (SameStatic.refl_static _) (Or.inr (Or.inl rfl)) ha
      exact q1.trans_queues (hS a.1 2 _ b q1.1 (Or.inr (Or.inr rfl)) hb)
    · simp only [bind_ok, pure_ok] at h
      obtain ⟨a, ha, b, hb, hr⟩ := h
      rw [← hr]
      have q1 := hG st 1 _ a (SameStatic.refl_static _) (Or.inr (Or.inl rfl)) ha
      exact q1.trans_queues (hG a.1 2 _ b q1.1 (Or.inr (Or.inr rfl)) hb)

theorem HaloGatherPoint_queues {V C : Type} (source : Lattice V) (compress : Compressor V C)
    (point : Nat) (s r : CartesianStencil C × Nat)
    (h : HaloGatherPoint source compress point s = .ok r) :
    Queues (fun pk => pk.ofPoint s.1 compress.CommDatumSize point) s.1 r.1 := by
  unfold HaloGatherPoint at h
  simp only [bind_ok, pure_ok] at h
  obtain ⟨a, ha, hr⟩ := h
  rw [← hr]
  unfold HaloGatherDir at ha
  simp only [bind_ok, assert_ok, exists_and_left, exists_const] at ha
  obtain ⟨hcb, ha⟩ := ha
  have hcb2 : source.Checkerboard = s.1._checkerboard := by simpa using hcb
  have h0 : Queues (fun pk => pk.ofPoint s.1 compress.CommDatumSize point) s.1
      (emit s.1 (Event.Point point)) := Queues.of_plan_queues _ (emit_samePlan _ _)
  refine h0.trans_queues ?_
  split at ha
  · exact HaloGatherComm_queues _ source compress point _ _ _ a ha hcb2
  · rw [pure_ok] at ha
    rw [← ha]
    exact Queues.refl_queues _ _

/-- C28: every packet that `HaloGather` queues is queued for a stencil point
`p` below `_npoints` and carries `do_send = _comms_send[p]`,
`do_recv = _comms_recv[p]`, the destination and source ranks that
`ShiftedRanks` returns for the non-zero process shift of a plane of the axis of
`p` (of a lane of the plane in `GatherSimd`), and `words*CommDatumSize` bytes
in `Gather`, half of that, exactly, in `GatherSimd`, where `words` is the
number of sites of a plane, halved in a single-parity pass.  In `Gather` both
ranks differ from this rank (the gather asserts it); in `GatherSimd` they do
on a periodic process grid (`RanksShift`).  The second part states it for the
gather of each single point, from any state: the packets appended while the
point `p` is gathered are packets of `p` (`Packet.ofPoint`). -/
theorem C28_packet_fields {V C : Type} (a g : CartesianStencil C) (source : Lattice V)
    (compress : Compressor V C) (h : HaloGather a source compress = .ok g) :
    (∃ new, g.Packets = a.Packets ++ new
      ∧ ∀ pk, pk ∈ new → ∃ point, point < a._npoints
          ∧ pk.ofPoint a compress.CommDatumSize point)
    ∧ ∀ (point : Nat) (s r : CartesianStencil C × Nat),
        HaloGatherPoint source compress point s = .ok r →
        ∃ new, r.1.Packets = s.1.Packets ++ new
          ∧ ∀ pk, pk ∈ new → pk.ofPoint s.1 compress.CommDatumSize point := by
  refine ⟨?_, fun point s r hr => (HaloGatherPoint_queues source compress point s r hr).2⟩
  obtain ⟨s, hs, _, hg⟩ := HaloGather_parts a g source compress h
  have hloop := forLoopM_invariant
    (fun n (b : CartesianStencil C × Nat) =>
      Queues (fun pk => ∃ point, point < n ∧ pk.ofPoint a compress.CommDatumSize point)
        (resetOffset (emit (emit a (Event.call Step.HaloGather)) Event.StencilBarrier)) b.1)
    _ _ _ s hs (Queues.refl_queues _ _)
    (fun i p q _ hp hq => by
      have e := hp.1.fields
      have hstep := HaloGatherPoint_queues source compress i p q hq
      refine (hp.mono_queues ?_).trans_queues (hstep.mono_queues ?_)
      · rintro pk ⟨point, hlt, hpk⟩
        exact ⟨point, Nat.lt_succ_of_lt hlt, hpk⟩
      · intro pk hpk
        refine ⟨i, Nat.lt_succ_self i, ?_⟩
        unfold Packet.ofPoint at hpk ⊢
        rw [e.1, e.2.1, e.2.2.1, e.2.2.2.1, e.2.2.2.2.1, e.2.2.2.2.2.1] at hpk
        exact hpk)
  obtain ⟨_, new, hnew, hall⟩ := hloop
  refine ⟨new, ?_, hall⟩
  rw [hg]
  exact hnew

/-- Witness for C28: the gather of rank 0 of `lineGrid`, which queues one packet. -/
theorem C28_packet_fields_witness :
    (gatheredRank (lineStencil [0]) lineField (plainCompressor (Nat × Nat) 8) 0).Packets.length
      = 1
    ∧ ∃ new, (gatheredRank (lineStencil [0]) lineField
                (plainCompressor (Nat × Nat) 8) 0).Packets
          = (Prepare (lineStencil [0] 0)).Packets ++ new
      ∧ ∀ pk, pk ∈ new → ∃ point, point < (Prepare (lineStencil [0] 0))._npoints
          ∧ pk.ofPoint (Prepare (lineStencil [0] 0))
              (plainCompressor (Nat × Nat) 8).CommDatumSize point := by
  have hok : (HaloGather (Prepare (lineStencil [0] 0)) (lineField 0)
      (plainCompressor (Nat × Nat) 8)).toBool = true := by decide
  have hg : HaloGather (Prepare (lineStencil [0] 0)) (lineField 0)
      (plainCompressor (Nat × Nat) 8)
      = .ok (gatheredRank (lineStencil [0]) lineField (plainCompressor (Nat × Nat) 8) 0) := by
    unfold gatheredRank
    cases h : HaloGather (Prepare (lineStencil [0] 0)) (lineField 0)
        (plainCompressor (Nat × Nat) 8) with
    | ok s => rfl
    | error e => rw [h] at hok; cases hok
  exact ⟨by decide, (C28_packet_fields _ _ _ _ hg).1⟩

/-! ## Face tables are computed once -/

theorem tableUses_append (es fs : List Event) :
    tableUses (es ++ fs) = tableUses es ++ tableUses fs := by
  unfold tableUses
  exact List.filter_append _ _

theorem Still.refl_still {C : Type} (a : CartesianStencil C) : Still a a :=
  ⟨SameStatic.refl_static _, rfl, rfl, rfl⟩

theorem Still.trans_still {C : Type} {a b c : CartesianStencil C} (h1 : Still a b)
    (h2 : Still b c) : Still a c :=
  ⟨h1.1.trans_static h2.1, h2.2.1.trans h1.2.1, h2.2.2.1.trans h1.2.2.1,
    h2.2.2.2.trans h1.2.2.2⟩

theorem Still.of_plan_still {C : Type} {a b : CartesianStencil C} (h : SamePlan a b)
    (hf : b.face_table_computed = a.face_table_computed) (ht : b.trace = a.trace) :
    Still a b :=
  ⟨h.toStatic, h.proj (fun s => s.u_comm_offset) (fun _ _ => rfl), hf, ht⟩

theorem Replay.refl_replay {C : Type} {a b : CartesianStencil C} (h : Follows a b) :
    Replay a b a b :=
  ⟨h, [], (List.append_nil _).symm, (List.append_nil _).symm⟩

theorem Replay.trans_replay {C : Type} {a b m n r t : CartesianStencil C}
    (h1 : Replay a b m n) (h2 : Replay m n r t) : Replay a b r t := by
  obtain ⟨_, es, e1, e2⟩ := h1
  obtain ⟨hf, fs, f1, f2⟩ := h2
  refine ⟨hf, es ++ fs, ?_, ?_⟩
  · rw [f1, e1, List.append_assoc]
  · rw [f2, e2, tableUses_append, List.append_assoc]

theorem Replay.still {C : Type} {a b m n r t : CartesianStencil C}
    (h1 : Replay a b m n) (h2 : Still m r) (h3 : Still n t) : Replay a b r t := by
  obtain ⟨⟨s1, o1, c1⟩, es, e1, e2⟩ := h1
  refine ⟨⟨(h2.1.symm_static.trans_static s1).trans_static h3.1, ?_, ?_⟩, es, ?_, ?_⟩
  · rw [h3.2.1, o1, h2.2.1]
  · rw [h3.2.2.1]
    exact c1
  · rw [h2.2.2.2, e1]
  · rw [h3.2.2.2, e2]

theorem Replay.emit_both {C : Type} {a b m n : CartesianStencil C} (h1 : Replay a b m n)
    (e : Event) (he : e.isTableCompute = false) : Replay a b (emit m e) (emit n e) := by
  obtain ⟨⟨s1, o1, c1⟩, es, e1, e2⟩ := h1
  refine ⟨⟨((emit_samePlan m e).toStatic.symm_static.trans_static s1).trans_static
    (emit_samePlan n e).toStatic, o1, c1⟩, es ++ [e], ?_, ?_⟩
  · show m.trace ++ [e] = _
    rw [e1, List.append_assoc]
  · show n.trace ++ [e] = _
    rw [e2, tableUses_append, List.append_assoc]
    unfold tableUses
    rw [List.filter_cons_of_pos (by rw [he]; rfl)]
    rfl

theorem Replay.compute {C : Type} {a b m n : CartesianStencil C} (h1 : Replay a b m n)
    (dimension : Nat) (sx : Int) (cbmask comm_off fi fj : Nat) :
    Replay a b (computeFaceTable m dimension sx cbmask comm_off fi)
      (computeFaceTable n dimension sx cbmask comm_off fj) := by
  obtain ⟨⟨s1, o1, c1⟩, es, e1, e2⟩ := h1
  have hn : computeFaceTable n dimension sx cbmask comm_off fj = n := by
    unfold computeFaceTable
    rw [if_neg c1]
  rw [hn]
  have hp := computeFaceTable_samePlan m dimension sx cbmask comm_off fi
  refine ⟨⟨hp.toStatic.symm_static.trans_static s1, ?_, c1⟩, ?_⟩
  · rw [o1]
    exact (hp.proj (fun s => s.u_comm_offset) (fun _ _ => rfl)).symm
  · unfold computeFaceTable
    split
    · refine ⟨es ++ [Event.Gather_plane_table_compute dimension sx cbmask comm_off], ?_, ?_⟩
      · show m.trace ++ [_] = _
        rw [e1, List.append_assoc]
      · rw [e2, tableUses_append]
        unfold tableUses
        rw [List.filter_cons_of_neg (by simp [Event.isTableCompute])]
        simp
    · exact ⟨es, e1, e2⟩

theorem writeBuf_still {C : Type} (st : CartesianStencil C) (p : Pointer) (j : Nat) (v : C) :
    Still st (writeBuf st p j v) :=
  Still.of_plan_still (writeBuf_samePlan st p j v) (by unfold writeBuf; split <;> rfl)
    (writeBuf_trace st p j v)

theorem forLoop_still {C : Type} (n : Nat)
    (body : Nat → CartesianStencil C → CartesianStencil C) (st : CartesianStencil C)
    (h : ∀ i a, Still a (body i a)) : Still st (forLoop n body st) :=
  forLoop_invariant (fun _ b => Still st b) n body st (Still.refl_still st)
    (fun i a _ ha => ha.trans_still (h i a))

theorem Gather_plane_simple_table_still {V C : Type} (st : CartesianStencil C)
    (table : List (Nat × Nat)) (rhs : Lattice V) (buffer : Buffer) (compress : Compressor V C)
    (point off : Nat) (so : Int) :
    Still st (Gather_plane_simple_table st table rhs buffer compress point off so) := by
  unfold Gather_plane_simple_table
  apply forLoop_still
  intro i a
  split
  · exact Still.refl_still a
  · exact writeBuf_still _ _ _ _

theorem Gather_plane_exchange_table_still {V C : Type} (st r : CartesianStencil C)
    (table : List (Nat × Nat)) (rhs : Lattice V) (p0 p1 : Pointer) (dimension : Nat)
    (plane : Int) (compress : Compressor V C) (point type : Nat)
    (h : Gather_plane_exchange_table st table rhs p0 p1 dimension plane compress point type
          = .ok r) : Still st r := by
  unfold Gather_plane_exchange_table at h
  rw [assert_bind_ok] at h
  have h2 := h.2
  rw [pure_ok] at h2
  rw [← h2]
  apply forLoop_still
  intro i a
  exact (writeBuf_still _ _ _ _).trans_still (writeBuf_still _ _ _ _)

theorem queueTransfer_still {C : Type} (st : CartesianStencil C) (a b c : Int)
    (send recv : Pointer) (l y m : Int) (x : Nat) (cs : Int) (f : Nat) (cr : Int) :
    Still st (queueTransfer st a b c send recv l y m x cs f cr) := by
  refine ⟨queueTransfer_static _ _ _ _ _ _ _ _ _ _ _ _ _, ?_⟩
  unfold queueTransfer CheckForDuplicate
  dsimp only
  cases findTransfer a b c y l m st.CachedTransfers with
  | none => exact ⟨rfl, rfl, rfl⟩
  | some t => exact ⟨rfl, rfl, rfl⟩

theorem queueDecompress_still {V C : Type} (st : CartesianStencil C)
    (compress : Compressor V C) (cr : Int) (recv_buf : Buffer) (comm_off words : Nat) :
    Still st (queueDecompress st compress cr recv_buf comm_off words) := by
  refine ⟨queueDecompress_static _ _ _ _ _ _, ?_⟩
  unfold queueDecompress
  split
  · exact ⟨rfl, rfl, rfl⟩
  · exact ⟨rfl, rfl, rfl⟩

theorem Replay.advance {C : Type} {a b m n : CartesianStencil C} (h1 : Replay a b m n)
    (words : Nat) : Replay a b (advanceOffset m words) (advanceOffset n words) := by
  obtain ⟨⟨s1, o1, c1⟩, es, e1, e2⟩ := h1
  refine ⟨⟨?_, ?_, c1⟩, es, e1, e2⟩
  · have h1 : SameStatic m (advanceOffset m words) := SamePlan.refl_plan _
    have h2 : SameStatic n (advanceOffset n words) := SamePlan.refl_plan _
    exact (h1.symm_static.trans_static s1).trans_static h2
  · show n.u_comm_offset + words = m.u_comm_offset + words
    rw [o1]

theorem gatherSendBlock_replay {V C : Type} {a b m n : CartesianStencil C}
    (h1 : Replay a b m n) (rhs : Lattice V)
    (dimension cbmask : Nat) (compress : Compressor V C) (point : Nat) (sx so : Int)
    (comm_off fi : Nat) :
    Replay a b (gatherSendBlock m rhs dimension cbmask compress point sx so comm_off fi).1
      (gatherSendBlock n rhs dimension cbmask compress point sx so comm_off fi).1
    ∧ (gatherSendBlock m rhs dimension cbmask compress point sx so comm_off fi).2
      = (gatherSendBlock n rhs dimension cbmask compress point sx so comm_off fi).2 := by
  have e := h1.1.1.fields
  unfold gatherSendBlock
  rw [e.2.1]
  split
  · dsimp only
    refine ⟨?_, rfl⟩
    exact (((h1.compute dimension sx cbmask comm_off fi fi).emit_both
      (Event.Gather_plane_simple_table fi Buffer.u_send_buf comm_off so) rfl).still
      (Gather_plane_simple_table_still _ _ _ _ _ _ _ _)
      (Gather_plane_simple_table_still _ _ _ _ _ _ _ _))
  · exact ⟨h1, rfl⟩

theorem gatherOffnodePlane_replay {V C : Type} {a b : CartesianStencil C}
    (rhs : Lattice V) (dimension cbmask : Nat)
    (compress : Compressor V C) (point : Nat) (sx comm_proc : Int)
    (s t : CartesianStencil C × Nat) (h1 : Replay a b s.1 t.1) (hfi : t.2 = s.2) :
    Replay a b (gatherOffnodePlane rhs dimension cbmask compress point sx comm_proc s).1
      (gatherOffnodePlane rhs dimension cbmask compress point sx comm_proc t).1
    ∧ (gatherOffnodePlane rhs dimension cbmask compress point sx comm_proc t).2
      = (gatherOffnodePlane rhs dimension cbmask compress point sx comm_proc s).2 := by
  have e := h1.1.1.fields
  have eo := h1.1.2.1
  unfold gatherOffnodePlane
  dsimp only
  rw [hfi, eo, e.1, e.2.1, e.2.2.1]
  refine ⟨?_, rfl⟩
  have hb := gatherSendBlock_replay h1 rhs dimension cbmask compress point sx
    (sx * (s.1._grid._ostride dimension : Int)) s.1.u_comm_offset s.2
  rw [← hb.2]
  exact (((hb.1.still (queueTransfer_still _ _ _ _ _ _ _ _ _ _ _ _ _)
    (queueTransfer_still _ _ _ _ _ _ _ _ _ _ _ _ _)).still
    (queueDecompress_still _ _ _ _ _ _) (queueDecompress_still _ _ _ _ _ _)).advance _)

theorem forLoopM_rel {σ ε : Type} (R : σ → σ → Prop) (n : Nat)
    (body body' : Nat → σ → Except ε σ) (s t r u : σ)
    (hr : forLoopM n body s = .ok r) (hu : forLoopM n body' t = .ok u) (h0 : R s t)
    (hstep : ∀ i p q p' q', i < n → R p q → body i p = .ok p' → body' i q = .ok q' → R p' q') :
    R r u := by
  induction n generalizing r u with
  | zero =>
    simp only [forLoopM] at hr hu
    cases hr
    cases hu
    exact h0
  | succ k ih =>
    simp only [forLoopM] at hr hu
    cases hk : forLoopM k body s with
    | error e => rw [hk] at hr; cases hr
    | ok m =>
      cases hk' : forLoopM k body' t with
      | error e => rw [hk'] at hu; cases hu
      | ok m' =>
        rw [hk] at hr
        rw [hk'] at hu
        exact hstep k m m' r u (Nat.lt_succ_self k)
          (ih m m' hk hk' (fun i p q p' q' hi => hstep i p q p' q' (Nat.lt_succ_of_lt hi)))
          hr hu

theorem GatherPlane_replay {V C : Type} {a b : CartesianStencil C}
    (rhs : Lattice V) (dimension cbmask : Nat) (compress : Compressor V C) (point : Nat)
    (sshift : Int) (x : Nat) (s t r u : CartesianStencil C × Nat)
    (hr : GatherPlane rhs dimension cbmask compress point sshift x s = .ok r)
    (hu : GatherPlane rhs dimension cbmask compress point sshift x t = .ok u)
    (h1 : Replay a b s.1 t.1) (hfi : t.2 = s.2) :
    Replay a b r.1 u.1 ∧ u.2 = r.2 := by
  have e := h1.1.1.fields
  unfold GatherPlane at hr hu
  dsimp only at hr hu
  rw [e.1] at hu
  split at hr
  · next hproc =>
    rw [if_pos hproc] at hu
    simp only [assert_bind_ok, pure_ok] at hr hu
    rw [← hr.2.2, ← hu.2.2]
    exact gatherOffnodePlane_replay rhs dimension cbmask compress point _ _ s t h1 hfi
  · next hproc =>
    rw [if_neg hproc] at hu
    rw [pure_ok] at hr hu
    rw [← hr, ← hu]
    exact ⟨h1, hfi⟩

theorem Gather_replay {V C : Type} {a b : CartesianStencil C} (m n : CartesianStencil C)
    (rhs : Lattice V) (dimension : Nat) (shift : Int) (cbmask : Nat)
    (compress : Compressor V C) (fi point : Nat) (r u : CartesianStencil C × Nat × Int)
    (hr : Gather m rhs dimension shift cbmask compress fi point = .ok r)
    (hu : Gather n rhs dimension shift cbmask compress fi point = .ok u)
    (h1 : Replay a b m n) :
    Replay a b r.1 u.1 ∧ u.2.1 = r.2.1 := by
  have e := h1.1.1.fields
  unfold Gather at hr hu
  rw [e.1] at hu
  simp only [bind_ok, assert_ok, pure_ok, exists_and_left, exists_const] at hr hu
  obtain ⟨_, _, _, _, p, hp, hpr⟩ := hr
  obtain ⟨_, _, _, _, q, hq, hqu⟩ := hu
  rw [← hpr, ← hqu]
  exact forLoopM_rel
    (fun (x y : CartesianStencil C × Nat) => Replay a b x.1 y.1 ∧ y.2 = x.2) _ _ _
    (m, fi) (n, fi) p q hp hq ⟨h1, rfl⟩
    (fun i x y x' y' _ hxy hx hy =>
      GatherPlane_replay rhs dimension cbmask compress point _ i x y x' y' hx hy hxy.1 hxy.2)

theorem gatherSimdSendBlock_replay {V C : Type} {a b : CartesianStencil C}
    (m n r u : CartesianStencil C) (rhs : Lattice V) (dimension cbmask : Nat)
    (compress : Compressor V C) (point : Nat) (sx : Int) (comm_off fi : Nat)
    (hr : gatherSimdSendBlock m rhs dimension cbmask compress point sx comm_off fi = .ok r)
    (hu : gatherSimdSendBlock n rhs dimension cbmask compress point sx comm_off fi = .ok u)
    (h1 : Replay a b m n) : Replay a b r u := by
  have h2 := h1.compute dimension sx cbmask comm_off fi fi
  have e := h2.1.1.fields
  have e0 := h1.1.1.fields
  unfold gatherSimdSendBlock at hr hu
  dsimp only at hr hu
  rw [e0.1, e.2.1] at hu
  split at hr
  · next hs =>
    rw [if_pos hs] at hu
    exact (h2.emit_both (Event.Gather_plane_exchange_table fi
        ⟨Buffer.u_simd_send_buf 0, comm_off⟩ ⟨Buffer.u_simd_send_buf 1, comm_off⟩ dimension sx
        cbmask (m._grid.PermuteType dimension)) rfl).still
      (Gather_plane_exchange_table_still _ _ _ _ _ _ _ _ _ _ _ hr)
      (Gather_plane_exchange_table_still _ _ _ _ _ _ _ _ _ _ _ hu)
  · next hs =>
    rw [if_neg hs] at hu
    rw [pure_ok] at hr hu
    rw [← hr, ← hu]
    exact h2

theorem GatherSimdLanes_still {C : Type} (dimension cbmask point : Nat) (sshift : Int)
    (x : Nat) (sx : Int) (comm_off : Nat) (bytes : Int) (n : Nat)
    (s r : CartesianStencil C × List Pointer)
    (h : forLoopM n (GatherSimdLane dimension cbmask point sshift x sx comm_off bytes) s = .ok r) :
    Still s.1 r.1 :=
  forLoopM_invariant (fun _ (q : CartesianStencil C × List Pointer) => Still s.1 q.1)
    _ _ s r h (Still.refl_still _)
    (fun i p q _ hp hq => by
      unfold GatherSimdLane at hq
      simp only [bind_ok, assert_ok, pure_ok, exists_and_left, exists_const] at hq
      rw [← hq.2]
      unfold gatherSimdLaneBody
      dsimp only
      split
      · exact hp.trans_still (queueTransfer_still _ _ _ _ _ _ _ _ _ _ _ _ _)
      · exact hp)

theorem GatherSimdPlane_replay {V C : Type} {a b : CartesianStencil C}
    (rhs : Lattice V) (dimension cbmask : Nat) (compress : Compressor V C) (point : Nat)
    (sshift bytes : Int) (reduced_buffer_size x : Nat)
    (s t r u : CartesianStencil C × Nat × List Pointer)
    (hr : GatherSimdPlane rhs dimension cbmask compress point sshift bytes reduced_buffer_size
            x s = .ok r)
    (hu : GatherSimdPlane rhs dimension cbmask compress point sshift bytes reduced_buffer_size
            x t = .ok u)
    (h1 : Replay a b s.1 t.1) (hfi : t.2.1 = s.2.1) :
    Replay a b r.1 u.1 ∧ u.2.1 = r.2.1 := by
  have e := h1.1.1.fields
  have eo := h1.1.2.1
  unfold GatherSimdPlane at hr hu
  dsimp only at hr hu
  rw [e.1, eo, hfi] at hu
  split at hr
  · next hoff =>
    rw [if_pos hoff] at hu
    simp only [bind_ok, pure_ok] at hr hu
    obtain ⟨m, hm, p, hp, hpr⟩ := hr
    obtain ⟨n, hn, q, hq, hqu⟩ := hu
    rw [← hpr, ← hqu]
    refine ⟨?_, rfl⟩
    have h2 := gatherSimdSendBlock_replay s.1 t.1 m n rhs dimension cbmask compress point _ _ _
      hm hn h1
    have h3 := h2.still
      (GatherSimdLanes_still dimension cbmask point sshift x _ _ bytes 2 _ p hp)
      (GatherSimdLanes_still dimension cbmask point sshift x _ _ bytes 2 _ q hq)
    have h4 : Replay a b (AddMerge p.1 ⟨Buffer.u_recv_buf, s.1.u_comm_offset⟩ p.2
          reduced_buffer_size (s.1._grid.PermuteType dimension))
        (AddMerge q.1 ⟨Buffer.u_recv_buf, s.1.u_comm_offset⟩ q.2
          reduced_buffer_size (s.1._grid.PermuteType dimension)) :=
      h3.still ⟨SamePlan.refl_plan _, rfl, rfl, rfl⟩ ⟨SamePlan.refl_plan _, rfl, rfl, rfl⟩
    exact h4.advance _
  · next hoff =>
    rw [if_neg hoff] at hu
    rw [pure_ok] at hr hu
    rw [← hr, ← hu]
    exact ⟨h1, hfi⟩

theorem GatherSimd_replay {V C : Type} {a b : CartesianStencil C} (m n : CartesianStencil C)
    (rhs : Lattice V) (dimension : Nat) (shift : Int) (cbmask : Nat)
    (compress : Compressor V C) (fi point : Nat) (r u : CartesianStencil C × Nat × Int)
    (hr : GatherSimd m rhs dimension shift cbmask compress fi point = .ok r)
    (hu : GatherSimd n rhs dimension shift cbmask compress fi point = .ok u)
    (h1 : Replay a b m n) :
    Replay a b r.1 u.1 ∧ u.2.1 = r.2.1 := by
  have e := h1.1.1.fields
  unfold GatherSimd at hr hu
  rw [e.1] at hu
  simp only [bind_ok, assert_ok, pure_ok, exists_and_left, exists_const] at hr hu
  obtain ⟨_, _, _, _, _, _, p, hp, hpr⟩ := hr
  obtain ⟨_, _, _, _, _, _, q, hq, hqu⟩ := hu
  rw [← hpr, ← hqu]
  exact forLoopM_rel
    (fun (x y : CartesianStencil C × Nat × List Pointer) =>
      Replay a b x.1 y.1 ∧ y.2.1 = x.2.1) _ _ _
    (m, fi, _) (n, fi, _) p q hp hq ⟨h1, rfl⟩
    (fun i x y x' y' _ hxy hx hy =>
      GatherSimdPlane_replay rhs dimension cbmask compress point _ _ _ i x y x' y' hx hy
        hxy.1 hxy.2)

theorem HaloGatherComm_replay {V C : Type} {a b : CartesianStencil C}
    (m n : CartesianStencil C) (source : Lattice V) (compress : Compressor V C)
    (point fi dimension : Nat) (shift : Int) (r u : CartesianStencil C × Nat × Int)
    (hr : HaloGatherComm m source compress point fi dimension shift = .ok r)
    (hu : HaloGatherComm n source compress point fi dimension shift = .ok u)
    (h1 : Replay a b m n) :
    Replay a b r.1 u.1 ∧ u.2.1 = r.2.1 := by
  have e := h1.1.1.fields
  unfold HaloGatherComm at hr hu
  dsimp only at hr hu
  rw [e.1, e.2.2.2.2.2.1] at hu
  split at hr
  · next hsame =>
    rw [if_pos hsame] at hu
    split at hr
    · next hsplice =>
      rw [if_pos hsplice] at hu
      simp only [bind_ok, pure_ok] at hr hu
      obtain ⟨p, hp, hpr⟩ := hr
      obtain ⟨q, hq, hqu⟩ := hu
      rw [← hpr, ← hqu]
      exact GatherSimd_replay m n source dimension shift 3 compress fi point p q hp hq h1
    · next hsplice =>
      rw [if_neg hsplice] at hu
      simp only [bind_ok, pure_ok] at hr hu
      obtain ⟨p, hp, hpr⟩ := hr
      obtain ⟨q, hq, hqu⟩ := hu
      rw [← hpr, ← hqu]
      exact Gather_replay m n source dimension shift 3 compress fi point p q hp hq h1
  · next hsame =>
    rw [if_neg hsame] at hu
    split at hr
    · next hsplice =>
      rw [if_pos hsplice] at hu
      simp only [bind_ok, pure_ok] at hr hu
      obtain ⟨p, hp, p2, hp2, hpr⟩ := hr
      obtain ⟨q, hq, q2, hq2, hqu⟩ := hu
      rw [← hpr, ← hqu]
      have g1 := GatherSimd_replay m n source dimension shift 1 compress fi point p q hp hq h1
      rw [g1.2] at hq2
      exact GatherSimd_replay p.1 q.1 source dimension shift 2 compress _ point p2 q2 hp2 hq2
        g1.1
    · next hsplice =>
      rw [if_neg hsplice] at hu
      simp only [bind_ok, pure_ok] at hr hu
      obtain ⟨p, hp, p2, hp2, hpr⟩ := hr
      obtain ⟨q, hq, q2, hq2, hqu⟩ := hu
      rw [← hpr, ← hqu]
      have g1 := Gather_replay m n source dimension shift 1 compress fi point p q hp hq h1
      rw [g1.2] at hq2
      exact Gather_replay p.1 q.1 source dimension shift 2 compress _ point p2 q2 hp2 hq2 g1.1

theorem HaloGatherPoint_replay {V C : Type} {a b : CartesianStencil C}
    (source : Lattice V) (compress : Compressor V C) (point : Nat)
    (s t r u : CartesianStencil C × Nat)
    (hr : HaloGatherPoint source compress point s = .ok r)
    (hu : HaloGatherPoint source compress point t = .ok u)
    (h1 : Replay a b s.1 t.1) (hfi : t.2 = s.2) :
    Replay a b r.1 u.1 ∧ u.2 = r.2 := by
  have h2 := h1.emit_both (Event.Point point) rfl
  have e := h2.1.1.fields
  unfold HaloGatherPoint at hr hu
  simp only [bind_ok, pure_ok] at hr hu
  obtain ⟨p, hp, hpr⟩ := hr
  obtain ⟨q, hq, hqu⟩ := hu
  rw [← hpr, ← hqu]
  unfold HaloGatherDir at hp hq
  rw [e.1, e.2.2.2.1, e.2.2.2.2.1, hfi] at hq
  simp only [bind_ok, assert_ok, exists_and_left, exists_const] at hp hq
  obtain ⟨_, hp⟩ := hp
  obtain ⟨_, hq⟩ := hq
  split at hp
  · next hcomm =>
    rw [if_pos hcomm] at hq
    exact HaloGatherComm_replay _ _ source compress point _ _ _ p q hp hq h2
  · next hcomm =>
    rw [if_neg hcomm] at hq
    rw [pure_ok] at hp hq
    rw [← hp, ← hq]
    exact ⟨h2, rfl⟩

theorem HaloGather_replay {V C : Type} (a b g1 g2 : CartesianStencil C) (source : Lattice V)
    (compress : Compressor V C) (h1 : HaloGather a source compress = .ok g1)
    (h2 : HaloGather b source compress = .ok g2) (hs : SameStatic a b)
    (hc : b.face_table_computed ≠ 0) :
    ∃ es, g1.trace = a.trace ++ es ∧ g2.trace = b.trace ++ tableUses es := by
  obtain ⟨s, hs1, _, hg1⟩ := HaloGather_parts a g1 source compress h1
  obtain ⟨t, ht1, _, hg2⟩ := HaloGather_parts b g2 source compress h2
  have hn : b._npoints = a._npoints := hs.fields.2.2.2.2.2.2
  rw [hn] at ht1
  have h0 : Replay
      (resetOffset (emit (emit a (Event.call Step.HaloGather)) Event.StencilBarrier))
      (resetOffset (emit (emit b (Event.call Step.HaloGather)) Event.StencilBarrier))
      (resetOffset (emit (emit a (Event.call Step.HaloGather)) Event.StencilBarrier))
      (resetOffset (emit (emit b (Event.call Step.HaloGather)) Event.StencilBarrier)) := by
    apply Replay.refl_replay
    refine ⟨?_, rfl, hc⟩
    have ha : SameStatic a
        (resetOffset (emit (emit a (Event.call Step.HaloGather)) Event.StencilBarrier)) := by
      unfold SameStatic SamePlan
      rfl
    have hb : SameStatic b
        (resetOffset (emit (emit b (Event.call Step.HaloGather)) Event.StencilBarrier)) := by
      unfold SameStatic SamePlan
      rfl
    exact (ha.symm_static.trans_static hs).trans_static hb
  have hloop := forLoopM_rel
    (fun (x y : CartesianStencil C × Nat) =>
      Replay (resetOffset (emit (emit a (Event.call Step.HaloGather)) Event.StencilBarrier))
        (resetOffset (emit (emit b (Event.call Step.HaloGather)) Event.StencilBarrier))
        x.1 y.1 ∧ y.2 = x.2) _ _ _ _ _ s t hs1 ht1 ⟨h0, rfl⟩
    (fun i x y x' y' _ hxy hx hy =>
      HaloGatherPoint_replay source compress i x y x' y' hx hy hxy.1 hxy.2)
  obtain ⟨⟨_, es, e1, e2⟩, _⟩ := hloop
  refine ⟨[Event.call Step.HaloGather, Event.StencilBarrier] ++ es
    ++ [Event.accelerator_barrier], ?_, ?_⟩
  · rw [hg1]
    show s.1.trace ++ [Event.accelerator_barrier] = _
    rw [e1]
    show ((a.trace ++ [Event.call Step.HaloGather]) ++ [Event.StencilBarrier]) ++ es
      ++ [Event.accelerator_barrier] = _
    simp
  · rw [hg2]
    show t.1.trace ++ [Event.accelerator_barrier] = _
    rw [e2]
    show ((b.trace ++ [Event.call Step.HaloGather]) ++ [Event.StencilBarrier]) ++ tableUses es
      ++ [Event.accelerator_barrier] = _
    rw [tableUses_append, tableUses_append]
    simp [tableUses, Event.isTableCompute]

theorem tableUses_fixed (es : List Event) (h : es = tableUses es) :
    ∀ e, e ∈ es → e.isTableCompute = false := by
  intro e he
  rw [h] at he
  unfold tableUses at he
  have := (List.mem_filter.1 he).2
  simpa using this

/-- C23: face tables are computed once and cached.  (1) Construction leaves
`face_table_computed = 0`.  (2) Every `HaloGather` that returns leaves
`face_table_computed = 1`.  (3) `Prepare` and the steps of an exchange after
the gather (`Communicate`, `CommsMergeSHM`, `CommsMerge`) change neither the
flag nor `face_table`.  (4) A `HaloGather` on a stencil whose flag is set
leaves `face_table` unchanged and makes no call of
`Gather_plane_table_compute`.  (5) For a `HaloGather` from a state `a` and a
later one from a state `b` of the same stencil (same static parts) whose flag
is set, the later call appends to the trace exactly what the first appended,
less the calls of `Gather_plane_table_compute`: the same points are announced
and the same calls of `Gather_plane_simple_table` and
`Gather_plane_exchange_table` are made in the same order, each with the same
`face_idx`, plane and buffer position.  (6) After an exchange whose gather
returned, the gather of the next exchange returns. -/
theorem C23_face_tables_cached {V C : Type} (grid : GridBase) (npoints checkerboard : Nat)
    (directions : List Nat) (distances : List Int) (p : Parameters)
    (sizeof_vobj sizeof_cobj : Nat) (u : Indeterminate C) (st : CartesianStencil C)
    (hc : CartesianStencil.construct grid npoints checkerboard directions distances p
            sizeof_vobj sizeof_cobj u = .ok st)
    (source : Lattice V) (compress : Compressor V C) :
    st.face_table_computed = 0
    ∧ (∀ a g, HaloGather a source compress = .ok g → g.face_table_computed = 1)
    ∧ (∀ (g : CartesianStencil C) (net : Transport C),
        (Prepare g).face_table_computed = g.face_table_computed
        ∧ (Prepare g).face_table = g.face_table
        ∧ (CommsMerge (CommsMergeSHM (Communicate g net))).face_table_computed
            = g.face_table_computed
        ∧ (CommsMerge (CommsMergeSHM (Communicate g net))).face_table = g.face_table)
    ∧ (∀ b g2, b.face_table_computed ≠ 0 → HaloGather b source compress = .ok g2 →
        g2.face_table = b.face_table
        ∧ ∃ es, g2.trace = b.trace ++ es ∧ ∀ e, e ∈ es → e.isTableCompute = false)
    ∧ (∀ a g1 b g2, HaloGather a source compress = .ok g1 →
        HaloGather b source compress = .ok g2 → SameStatic a b → b.face_table_computed ≠ 0 →
        ∃ es, g1.trace = a.trace ++ es ∧ g2.trace = b.trace ++ tableUses es)
    ∧ (∀ (s g1 : CartesianStencil C) (net : Transport C),
        HaloGather (Prepare s) source compress = .ok g1 →
        ∃ g2, HaloGather (Prepare (CommsMerge (CommsMergeSHM (Communicate g1 net)))) source
                compress = .ok g2) := by
  refine ⟨?_, ?_, ?_, ?_, ?_, ?_⟩
  · rw [construct_ok_iff] at hc
    obtain ⟨_, rfl⟩ := hc
    show (beforePoints grid npoints directions distances p sizeof_vobj
      sizeof_cobj u).face_table_computed = 0
    unfold beforePoints
    split <;> rfl
  · intro a g h
    obtain ⟨s, _, _, hg⟩ := HaloGather_parts a g source compress h
    rw [hg]
    rfl
  · intro g net
    have h := afterGather_onlyBuffers g net
    exact ⟨rfl, rfl, h.2.2, h.2.1⟩
  · intro b g2 hb h
    obtain ⟨s, hs, _, hg⟩ := HaloGather_parts b g2 source compress h
    have hface := ((HaloGatherPoints_simStep source compress b._npoints).1 _ s hs).2
    constructor
    · rw [hg]
      exact hface.2.1 hb
    · obtain ⟨es, e1, e2⟩ := HaloGather_replay b b g2 g2 source compress h h
        (SameStatic.refl_static _) hb
      refine ⟨es, e1, tableUses_fixed es ?_⟩
      rw [e1] at e2
      exact List.append_cancel_left e2
  · intro a g1 b g2 h1 h2 hs hb
    exact HaloGather_replay a b g1 g2 source compress h1 h2 hs hb
  · intro s g1 net h
    obtain ⟨g2, h2, _⟩ := HaloExchange_second s _ g1 source compress net h rfl
    exact ⟨g2, h2⟩

/-- Witness for C23: the stencil of rank 0 of `lineGrid`. -/
theorem C23_face_tables_cached_witness :
    ∃ st : CartesianStencil (Nat × Nat),
      CartesianStencil.construct (lineGrid 0) 1 0 [0] [1] ⟨[0]⟩ 8 8 (someStorage (9, 9)) = .ok st
      ∧ st.face_table_computed = 0 :=
  have hok : constructOk (lineGrid 0) 1 [0] [1] ⟨[0]⟩ 8 8 (someStorage ((9, 9) : Nat × Nat)) :=
    ⟨fun _ ii hii => by
        obtain rfl : ii = 0 := by omega
        decide,
      fun ii hii => by
        obtain rfl : ii = 0 := by omega
        decide⟩
  ⟨_, construct_of_constructOk (lineGrid 0) 1 0 [0] [1] ⟨[0]⟩ 8 8 (someStorage (9, 9)) hok,
    (C23_face_tables_cached (lineGrid 0) 1 0 [0] [1] ⟨[0]⟩ 8 8 (someStorage (9, 9)) _
      (construct_of_constructOk (lineGrid 0) 1 0 [0] [1] ⟨[0]⟩ 8 8 (someStorage (9, 9)) hok)
      (lineField 0) (plainCompressor (Nat × Nat) 8)).1⟩

/-! ## The normalisation of the shift -/

/-- Where the displacement is at least `-fd`, the shift `(d + fd) % fd` that
`HaloGatherDir`, `Local` and `Comms` compute (the `shift` inside `passShift`)
lies in `[0, fd)` and is congruent to `d` modulo the full extent `fd`: it is
the least non-negative residue of `d`. -/
theorem shift_normalisation (g : GridBase) (checkerboard dimension : Nat) (d : Int)
    (cbmask : Nat) (hfd : 0 < g._fdimensions dimension)
    (hd : -(g._fdimensions dimension : Int) ≤ d) :
    0 ≤ cmod (d + (g._fdimensions dimension : Int)) (g._fdimensions dimension : Int)
    ∧ cmod (d + (g._fdimensions dimension : Int)) (g._fdimensions dimension : Int)
        < (g._fdimensions dimension : Int)
    ∧ (cmod (d + (g._fdimensions dimension : Int)) (g._fdimensions dimension : Int) - d)
        % (g._fdimensions dimension : Int) = 0
    ∧ cmod (d + (g._fdimensions dimension : Int)) (g._fdimensions dimension : Int)
        = d % (g._fdimensions dimension : Int)
    ∧ passShift g checkerboard dimension d cbmask
        = g.CheckerBoardShiftForCB checkerboard dimension (d % (g._fdimensions dimension : Int))
            (if cbmask = 2 then Odd else Even) := by
  have hpos : (0 : Int) < (g._fdimensions dimension : Int) := by exact_mod_cast hfd
  have hn := normalised_shift d (g._fdimensions dimension) hd
  refine ⟨?_, ?_, ?_, hn, ?_⟩
  · rw [hn]
    exact Int.emod_nonneg _ hpos.ne'
  · rw [hn]
    exact Int.emod_lt_of_pos _ hpos
  · rw [hn]
    rw [Int.sub_emod, Int.emod_emod, Int.sub_self, Int.zero_emod]
  · unfold passShift
    rw [hn]

/-- C38 fails in the code: the expression `(displacement+fd)%fd`, commented
"Map to always positive shift modulo global full dimension" in `HaloGatherDir`
and in `Local`, adds `fd` once and takes the C remainder.  For the
displacement `-9` and the full extent 8 it is `(-9 + 8) % 8 = -1`, which is not
in `[0, 8)`; on `ringGrid` the stencil with this point is constructed, and `-1`
is the shift with which `Local` works. -/
theorem C38_negative_shift :
    cmod (-9 + ((ringGrid._fdimensions 0 : Nat) : Int)) ((ringGrid._fdimensions 0 : Nat) : Int)
      = -1
    ∧ ¬ (0 ≤ cmod (-9 + ((ringGrid._fdimensions 0 : Nat) : Int))
              ((ringGrid._fdimensions 0 : Nat) : Int))
    ∧ passShift ringGrid 0 0 (-9) 3 = -1
    ∧ (CartesianStencil.construct ringGrid 1 0 [0] [-9] ⟨[0]⟩ 8 8
        (someStorage (0 : Nat))).toBool = true := by
  decide

/-- An instance of `shift_normalisation`: the displacement `-3` on `lineGrid`,
whose shift is 5. -/
theorem shift_normalisation_witness :
    0 ≤ cmod (-3 + ((lineGrid 0)._fdimensions 0 : Int)) ((lineGrid 0)._fdimensions 0 : Int)
    ∧ cmod (-3 + ((lineGrid 0)._fdimensions 0 : Int)) ((lineGrid 0)._fdimensions 0 : Int)
        < ((lineGrid 0)._fdimensions 0 : Int)
    ∧ (cmod (-3 + ((lineGrid 0)._fdimensions 0 : Int)) ((lineGrid 0)._fdimensions 0 : Int) - -3)
        % ((lineGrid 0)._fdimensions 0 : Int) = 0
    ∧ cmod (-3 + ((lineGrid 0)._fdimensions 0 : Int)) ((lineGrid 0)._fdimensions 0 : Int)
        = -3 % ((lineGrid 0)._fdimensions 0 : Int)
    ∧ passShift (lineGrid 0) 0 0 (-3) 3
        = (lineGrid 0).CheckerBoardShiftForCB 0 0 (-3 % ((lineGrid 0)._fdimensions 0 : Int))
            (if 3 = 2 then Odd else Even) :=
  shift_normalisation (lineGrid 0) 0 0 (-3) 3 (by decide) (by decide)

/-! ## When `DirichletBlock` aborts -/

theorem dirichletAborts_iff {C : Type} (st : CartesianStencil C) (blk : List Int) (ii : Nat) :
    dirichletAborts st blk ii = true
      ↔ st._grid._processors (st._directions.getD ii 0) > 1
        ∧ blk.getD (st._directions.getD ii 0) 0 ≠ 0
        ∧ cdiv (st._grid._fdimensions (st._directions.getD ii 0))
              (st._grid._processors (st._directions.getD ii 0))
            ≤ ((st._distances.getD ii 0).natAbs : Int) := by
  unfold dirichletAborts dirichletActive truthy ofBool
  generalize st._directions.getD ii 0 = dim
  by_cases hpd : st._grid._processors dim > 1
  · simp [hpd]
  · simp [hpd]

/-- C39: `DirichletBlock` stops at its assertion if and only if some stencil
point lies on an axis that is split across processes, has a non-zero block
size, and has `|displacement| >= ld` with `ld = fd/pd`; the assertion
`abs(displacement) < ld` is the only one it can stop at; and when it returns,
the stencil differs from the one before at most in `_comms_send` and
`_comms_recv`. -/
theorem C39_DirichletBlock_aborts_iff {C : Type} (st : CartesianStencil C) (blk : List Int) :
    ((∃ a, DirichletBlock st blk = .error a)
      ↔ ∃ ii, ii < st._npoints
          ∧ st._grid._processors (st._directions.getD ii 0) > 1
          ∧ blk.getD (st._directions.getD ii 0) 0 ≠ 0
          ∧ cdiv (st._grid._fdimensions (st._directions.getD ii 0))
                (st._grid._processors (st._directions.getD ii 0))
              ≤ ((st._distances.getD ii 0).natAbs : Int))
    ∧ (∀ a, DirichletBlock st blk = .error a → a = Assertion.dirichlet_displacement)
    ∧ (∀ r, DirichletBlock st blk = .ok r →
        r = { st with _comms_send := r._comms_send, _comms_recv := r._comms_recv }) := by
  by_cases hab : ∃ ii, ii < st._npoints ∧ dirichletAborts st blk ii = true
  · have herr : DirichletBlock st blk = .error Assertion.dirichlet_displacement :=
      DirichletBlock_loop_error st blk st._npoints hab
    refine ⟨⟨fun _ => ?_, fun _ => ⟨_, herr⟩⟩, ?_, ?_⟩
    · obtain ⟨ii, hii, h⟩ := hab
      exact ⟨ii, hii, (dirichletAborts_iff st blk ii).1 h⟩
    · intro a ha
      rw [herr] at ha
      cases ha
      rfl
    · intro r hr
      rw [herr] at hr
      cases hr
  · have hfine : ∀ ii, ii < st._npoints → dirichletAborts st blk ii = false := by
      intro ii hii
      by_contra hne
      exact hab ⟨ii, hii, by simpa using hne⟩
    have hok := DirichletBlock_ok st blk hfine
    refine ⟨⟨?_, ?_⟩, ?_, ?_⟩
    · rintro ⟨a, ha⟩
      rw [hok] at ha
      cases ha
    · rintro ⟨ii, hii, h⟩
      exact absurd ⟨ii, hii, (dirichletAborts_iff st blk ii).2 h⟩ hab
    · intro a ha
      rw [hok] at ha
      cases ha
    · intro r hr
      rw [hok] at hr
      cases hr
      rfl

/-! ## The lane assertion of `GatherSimd` -/

theorem lane_coordinates (rd i x sshift : Int) (hrd : 0 < rd) (hi0 : 0 ≤ i) (hx0 : 0 ≤ x)
    (hs : 0 ≤ sshift) :
    cmod (cmod (rd * i + x + sshift) (2 * rd)) rd = cmod (x + sshift) rd
    ∧ 0 ≤ cdiv (cmod (rd * i + x + sshift) (2 * rd)) rd
    ∧ cdiv (cmod (rd * i + x + sshift) (2 * rd)) rd < 2 := by
  unfold cmod cdiv
  have hn : 0 ≤ rd * i + x + sshift := by
    have := Int.mul_nonneg hrd.le hi0
    omega
  have h2 : (0 : Int) < 2 * rd := by omega
  have hm0 : 0 ≤ (rd * i + x + sshift) % (2 * rd) := Int.emod_nonneg _ h2.ne'
  have hm1 : (rd * i + x + sshift) % (2 * rd) < 2 * rd := Int.emod_lt_of_pos _ h2
  rw [Int.tmod_eq_emod hn h2.le, Int.tmod_eq_emod hm0 hrd.le, Int.tmod_eq_emod (by omega) hrd.le,
    Int.tdiv_eq_ediv hm0 hrd.le]
  refine ⟨?_, Int.ediv_nonneg hm0 hrd.le, ?_⟩
  · rw [Int.emod_emod_of_dvd _ (Dvd.intro_left 2 rfl),
      show rd * i + x + sshift = (x + sshift) + rd * i by ring, Int.add_mul_emod_self_left]
  · exact Int.ediv_lt_of_lt_mul hrd (by omega)

/-- C36: in `GatherSimd` the assertion `sx == nbr_ox` never fails when the local
extent is `ld = 2*rd`.  For both lanes `i` in `{0, 1}`, every plane `x` in
`[0, rd)` and every checkerboard shift `sshift >= 0`,
`((rd*i + x + sshift) mod ld) mod rd = (x + sshift) mod rd`, the peer lane
`nbr_ic = ((rd*i + x + sshift) mod ld) / rd` is 0 or 1, so the index into
`u_simd_send_buf` is in range, and the lane body of the loop is reached.  (It
holds for every lane index and plane, not only for `i < 2` and `x < rd`.) -/
theorem C36_lane_assertion_passes {C : Type} (dimension cbmask point : Nat) (sshift : Int)
    (x comm_off : Nat) (bytes : Int) (i : Nat) (s : CartesianStencil C × List Pointer)
    (hrd : 0 < s.1._grid._rdimensions dimension)
    (hld : s.1._grid._ldimensions dimension = 2 * s.1._grid._rdimensions dimension)
    (hs : 0 ≤ sshift) :
    cmod (cmod ((s.1._grid._rdimensions dimension : Int) * (i : Int) + (x : Int) + sshift)
          (s.1._grid._ldimensions dimension : Int)) (s.1._grid._rdimensions dimension : Int)
      = cmod ((x : Int) + sshift) (s.1._grid._rdimensions dimension : Int)
    ∧ (cdiv (cmod ((s.1._grid._rdimensions dimension : Int) * (i : Int) + (x : Int) + sshift)
          (s.1._grid._ldimensions dimension : Int)) (s.1._grid._rdimensions dimension : Int)).toNat
        < 2
    ∧ 0 ≤ cdiv (cmod ((s.1._grid._rdimensions dimension : Int) * (i : Int) + (x : Int) + sshift)
          (s.1._grid._ldimensions dimension : Int)) (s.1._grid._rdimensions dimension : Int)
    ∧ GatherSimdLane dimension cbmask point sshift x
          (cmod ((x : Int) + sshift) (s.1._grid._rdimensions dimension : Int)) comm_off bytes i s
        = .ok (gatherSimdLaneBody dimension cbmask point
            (cmod ((x : Int) + sshift) (s.1._grid._rdimensions dimension : Int))
            (cmod (cdiv ((s.1._grid._rdimensions dimension : Int) * (i : Int) + (x : Int)
                + sshift) (s.1._grid._ldimensions dimension : Int))
              (s.1._grid._processors dimension : Int))
            (cdiv (cmod ((s.1._grid._rdimensions dimension : Int) * (i : Int) + (x : Int)
                + sshift) (s.1._grid._ldimensions dimension : Int))
              (s.1._grid._rdimensions dimension : Int))
            comm_off bytes i s) := by
  have hl : (s.1._grid._ldimensions dimension : Int)
      = 2 * (s.1._grid._rdimensions dimension : Int) := by
    rw [hld]
    push_cast
    rfl
  obtain ⟨h1, h2, h3⟩ := lane_coordinates (s.1._grid._rdimensions dimension : Int) (i : Int)
    (x : Int) sshift (by exact_mod_cast hrd) (Int.natCast_nonneg i) (Int.natCast_nonneg x) hs
  rw [← hl] at h1 h2 h3
  refine ⟨h1, by omega, h2, ?_⟩
  unfold GatherSimdLane
  dsimp only
  rw [h1]
  simp [assert]

/-- Witness for C36: lane 1 of plane 1 on `redBlackGrid` (`rd = 2`, `ld = 4`)
with the checkerboard shift 7. -/
theorem C36_lane_assertion_passes_witness :
    (cdiv (cmod (((redBlackStencil 0)._grid._rdimensions 0 : Int) * ((1 : Nat) : Int)
            + ((1 : Nat) : Int) + 7) ((redBlackStencil 0)._grid._ldimensions 0 : Int))
          ((redBlackStencil 0)._grid._rdimensions 0 : Int)).toNat < 2 :=
  (C36_lane_assertion_passes 0 3 0 7 1 0 8 1
    (redBlackStencil 0, [⟨Buffer.indeterminate, 0⟩, ⟨Buffer.indeterminate, 0⟩])
    (by decide) (by decide) (by decide)).2.1

/-! ## The same-node descriptor lists -/

/-- C37: the lists `MergersSHM` and `DecompressionsSHM` are never populated.
`HaloGather` leaves both as it finds them; they are empty in every constructed
stencil and after `Prepare`, so they are empty after the gather of every
exchange, and stay so through `Communicate`.  `CommsMergeSHM` then performs
its barrier and nothing else: it makes no `Exchange` and no `Decompress` call
and changes no buffer, so that every such call of the exchange is made by
`CommsMerge`, from `Mergers` and `Decompressions`. -/
theorem C37_shm_lists_empty {V C : Type} (st g : CartesianStencil C) (source : Lattice V)
    (compress : Compressor V C) (net : Transport C)
    (h : HaloGather (Prepare st) source compress = .ok g) :
    g.MergersSHM = [] ∧ g.DecompressionsSHM = []
    ∧ (Communicate g net).MergersSHM = [] ∧ (Communicate g net).DecompressionsSHM = []
    ∧ CommsMergeSHM (Communicate g net)
        = emit (emit (Communicate g net) (Event.call Step.CommsMergeSHM)) Event.StencilBarrier
    ∧ (CommsMergeSHM (Communicate g net)).trace
        = (Communicate g net).trace ++ [Event.call Step.CommsMergeSHM, Event.StencilBarrier]
    ∧ (∀ (a b : CartesianStencil C), HaloGather a source compress = .ok b →
        b.MergersSHM = a.MergersSHM ∧ b.DecompressionsSHM = a.DecompressionsSHM)
    ∧ (∀ (grid : GridBase) (npoints checkerboard : Nat) (directions : List Nat)
        (distances : List Int) (p : Parameters) (sizeof_vobj sizeof_cobj : Nat)
        (u : Indeterminate C) (s : CartesianStencil C),
        CartesianStencil.construct grid npoints checkerboard directions distances p
          sizeof_vobj sizeof_cobj u = .ok s →
        s.MergersSHM = [] ∧ s.DecompressionsSHM = []) := by
  have hkeep : ∀ (a b : CartesianStencil C), HaloGather a source compress = .ok b →
      b.MergersSHM = a.MergersSHM ∧ b.DecompressionsSHM = a.DecompressionsSHM := by
    intro a b hab
    obtain ⟨_, _, _, h1, h2⟩ := HaloGather_events a b source compress hab
    exact ⟨h1, h2⟩
  have hg := hkeep _ _ h
  have hm : g.MergersSHM = [] := hg.1
  have hd : g.DecompressionsSHM = [] := hg.2
  have hc := (Communicate_onlyBuffers g net).1
  have hm2 : (Communicate g net).MergersSHM = [] :=
    (hc.proj (fun s => s.MergersSHM) (fun _ _ => rfl)).trans hm
  have hd2 : (Communicate g net).DecompressionsSHM = [] :=
    (hc.proj (fun s => s.DecompressionsSHM) (fun _ _ => rfl)).trans hd
  have heq := CommsMergeSHM_empty (Communicate g net) hm2 hd2
  refine ⟨hm, hd, hm2, hd2, heq, ?_, hkeep, ?_⟩
  · rw [heq]
    show ((Communicate g net).trace ++ [Event.call Step.CommsMergeSHM]) ++ [Event.StencilBarrier]
      = _
    rw [List.append_assoc]
    rfl
  · intro grid npoints checkerboard directions distances p sizeof_vobj sizeof_cobj u s hs
    rw [construct_ok_iff] at hs
    obtain ⟨_, rfl⟩ := hs
    constructor
    · show (beforePoints grid npoints directions distances p sizeof_vobj
        sizeof_cobj u).MergersSHM = []
      unfold beforePoints
      split <;> rfl
    · show (beforePoints grid npoints directions distances p sizeof_vobj
        sizeof_cobj u).DecompressionsSHM = []
      unfold beforePoints
      split <;> rfl

/-- Witness for C37: the gather of rank 0 of `lineGrid`. -/
theorem C37_shm_lists_empty_witness :
    (gatheredRank (lineStencil [0]) lineField (plainCompressor (Nat × Nat) 8) 0).MergersSHM = []
    ∧ (gatheredRank (lineStencil [0]) lineField
        (plainCompressor (Nat × Nat) 8) 0).DecompressionsSHM = [] := by
  have hok : (HaloGather (Prepare (lineStencil [0] 0)) (lineField 0)
      (plainCompressor (Nat × Nat) 8)).toBool = true := by decide
  have hg : HaloGather (Prepare (lineStencil [0] 0)) (lineField 0)
      (plainCompressor (Nat × Nat) 8)
      = .ok (gatheredRank (lineStencil [0]) lineField (plainCompressor (Nat × Nat) 8) 0) := by
    unfold gatheredRank
    cases h : HaloGather (Prepare (lineStencil [0] 0)) (lineField 0)
        (plainCompressor (Nat × Nat) 8) with
    | ok s => rfl
    | error e => rw [h] at hok; cases hok
  have h := C37_shm_lists_empty (lineStencil [0] 0) _ (lineField 0)
    (plainCompressor (Nat × Nat) 8) (fun _ _ _ => none) hg
  exact ⟨h.1, h.2.1⟩

/-! ## Two parity passes on a SIMD-split axis -/

theorem GatherSimd_single_parity {V C : Type} (st : CartesianStencil C) (rhs : Lattice V)
    (dimension : Nat) (shift : Int) (cbmask : Nat) (compress : Compressor V C)
    (face_idx point : Nat) (hm : cbmask ≠ 3) :
    (∀ r, GatherSimd st rhs dimension shift cbmask compress face_idx point ≠ .ok r)
    ∧ (st._grid._processors dimension > 1 → st._grid._simd_layout dimension = 2 →
        0 ≤ shift → shift < (st._grid._fdimensions dimension : Int) →
        GatherSimd st rhs dimension shift cbmask compress face_idx point
          = .error Assertion.cbmask_is_3) := by
  constructor
  · intro r h
    unfold GatherSimd at h
    simp only [bind_ok, assert_ok, pure_ok, exists_and_left, exists_const] at h
    obtain ⟨_, _, _, _, h3, _⟩ := h
    exact hm (by simpa using h3)
  · intro hpd hsimd h0 h1
    unfold GatherSimd
    have hc : (cbmask == 3) = false := by simpa using hm
    simp [assert, hpd, hsimd, h0, h1, hc]
    rfl

/-- C34 (amended): for a stencil point on an axis that is split across
processes and across two SIMD lanes, whose checkerboard shift differs between
the two parities, `HaloGatherDir` calls `GatherSimd` with the parity mask
`0x1`, and that call stops at `assert(cbmask==0x3)`: the point is not
gathered, nothing is scheduled for it, and the pass with `0x2` is not reached.
No call of `GatherSimd` with a parity mask other than `0x3` returns. -/
theorem C34_two_pass_simd_stops {V C : Type} (st : CartesianStencil C) (source : Lattice V)
    (compress : Compressor V C) (point face_idx : Nat)
    (hcb : source.Checkerboard = st._checkerboard)
    (hpd : st._grid._processors (st._directions.getD point 0) > 1)
    (hsimd : st._grid._simd_layout (st._directions.getD point 0) = 2)
    (hfd : 0 < st._grid._fdimensions (st._directions.getD point 0))
    (hd : -(st._grid._fdimensions (st._directions.getD point 0) : Int)
            ≤ st._distances.getD point 0)
    (hne : st._grid.CheckerBoardShiftForCB st._checkerboard (st._directions.getD point 0)
              (cmod (st._distances.getD point 0
                      + (st._grid._fdimensions (st._directions.getD point 0) : Int))
                (st._grid._fdimensions (st._directions.getD point 0) : Int)) Even
            ≠ st._grid.CheckerBoardShiftForCB st._checkerboard (st._directions.getD point 0)
              (cmod (st._distances.getD point 0
                      + (st._grid._fdimensions (st._directions.getD point 0) : Int))
                (st._grid._fdimensions (st._directions.getD point 0) : Int)) Odd) :
    HaloGatherDir st source compress point face_idx = .error Assertion.cbmask_is_3
    ∧ GatherSimd st source (st._directions.getD point 0)
          (cmod (st._distances.getD point 0
                  + (st._grid._fdimensions (st._directions.getD point 0) : Int))
            (st._grid._fdimensions (st._directions.getD point 0) : Int))
          1 compress face_idx point = .error Assertion.cbmask_is_3
    ∧ ∀ (a : CartesianStencil C) (dimension : Nat) (shift : Int) (cbmask fi : Nat)
        (r : CartesianStencil C × Nat × Int), cbmask ≠ 3 →
        GatherSimd a source dimension shift cbmask compress fi point ≠ .ok r := by
  have hpos : (0 : Int) < (st._grid._fdimensions (st._directions.getD point 0) : Int) := by
    exact_mod_cast hfd
  have hn := normalised_shift (st._distances.getD point 0)
    (st._grid._fdimensions (st._directions.getD point 0)) hd
  have h0 : 0 ≤ cmod (st._distances.getD point 0
                  + (st._grid._fdimensions (st._directions.getD point 0) : Int))
            (st._grid._fdimensions (st._directions.getD point 0) : Int) := by
    rw [hn]
    exact Int.emod_nonneg _ hpos.ne'
  have h1 : cmod (st._distances.getD point 0
                  + (st._grid._fdimensions (st._directions.getD point 0) : Int))
            (st._grid._fdimensions (st._directions.getD point 0) : Int)
          < (st._grid._fdimensions (st._directions.getD point 0) : Int) := by
    rw [hn]
    exact Int.emod_lt_of_pos _ hpos
  have hG := (GatherSimd_single_parity st source (st._directions.getD point 0) _ 1 compress
    face_idx point (by decide)).2 hpd hsimd h0 h1
  refine ⟨?_, hG, fun a dimension shift cbmask fi r hm =>
    (GatherSimd_single_parity a source dimension shift cbmask compress fi point hm).1 r⟩
  unfold HaloGatherDir
  dsimp only
  have hc : (source.Checkerboard == st._checkerboard) = true := by simpa using hcb
  have hp : decide (st._grid._processors (st._directions.getD point 0) > 1) = true := by
    simpa using hpd
  rw [hc, hp]
  simp only [assert, if_true]
  show HaloGatherComm st source compress point face_idx _ _ = _
  unfold HaloGatherComm
  dsimp only
  rw [if_neg hne]
  have hs : (decide (st._grid._simd_layout (st._directions.getD point 0) > 1)
      && decide (st._grid._processors (st._directions.getD point 0) > 1)) = true := by
    rw [hsimd, hp]
    rfl
  rw [if_pos hs, hG]
  rfl

/-- Counterexample to C34 as stated: on rank 0 of `redBlackGrid` the stencil
with the point of displacement `+1` along axis 0 is constructed successfully,
the checkerboard shifts of the two parities differ (1 and 0), and `HaloGather`
stops at `assert(cbmask==0x3)` in the first `GatherSimd` pass: neither pass
completes. -/
theorem C34_counterexample :
    (CartesianStencil.construct (redBlackGrid 0) 1 0 [0] [1] ⟨[0, 0]⟩ 8 8
        (someStorage (0 : Nat))).toBool = true
    ∧ (redBlackGrid 0).CheckerBoardShiftForCB 0 0 1 Even = 1
    ∧ (redBlackGrid 0).CheckerBoardShiftForCB 0 0 1 Odd = 0
    ∧ failedAssertion (GatherSimd (Prepare (redBlackStep 0)) redBlackField 0 1 1
          (plainCompressor Nat 8) 0 0) = some Assertion.cbmask_is_3
    ∧ failedAssertion (HaloGather (Prepare (redBlackStep 0)) redBlackField
          (plainCompressor Nat 8)) = some Assertion.cbmask_is_3
    ∧ failedAssertion (HaloExchange (redBlackStep 0) redBlackField
          (plainCompressor Nat 8) (fun _ _ _ => none)) = some Assertion.cbmask_is_3 := by
  decide

/-- Witness for C34: the point of displacement `+1` on rank 0 of `redBlackGrid`. -/
theorem C34_two_pass_simd_stops_witness :
    HaloGatherDir (redBlackStep 0) redBlackField (plainCompressor Nat 8) 0 0
      = .error Assertion.cbmask_is_3 :=
  (C34_two_pass_simd_stops (redBlackStep 0) redBlackField (plainCompressor Nat 8) 0 0
    (by decide) (by decide) (by decide) (by decide) (by decide) (by decide)).1

/-! ## The buffers of a plane when the send is switched off -/

/-- C32 fails in the code: `Gather` declares `recv_buf` and `send_buf` without
a value and assigns them only inside `if( comms_send )`, but passes them to
`CheckForDuplicate`, `AddPacket` and `AddDecompress` on every path.  On rank 0
of `lineGrid` with the Dirichlet block size 8 the point of displacement `+1`
has `_comms_send = 0` and `_comms_recv = 1`; the table holds a remote entry for
site 3 at slot 0, the gather completes, and the packet it queues, with the
receive enabled, and the record of the duplicate cache carry unassigned
addresses instead of `u_recv_buf + 0` and `u_send_buf + 0`; with a compressor
that needs a decompression step the `Decompress` record carries an unassigned
`mpi_p`. -/
theorem C32_pointers_unassigned :
    (CartesianStencil.construct (lineGrid 0) 1 0 [0] [1] ⟨[8]⟩ 8 8
        (someStorage ((9, 9) : Nat × Nat))).toBool = true
    ∧ (lineStencil [8] 0)._comms_send 0 = 0
    ∧ (lineStencil [8] 0)._comms_recv 0 = 1
    ∧ ((lineStencil [8] 0)._entries (entryIndex 1 0 3))._is_local = 0
    ∧ ((lineStencil [8] 0)._entries (entryIndex 1 0 3))._offset = 0
    ∧ (HaloGather (Prepare (lineStencil [8] 0)) (lineField 0)
        (plainCompressor (Nat × Nat) 8)).toBool = true
    ∧ (gatheredRank (lineStencil [8]) lineField (plainCompressor (Nat × Nat) 8) 0).Packets
        = [{ send_buf := ⟨Buffer.indeterminate, 0⟩, recv_buf := ⟨Buffer.indeterminate, 0⟩,
             to_rank := 1, from_rank := 1, do_send := 0, do_recv := 1, bytes := 8 }]
    ∧ (gatheredRank (lineStencil [8]) lineField
        (plainCompressor (Nat × Nat) 8) 0).CachedTransfers.map (fun c => c.recv_buf)
        = [⟨Buffer.indeterminate, 0⟩]
    ∧ (gatheredRank (lineStencil [8]) lineField
        { plainCompressor (Nat × Nat) 8 with DecompressionStep := true } 0).Decompressions
        = [{ kernel_p := ⟨Buffer.u_recv_buf, 0⟩, mpi_p := ⟨Buffer.indeterminate, 0⟩,
             buffer_size := 1 }]
    ∧ (gatheredRank (lineStencil [0]) lineField (plainCompressor (Nat × Nat) 8) 0).Packets
        = [{ send_buf := ⟨Buffer.u_send_buf, 0⟩, recv_buf := ⟨Buffer.u_recv_buf, 0⟩,
             to_rank := 1, from_rank := 1, do_send := 1, do_recv := 1, bytes := 8 }] := by
  decide

/-! ## The copies of the duplicate transfers -/

theorem findTransfer_mem (a b c y l m : Int) (cs : List CachedTransfer) (t : CachedTransfer)
    (h : findTransfer a b c y l m cs = some t) : t ∈ cs := by
  induction cs with
  | nil => simp [findTransfer] at h
  | cons x xs ih =>
    unfold findTransfer at h
    split at h
    · cases h
      exact List.mem_cons_self _ _
    · exact List.mem_cons_of_mem _ (ih h)

theorem SamePlan.duplicates {C : Type} (Q : Int → Prop) {a b : CartesianStencil C}
    (h : SamePlan a b) (ha : Duplicates Q a) : Duplicates Q b := by
  have e1 : b.CachedTransfers = a.CachedTransfers :=
    h.proj (fun s => s.CachedTransfers) (fun _ _ => rfl)
  have e2 : b.CopyReceiveBuffers = a.CopyReceiveBuffers :=
    h.proj (fun s => s.CopyReceiveBuffers) (fun _ _ => rfl)
  unfold Duplicates
  rw [e1, e2]
  exact ha

theorem queueTransfer_duplicates {C : Type} (Q : Int → Prop) (s : CartesianStencil C)
    (a b c : Int) (send recv : Pointer) (l y m : Int) (to_rank : Nat) (cs : Int) (f : Nat)
    (cr : Int) (hs : Duplicates Q s) (hrecv : ¬ recv.isSend) (hy : Q y) :
    Duplicates Q (queueTransfer s a b c send recv l y m to_rank cs f cr) := by
  unfold queueTransfer CheckForDuplicate
  dsimp only
  cases hfind : findTransfer a b c y l m s.CachedTransfers with
  | none =>
    refine ⟨?_, hs.2⟩
    intro t ht
    rcases List.mem_append.mp ht with h | h
    · exact hs.1 t h
    · rw [List.mem_singleton.mp h]
      exact hrecv
  | some t =>
    refine ⟨hs.1, ?_⟩
    intro c hc
    rcases List.mem_append.mp hc with h | h
    · exact hs.2 c h
    · rw [List.mem_singleton.mp h]
      exact ⟨hs.1 t (findTransfer_mem _ _ _ _ _ _ _ _ hfind), hrecv, hy⟩

theorem queueDecompress_duplicates {V C : Type} (Q : Int → Prop) (st : CartesianStencil C)
    (compress : Compressor V C) (cr : Int) (recv_buf : Buffer) (comm_off words : Nat)
    (hs : Duplicates Q st) :
    Duplicates Q (queueDecompress st compress cr recv_buf comm_off words) := by
  unfold queueDecompress
  split
  · exact hs
  · exact hs

theorem gatherOffnodePlane_duplicates {V C : Type} (Q : Int → Prop) (rhs : Lattice V)
    (dimension cbmask : Nat) (compress : Compressor V C) (point : Nat) (sx comm_proc : Int)
    (s : CartesianStencil C × Nat) (hs : Duplicates Q s.1)
    (hQ : ∀ words : Nat, Q ((words : Int) * compress.CommDatumSize)) :
    Duplicates Q (gatherOffnodePlane rhs dimension cbmask compress point sx comm_proc s).1 := by
  unfold gatherOffnodePlane
  dsimp only
  obtain ⟨h1, h2⟩ := gatherSendBlock_samePlan s.1 rhs dimension cbmask compress point sx
    (sx * (s.1._grid._ostride dimension : Int)) s.1.u_comm_offset s.2
  have hr : ¬ (⟨(gatherSendBlock s.1 rhs dimension cbmask compress point sx
      (sx * (s.1._grid._ostride dimension : Int)) s.1.u_comm_offset s.2).2.1,
      s.1.u_comm_offset⟩ : Pointer).isSend := by
    rw [h2]
    unfold Pointer.isSend
    split
    · split <;> simp
    · simp
  exact queueDecompress_duplicates Q _ compress _ _ _ _
    (queueTransfer_duplicates Q _ _ _ _ _ _ _ _ _ _ _ _ _ (h1.duplicates Q hs) hr (hQ _))

theorem GatherSimdPlane_duplicates {V C : Type} (Q : Int → Prop) (rhs : Lattice V)
    (dimension cbmask : Nat) (compress : Compressor V C) (point : Nat) (sshift bytes : Int)
    (reduced_buffer_size x : Nat) (s r : CartesianStencil C × Nat × List Pointer)
    (h : GatherSimdPlane rhs dimension cbmask compress point sshift bytes reduced_buffer_size x s
          = .ok r) (hs : Duplicates Q s.1) (hQ : Q bytes) : Duplicates Q r.1 := by
  unfold GatherSimdPlane at h
  dsimp only at h
  split at h
  · simp only [bind_ok, pure_ok] at h
    obtain ⟨a, ha, b, hb, hr⟩ := h
    rw [← hr]
    have h1 := gatherSimdSendBlock_samePlan_aux _ _ _ _ _ _ _ _ _ _ ha
    have h2 : Duplicates Q b.1 :=
      forLoopM_invariant (fun _ (q : CartesianStencil C × List Pointer) => Duplicates Q q.1)
        _ _ (a, s.2.2) b hb (h1.duplicates Q hs)
        (fun i p q _ hp hq => by
          unfold GatherSimdLane at hq
          simp only [bind_ok, assert_ok, pure_ok, exists_and_left, exists_const] at hq
          rw [← hq.2]
          unfold gatherSimdLaneBody
          dsimp only
          split
          · exact queueTransfer_duplicates Q _ _ _ _ _ _ _ _ _ _ _ _ _ hp
              (by unfold Pointer.isSend; simp) hQ
          · exact hp)
    exact h2
  · rw [pure_ok] at h
    rw [← h]
    exact hs

theorem GatherSimd_duplicates {V C : Type} (st : CartesianStencil C) (rhs : Lattice V)
    (dimension : Nat) (shift : Int) (cbmask : Nat) (compress : Compressor V C)
    (face_idx point : Nat) (r : CartesianStencil C × Nat × Int)
    (hs : Duplicates (gatherBytes compress.CommDatumSize) st)
    (h : GatherSimd st rhs dimension shift cbmask compress face_idx point = .ok r) :
    Duplicates (gatherBytes compress.CommDatumSize) r.1 := by
  unfold GatherSimd at h
  simp only [bind_ok, assert_ok, pure_ok, exists_and_left, exists_const] at h
  obtain ⟨_, hsimd, _, _, _, hbytes, a, ha, hr⟩ := h
  rw [← hr]
  have hs2 : st._grid._simd_layout dimension = 2 := by simpa using hsimd
  have hwords : (if cbmask ≠ 3 then
        (st._grid._slice_nblock dimension * st._grid._slice_block dimension) >>> 1
      else st._grid._slice_nblock dimension * st._grid._slice_block dimension)
      = planeWords st._grid dimension cbmask := rfl
  rw [hwords] at ha hbytes
  rw [hs2] at ha hbytes
  exact forLoopM_invariant
    (fun _ (b : CartesianStencil C × Nat × List Pointer) =>
      Duplicates (gatherBytes compress.CommDatumSize) b.1)
    _ _ (st, face_idx, _) a ha hs
    (fun i p q _ hp hq =>
      GatherSimdPlane_duplicates _ rhs dimension cbmask compress point _ _ _ i p q hq hp
        ⟨planeWords st._grid dimension cbmask, Or.inr (by simpa using hbytes)⟩)

theorem duplicates_invariant {V C : Type} (source : Lattice V) (compress : Compressor V C) :
    GatherInvariant source compress
      (fun st _ => Duplicates (gatherBytes compress.CommDatumSize) st) where
  point := fun _ _ _ h => h
  face := fun st fj dimension cbmask point sx comm_proc h =>
    gatherOffnodePlane_duplicates _ source dimension cbmask compress point sx comm_proc (st, fj) h
      (fun words => ⟨words, Or.inl rfl⟩)
  simdPass := fun st dimension shift cbmask fi point r h hr =>
    GatherSimd_duplicates st source dimension shift cbmask compress fi point r h hr

theorem HaloGather_duplicates {V C : Type} (st g : CartesianStencil C) (source : Lattice V)
    (compress : Compressor V C) (h : HaloGather (Prepare st) source compress = .ok g) :
    Duplicates (gatherBytes compress.CommDatumSize) g := by
  obtain ⟨s, hs, _, hg⟩ := HaloGather_parts _ g source compress h
  have hinv := HaloGatherPoints_inv source compress
    (fun st _ => Duplicates (gatherBytes compress.CommDatumSize) st)
    (duplicates_invariant source compress) _ _ s hs
    (And.intro (fun _ ht => by cases ht) (fun _ hc => by cases hc))
  rw [hg]
  exact hinv

theorem copyLoop_trace {C : Type} (a : CartesianStencil C) (r : CopyReceiveBuffer) (n : Nat) :
    (forLoop n (fun j st =>
        let st := emit st (Event.coalescedWrite r.to_p r.from_p j)
        match readBuf st r.from_p j with
        | some v => writeBuf st r.to_p j v
        | none => st) a).CopyReceiveBuffers = a.CopyReceiveBuffers
    ∧ (forLoop n (fun j st =>
        let st := emit st (Event.coalescedWrite r.to_p r.from_p j)
        match readBuf st r.from_p j with
        | some v => writeBuf st r.to_p j v
        | none => st) a).sizeof_cobj = a.sizeof_cobj
    ∧ (forLoop n (fun j st =>
        let st := emit st (Event.coalescedWrite r.to_p r.from_p j)
        match readBuf st r.from_p j with
        | some v => writeBuf st r.to_p j v
        | none => st) a).trace
        = a.trace ++ (List.range n).map (fun j => Event.coalescedWrite r.to_p r.from_p j) := by
  have key := forLoop_count_trace n (fun j => Event.coalescedWrite r.to_p r.from_p j)
    (fun b : CartesianStencil C =>
      b.CopyReceiveBuffers = a.CopyReceiveBuffers ∧ b.sizeof_cobj = a.sizeof_cobj)
    (fun j st =>
        let st := emit st (Event.coalescedWrite r.to_p r.from_p j)
        match readBuf st r.from_p j with
        | some v => writeBuf st r.to_p j v
        | none => st) a ⟨rfl, rfl⟩
    (by
      intro j b _ hb
      dsimp only
      split
      · refine ⟨⟨?_, ?_⟩, ?_⟩
        · rw [(writeBuf_samePlan _ _ _ _).proj (fun s => s.CopyReceiveBuffers) (fun _ _ => rfl)]
          exact hb.1
        · rw [(writeBuf_samePlan _ _ _ _).proj (fun s => s.sizeof_cobj) (fun _ _ => rfl)]
          exact hb.2
        · rw [writeBuf_trace]
          rfl
      · exact ⟨hb, rfl⟩)
  exact ⟨key.1.1, key.1.2, key.2⟩

theorem CommsCopy_trace {C : Type} (st : CartesianStencil C) :
    (CommsCopy st).trace
      = st.trace ++ st.CopyReceiveBuffers.flatMap (fun r =>
          (List.range (objects st.sizeof_cobj r.bytes)).map (fun j =>
            Event.coalescedWrite r.to_p r.from_p j)) := by
  unfold CommsCopy
  have key := forLoop_list_trace st.CopyReceiveBuffers
    (fun _ r => (List.range (objects st.sizeof_cobj r.bytes)).map (fun j =>
      Event.coalescedWrite r.to_p r.from_p j))
    (fun b : CartesianStencil C =>
      b.CopyReceiveBuffers = st.CopyReceiveBuffers ∧ b.sizeof_cobj = st.sizeof_cobj)
    (fun i st =>
      match st.CopyReceiveBuffers.get? i with
      | none => st
      | some r =>
        let words := cdiv r.bytes (st.sizeof_cobj : Int)
        forLoop words.toNat (fun j st =>
          let st := emit st (Event.coalescedWrite r.to_p r.from_p j)
          match readBuf st r.from_p j with
          | some v => writeBuf st r.to_p j v
          | none => st) st) st ⟨rfl, rfl⟩
    (by
      intro i a r hr ha
      dsimp only
      rw [ha.1, hr]
      dsimp only
      obtain ⟨h1, h2, h3⟩ := copyLoop_trace a r (cdiv r.bytes (a.sizeof_cobj : Int)).toNat
      refine ⟨⟨h1.trans ha.1, h2.trans ha.2⟩, ?_⟩
      rw [h3, ← ha.2]
      rfl)
  have e := enum_flatMap_snd st.CopyReceiveBuffers (fun r =>
    (List.range (objects st.sizeof_cobj r.bytes)).map (fun j =>
      Event.coalescedWrite r.to_p r.from_p j))
  rw [key.2, ← e]

theorem readBuf_recvBufs {C : Type} (st : CartesianStencil C) (p : Pointer) (j : Nat)
    (hp : ¬ p.isSend) : readBuf st p j = st.recvBufs.read p j := by
  unfold Pointer.isSend at hp
  unfold readBuf RecvBufs.read
  cases hb : p.base with
  | u_send_buf => exact absurd (Or.inl hb) hp
  | u_simd_send_buf l => exact absurd (Or.inr ⟨l, hb⟩) hp
  | u_recv_buf => rfl
  | u_simd_recv_buf l => rfl
  | indeterminate => rfl

theorem writeBuf_recvBufs {C : Type} (st : CartesianStencil C) (p : Pointer) (j : Nat) (v : C) :
    (writeBuf st p j v).recvBufs = st.recvBufs.write p j v := by
  unfold writeBuf RecvBufs.write
  cases p.base <;> rfl

theorem writeBuf_sendBufs {C : Type} (st : CartesianStencil C) (p : Pointer) (j : Nat) (v : C)
    (hp : ¬ p.isSend) :
    (writeBuf st p j v).u_send_buf = st.u_send_buf
      ∧ (writeBuf st p j v).u_simd_send_buf = st.u_simd_send_buf := by
  unfold Pointer.isSend at hp
  unfold writeBuf
  cases hb : p.base with
  | u_send_buf => exact absurd (Or.inl hb) hp
  | u_simd_send_buf l => exact absurd (Or.inr ⟨l, hb⟩) hp
  | u_recv_buf => exact ⟨rfl, rfl⟩
  | u_simd_recv_buf l => exact ⟨rfl, rfl⟩
  | indeterminate => exact ⟨rfl, rfl⟩

theorem copyLoop_buffers {C : Type} (a : CartesianStencil C) (r : CopyReceiveBuffer) (n : Nat)
    (hf : ¬ r.from_p.isSend) (ht : ¬ r.to_p.isSend) :
    (forLoop n (fun j st =>
        let st := emit st (Event.coalescedWrite r.to_p r.from_p j)
        match readBuf st r.from_p j with
        | some v => writeBuf st r.to_p j v
        | none => st) a).recvBufs
        = forLoop n (fun j R =>
            match R.read r.from_p j with
            | some v => R.write r.to_p j v
            | none => R) a.recvBufs
    ∧ (forLoop n (fun j st =>
        let st := emit st (Event.coalescedWrite r.to_p r.from_p j)
        match readBuf st r.from_p j with
        | some v => writeBuf st r.to_p j v
        | none => st) a).u_send_buf = a.u_send_buf
    ∧ (forLoop n (fun j st =>
        let st := emit st (Event.coalescedWrite r.to_p r.from_p j)
        match readBuf st r.from_p j with
        | some v => writeBuf st r.to_p j v
        | none => st) a).u_simd_send_buf = a.u_simd_send_buf := by
  refine forLoop_invariant
    (fun k (b : CartesianStencil C) =>
      b.recvBufs = forLoop k (fun j (R : RecvBufs C) =>
            match R.read r.from_p j with
            | some v => R.write r.to_p j v
            | none => R) a.recvBufs
      ∧ b.u_send_buf = a.u_send_buf ∧ b.u_simd_send_buf = a.u_simd_send_buf)
    n _ a ⟨rfl, rfl, rfl⟩ ?_
  intro j b _ ⟨h1, h2, h3⟩
  have hread : readBuf (emit b (Event.coalescedWrite r.to_p r.from_p j)) r.from_p j
      = b.recvBufs.read r.from_p j := readBuf_recvBufs _ _ _ hf
  show _ = (match (forLoop j (fun j (R : RecvBufs C) =>
            match R.read r.from_p j with
            | some v => R.write r.to_p j v
            | none => R) a.recvBufs).read r.from_p j with
          | some v => (forLoop j (fun j (R : RecvBufs C) =>
            match R.read r.from_p j with
            | some v => R.write r.to_p j v
            | none => R) a.recvBufs).write r.to_p j v
          | none => (forLoop j (fun j (R : RecvBufs C) =>
            match R.read r.from_p j with
            | some v => R.write r.to_p j v
            | none => R) a.recvBufs)) ∧ _
  rw [← h1]
  dsimp only
  rw [hread]
  cases b.recvBufs.read r.from_p j with
  | none => exact ⟨rfl, h2, h3⟩
  | some v =>
    dsimp only
    obtain ⟨e1, e2⟩ := writeBuf_sendBufs (emit b (Event.coalescedWrite r.to_p r.from_p j))
      r.to_p j v ht
    exact ⟨writeBuf_recvBufs _ _ _ _, e1.trans h2, e2.trans h3⟩

theorem CommsCopy_buffers {C : Type} (st : CartesianStencil C)
    (h : ∀ c, c ∈ st.CopyReceiveBuffers → ¬ c.from_p.isSend ∧ ¬ c.to_p.isSend) :
    (CommsCopy st).recvBufs = st.recvBufs.copyAll st.sizeof_cobj st.CopyReceiveBuffers
      ∧ (CommsCopy st).u_send_buf = st.u_send_buf
      ∧ (CommsCopy st).u_simd_send_buf = st.u_simd_send_buf := by
  unfold CommsCopy RecvBufs.copyAll
  refine forLoop_invariant
    (fun k (b : CartesianStencil C) =>
      (b.CopyReceiveBuffers = st.CopyReceiveBuffers ∧ b.sizeof_cobj = st.sizeof_cobj)
      ∧ b.recvBufs = forLoop k (fun i (R : RecvBufs C) =>
            match st.CopyReceiveBuffers.get? i with
            | none => R
            | some c => R.copy st.sizeof_cobj c) st.recvBufs
      ∧ b.u_send_buf = st.u_send_buf ∧ b.u_simd_send_buf = st.u_simd_send_buf)
    st.CopyReceiveBuffers.length _ st ⟨⟨rfl, rfl⟩, rfl, rfl, rfl⟩ ?_ |>.2
  intro i b hi ⟨⟨h0, hz⟩, h1, h2, h3⟩
  have hget : st.CopyReceiveBuffers.get? i = some (st.CopyReceiveBuffers.get ⟨i, hi⟩) :=
    List.get?_eq_get hi
  have hmem := h _ (List.get_mem st.CopyReceiveBuffers i hi)
  show (_ ∧ _ = (match st.CopyReceiveBuffers.get? i with
            | none => forLoop i (fun i (R : RecvBufs C) =>
                match st.CopyReceiveBuffers.get? i with
                | none => R
                | some c => R.copy st.sizeof_cobj c) st.recvBufs
            | some c => (forLoop i (fun i (R : RecvBufs C) =>
                match st.CopyReceiveBuffers.get? i with
                | none => R
                | some c => R.copy st.sizeof_cobj c) st.recvBufs).copy st.sizeof_cobj c) ∧ _)
  rw [← h1]
  dsimp only
  rw [h0, hget]
  dsimp only
  obtain ⟨c1, c2, _⟩ := copyLoop_trace b (st.CopyReceiveBuffers.get ⟨i, hi⟩)
    (cdiv (st.CopyReceiveBuffers.get ⟨i, hi⟩).bytes (b.sizeof_cobj : Int)).toNat
  obtain ⟨b1, b2, b3⟩ := copyLoop_buffers b (st.CopyReceiveBuffers.get ⟨i, hi⟩)
    (cdiv (st.CopyReceiveBuffers.get ⟨i, hi⟩).bytes (b.sizeof_cobj : Int)).toNat hmem.1 hmem.2
  refine ⟨⟨c1.trans h0, c2.trans hz⟩, ?_, b2.trans h2, b3.trans h3⟩
  rw [b1, hz]
  rfl

theorem objects_exact (sizeof_cobj : Nat) (bytes : Int) (hb : 0 ≤ bytes) :
    ((objects sizeof_cobj bytes : Nat) : Int) * (sizeof_cobj : Int) = bytes
      ↔ (sizeof_cobj : Int) ∣ bytes := by
  have hs0 : (0 : Int) ≤ (sizeof_cobj : Int) := Int.ofNat_nonneg _
  have hq : 0 ≤ bytes / (sizeof_cobj : Int) := Int.ediv_nonneg hb hs0
  unfold objects cdiv
  rw [Int.tdiv_eq_ediv hb hs0, Int.toNat_of_nonneg hq]
  constructor
  · intro h
    exact Dvd.intro_left _ h
  · intro h
    exact Int.ediv_mul_cancel h

theorem gatherBytes_nonneg (datum bytes : Int) (hd : 0 ≤ datum) (h : gatherBytes datum bytes) :
    0 ≤ bytes := by
  obtain ⟨words, hw | hw⟩ := h
  · rw [hw]
    exact Int.mul_nonneg (Int.ofNat_nonneg _) hd
  · have := Int.mul_nonneg (Int.ofNat_nonneg words) hd
    omega

/-- What `CommsCopy` does: it goes through the recorded duplicate transfers in
order and, for each record `(from, to, bytes)`, makes the writes
`to[j] = from[j]` for `j = 0, ..., bytes/sizeof(cobj) - 1`, each once, and no
other: these are all the events it appends to the trace; it changes nothing of
the stencil but the trace and the contents of the buffers; after a gather the
receive buffers hold what these copies, done one after the other, leave in
them, and the send buffers are as before.  Every record that the gather
creates has `bytes = words*CommDatumSize` (`Gather`) or half of that
(`GatherSimd`, per lane), and for such a record the copied amount
`(bytes/sizeof(cobj))*sizeof(cobj)` equals `bytes` exactly when `sizeof(cobj)`
divides `bytes`. -/
theorem CommsCopy_records {V C : Type} (st g : CartesianStencil C) (source : Lattice V)
    (compress : Compressor V C)
    (hg : HaloGather (Prepare st) source compress = .ok g)
    (hdatum : 0 ≤ compress.CommDatumSize) :
    (CommsCopy g).trace
        = g.trace ++ g.CopyReceiveBuffers.flatMap (fun r =>
            (List.range (objects g.sizeof_cobj r.bytes)).map (fun j =>
              Event.coalescedWrite r.to_p r.from_p j))
      ∧ OnlyBuffers g (CommsCopy g)
      ∧ (CommsCopy g).recvBufs = g.recvBufs.copyAll g.sizeof_cobj g.CopyReceiveBuffers
      ∧ (CommsCopy g).u_send_buf = g.u_send_buf
      ∧ (CommsCopy g).u_simd_send_buf = g.u_simd_send_buf
      ∧ ∀ r, r ∈ g.CopyReceiveBuffers →
          gatherBytes compress.CommDatumSize r.bytes
          ∧ (((objects g.sizeof_cobj r.bytes : Nat) : Int) * (g.sizeof_cobj : Int) = r.bytes
              ↔ (g.sizeof_cobj : Int) ∣ r.bytes) := by
  have hdup := HaloGather_duplicates st g source compress hg
  obtain ⟨b1, b2, b3⟩ := CommsCopy_buffers g (fun c hc => ⟨(hdup.2 c hc).1, (hdup.2 c hc).2.1⟩)
  refine ⟨CommsCopy_trace g, CommsCopy_onlyBuffers g g (OnlyBuffers.refl_buffers g), b1, b2, b3,
    ?_⟩
  intro r hr
  have hb := (hdup.2 r hr).2.2
  exact ⟨hb, objects_exact _ _ (gatherBytes_nonneg _ _ hdatum hb)⟩

/-- C31 fails in the code for a compressor datum size that `sizeof(cobj)` does
not divide: `CommsCopy` takes the quotient `bytes/sizeof(cobj)` without the
check that the division is exact which `GatherSimd` makes for its own division
(`assert(bytes*simd_layout == reduced_buffer_size*datum_bytes)`).  On rank 0 of the line of 8 sites on 2 processes, with two points
of displacement `+1` and a compressor of `CommDatumSize = 4` for objects of
`sizeof(cobj) = 8`, the gather succeeds and records for the second point the
duplicate transfer `(&u_recv_buf[0], &u_recv_buf[1], 4)` of a plane of one
word; `bytes/sizeof(cobj)` is 0, so `CommsCopy` makes no write at all and the
copied amount is 0 bytes, not 4. -/
theorem C31_copy_truncated :
    (HaloGather (Prepare (linePair 0)) (lineField 0)
        (plainCompressor (Nat × Nat) 4)).toBool = true
      ∧ (gatheredRank linePair lineField (plainCompressor (Nat × Nat) 4) 0).CopyReceiveBuffers
          = [{ from_p := ⟨Buffer.u_recv_buf, 0⟩, to_p := ⟨Buffer.u_recv_buf, 1⟩, bytes := 4 }]
      ∧ (gatheredRank linePair lineField (plainCompressor (Nat × Nat) 4) 0).sizeof_cobj = 8
      ∧ (plainCompressor (Nat × Nat) 4).CommDatumSize = 4
      ∧ ((objects 8 4 : Nat) : Int) * 8 = 0
      ∧ ((objects 8 4 : Nat) : Int) * 8 ≠ 4
      ∧ (CommsCopy (gatheredRank linePair lineField (plainCompressor (Nat × Nat) 4) 0)).trace
          = (gatheredRank linePair lineField (plainCompressor (Nat × Nat) 4) 0).trace := by
  decide

/-- An instance of `CommsCopy_records`: rank 0 of the line with the two points and a compressor
of `CommDatumSize = 8 = sizeof(cobj)`; the one duplicate record of 8 bytes is
copied by the single write `u_recv_buf[1] = u_recv_buf[0]`. -/
theorem CommsCopy_records_witness :
    (CommsCopy (gatheredRank linePair lineField (plainCompressor (Nat × Nat) 8) 0)).trace
        = (gatheredRank linePair lineField (plainCompressor (Nat × Nat) 8) 0).trace
          ++ [Event.coalescedWrite ⟨Buffer.u_recv_buf, 1⟩ ⟨Buffer.u_recv_buf, 0⟩ 0]
      ∧ ∀ r, r ∈ (gatheredRank linePair lineField
            (plainCompressor (Nat × Nat) 8) 0).CopyReceiveBuffers →
          (((objects 8 r.bytes : Nat) : Int) * 8 = r.bytes ↔ (8 : Int) ∣ r.bytes) := by
  have hok : (HaloGather (Prepare (linePair 0)) (lineField 0)
      (plainCompressor (Nat × Nat) 8)).toBool = true := by decide
  have hg : HaloGather (Prepare (linePair 0)) (lineField 0)
      (plainCompressor (Nat × Nat) 8)
      = .ok (gatheredRank linePair lineField (plainCompressor (Nat × Nat) 8) 0) := by
    unfold gatheredRank
    cases h : HaloGather (Prepare (linePair 0)) (lineField 0)
        (plainCompressor (Nat × Nat) 8) with
    | ok s => rfl
    | error e => rw [h] at hok; cases hok
  have h := CommsCopy_records (linePair 0) _ (lineField 0)
    (plainCompressor (Nat × Nat) 8) hg (by decide)
  have hsz : (gatheredRank linePair lineField (plainCompressor (Nat × Nat) 8) 0).sizeof_cobj
      = 8 := by decide
  have h5 := h.2.2.2.2.2
  rw [hsz] at h5
  exact ⟨h.1.trans (by decide), fun r hr => by exact_mod_cast (h5 r hr).2⟩

/-! ## The layout preconditions of the gather routines -/

theorem LayoutSafe.pure_safe {α : Type} (x : α) : LayoutSafe (pure x : Except Assertion α) :=
  fun _ h => by cases h

theorem LayoutSafe.bind_safe {α β : Type} {x : Except Assertion α}
    {f : α → Except Assertion β} (hx : LayoutSafe x)
    (hf : ∀ a, x = .ok a → LayoutSafe (f a)) : LayoutSafe (x >>= f) := by
  intro e h
  cases hxa : x with
  | error e1 =>
    rw [hxa] at h
    cases h
    exact hx e hxa
  | ok a =>
    rw [hxa] at h
    exact hf a hxa e h

theorem assert_safe (c : Bool) (a : Assertion) (h : c = false → a.isLayout = false) :
    LayoutSafe (assert c a) := by
  intro e he
  unfold assert at he
  cases c with
  | true => cases he
  | false =>
    cases he
    exact h rfl

theorem forLoopM_safe {σ : Type} (P : Nat → σ → Prop) (n : Nat)
    (body : Nat → σ → Except Assertion σ) (s : σ) (h0 : P 0 s)
    (hstep : ∀ i a b, i < n → P i a → body i a = .ok b → P (i + 1) b)
    (hsafe : ∀ i a, i < n → P i a → LayoutSafe (body i a)) :
    LayoutSafe (forLoopM n body s) := by
  induction n with
  | zero => exact fun _ h => by cases h
  | succ k ih =>
    show LayoutSafe (forLoopM k body s >>= body k)
    refine LayoutSafe.bind_safe
      (ih (fun i a b hi => hstep i a b (Nat.lt_succ_of_lt hi))
        (fun i a hi => hsafe i a (Nat.lt_succ_of_lt hi))) ?_
    intro a ha
    exact hsafe k a (Nat.lt_succ_self k)
      (forLoopM_invariant P k body s a ha h0
        (fun i a b hi => hstep i a b (Nat.lt_succ_of_lt hi)))

theorem GatherPlane_safe {V C : Type} (rhs : Lattice V) (dimension cbmask : Nat)
    (compress : Compressor V C) (point : Nat) (sshift : Int) (x : Nat)
    (s : CartesianStencil C × Nat) :
    LayoutSafe (GatherPlane rhs dimension cbmask compress point sshift x s) := by
  unfold GatherPlane
  dsimp only
  split
  · exact LayoutSafe.bind_safe (assert_safe _ _ (fun _ => rfl))
      (fun _ _ => LayoutSafe.bind_safe (assert_safe _ _ (fun _ => rfl))
        (fun _ _ => LayoutSafe.pure_safe _))
  · exact LayoutSafe.pure_safe _

theorem Gather_safe {V C : Type} (st : CartesianStencil C) (rhs : Lattice V)
    (dimension : Nat) (shift : Int) (cbmask : Nat) (compress : Compressor V C)
    (face_idx point : Nat) (h1 : st._grid._simd_layout dimension = 1)
    (h2 : st._grid._processors dimension > 1) (h3 : 0 ≤ shift)
    (h4 : shift < (st._grid._fdimensions dimension : Int)) :
    LayoutSafe (Gather st rhs dimension shift cbmask compress face_idx point) := by
  unfold Gather
  dsimp only
  refine LayoutSafe.bind_safe (assert_safe _ _ (fun h => by simp [h1] at h)) (fun _ _ => ?_)
  refine LayoutSafe.bind_safe (assert_safe _ _ (fun h => by simp [h2] at h)) (fun _ _ => ?_)
  refine LayoutSafe.bind_safe (assert_safe _ _ (fun h => by simp [h3] at h)) (fun _ _ => ?_)
  refine LayoutSafe.bind_safe (assert_safe _ _ (fun h => by simp [h4] at h)) (fun _ _ => ?_)
  refine LayoutSafe.bind_safe ?_ (fun _ _ => LayoutSafe.pure_safe _)
  exact forLoopM_safe (fun _ _ => True) _ _ _ trivial (fun _ _ _ _ _ _ => trivial)
    (fun i a _ _ => GatherPlane_safe rhs dimension cbmask compress point _ i a)

theorem GatherSimdPlane_safe {V C : Type} (rhs : Lattice V) (dimension cbmask : Nat)
    (compress : Compressor V C) (point : Nat) (sshift bytes : Int)
    (reduced_buffer_size x : Nat) (s : CartesianStencil C × Nat × List Pointer) :
    LayoutSafe (GatherSimdPlane rhs dimension cbmask compress point sshift bytes
      reduced_buffer_size x s) := by
  unfold GatherSimdPlane
  dsimp only
  split
  · refine LayoutSafe.bind_safe ?_ (fun _ _ => LayoutSafe.bind_safe ?_
      (fun _ _ => LayoutSafe.pure_safe _))
    · unfold gatherSimdSendBlock
      dsimp only
      split
      · unfold Gather_plane_exchange_table
        exact LayoutSafe.bind_safe (assert_safe _ _ (fun _ => rfl))
          (fun _ _ => LayoutSafe.pure_safe _)
      · exact LayoutSafe.pure_safe _
    · refine forLoopM_safe (fun _ _ => True) _ _ _ trivial (fun _ _ _ _ _ _ => trivial) ?_
      intro i a _ _
      unfold GatherSimdLane
      exact LayoutSafe.bind_safe (assert_safe _ _ (fun _ => rfl))
        (fun _ _ => LayoutSafe.pure_safe _)
  · exact LayoutSafe.pure_safe _

theorem GatherSimd_safe {V C : Type} (st : CartesianStencil C) (rhs : Lattice V)
    (dimension : Nat) (shift : Int) (cbmask : Nat) (compress : Compressor V C)
    (face_idx point : Nat) (h1 : st._grid._simd_layout dimension = 2)
    (h2 : st._grid._processors dimension > 1) (h3 : 0 ≤ shift)
    (h4 : shift < (st._grid._fdimensions dimension : Int)) :
    LayoutSafe (GatherSimd st rhs dimension shift cbmask compress face_idx point) := by
  unfold GatherSimd
  dsimp only
  refine LayoutSafe.bind_safe (assert_safe _ _ (fun h => by simp [h2] at h)) (fun _ _ => ?_)
  refine LayoutSafe.bind_safe (assert_safe _ _ (fun h => by simp [h1] at h)) (fun _ _ => ?_)
  refine LayoutSafe.bind_safe (assert_safe _ _ (fun h => by simp [h3] at h)) (fun _ _ => ?_)
  refine LayoutSafe.bind_safe (assert_safe _ _ (fun h => by simp [h4] at h)) (fun _ _ => ?_)
  refine LayoutSafe.bind_safe (assert_safe _ _ (fun _ => rfl)) (fun _ _ => ?_)
  refine LayoutSafe.bind_safe (assert_safe _ _ (fun _ => rfl)) (fun _ _ => ?_)
  refine LayoutSafe.bind_safe ?_ (fun _ _ => LayoutSafe.pure_safe _)
  exact forLoopM_safe (fun _ _ => True) _ _ _ trivial (fun _ _ _ _ _ _ => trivial)
    (fun i a _ _ => GatherSimdPlane_safe rhs dimension cbmask compress point _ _ _ i a)

theorem constructPointOk_dispatch (g : GridBase) (dimension : Nat) (displacement : Int)
    (h : constructPointOk g dimension displacement = true)
    (hp : g._processors dimension > 1) :
    g._simd_layout dimension ≤ 2
      ∧ 0 ≤ cmod (displacement + (g._fdimensions dimension : Int))
              (g._fdimensions dimension : Int)
      ∧ cmod (displacement + (g._fdimensions dimension : Int))
              (g._fdimensions dimension : Int) < (g._fdimensions dimension : Int) := by
  unfold constructPointOk commsAsserts at h
  simp only [hp, decide_True, Bool.and_true, Bool.not_true, Bool.false_or, Bool.and_eq_true,
    Bool.not_eq_true', decide_eq_false_iff_not, decide_eq_true_eq] at h
  obtain ⟨h1, ⟨_, h2⟩, h3⟩ := h
  exact ⟨by omega, h2, h3⟩

theorem HaloGatherComm_safe {V C : Type} (st : CartesianStencil C) (source : Lattice V)
    (compress : Compressor V C) (point face_idx dimension : Nat) (shift : Int)
    (h0 : 0 < st._grid._simd_layout dimension) (h1 : st._grid._simd_layout dimension ≤ 2)
    (h2 : st._grid._processors dimension > 1) (h3 : 0 ≤ shift)
    (h4 : shift < (st._grid._fdimensions dimension : Int)) :
    LayoutSafe (HaloGatherComm st source compress point face_idx dimension shift) := by
  unfold HaloGatherComm
  dsimp only
  by_cases hs : st._grid._simd_layout dimension > 1
  · have e2 : st._grid._simd_layout dimension = 2 := by omega
    have hsp : (decide (st._grid._simd_layout dimension > 1)
        && decide (st._grid._processors dimension > 1)) = true := by simp [hs, h2]
    rw [hsp]
    simp only [if_true]
    split
    · exact LayoutSafe.bind_safe (GatherSimd_safe st source dimension shift 3 compress face_idx
        point e2 h2 h3 h4) (fun _ _ => LayoutSafe.pure_safe _)
    · refine LayoutSafe.bind_safe (GatherSimd_safe st source dimension shift 1 compress face_idx
        point e2 h2 h3 h4) (fun r1 hr1 => ?_)
      have e := (GatherSimd_queues st source dimension shift 1 compress face_idx point r1
        hr1).2.2.1.fields.1
      refine LayoutSafe.bind_safe (GatherSimd_safe r1.1 source dimension shift 2 compress r1.2.1
        point (by rw [e]; exact e2) (by rw [e]; exact h2) h3 (by rw [e]; exact h4))
        (fun _ _ => LayoutSafe.pure_safe _)
  · have e1 : st._grid._simd_layout dimension = 1 := by omega
    have hsp : (decide (st._grid._simd_layout dimension > 1)
        && decide (st._grid._processors dimension > 1)) = false := by simp [hs]
    rw [hsp]
    simp only [Bool.false_eq_true, if_false]
    split
    · exact LayoutSafe.bind_safe (Gather_safe st source dimension shift 3 compress face_idx
        point e1 h2 h3 h4) (fun _ _ => LayoutSafe.pure_safe _)
    · refine LayoutSafe.bind_safe (Gather_safe st source dimension shift 1 compress face_idx
        point e1 h2 h3 h4) (fun r1 hr1 => ?_)
      have e := (Gather_queues st source dimension shift 1 compress face_idx point r1
        hr1).2.1.fields.1
      refine LayoutSafe.bind_safe (Gather_safe r1.1 source dimension shift 2 compress r1.2.1
        point (by rw [e]; exact e1) (by rw [e]; exact h2) h3 (by rw [e]; exact h4))
        (fun _ _ => LayoutSafe.pure_safe _)

theorem HaloGatherDir_safe {V C : Type} (st : CartesianStencil C) (source : Lattice V)
    (compress : Compressor V C) (point face_idx : Nat)
    (h0 : 0 < st._grid._simd_layout (st._directions.getD point 0))
    (hok : constructPointOk st._grid (st._directions.getD point 0)
            (st._distances.getD point 0) = true) :
    LayoutSafe (HaloGatherDir st source compress point face_idx) := by
  unfold HaloGatherDir
  dsimp only
  refine LayoutSafe.bind_safe (assert_safe _ _ (fun _ => rfl)) (fun _ _ => ?_)
  split
  · rename_i hp
    have hp1 : st._grid._processors (st._directions.getD point 0) > 1 := by simpa using hp
    obtain ⟨h1, h3, h4⟩ := constructPointOk_dispatch _ _ _ hok hp1
    exact HaloGatherComm_safe st source compress point face_idx _ _ h0 h1 hp1 h3 h4
  · exact LayoutSafe.pure_safe _

theorem HaloGather_safe {V C : Type} (st : CartesianStencil C) (source : Lattice V)
    (compress : Compressor V C) (hsimd : ∀ d, 0 < st._grid._simd_layout d)
    (hpts : ∀ ii, ii < st._npoints →
      constructPointOk st._grid (st._directions.getD ii 0) (st._distances.getD ii 0) = true) :
    LayoutSafe (HaloGather st source compress) := by
  unfold HaloGather
  dsimp only
  refine LayoutSafe.bind_safe ?_ (fun _ _ =>
    LayoutSafe.bind_safe (assert_safe _ _ (fun _ => rfl)) (fun _ _ => LayoutSafe.pure_safe _))
  refine forLoopM_safe
    (fun _ (b : CartesianStencil C × Nat) => SameStatic st b.1) _ _ _ ?_ ?_ ?_
  · unfold SameStatic SamePlan
    rfl
  · intro i a b _ ha hb
    exact HaloGatherPoint_inv source compress (fun s _ => SameStatic st s)
      (static_invariant source compress st) i a b hb ha
  · intro i a hi ha
    have e := ha.fields
    unfold HaloGatherPoint
    refine LayoutSafe.bind_safe ?_ (fun _ _ => LayoutSafe.pure_safe _)
    apply HaloGatherDir_safe
    · show 0 < a.1._grid._simd_layout (a.1._directions.getD i 0)
      rw [e.1]
      exact hsimd _
    · show constructPointOk a.1._grid (a.1._directions.getD i 0) (a.1._distances.getD i 0) = true
      rw [e.1, e.2.2.2.1, e.2.2.2.2.1]
      exact hpts i hi

theorem construct_statics {C : Type} (grid : GridBase) (npoints checkerboard : Nat)
    (directions : List Nat) (distances : List Int) (p : Parameters)
    (sizeof_vobj sizeof_cobj : Nat) (u : Indeterminate C) (st : CartesianStencil C)
    (h : CartesianStencil.construct grid npoints checkerboard directions distances p sizeof_vobj
          sizeof_cobj u = .ok st) :
    st._grid = grid ∧ st._npoints = npoints ∧ st._directions = directions
      ∧ st._distances = distances := by
  rw [construct_ok_iff] at h
  obtain ⟨_, rfl⟩ := h
  unfold beforePoints
  split <;> exact ⟨rfl, rfl, rfl, rfl⟩

/-- C35: in a stencil whose construction succeeded, on a grid whose SIMD
layout is at least 1 along every axis, the dispatch of `HaloGatherDir` meets
the layout preconditions of the gather routines.  For every point on an axis
that is split across processes (the only axes on which a gather routine is
entered, so `processors > 1`), the branch that enters `GatherSimd`
(`simd_layout > 1`) has `simd_layout == 2` and the branch that enters `Gather`
has `simd_layout == 1`, and the normalised shift `(displacement + fd) % fd`
that both are given lies in `[0, fd)`.  Hence, from every state of the stencil
between exchanges, `HaloGatherDir` for each point, `HaloGather` and
`HaloExchange` never stop at one of the assertions `simd_layout==1`,
`simd_layout==maxl`, `comm_dim==1`, `shift>=0`, `shift<fd`. -/
theorem C35_dispatch_preconditions {V C : Type} (grid : GridBase) (npoints checkerboard : Nat)
    (directions : List Nat) (distances : List Int) (p : Parameters)
    (sizeof_vobj sizeof_cobj : Nat) (u : Indeterminate C) (st0 st : CartesianStencil C)
    (source : Lattice V) (compress : Compressor V C) (net : Transport C)
    (hc : CartesianStencil.construct grid npoints checkerboard directions distances p sizeof_vobj
          sizeof_cobj u = .ok st0)
    (hsimd : ∀ d, 0 < grid._simd_layout d) (hst : SameStatic st0 st) :
    (∀ point, point < npoints → grid._processors (directions.getD point 0) > 1 →
        (if grid._simd_layout (directions.getD point 0) > 1
          then grid._simd_layout (directions.getD point 0) = 2
          else grid._simd_layout (directions.getD point 0) = 1)
        ∧ 0 ≤ cmod (distances.getD point 0 + (grid._fdimensions (directions.getD point 0) : Int))
                (grid._fdimensions (directions.getD point 0) : Int)
        ∧ cmod (distances.getD point 0 + (grid._fdimensions (directions.getD point 0) : Int))
                (grid._fdimensions (directions.getD point 0) : Int)
            < (grid._fdimensions (directions.getD point 0) : Int))
      ∧ (∀ point face_idx, point < npoints →
          LayoutSafe (HaloGatherDir st source compress point face_idx))
      ∧ LayoutSafe (HaloGather st source compress)
      ∧ LayoutSafe (HaloExchange st source compress net) := by
  have hok := (constructOk_of_construct _ _ _ _ _ _ _ _ _ _ hc).2
  obtain ⟨s1, s2, s3, s4⟩ := construct_statics _ _ _ _ _ _ _ _ _ _ hc
  have e := hst.fields
  have eg : st._grid = grid := e.1.trans s1
  have en : st._npoints = npoints := e.2.2.2.2.2.2.trans s2
  have ed : st._directions = directions := e.2.2.2.1.trans s3
  have es : st._distances = distances := e.2.2.2.2.1.trans s4
  have hsimd1 : ∀ d, 0 < st._grid._simd_layout d := by
    rw [eg]
    exact hsimd
  have hpts : ∀ ii, ii < st._npoints →
      constructPointOk st._grid (st._directions.getD ii 0) (st._distances.getD ii 0) = true := by
    rw [eg, en, ed, es]
    exact hok
  refine ⟨?_, ?_, HaloGather_safe st source compress hsimd1 hpts, ?_⟩
  · intro point hpt hp
    obtain ⟨h1, h3, h4⟩ := constructPointOk_dispatch _ _ _ (hok point hpt) hp
    refine ⟨?_, h3, h4⟩
    have h0 := hsimd (directions.getD point 0)
    split <;> omega
  · intro point face_idx hpt
    exact HaloGatherDir_safe st source compress point face_idx (hsimd1 _)
      (hpts point (by rw [en]; exact hpt))
  · unfold HaloExchange
    dsimp only
    exact LayoutSafe.bind_safe
      (HaloGather_safe (Prepare st) source compress hsimd1 hpts)
      (fun _ _ => LayoutSafe.pure_safe _)

/-- Witness for C35: rank 0 of the checkerboarded 16x2 lattice with the point
of displacement `+1` along the axis that is split across 2 processes and 2
SIMD lanes; the gather stops, at the assertion on the parity mask, and at no
layout precondition. -/
theorem C35_dispatch_preconditions_witness :
    (redBlackGrid 0)._simd_layout 0 = 2
      ∧ failedAssertion (HaloGather (redBlackStep 0) redBlackField (plainCompressor Nat 8))
          = some Assertion.cbmask_is_3
      ∧ LayoutSafe (HaloGather (redBlackStep 0) redBlackField (plainCompressor Nat 8)) := by
  have hok : (CartesianStencil.construct (redBlackGrid 0) 1 0 [0] [1] ⟨[0, 0]⟩ 8 8
      (someStorage (0 : Nat))).toBool = true := by decide
  have hc : CartesianStencil.construct (redBlackGrid 0) 1 0 [0] [1] ⟨[0, 0]⟩ 8 8
      (someStorage (0 : Nat)) = .ok (redBlackStep 0) := by
    unfold redBlackStep constructed
    cases h : CartesianStencil.construct (redBlackGrid 0) 1 0 [0] [1] ⟨[0, 0]⟩ 8 8
        (someStorage (0 : Nat)) with
    | ok s => rfl
    | error e => rw [h] at hok; cases hok
  have h := C35_dispatch_preconditions (redBlackGrid 0) 1 0 [0] [1] ⟨[0, 0]⟩ 8 8
    (someStorage (0 : Nat)) (redBlackStep 0) (redBlackStep 0) redBlackField
    (plainCompressor Nat 8) (fun _ _ _ => none) hc
    (fun d => by unfold redBlackGrid; dsimp only; split <;> decide)
    (SameStatic.refl_static _)
  exact ⟨by decide, by decide, h.2.2.1⟩

/-! ## The buffer layout and the Dirichlet flags -/

theorem constructPointEntries_size (g : GridBase) (npoints checkerboard : Nat)
    (comms_recv : Int) (point dimension : Nat) (displacement : Int)
    (s : (Nat → StencilEntry) × Nat) :
    (constructPointEntries g npoints checkerboard comms_recv point dimension displacement s).2
      = s.2 + pointWords g checkerboard dimension displacement := by
  unfold constructPointEntries pointWords
  split
  · rw [commsPasses_size]
    unfold pointPasses
    split
    · simp
    · simp [Nat.add_assoc]
  · rfl

theorem constructLoopEntries_size (g : GridBase) (npoints checkerboard : Nat)
    (comms_recv : Nat → Int) (directions : List Nat) (distances : List Int) (n : Nat)
    (s : (Nat → StencilEntry) × Nat) :
    (constructLoopEntries g npoints checkerboard comms_recv directions distances n s).2
      = s.2 + sumTo n (fun q =>
          pointWords g checkerboard (directions.getD q 0) (distances.getD q 0)) := by
  unfold constructLoopEntries
  exact forLoop_invariant
    (fun (k : Nat) (a : (Nat → StencilEntry) × Nat) =>
      a.2 = s.2 + sumTo k (fun q =>
          pointWords g checkerboard (directions.getD q 0) (distances.getD q 0)))
    n _ s rfl
    (by
      intro k a _ ha
      rw [constructPointEntries_size, ha, sumTo_succ, Nat.add_assoc])

theorem pointBase_closed {C : Type} (grid : GridBase) (npoints checkerboard : Nat)
    (directions : List Nat) (distances : List Int) (p : Parameters)
    (sizeof_vobj sizeof_cobj : Nat) (u : Indeterminate C) (point : Nat) :
    pointBase grid npoints checkerboard directions distances p sizeof_vobj sizeof_cobj u point
      = sumTo point (fun q =>
          pointWords grid checkerboard (directions.getD q 0) (distances.getD q 0)) := by
  unfold pointBase
  rw [constructLoopEntries_size]
  exact Nat.zero_add _

theorem construct_size_closed {C : Type} (grid : GridBase) (npoints checkerboard : Nat)
    (directions : List Nat) (distances : List Int) (p : Parameters)
    (sizeof_vobj sizeof_cobj : Nat) (u : Indeterminate C) (st : CartesianStencil C)
    (hc : CartesianStencil.construct grid npoints checkerboard directions distances p sizeof_vobj
          sizeof_cobj u = .ok st) :
    st._unified_buffer_size
      = sumTo npoints (fun q =>
          pointWords grid checkerboard (directions.getD q 0) (distances.getD q 0)) := by
  obtain ⟨_, hsz, _⟩ := construct_table grid npoints checkerboard directions distances
    p sizeof_vobj sizeof_cobj u st hc
  rw [hsz]
  unfold constructTable
  rw [constructLoopEntries_size]
  exact Nat.zero_add _

theorem queueTransfer_offset {C : Type} (s : CartesianStencil C) (a b c : Int)
    (send recv : Pointer) (l y m : Int) (to_rank : Nat) (cs : Int) (f : Nat) (cr : Int) :
    (queueTransfer s a b c send recv l y m to_rank cs f cr).u_comm_offset = s.u_comm_offset := by
  unfold queueTransfer CheckForDuplicate
  dsimp only
  cases findTransfer a b c y l m s.CachedTransfers with
  | none => rfl
  | some t => rfl

theorem gatherOffnodePlane_offset {V C : Type} (rhs : Lattice V) (dimension cbmask : Nat)
    (compress : Compressor V C) (point : Nat) (sx comm_proc : Int)
    (s : CartesianStencil C × Nat) :
    (gatherOffnodePlane rhs dimension cbmask compress point sx comm_proc s).1.u_comm_offset
      = s.1.u_comm_offset + planeWords s.1._grid dimension cbmask := by
  unfold gatherOffnodePlane
  dsimp only
  obtain ⟨h1, _⟩ := gatherSendBlock_samePlan s.1 rhs dimension cbmask compress point sx
    (sx * (s.1._grid._ostride dimension : Int)) s.1.u_comm_offset s.2
  have e1 : (gatherSendBlock s.1 rhs dimension cbmask compress point sx
      (sx * (s.1._grid._ostride dimension : Int)) s.1.u_comm_offset s.2).1.u_comm_offset
      = s.1.u_comm_offset := h1.proj (fun t => t.u_comm_offset) (fun _ _ => rfl)
  show (queueDecompress _ compress _ _ _ _).u_comm_offset + _ = _
  have e2 : ∀ (t : CartesianStencil C) (cr : Int) (b : Buffer) (o w : Nat),
      (queueDecompress t compress cr b o w).u_comm_offset = t.u_comm_offset := by
    intro t cr b o w
    unfold queueDecompress
    split <;> rfl
  rw [e2, queueTransfer_offset, e1]

/-- C33: the buffer layout does not depend on the Dirichlet flags.  Two
stencils constructed on the same grid with the same points, whatever their
Dirichlet block lists and whatever the contents of the storage that the
constructor leaves unset (so for every choice of `_comms_send` and
`_comms_recv`), have the same `_unified_buffer_size`, the same value of
`_unified_buffer_size` on reaching every point and the same base offset of
every plane of every pass; these are sums of the words of the off-node planes,
in which no flag occurs.  The plane body of `Comms` adds the words of an
off-node plane for every value of `comms_recv`, and the body of `Gather` for
an off-node plane advances `u_comm_offset` by the words of the plane for every
value of the two flags.  Every entry of a point whose `_comms_recv` is 0 is
marked local (`_is_local = 1`), so none refers to the receive buffer (for a
grid whose slice tables describe the reduced layout of the axis, with parities
0 or 1 and a parity-dependent shift only on a checkerboarded axis). -/
theorem C33_layout_independent_of_flags {V C : Type} (grid : GridBase)
    (npoints checkerboard : Nat) (directions : List Nat) (distances : List Int)
    (p p' : Parameters) (sizeof_vobj sizeof_cobj sizeof_vobj' sizeof_cobj' : Nat)
    (u u' : Indeterminate C) (st st' : CartesianStencil C)
    (hc : CartesianStencil.construct grid npoints checkerboard directions distances p
            sizeof_vobj sizeof_cobj u = .ok st)
    (hc' : CartesianStencil.construct grid npoints checkerboard directions distances p'
            sizeof_vobj' sizeof_cobj' u' = .ok st') :
    st._unified_buffer_size = st'._unified_buffer_size
      ∧ st._unified_buffer_size
          = sumTo npoints (fun q =>
              pointWords grid checkerboard (directions.getD q 0) (distances.getD q 0))
      ∧ (∀ point,
          pointBase grid npoints checkerboard directions distances p sizeof_vobj sizeof_cobj u
              point
            = pointBase grid npoints checkerboard directions distances p' sizeof_vobj'
                sizeof_cobj' u' point
          ∧ pointBase grid npoints checkerboard directions distances p sizeof_vobj sizeof_cobj u
              (point + 1)
            = pointBase grid npoints checkerboard directions distances p sizeof_vobj sizeof_cobj
                u point
              + pointWords grid checkerboard (directions.getD point 0)
                  (distances.getD point 0))
      ∧ (∀ point cbmask x,
          slotBase grid checkerboard (directions.getD point 0) (distances.getD point 0)
              (pointBase grid npoints checkerboard directions distances p sizeof_vobj
                sizeof_cobj u point) cbmask x
            = slotBase grid checkerboard (directions.getD point 0) (distances.getD point 0)
                (pointBase grid npoints checkerboard directions distances p' sizeof_vobj'
                  sizeof_cobj' u' point) cbmask x)
      ∧ (∀ (point dimension : Nat) (shiftpm : Int) (cbmask : Nat) (comms_recv sshift : Int)
          (x : Nat) (s : (Nat → StencilEntry) × Nat),
          (CommsPlaneEntries grid npoints point dimension shiftpm cbmask comms_recv sshift x s).2
            = s.2 + (if truthy (offnodePlane grid dimension sshift x)
                      then planeWords grid dimension cbmask else 0))
      ∧ (∀ (rhs : Lattice V) (dimension cbmask : Nat) (compress : Compressor V C) (point : Nat)
          (sx comm_proc : Int) (s : CartesianStencil C × Nat),
          (gatherOffnodePlane rhs dimension cbmask compress point sx comm_proc s).1.u_comm_offset
            = s.1.u_comm_offset + planeWords s.1._grid dimension cbmask)
      ∧ (∀ point x k, point < npoints → st._comms_recv point = 0 →
          AxisLayout grid (directions.getD point 0) →
          (∀ k, grid.CheckerBoardFromOindex k ≤ 1) →
          (grid.CheckerBoardShiftForCB checkerboard (directions.getD point 0)
                (distances.getD point 0) Even
              ≠ grid.CheckerBoardShiftForCB checkerboard (directions.getD point 0)
                (distances.getD point 0) Odd →
            grid.CheckerBoarded (directions.getD point 0) = true) →
          x < grid._rdimensions (directions.getD point 0) →
          k ∈ planeOffsets grid (directions.getD point 0) →
          (st._entries (entryIndex npoints point
            (x * grid._ostride (directions.getD point 0) + k)))._is_local = 1) := by
  have h1 := construct_size_closed grid npoints checkerboard directions distances p sizeof_vobj
    sizeof_cobj u st hc
  have h2 := construct_size_closed grid npoints checkerboard directions distances p'
    sizeof_vobj' sizeof_cobj' u' st' hc'
  refine ⟨h1.trans h2.symm, h1, ?_, ?_, ?_, ?_, ?_⟩
  · intro point
    rw [pointBase_closed, pointBase_closed, pointBase_closed]
    exact ⟨rfl, rfl⟩
  · intro point cbmask x
    rw [pointBase_closed, pointBase_closed]
  · intro point dimension shiftpm cbmask comms_recv sshift x s
    exact CommsPlaneEntries_words grid npoints point dimension shiftpm cbmask comms_recv sshift
      x s
  · intro rhs dimension cbmask compress point sx comm_proc s
    exact gatherOffnodePlane_offset rhs dimension cbmask compress point sx comm_proc s
  · intro point x k hp hr hl hpar hdep hx hk
    obtain ⟨hloc, hcomm⟩ := construct_entry_flags grid npoints checkerboard directions distances
      p sizeof_vobj sizeof_cobj u st hc point hp hl hpar hdep x k hx hk
    by_cases hpd : grid._processors (directions.getD point 0) > 1
    · rw [(hcomm hpd).1, if_pos (Or.inr hr)]
    · exact (hloc (by omega)).1

/-- Witness for C33: rank 1 of the line of 8 sites on 2 processes with the
point of displacement `+1`, constructed with the Dirichlet block size 8 (which
switches the receive off) and with the block size 0 (both flags on): the
buffer has the same size, and with the receive off the entry of the site in
the off-node plane 3 is local. -/
theorem C33_layout_independent_of_flags_witness :
    (lineStencil [8] 1)._comms_recv 0 = 0 ∧ (lineStencil [0] 1)._comms_recv 0 = 1
      ∧ (lineStencil [8] 1)._unified_buffer_size = (lineStencil [0] 1)._unified_buffer_size
      ∧ (lineStencil [0] 1)._unified_buffer_size = 1
      ∧ ((lineStencil [8] 1)._entries (entryIndex 1 0 (3 * (lineGrid 1)._ostride 0 + 0)))._is_local
          = 1 := by
  have hok : (CartesianStencil.construct (lineGrid 1) 1 0 [0] [1] ⟨[8]⟩ 8 8
      (someStorage ((9 : Nat), (9 : Nat)))).toBool = true := by decide
  have hc : CartesianStencil.construct (lineGrid 1) 1 0 [0] [1] ⟨[8]⟩ 8 8
      (someStorage ((9 : Nat), (9 : Nat))) = .ok (lineStencil [8] 1) := by
    unfold lineStencil constructed
    cases h : CartesianStencil.construct (lineGrid 1) 1 0 [0] [1] ⟨[8]⟩ 8 8
        (someStorage ((9 : Nat), (9 : Nat))) with
    | ok s => rfl
    | error e => rw [h] at hok; cases hok
  have hok' : (CartesianStencil.construct (lineGrid 1) 1 0 [0] [1] ⟨[0]⟩ 8 8
      (someStorage ((9 : Nat), (9 : Nat)))).toBool = true := by decide
  have hc' : CartesianStencil.construct (lineGrid 1) 1 0 [0] [1] ⟨[0]⟩ 8 8
      (someStorage ((9 : Nat), (9 : Nat))) = .ok (lineStencil [0] 1) := by
    unfold lineStencil constructed
    cases h : CartesianStencil.construct (lineGrid 1) 1 0 [0] [1] ⟨[0]⟩ 8 8
        (someStorage ((9 : Nat), (9 : Nat))) with
    | ok s => rfl
    | error e => rw [h] at hok'; cases hok'
  have hr : (lineStencil [8] 1)._comms_recv 0 = 0 := by decide
  have h := @C33_layout_independent_of_flags (Nat × Nat) (Nat × Nat) (lineGrid 1) 1 0 [0] [1]
    ⟨[8]⟩ ⟨[0]⟩ 8 8 8 8 (someStorage (9, 9)) (someStorage (9, 9)) _ _ hc hc'
  exact ⟨hr, by decide, h.1, by decide,
    h.2.2.2.2.2.2 0 3 0 (by decide) hr ⟨by decide, by decide, by decide, by decide, by decide⟩
      (fun _ => Nat.zero_le 1) (fun hne => (hne (by decide)).elim) (by decide) (by decide)⟩

/-! ## The line of 8 sites with default parameters -/

/-- C9 fails in the code with default parameters.  The scenario names no
Dirichlet block list; with the empty list of default-constructed parameters
the constructor skips `DirichletBlock`, the only place where `_comms_send` and
`_comms_recv` are assigned, and `Comms` and `Gather` read what the storage
held.  When that is 0, construction succeeds on both ranks with
`_unified_buffer_size = 1`, but local site 3 has a local entry (`_is_local =
1`, `_offset = 0`, permute flag set) and not a remote one; the exchange runs
to its end and queues one packet per rank with the send and the receive
switched off, so the receive slot 0 keeps what the buffer held and holds the
value of the neighbouring rank's site on neither rank.  With the all-zero
block list `[0]` (`line_of_8_sites_on_2_ranks`) the scenario is as the claim
states it. -/
theorem C9_default_parameters :
    (∀ r, r < 2 →
      (CartesianStencil.construct (lineGrid r) 1 0 [0] [1] ⟨[]⟩ 8 8
          { someStorage ((9 : Nat), (9 : Nat)) with _comms_send := fun _ => 0,
                                                    _comms_recv := fun _ => 0 }).toBool = true
      ∧ (lineDefault r)._comms_send 0 = 0 ∧ (lineDefault r)._comms_recv 0 = 0
      ∧ (lineDefault r)._unified_buffer_size = 1
      ∧ ((lineDefault r)._entries 3)._is_local = 1
      ∧ ((lineDefault r)._entries 3)._offset = 0
      ∧ ((lineDefault r)._entries 3)._permute = 1
      ∧ (exchangeRank lineDefault lineField (plainCompressor (Nat × Nat) 8) r).toBool = true
      ∧ (gatheredRank lineDefault lineField (plainCompressor (Nat × Nat) 8) r).Packets
          = [{ send_buf := ⟨Buffer.indeterminate, 0⟩, recv_buf := ⟨Buffer.indeterminate, 0⟩,
               to_rank := 1 - r, from_rank := 1 - r, do_send := 0, do_recv := 0, bytes := 8 }])
    ∧ (exchangeRank lineDefault lineField (plainCompressor (Nat × Nat) 8) 0).toOption.map
          (fun s => s.u_recv_buf 0) = some (9, 9)
    ∧ (exchangeRank lineDefault lineField (plainCompressor (Nat × Nat) 8) 1).toOption.map
          (fun s => s.u_recv_buf 0) = some (9, 9)
    ∧ (lineField 1).rhs_v 0 = (1, 0) ∧ (lineField 0).rhs_v 0 = (0, 0) := by
  decide

/-! ## A merged plane of odd size -/

end Grid
